import Mathlib

/-! ChainCoin masternode service layer: the CoinJoin mixing server.

Shallow embedding of `src/modules/coinjoin/coinjoin_server.cpp`
(`CCoinJoinServer`) together with the properties stated about it.

Conventions of the embedding.

* `CAmount` (`int64_t`) is `Int`; an addition of amounts is reduced to the
  64-bit range with `int64`.  The bitwise operators `^`, `|`, `&` on
  two's-complement machine integers are `Int.xor`, `Int.lor`, `Int.land`:
  they never overflow, so no reduction modulo `2^64` is involved.
* Container sizes are `Nat` (list lengths).
* Everything the server asks of its surroundings (clock, random numbers,
  peer connectivity, masternode list, transaction checks, mempool) is read
  from an `Env` record, constant during one top-level call.
* Constants, enumerator values and predicates declared in headers that are
  not part of the sources at hand are fields of `Params`.
* Messages handed to the connection manager are appended to the field
  `sent` of the server, so that replies can be talked about.
* Functions that call each other in a cycle (`SetNull` and `UpdateQueue`,
  `CreateFinalTransaction` and `RelayFinalTransaction`) carry a bound on the call
  depth and return `none` beyond it; the functions without the suffix `F` run them
  with a bound that is proved to be enough.
* Helpers of the base classes `CCoinJoinBaseSession`, `CCoinJoinBaseManager` and
  `CCoinJoinQueue` that are not part of the sources at hand are modelled from the
  specification; their doc comments say so.
-/

namespace CoinJoin

/-! ## Basic types -/

abbrev CAmount := Int

/-- The value of an `int64_t` computation, such as one on `CAmount`, whose mathematical
result is `x`. -/
def int64 (x : Int) : Int := (x + 9223372036854775808) % 18446744073709551616 - 9223372036854775808
abbrev CService := Nat
abbrev COutPoint := Nat
abbrev CScript := List Nat
abbrev uint256 := Nat

/-- Pool states, `enum PoolState`. -/
inductive PoolState where
  | POOL_STATE_IDLE
  | POOL_STATE_QUEUE
  | POOL_STATE_ACCEPTING_ENTRIES
  | POOL_STATE_SIGNING
  | POOL_STATE_ERROR
  | POOL_STATE_SUCCESS
  deriving DecidableEq

/-- Pool responses, `enum PoolMessage`. -/
inductive PoolMessage where
  | ERR_ALREADY_HAVE
  | ERR_DENOM
  | ERR_ENTRIES_FULL
  | ERR_INVALID_OUT
  | ERR_MN_FEES
  | ERR_MAXIMUM
  | ERR_MN_LIST
  | ERR_MODE
  | ERR_QUEUE_FULL
  | ERR_RECENT
  | ERR_SESSION
  | ERR_INVALID_TX
  | MSG_NOERR
  | MSG_SUCCESS
  | MSG_ENTRIES_ADDED
  deriving DecidableEq

/-- Status updates, `enum PoolStatusUpdate`.  The numeric value of each
enumerator is `Params.statusCode`. -/
inductive PoolStatusUpdate where
  | STATUS_REJECTED
  | STATUS_ACCEPTED
  | STATUS_OPEN
  | STATUS_READY
  | STATUS_FULL
  | STATUS_CLOSED
  deriving DecidableEq

structure CTxIn where
  prevout : COutPoint
  scriptSig : CScript
  scriptWitness : List (List Nat)
  nSequence : Nat
  deriving DecidableEq

structure CTxOut where
  nValue : CAmount
  scriptPubKey : CScript
  deriving DecidableEq

structure CMutableTransaction where
  vin : List CTxIn
  vout : List CTxOut
  nLockTime : Nat
  deriving DecidableEq

structure PSBTInput where
  non_witness_utxo : Bool
  witness_utxo : Option CTxOut
  signatures : List Nat
  deriving DecidableEq

structure PSBTOutput where
  unknown : List Nat
  deriving DecidableEq

structure PartiallySignedTransaction where
  tx : Option CMutableTransaction
  inputs : List PSBTInput
  outputs : List PSBTOutput
  deriving DecidableEq

structure CCoinJoinEntry where
  psbtx : PartiallySignedTransaction
  addr : CService
  deriving DecidableEq

structure CCoinJoinQueue where
  nDenom : CAmount
  masternodeOutpoint : COutPoint
  nHeight : Int
  status : PoolStatusUpdate
  vchSig : Nat
  deriving DecidableEq

structure CCoinJoinBroadcastTx where
  nSessionID : Int
  psbtx : PartiallySignedTransaction
  masternodeOutpoint : COutPoint
  sigTime : Int
  vchSig : Nat
  deriving DecidableEq

/-- The peer a message comes from (`CNode* pfrom`). -/
structure CNode where
  addr : CService
  nSendVersion : Int
  deriving DecidableEq

/-- What the server hands to the connection manager, the mempool included. -/
inductive NetEvent where
  | REJECT_OBSOLETE (dest : CService)
  | CJSTATUSUPDATE (dest : CService) (nSessionID : Int) (nState : PoolState)
      (nEntries : Nat) (nStatusUpdate : PoolStatusUpdate) (nMessageID : PoolMessage)
  | CJQUEUE_PUSH (dest : CService) (q : CCoinJoinQueue)
  | CJQUEUE_RELAY (q : CCoinJoinQueue)
  | CJFINALTX (dest : CService) (finalTx : CCoinJoinBroadcastTx)
  | CJCOMPLETE (dest : CService) (nSessionID : Int) (nMessageID : PoolMessage)
  | MEMPOOL_ACCEPTED (tx : CMutableTransaction)
  | RELAY_INV (hashTx : uint256)
  | ASK_FOR_MN (dest : CService) (outpoint : COutPoint)
  deriving DecidableEq

/-- Constants, flags and helpers declared outside `coinjoin_server.cpp`. -/
structure Params where
  fMasternodeMode : Bool
  fLiteMode : Bool
  fUnitTest : Bool
  MIN_COINJOIN_PEER_PROTO_VERSION : Int
  /-- `CCoinJoin::GetMinPoolInputs()` -/
  MinPoolInputs : Nat
  /-- `CCoinJoin::GetMaxPoolInputs()` -/
  MaxPoolInputs : Nat
  COINJOIN_ACCEPT_TIMEOUT : Int
  COINJOIN_SIGNING_TIMEOUT : Int
  COINJOIN_ENTRY_MAX_SIZE : Nat
  QUEUE_TTL_BLOCKS : Int
  /-- numeric value of the enumerators of `PoolStatusUpdate` -/
  statusCode : PoolStatusUpdate → Nat
  /-- `CCoinJoin::IsInDenomRange` -/
  IsInDenomRange : CAmount → Bool
  /-- `CCoinJoin::IsDenominatedAmount` -/
  IsDenominatedAmount : CAmount → Bool
  /-- `activeMasternode.outpoint` -/
  activeOutpoint : COutPoint
  /-- `CCoinJoinQueue()` -/
  nullQueue : CCoinJoinQueue
  /-- `operator==` of `CCoinJoinQueue` -/
  queueEq : CCoinJoinQueue → CCoinJoinQueue → Bool
  /-- `operator!=` of `CCoinJoinQueue` -/
  queueNe : CCoinJoinQueue → CCoinJoinQueue → Bool
  /-- `operator==` of `CCoinJoinEntry` -/
  entryEq : CCoinJoinEntry → CCoinJoinEntry → Bool
  /-- signature produced by `CCoinJoinQueue::Sign` -/
  SignQueue : CCoinJoinQueue → Nat
  /-- signature produced by `CCoinJoinBroadcastTx::Sign` -/
  SignBroadcast : Int → PartiallySignedTransaction → COutPoint → Int → Nat
  /-- `GetHash()` of the transaction a PSBT carries -/
  GetHash : Option CMutableTransaction → uint256

/-- Answers of the surroundings during one top-level call. -/
structure Env where
  /-- `GetTime()` -/
  GetTime : Int
  /-- `GetAdjustedTime()` -/
  GetAdjustedTime : Int
  /-- `GetRandInt(999999)` -/
  GetRandInt : Nat
  /-- random numbers drawn by the `FastRandomContext` that shuffles the inputs -/
  rngIn : List Nat
  /-- random numbers drawn by the `FastRandomContext` that shuffles the outputs -/
  rngOut : List Nat
  ShutdownRequested : Bool
  /-- `masternodeSync.IsBlockchainSynced()` -/
  IsBlockchainSynced : Bool
  /-- whether `connman->ForNode(addr, ...)` finds the node -/
  ForNode : CService → Bool
  /-- whether `mnodeman.GetMasternodeInfo(outpoint, info)` succeeds -/
  GetMasternodeInfo : COutPoint → Bool
  /-- `CheckTransaction(psbtx, nFee, nMessageID, fUnsigned)`: result, fee, message -/
  CheckTransaction : PartiallySignedTransaction → Bool → Bool × CAmount × PoolMessage
  /-- `mnpayments.GetBlockPayee(nLockTime, payee)` -/
  GetBlockPayee : Nat → Option CScript
  /-- `PartiallySignedTransaction::Merge`: result and the merged object -/
  Merge : PartiallySignedTransaction → PartiallySignedTransaction →
    Bool × PartiallySignedTransaction
  /-- `FinalizeAndExtractPSBT(psbtx, result)` -/
  FinalizeAndExtractPSBT : PartiallySignedTransaction →
    PartiallySignedTransaction × Option CMutableTransaction
  /-- `AcceptToMemoryPool` -/
  AcceptToMemoryPool : CMutableTransaction → Bool
  /-- `view.AccessCoin(prevout).out` -/
  AccessCoin : COutPoint → CTxOut
  /-- whether `Solver` classifies the script as a witness program -/
  SolverIsWitness : CScript → Bool
  /-- `CCoinJoinQueue::CheckSignature` under the key of the named masternode -/
  CheckSignature : CCoinJoinQueue → Bool

/-- The server object: members of `CCoinJoinBaseSession`,
`CCoinJoinBaseManager` and `CCoinJoinServer`, and the messages sent so far. -/
structure CCoinJoinServer where
  vecEntries : List CCoinJoinEntry
  nState : PoolState
  nTimeStart : Int
  nSessionID : Int
  nSessionDenom : CAmount
  finalPartiallySignedTransaction : PartiallySignedTransaction
  vecCoinJoinQueue : List CCoinJoinQueue
  vecDenom : List (CService × CAmount)
  activeQueue : CCoinJoinQueue
  nCachedBlockHeight : Int
  sent : List NetEvent
  deriving DecidableEq

/-- `PartiallySignedTransaction()` -/
def nullPSBT : PartiallySignedTransaction := ⟨none, [], []⟩

/-- The server before any call. -/
def CCoinJoinServer.initial (P : Params) : CCoinJoinServer where
  vecEntries := []
  nState := PoolState.POOL_STATE_IDLE
  nTimeStart := 0
  nSessionID := 0
  nSessionDenom := 0
  finalPartiallySignedTransaction := nullPSBT
  vecCoinJoinQueue := []
  vecDenom := []
  activeQueue := P.nullQueue
  nCachedBlockHeight := 0
  sent := []

open PoolState PoolMessage PoolStatusUpdate

/-! ## Joining a session -/

/-- `CCoinJoinServer::SetState` -/
def SetState (P : Params) (nStateNew : PoolState) (s : CCoinJoinServer) : CCoinJoinServer :=
  if !P.fMasternodeMode then s
  else if nStateNew = POOL_STATE_ERROR ∨ nStateNew = POOL_STATE_SUCCESS then s
  else { s with nState := nStateNew }

/-- `CCoinJoinServer::AddUserToExistingSession`.  The second component is
`nMessageIDRet`, passed in by reference as `nMessageID`. -/
def AddUserToExistingSession (P : Params) (nDenom : CAmount) (nMessageID : PoolMessage)
    (s : CCoinJoinServer) : Bool × PoolMessage × CCoinJoinServer :=
  if !P.fMasternodeMode || s.nSessionID == 0 then (false, nMessageID, s)
  else if s.nState ≠ POOL_STATE_QUEUE ∧ s.nState ≠ POOL_STATE_ACCEPTING_ENTRIES then
    (false, ERR_MODE, s)
  else if !P.IsInDenomRange nDenom then (false, ERR_DENOM, s)
  else if Int.xor s.nSessionDenom nDenom = Int.lor s.nSessionDenom nDenom then
    (false, ERR_DENOM, s)
  else (true, MSG_NOERR, { s with nSessionDenom := Int.lor s.nSessionDenom nDenom })

/-- `CCoinJoinServer::CreateNewSession` -/
def CreateNewSession (P : Params) (env : Env) (nDenom : CAmount) (nMessageID : PoolMessage)
    (s : CCoinJoinServer) : Bool × PoolMessage × CCoinJoinServer :=
  if !P.fMasternodeMode || s.nSessionID != 0 then (false, nMessageID, s)
  else if s.nState ≠ POOL_STATE_IDLE then (false, ERR_MODE, s)
  else if !P.IsInDenomRange nDenom then (false, ERR_DENOM, s)
  else
    let s1 := SetState P POOL_STATE_QUEUE
      { s with nSessionID := (env.GetRandInt % 999999 : Nat) + 1, nSessionDenom := nDenom }
    if !P.fUnitTest then
      let queue0 : CCoinJoinQueue :=
        ⟨nDenom, P.activeOutpoint, s1.nCachedBlockHeight, STATUS_OPEN, 0⟩
      let queue := { queue0 with vchSig := P.SignQueue queue0 }
      (true, MSG_NOERR,
        { s1 with activeQueue := queue
                  vecCoinJoinQueue := s1.vecCoinJoinQueue ++ [queue]
                  sent := s1.sent ++ [NetEvent.CJQUEUE_RELAY queue] })
    else (true, MSG_NOERR, s1)

/-! ## Helpers of the base classes -/

/-- Modelled from the spec: `CCoinJoinBaseSession::IsSessionReady` is not among the
sources; `session_ready` holds iff `participants.len() ≥ MIN_POOL_INPUTS`. -/
def IsSessionReady (P : Params) (s : CCoinJoinServer) : Bool :=
  decide (s.vecDenom.length ≥ P.MinPoolInputs)

/-- Modelled from the spec: `CCoinJoinBaseSession::IsSessionFull` is not among the
sources; `session_full` holds iff `participants.len() ≥ MAX_POOL_INPUTS`. -/
def IsSessionFull (P : Params) (s : CCoinJoinServer) : Bool :=
  decide (s.vecDenom.length ≥ P.MaxPoolInputs)

/-- Modelled from the spec: `CCoinJoinQueue::IsExpired` is not among the sources; a
queue expires when `height + QUEUE_TTL_BLOCKS < current_height`. -/
def IsExpired (P : Params) (q : CCoinJoinQueue) (nHeight : Int) : Bool :=
  decide (q.nHeight + P.QUEUE_TTL_BLOCKS < nHeight)

/-- Modelled from the spec: `CCoinJoinBaseSession::SetNull` is not among the sources;
the reset is a total cancellation of the session: no entries, no final
transaction, no session id, no denomination mask, state `Idle`.  The start time is
left as it is. -/
def BaseSession_SetNull (s : CCoinJoinServer) : CCoinJoinServer :=
  { s with nState := POOL_STATE_IDLE
           nSessionID := 0
           nSessionDenom := 0
           vecEntries := []
           finalPartiallySignedTransaction := nullPSBT }

/-- Modelled from the spec: `CCoinJoinBaseManager::SetNull` is not among the sources;
after the reset all queue structures are empty. -/
def BaseManager_SetNull (s : CCoinJoinServer) : CCoinJoinServer :=
  { s with vecCoinJoinQueue := [] }

/-- Modelled from the spec: `CCoinJoinBaseManager::CheckQueue` is not among the
sources; expired queue advertisements are dropped. -/
def CheckQueue (P : Params) (nHeight : Int) (s : CCoinJoinServer) : CCoinJoinServer :=
  { s with vecCoinJoinQueue := s.vecCoinJoinQueue.filter (fun q => !IsExpired P q nHeight) }

/-- `CCoinJoinServer::PushStatus` to a node that exists. -/
def PushStatus (dest : CService) (nStatusUpdate : PoolStatusUpdate) (nMessageID : PoolMessage)
    (s : CCoinJoinServer) : CCoinJoinServer :=
  { s with sent := s.sent ++
      [NetEvent.CJSTATUSUPDATE dest s.nSessionID s.nState s.vecEntries.length
        nStatusUpdate nMessageID] }

/-! ## Queue updates and reset -/

mutual
/-- `CCoinJoinServer::UpdateQueue`; `none` when the call depth exceeds the fuel.
The loop with `vecDenom.erase(it--)` keeps, in their order, the participants to whom
the queue can be pushed. -/
def UpdateQueueF (P : Params) (env : Env) :
    Nat → PoolStatusUpdate → CCoinJoinServer → Option CCoinJoinServer
  | 0, _, _ => none
  | fuel + 1, update, s =>
    if P.queueEq s.activeQueue P.nullQueue then some s
    else if IsExpired P s.activeQueue s.nCachedBlockHeight then some s
    else if s.activeQueue.status ≠ update then
      let q0 := { s.activeQueue with nHeight := s.nCachedBlockHeight, status := update }
      let q := { q0 with vchSig := P.SignQueue q0 }
      if P.statusCode update > 1 then
        let kept := s.vecDenom.filter (fun p => env.ForNode p.1)
        let s1 := { s with activeQueue := q
                           vecDenom := kept
                           sent := s.sent ++ kept.map (fun p => NetEvent.CJQUEUE_PUSH p.1 q) }
        if kept.isEmpty then SetNullF P env fuel s1 else some s1
      else some { s with activeQueue := q, sent := s.sent ++ [NetEvent.CJQUEUE_RELAY q] }
    else some s
/-- `CCoinJoinServer::SetNull`; `none` when the call depth exceeds the fuel. -/
def SetNullF (P : Params) (env : Env) : Nat → CCoinJoinServer → Option CCoinJoinServer
  | 0, _ => none
  | fuel + 1, s =>
    match UpdateQueueF P env fuel STATUS_CLOSED s with
    | none => none
    | some s1 =>
      some (BaseManager_SetNull
        (BaseSession_SetNull { s1 with activeQueue := P.nullQueue, vecDenom := [] }))
end

/-- Call depth that `UpdateQueue` and `SetNull` never exceed. -/
def callDepth : Nat := 8

/-- `CCoinJoinServer::UpdateQueue` -/
def UpdateQueue (P : Params) (env : Env) (update : PoolStatusUpdate) (s : CCoinJoinServer) :
    CCoinJoinServer :=
  (UpdateQueueF P env callDepth update s).getD s

/-- `CCoinJoinServer::SetNull` -/
def SetNull (P : Params) (env : Env) (s : CCoinJoinServer) : CCoinJoinServer :=
  (SetNullF P env callDepth s).getD s

/-! ## Entries -/

/-- `CCoinJoinServer::AddEntry` -/
def AddEntry (P : Params) (entryNew : CCoinJoinEntry) (nMessageID : PoolMessage)
    (s : CCoinJoinServer) : Bool × PoolMessage × CCoinJoinServer :=
  if !P.fMasternodeMode then (false, nMessageID, s)
  else if s.vecEntries.length ≥ P.MaxPoolInputs ∨ s.nState ≠ POOL_STATE_ACCEPTING_ENTRIES then
    (false, ERR_ENTRIES_FULL, s)
  else if s.vecEntries.any (fun entry => P.entryEq entry entryNew) then
    (false, ERR_ALREADY_HAVE, s)
  else (true, MSG_ENTRIES_ADDED, { s with vecEntries := s.vecEntries ++ [entryNew] })

/-- The loop of `IsCompatibleTxOut` over `mtx.vout`, with `nMNfee` as accumulator; the
addition `nMNfee += entry.nValue` is one of `CAmount`, a 64-bit integer. -/
def IsCompatibleTxOut_loop (P : Params) (payee : CScript) :
    List CTxOut → CAmount → Bool × CAmount
  | [], nMNfee => (true, nMNfee)
  | entry :: rest, nMNfee =>
    if !P.IsDenominatedAmount entry.nValue then (false, nMNfee)
    else IsCompatibleTxOut_loop P payee rest
      (if entry.scriptPubKey = payee then int64 (nMNfee + entry.nValue) else nMNfee)

/-- `CCoinJoinServer::IsCompatibleTxOut`: the result and the new value of `nMNfee`.
When `GetBlockPayee` fails, `payee` stays the empty script. -/
def IsCompatibleTxOut (P : Params) (env : Env) (mtx : CMutableTransaction) (nMNfee : CAmount) :
    Bool × CAmount :=
  let payee : CScript := (env.GetBlockPayee mtx.nLockTime).getD []
  IsCompatibleTxOut_loop P payee mtx.vout nMNfee

/-- The loop of `RelayStatus`: entries whose node is gone are erased, the others
get a status update that carries the number of entries at that moment. -/
def RelayStatus_loop (env : Env) (nStatusUpdate : PoolStatusUpdate) (nMessageID : PoolMessage)
    (nSessionID : Int) (nState : PoolState) :
    List CCoinJoinEntry → List CCoinJoinEntry → List NetEvent →
      List CCoinJoinEntry × List NetEvent
  | kept, [], out => (kept, out)
  | kept, e :: rest, out =>
    if env.ForNode e.addr then
      RelayStatus_loop env nStatusUpdate nMessageID nSessionID nState (kept ++ [e]) rest
        (out ++ [NetEvent.CJSTATUSUPDATE e.addr nSessionID nState
          (kept.length + 1 + rest.length) nStatusUpdate nMessageID])
    else RelayStatus_loop env nStatusUpdate nMessageID nSessionID nState kept rest out

/-- `CCoinJoinServer::RelayStatus` -/
def RelayStatus (P : Params) (env : Env) (nStatusUpdate : PoolStatusUpdate)
    (nMessageID : PoolMessage) (s : CCoinJoinServer) : CCoinJoinServer :=
  let r := RelayStatus_loop env nStatusUpdate nMessageID s.nSessionID s.nState [] s.vecEntries []
  let s1 := { s with vecEntries := r.1, sent := s.sent ++ r.2 }
  if s1.vecEntries.isEmpty then SetNull P env s1 else s1

/-- `CCoinJoinServer::RelayCompletedTransaction` -/
def RelayCompletedTransaction (env : Env) (nMessageID : PoolMessage) (s : CCoinJoinServer) :
    CCoinJoinServer :=
  let reached := s.vecEntries.filter (fun e => env.ForNode e.addr)
  { s with sent := s.sent ++ reached.map (fun e => NetEvent.CJCOMPLETE e.addr s.nSessionID nMessageID) }

/-! ## The final transaction -/

/-- `mtx.vin[i].scriptSig.clear(); mtx.vin[i].scriptWitness.SetNull();` -/
def clearSigAt : Nat → List CTxIn → List CTxIn
  | _, [] => []
  | 0, x :: xs => { x with scriptSig := [], scriptWitness := [] } :: xs
  | i + 1, x :: xs => x :: clearSigAt i xs

/-- The loop `for (i = 0; i < entry.psbtx.tx->vin.size(); ++i)` of
`CreateFinalTransaction`: the `i`-th input of the entry is pushed to `mtx.vin` and
the element of `mtx.vin` at index `i` is stripped. -/
def pushInputs : Nat → List CTxIn → List CTxIn → List CTxIn
  | _, [], vin => vin
  | i, txin :: rest, vin => pushInputs (i + 1) rest (clearSigAt i (vin ++ [txin]))

/-- The loop `for (auto& entry : vecEntries)` of `CreateFinalTransaction`. -/
def collectEntries : List CCoinJoinEntry → CMutableTransaction → CMutableTransaction
  | [], mtx => mtx
  | entry :: rest, mtx =>
    let etx : CMutableTransaction := entry.psbtx.tx.getD ⟨[], [], 0⟩
    collectEntries rest
      { mtx with vin := pushInputs 0 etx.vin mtx.vin, vout := mtx.vout ++ etx.vout }

/-- Exchange of the first element with the element `j` places further. -/
def swapHead {α : Type} (x : α) (xs : List α) (j : Nat) : List α :=
  match j with
  | 0 => x :: xs
  | j + 1 =>
    match xs.get? j with
    | none => x :: xs
    | some y => y :: xs.set j x

/-- Modelled from the spec: `Shuffle` is not among the sources; the vector is shuffled
with numbers drawn from the random number generator.  At each position a
number `j` below the remaining length is drawn and the element is exchanged
with the one `j` places further. -/
def Shuffle {α : Type} : Nat → List Nat → List α → List α
  | 0, _, xs => xs
  | _, _, [] => []
  | n + 1, rng, x :: xs =>
    let j := rng.headD 0 % (xs.length + 1)
    match swapHead x xs j with
    | [] => []
    | y :: ys => y :: Shuffle n rng.tail ys

/-- "Fill the inputs" of `CreateFinalTransaction`: a fresh `PSBTInput` gets the
previous output as `witness_utxo` when its script is a witness program. -/
def fillInput (env : Env) (txin : CTxIn) : PSBTInput :=
  let out := env.AccessCoin txin.prevout
  { non_witness_utxo := false
    witness_utxo := if env.SolverIsWitness out.scriptPubKey then some out else none
    signatures := [] }

/-- The partially signed transaction that `CreateFinalTransaction` builds. -/
def buildFinalPSBT (env : Env) (vecEntries : List CCoinJoinEntry) :
    PartiallySignedTransaction :=
  let mtx0 := collectEntries vecEntries ⟨[], [], 0⟩
  let mtx : CMutableTransaction :=
    { mtx0 with vin := Shuffle mtx0.vin.length env.rngIn mtx0.vin
                vout := Shuffle mtx0.vout.length env.rngOut mtx0.vout }
  { tx := some mtx
    inputs := mtx.vin.map (fillInput env)
    outputs := mtx.vout.map (fun _ => ⟨[]⟩) }

mutual
/-- `CCoinJoinServer::CreateFinalTransaction`; `none` when the call depth exceeds
the fuel. -/
def CreateFinalTransactionF (P : Params) (env : Env) :
    Nat → CCoinJoinServer → Option CCoinJoinServer
  | 0, _ => none
  | fuel + 1, s =>
    let psbt := buildFinalPSBT env s.vecEntries
    RelayFinalTransactionF P env fuel psbt { s with finalPartiallySignedTransaction := psbt }
/-- `CCoinJoinServer::RelayFinalTransaction`; `none` when the call depth exceeds
the fuel. -/
def RelayFinalTransactionF (P : Params) (env : Env) :
    Nat → PartiallySignedTransaction → CCoinJoinServer → Option CCoinJoinServer
  | 0, _, _ => none
  | fuel + 1, txFinal, s =>
    let finalTx0 : CCoinJoinBroadcastTx :=
      ⟨s.nSessionID, txFinal, P.activeOutpoint, env.GetAdjustedTime, 0⟩
    let finalTx := { finalTx0 with
      vchSig := P.SignBroadcast s.nSessionID txFinal P.activeOutpoint env.GetAdjustedTime }
    let kept := s.vecEntries.filter (fun e => env.ForNode e.addr)
    let allOK := s.vecEntries.all (fun e => env.ForNode e.addr)
    let s1 := { s with vecEntries := kept
                       sent := s.sent ++ kept.map (fun e => NetEvent.CJFINALTX e.addr finalTx) }
    if allOK then some s1
    else if kept.length ≥ P.MinPoolInputs then CreateFinalTransactionF P env fuel s1
    else some (SetNull P env s1)
end

/-- `CCoinJoinServer::CreateFinalTransaction`: every round trip through
`RelayFinalTransaction` erases an entry, so twice the number of entries plus two
calls are enough. -/
def CreateFinalTransaction (P : Params) (env : Env) (s : CCoinJoinServer) : CCoinJoinServer :=
  (CreateFinalTransactionF P env (2 * s.vecEntries.length + 2) s).getD s

/-- `CCoinJoinServer::CheckPool` -/
def CheckPool (P : Params) (env : Env) (s : CCoinJoinServer) : CCoinJoinServer :=
  if !P.fMasternodeMode then s
  else
    let fReady : Bool :=
      decide (s.vecEntries.length ≥ s.vecDenom.length) ||
        (decide (env.GetTime - s.nTimeStart ≥ P.COINJOIN_ACCEPT_TIMEOUT) &&
          decide (s.vecEntries.length ≥ P.MinPoolInputs))
    if s.nState = POOL_STATE_ACCEPTING_ENTRIES ∧ fReady = true then
      let s1 := UpdateQueue P env STATUS_READY s
      let s2 := { s1 with nTimeStart := env.GetTime }
      let s3 := SetState P POOL_STATE_SIGNING s2
      CreateFinalTransaction P env s3
    else if s.nState = POOL_STATE_ACCEPTING_ENTRIES ∧ IsSessionFull P s = true then
      UpdateQueue P env STATUS_FULL s
    else s

/-- `CCoinJoinServer::CommitFinalTransaction` -/
def CommitFinalTransaction (P : Params) (env : Env) (s : CCoinJoinServer) : CCoinJoinServer :=
  if !P.fMasternodeMode then s
  else
    let r := env.FinalizeAndExtractPSBT s.finalPartiallySignedTransaction
    let s1 := { s with finalPartiallySignedTransaction := r.1 }
    match r.2 with
    | none => SetNull P env (RelayCompletedTransaction env ERR_INVALID_TX s1)
    | some mtxFinal =>
      if !env.AcceptToMemoryPool mtxFinal then
        SetNull P env (RelayCompletedTransaction env ERR_INVALID_TX s1)
      else
        let s2 := { s1 with sent := s1.sent ++
          [NetEvent.MEMPOOL_ACCEPTED mtxFinal, NetEvent.RELAY_INV (P.GetHash (some mtxFinal))] }
        SetNull P env (RelayCompletedTransaction env MSG_SUCCESS s2)

/-- `CCoinJoinServer::CheckTimeout` -/
def CheckTimeout (P : Params) (env : Env) (nHeight : Int) (s : CCoinJoinServer) :
    CCoinJoinServer :=
  if !P.fMasternodeMode then s
  else
    let s1 := CheckQueue P nHeight s
    let s2 := if IsExpired P s1.activeQueue s1.nCachedBlockHeight then SetNull P env s1 else s1
    if s2.nState = POOL_STATE_SIGNING ∧ env.GetTime - s2.nTimeStart ≥ P.COINJOIN_SIGNING_TIMEOUT
    then SetNull P env s2 else s2

/-- `CCoinJoinServer::CheckForCompleteQueue` -/
def CheckForCompleteQueue (P : Params) (env : Env) (s : CCoinJoinServer) : CCoinJoinServer :=
  if !P.fMasternodeMode then s
  else if s.nState = POOL_STATE_QUEUE ∧ IsSessionReady P s = true then
    let s1 := SetState P POOL_STATE_ACCEPTING_ENTRIES { s with nTimeStart := env.GetTime }
    UpdateQueue P env (if IsSessionFull P s1 then STATUS_FULL else STATUS_READY) s1
  else s

/-- `CCoinJoinServer::UpdatedBlockTip`, for a new tip of height `nHeight`. -/
def UpdatedBlockTip (P : Params) (env : Env) (nHeight : Int) (s : CCoinJoinServer) :
    CCoinJoinServer :=
  if env.ShutdownRequested then s
  else if P.fLiteMode then s
  else if !P.fMasternodeMode then s
  else
    let s1 := { s with nCachedBlockHeight := nHeight }
    if !env.IsBlockchainSynced then s1
    else
      let s2 := if s1.nState = POOL_STATE_QUEUE then CheckForCompleteQueue P env s1 else s1
      let s3 := if s2.nState = POOL_STATE_ACCEPTING_ENTRIES then CheckPool P env s2 else s2
      CheckTimeout P env s3.nCachedBlockHeight s3

/-! ## Message handling -/

/-- The messages `ProcessModuleMessage` reacts to, with their payload. -/
inductive NetMsg where
  | CJACCEPT (nDenom : CAmount)
  | CJQUEUE (queue : CCoinJoinQueue)
  | CJTXIN (entry : CCoinJoinEntry)
  | CJSIGNFINALTX (ptx : PartiallySignedTransaction)
  | OTHER
  deriving DecidableEq

/-- `CCoinJoinServer::CheckSessionMessage`: the result and the server, to which the
rejection has been added when the result is `false`. -/
def CheckSessionMessage (P : Params) (pfrom : CNode) (s : CCoinJoinServer) :
    Bool × CCoinJoinServer :=
  if P.statusCode s.activeQueue.status < P.statusCode STATUS_READY ∨
      P.statusCode s.activeQueue.status > P.statusCode STATUS_FULL then
    (false, PushStatus pfrom.addr STATUS_REJECTED ERR_SESSION s)
  else if !IsSessionReady P s then
    (false, PushStatus pfrom.addr STATUS_REJECTED ERR_SESSION s)
  else (true, s)

/-- Modelled from the spec: `CCoinJoinQueue::Push` is not among the sources; the queue
is pushed to one address, and the result tells whether the node was found. -/
def QueuePush (env : Env) (q : CCoinJoinQueue) (addr : CService) (s : CCoinJoinServer) :
    CCoinJoinServer :=
  if env.ForNode addr then { s with sent := s.sent ++ [NetEvent.CJQUEUE_PUSH addr q] } else s

/-- The `CJACCEPT` branch of `ProcessModuleMessage`. -/
def ProcessCJACCEPT (P : Params) (env : Env) (pfrom : CNode) (nDenom : CAmount)
    (s : CCoinJoinServer) : CCoinJoinServer :=
  if IsSessionFull P s then PushStatus pfrom.addr STATUS_REJECTED ERR_QUEUE_FULL s
  else if !env.GetMasternodeInfo P.activeOutpoint then
    PushStatus pfrom.addr STATUS_REJECTED ERR_MN_LIST s
  else if s.vecDenom.isEmpty &&
      s.vecCoinJoinQueue.any (fun q => q.masternodeOutpoint == P.activeOutpoint) then
    PushStatus pfrom.addr STATUS_REJECTED ERR_RECENT s
  else
    let r := if s.nSessionID == 0 then CreateNewSession P env nDenom MSG_NOERR s
             else AddUserToExistingSession P nDenom MSG_NOERR s
    if r.1 then
      let s1 := PushStatus pfrom.addr STATUS_ACCEPTED r.2.1 r.2.2
      let s2 := { s1 with vecDenom := s1.vecDenom ++ [(pfrom.addr, nDenom)] }
      let s3 := if P.statusCode s2.activeQueue.status > P.statusCode STATUS_OPEN
                then QueuePush env s2.activeQueue pfrom.addr s2 else s2
      CheckForCompleteQueue P env s3
    else PushStatus pfrom.addr STATUS_REJECTED r.2.1 r.2.2

/-- The loop of the `CJQUEUE` branch over `vecCoinJoinQueue`: the flag tells whether the
handler returns from inside the loop; the vector carries the in-place updates of `status`
and `nHeight` made up to that point, which stay in place when the handler returns. -/
def ProcessCJQUEUE_loop (P : Params) (queue : CCoinJoinQueue) :
    List CCoinJoinQueue → Bool × List CCoinJoinQueue
  | [] => (false, [])
  | q :: rest =>
    if P.queueEq q queue then (true, q :: rest)
    else if P.queueNe q queue then
      let q1 := if P.statusCode queue.status > P.statusCode q.status
                then { q with status := queue.status } else q
      let q2 := if queue.nHeight > q1.nHeight then { q1 with nHeight := queue.nHeight } else q1
      let r := ProcessCJQUEUE_loop P queue rest
      (r.1, q2 :: r.2)
    else if q.masternodeOutpoint == queue.masternodeOutpoint then (true, q :: rest)
    else
      let r := ProcessCJQUEUE_loop P queue rest
      (r.1, q :: r.2)

/-- The `CJQUEUE` branch of `ProcessModuleMessage`. -/
def ProcessCJQUEUE (P : Params) (env : Env) (pfrom : CNode) (queue : CCoinJoinQueue)
    (s : CCoinJoinServer) : CCoinJoinServer :=
  if IsExpired P queue s.nCachedBlockHeight then s
  else if queue.nHeight > s.nCachedBlockHeight + 1 then s
  else if !env.GetMasternodeInfo queue.masternodeOutpoint || !env.CheckSignature queue then
    { s with sent := s.sent ++ [NetEvent.ASK_FOR_MN pfrom.addr queue.masternodeOutpoint] }
  else
    let r := ProcessCJQUEUE_loop P queue s.vecCoinJoinQueue
    if r.1 then { s with vecCoinJoinQueue := r.2 }
    else if P.statusCode queue.status ≤ P.statusCode STATUS_OPEN then
      { s with vecCoinJoinQueue := r.2 ++ [queue]
               sent := s.sent ++ [NetEvent.CJQUEUE_RELAY queue] }
    else { s with vecCoinJoinQueue := r.2 }

/-- The `CJTXIN` branch of `ProcessModuleMessage`.  The copy
`CMutableTransaction mtx(*entry.psbtx.tx)` dereferences the optional unchecked; for an
entry without a transaction the model takes the empty transaction. -/
def ProcessCJTXIN (P : Params) (env : Env) (pfrom : CNode) (entry0 : CCoinJoinEntry)
    (s : CCoinJoinServer) : CCoinJoinServer :=
  let c := CheckSessionMessage P pfrom s
  if !c.1 then c.2
  else
    let entry : CCoinJoinEntry := { entry0 with addr := pfrom.addr }
    let mtx : CMutableTransaction := entry.psbtx.tx.getD ⟨[], [], 0⟩
    if mtx.vin.length > P.COINJOIN_ENTRY_MAX_SIZE then
      PushStatus pfrom.addr STATUS_REJECTED ERR_MAXIMUM s
    else if mtx.vout.length > P.COINJOIN_ENTRY_MAX_SIZE * 3 then
      PushStatus pfrom.addr STATUS_REJECTED ERR_MAXIMUM s
    else
      let ct := env.CheckTransaction entry.psbtx true
      if !ct.1 then PushStatus pfrom.addr STATUS_REJECTED ct.2.2 s
      else
        let nFee := ct.2.1
        let co := IsCompatibleTxOut P env mtx 0
        if !co.1 then PushStatus pfrom.addr STATUS_REJECTED ERR_INVALID_OUT s
        else if co.2 < nFee then PushStatus pfrom.addr STATUS_REJECTED ERR_MN_FEES s
        else
          let a := AddEntry P entry ct.2.2 s
          if a.1 then
            CheckPool P env
              (RelayStatus P env STATUS_ACCEPTED MSG_NOERR
                (PushStatus pfrom.addr STATUS_ACCEPTED a.2.1 a.2.2))
          else PushStatus pfrom.addr STATUS_REJECTED a.2.1 a.2.2

/-- The `CJSIGNFINALTX` branch of `ProcessModuleMessage`.  After a failed merge and the
reset the function goes on with the check of the final transaction.  The comparison
`finalPartiallySignedTransaction.tx->GetHash() != ptx.tx->GetHash()` dereferences both
optionals unchecked; it is defined when both transactions are present, and for an absent
one `P.GetHash none` stands for whatever the dereference yields. -/
def ProcessCJSIGNFINALTX (P : Params) (env : Env) (pfrom : CNode)
    (ptx : PartiallySignedTransaction) (s : CCoinJoinServer) : CCoinJoinServer :=
  let c := CheckSessionMessage P pfrom s
  if !c.1 then c.2
  else if P.GetHash s.finalPartiallySignedTransaction.tx ≠ P.GetHash ptx.tx then s
  else
    let m := env.Merge s.finalPartiallySignedTransaction ptx
    let s1 := { s with finalPartiallySignedTransaction := m.2 }
    let s2 :=
      if !m.1 then
        let reached := s1.vecEntries.filter (fun e => env.ForNode e.addr)
        SetNull P env
          { s1 with sent := s1.sent ++ reached.map (fun e =>
              NetEvent.CJSTATUSUPDATE e.addr s1.nSessionID s1.nState s1.vecEntries.length
                STATUS_REJECTED MSG_NOERR) }
      else s1
    let ct := env.CheckTransaction s2.finalPartiallySignedTransaction false
    if ct.1 then CommitFinalTransaction P env s2 else s2

/-- `CCoinJoinServer::ProcessModuleMessage` -/
def ProcessModuleMessage (P : Params) (env : Env) (pfrom : CNode) (msg : NetMsg)
    (s : CCoinJoinServer) : CCoinJoinServer :=
  if !P.fMasternodeMode then s
  else if P.fLiteMode then s
  else if !env.IsBlockchainSynced then s
  else if pfrom.nSendVersion < P.MIN_COINJOIN_PEER_PROTO_VERSION then
    { s with sent := s.sent ++ [NetEvent.REJECT_OBSOLETE pfrom.addr] }
  else
    match msg with
    | NetMsg.CJACCEPT nDenom => ProcessCJACCEPT P env pfrom nDenom s
    | NetMsg.CJQUEUE queue => ProcessCJQUEUE P env pfrom queue s
    | NetMsg.CJTXIN entry => ProcessCJTXIN P env pfrom entry s
    | NetMsg.CJSIGNFINALTX ptx => ProcessCJSIGNFINALTX P env pfrom ptx s
    | NetMsg.OTHER => s

/-! ## Runs of the coordinator -/

/-- The operations by which the coordinator changes. -/
inductive Op where
  | message (pfrom : CNode) (msg : NetMsg)
  | blockTip (nHeight : Int)
  | updateQueue (update : PoolStatusUpdate)
  | relayStatus (nStatusUpdate : PoolStatusUpdate) (nMessageID : PoolMessage)
  | setNull
  | createNewSession (nDenom : CAmount)
  | addUserToExistingSession (nDenom : CAmount)
  | checkForCompleteQueue
  | checkPool
  | checkTimeout (nHeight : Int)
  deriving DecidableEq

/-- One operation, in surroundings `env`. -/
def Op.apply (P : Params) (env : Env) : Op → CCoinJoinServer → CCoinJoinServer
  | Op.message pfrom msg, s => ProcessModuleMessage P env pfrom msg s
  | Op.blockTip nHeight, s => UpdatedBlockTip P env nHeight s
  | Op.updateQueue update, s => UpdateQueue P env update s
  | Op.relayStatus nStatusUpdate nMessageID, s => RelayStatus P env nStatusUpdate nMessageID s
  | Op.setNull, s => SetNull P env s
  | Op.createNewSession nDenom, s => (CreateNewSession P env nDenom MSG_NOERR s).2.2
  | Op.addUserToExistingSession nDenom, s => (AddUserToExistingSession P nDenom MSG_NOERR s).2.2
  | Op.checkForCompleteQueue, s => CheckForCompleteQueue P env s
  | Op.checkPool, s => CheckPool P env s
  | Op.checkTimeout nHeight, s => CheckTimeout P env nHeight s

/-- States the coordinator reaches from the idle state by operations that the guard
`G` admits in the state and surroundings they are run in. -/
inductive Reachable (P : Params) (G : CCoinJoinServer → Env → Op → Prop) :
    CCoinJoinServer → Prop where
  | init : Reachable P G (CCoinJoinServer.initial P)
  | step (s : CCoinJoinServer) (env : Env) (op : Op) :
      Reachable P G s → G s env op → Reachable P G (op.apply P env s)

/-- A run: the operations of the list, one after the other. -/
def run (P : Params) : List (Env × Op) → CCoinJoinServer → CCoinJoinServer
  | [], s => s
  | (env, op) :: rest, s => run P rest (op.apply P env s)

/-! ## Predicates on the server -/

/-- No session: the state after a reset. -/
def IsNullSession (P : Params) (s : CCoinJoinServer) : Prop :=
  s.nState = POOL_STATE_IDLE ∧ s.vecEntries = [] ∧ s.vecDenom = [] ∧
  s.activeQueue = P.nullQueue ∧ s.nSessionID = 0 ∧ s.nSessionDenom = 0 ∧
  s.finalPartiallySignedTransaction = nullPSBT ∧ s.vecCoinJoinQueue = []

/-- The members of the session other than the participants and the active queue are
the same in `s` and `t`. -/
def SameSession (s t : CCoinJoinServer) : Prop :=
  t.nState = s.nState ∧ t.vecEntries = s.vecEntries ∧ t.nSessionID = s.nSessionID ∧
  t.nSessionDenom = s.nSessionDenom ∧
  t.finalPartiallySignedTransaction = s.finalPartiallySignedTransaction ∧
  t.vecCoinJoinQueue = s.vecCoinJoinQueue

/-- Members of the session that `CreateFinalTransaction` and `RelayFinalTransaction` do
not touch unless they reset it. -/
def SameButEntries (s t : CCoinJoinServer) : Prop :=
  t.nState = s.nState ∧ t.vecDenom = s.vecDenom ∧ t.nSessionID = s.nSessionID ∧
  t.nSessionDenom = s.nSessionDenom ∧ t.activeQueue = s.activeQueue ∧
  t.vecCoinJoinQueue = s.vecCoinJoinQueue

/-- Total value of the outputs of `vout` that pay to the script `payee`. -/
def paidToPayee (payee : CScript) (vout : List CTxOut) : CAmount :=
  ((vout.filter (fun o => decide (o.scriptPubKey = payee))).map (fun o => o.nValue)).sum

/-- Neither the participants nor the entries have become more from `s` to `t`. -/
def Shrinks (s t : CCoinJoinServer) : Prop :=
  t.vecDenom.length ≤ s.vecDenom.length ∧ t.vecEntries.length ≤ s.vecEntries.length

/-- Pool state, entries and participants are the same in `s` and `t`. -/
def Unchanged (s t : CCoinJoinServer) : Prop :=
  t.nState = s.nState ∧ t.vecEntries = s.vecEntries ∧ t.vecDenom = s.vecDenom

/-- There are no entries before the state `AcceptingEntries`. -/
def NoEarlyEntries (s : CCoinJoinServer) : Prop :=
  s.nState = POOL_STATE_IDLE ∨ s.nState = POOL_STATE_QUEUE → s.vecEntries = []

/-- No entries before the state `AcceptingEntries`, and in that state at most as many
entries as participants. -/
def EntriesWithin (s : CCoinJoinServer) : Prop :=
  NoEarlyEntries s ∧
  (s.nState = POOL_STATE_ACCEPTING_ENTRIES → s.vecEntries.length ≤ s.vecDenom.length)

/-- Every participant can be reached in the surroundings `env`. -/
def AllFound (env : Env) (s : CCoinJoinServer) : Prop :=
  ∀ p ∈ s.vecDenom, env.ForNode p.1 = true

/-- The operations of claim C3: message handlers, chain-tip hook, `UpdateQueue`,
`RelayStatus` and `SetNull`. -/
def handlerOp : Op → Bool
  | Op.message _ _ => true
  | Op.blockTip _ => true
  | Op.updateQueue _ => true
  | Op.relayStatus _ _ => true
  | Op.setNull => true
  | _ => false

/-- The sender of a message is connected. -/
def senderFound (env : Env) : Op → Bool
  | Op.message pfrom _ => env.ForNode pfrom.addr
  | _ => true

/-- Guard of the runs of claim C3. -/
def handlerGuard (_ : CCoinJoinServer) (_ : Env) (op : Op) : Prop :=
  handlerOp op = true

/-- Guard of the runs of claim C3 in which no participant is lost: every participant
and the sender of the message can be reached. -/
def foundGuard (s : CCoinJoinServer) (env : Env) (op : Op) : Prop :=
  handlerOp op = true ∧ s.vecDenom.all (fun p => env.ForNode p.1) = true ∧
    senderFound env op = true

instance (s : CCoinJoinServer) (env : Env) (op : Op) : Decidable (handlerGuard s env op) := by
  unfold handlerGuard
  infer_instance

instance (s : CCoinJoinServer) (env : Env) (op : Op) : Decidable (foundGuard s env op) := by
  unfold foundGuard
  infer_instance

/-- Every operation of the run is admitted by the guard `G`. -/
def runOk (P : Params) (G : CCoinJoinServer → Env → Op → Prop) :
    List (Env × Op) → CCoinJoinServer → Prop
  | [], _ => True
  | (env, op) :: rest, s => G s env op ∧ runOk P G rest (op.apply P env s)

/-- At most `MaxPoolInputs` participants and at most `MaxPoolInputs` entries. -/
def Bounded (P : Params) (s : CCoinJoinServer) : Prop :=
  s.vecDenom.length ≤ P.MaxPoolInputs ∧ s.vecEntries.length ≤ P.MaxPoolInputs

/-- Every participant can be reached, and the entries are within the participants. -/
def Within (env : Env) (s : CCoinJoinServer) : Prop :=
  AllFound env s ∧ EntriesWithin s

/-- Every participant can be reached, and there are no entries before the state
`AcceptingEntries`. -/
def Early (env : Env) (s : CCoinJoinServer) : Prop :=
  AllFound env s ∧ NoEarlyEntries s

/-- Whether every operation of a run is admitted can be computed when the guard can. -/
def runOk.decide (P : Params) (G : CCoinJoinServer → Env → Op → Prop)
    (dec : ∀ s env op, Decidable (G s env op)) :
    ∀ (trace : List (Env × Op)) (s : CCoinJoinServer), Decidable (runOk P G trace s)
  | [], _ => isTrue trivial
  | (env, op) :: rest, s =>
    @instDecidableAnd (G s env op) (runOk P G rest (op.apply P env s)) (dec s env op)
      (runOk.decide P G dec rest (op.apply P env s))

instance (P : Params) (G : CCoinJoinServer → Env → Op → Prop)
    [dec : ∀ s env op, Decidable (G s env op)] (trace : List (Env × Op)) (s : CCoinJoinServer) :
    Decidable (runOk P G trace s) :=
  runOk.decide P G dec trace s


/-- `finalize_ready`: `entries.len() ≥ participants.len()`, or
`now - session_start_time ≥ ACCEPT_TIMEOUT` and `entries.len() ≥ MIN_POOL_INPUTS`. -/
def finalize_ready (P : Params) (env : Env) (s : CCoinJoinServer) : Prop :=
  s.vecEntries.length ≥ s.vecDenom.length ∨
  (env.GetTime - s.nTimeStart ≥ P.COINJOIN_ACCEPT_TIMEOUT ∧
    s.vecEntries.length ≥ P.MinPoolInputs)

instance (P : Params) (env : Env) (s : CCoinJoinServer) : Decidable (finalize_ready P env s) := by
  unfold finalize_ready
  infer_instance

/-! ## Concrete data for examples -/

/-- Enumerator values in the order of declaration. -/
def exStatusCode : PoolStatusUpdate → Nat
  | STATUS_REJECTED => 0
  | STATUS_ACCEPTED => 1
  | STATUS_OPEN => 2
  | STATUS_READY => 3
  | STATUS_FULL => 4
  | STATUS_CLOSED => 5

/-- A hash of a transaction, good enough to tell the transactions of the examples apart. -/
def exGetHash : Option CMutableTransaction → uint256
  | none => 0
  | some tx => 1 + tx.nLockTime + 7 * tx.vin.length + 13 * tx.vout.length +
      (tx.vin.map (fun i => i.prevout)).sum

/-- A masternode that mixes with three to five participants. -/
def exParams : Params where
  fMasternodeMode := true
  fLiteMode := false
  fUnitTest := false
  MIN_COINJOIN_PEER_PROTO_VERSION := 70015
  MinPoolInputs := 3
  MaxPoolInputs := 5
  COINJOIN_ACCEPT_TIMEOUT := 60
  COINJOIN_SIGNING_TIMEOUT := 30
  COINJOIN_ENTRY_MAX_SIZE := 9
  QUEUE_TTL_BLOCKS := 5
  statusCode := exStatusCode
  IsInDenomRange := fun d => decide (0 < d ∧ d < 256)
  IsDenominatedAmount := fun v => decide (v = 100 ∨ v = 1000 ∨ v = 10000)
  activeOutpoint := 77
  nullQueue := ⟨0, 0, 0, STATUS_CLOSED, 0⟩
  queueEq := fun a b => decide (a = b)
  queueNe := fun a b => decide (a ≠ b)
  entryEq := fun a b => decide (a = b)
  SignQueue := fun _ => 1
  SignBroadcast := fun _ _ _ _ => 1
  GetHash := exGetHash

/-- Surroundings at time `t` in which exactly the addresses of `online` are connected,
the masternode list is known, and every transaction passes `CheckTransaction` with
fee `fee`, can be finalized and is accepted by the mempool. -/
def exEnv (t : Int) (online : List CService) (fee : CAmount) : Env where
  GetTime := t
  GetAdjustedTime := t
  GetRandInt := 41
  rngIn := []
  rngOut := []
  ShutdownRequested := false
  IsBlockchainSynced := true
  ForNode := fun a => online.contains a
  GetMasternodeInfo := fun _ => true
  CheckTransaction := fun _ _ => (true, fee, MSG_NOERR)
  GetBlockPayee := fun _ => some [9]
  Merge := fun a _ => (true, a)
  FinalizeAndExtractPSBT := fun a => (a, a.tx)
  AcceptToMemoryPool := fun _ => true
  AccessCoin := fun _ => ⟨100, [1]⟩
  SolverIsWitness := fun _ => false
  CheckSignature := fun _ => true

/-- A peer with a current protocol version. -/
def exPeer (addr : CService) : CNode := ⟨addr, 70015⟩

/-- An entry of one input and one output of value `100`. -/
def exEntry (n : Nat) : CCoinJoinEntry :=
  ⟨⟨some ⟨[⟨n, [n], [], 0⟩], [⟨100, [n]⟩], 0⟩, [], []⟩, n⟩

/-- A session in state `Queue` with session id `7` and denomination mask `m`. -/
def exQueueState (m : CAmount) : CCoinJoinServer :=
  { CCoinJoinServer.initial exParams with
    nState := POOL_STATE_QUEUE, nSessionID := 7, nSessionDenom := m }

/-- The addresses that are connected in the examples unless said otherwise. -/
def exOnline : List CService := [1, 2, 3, 4, 5, 6, 7, 8, 9]

/-- Peer `a` asks at time `t` to mix the denomination `d`. -/
def exAccept (t : Int) (a : CService) (d : CAmount) : Env × Op :=
  (exEnv t exOnline 0, Op.message (exPeer a) (NetMsg.CJACCEPT d))

/-- Peer `a` submits at time `t` the entry `exEntry a`, all of `online` being connected. -/
def exTxIn (t : Int) (online : List CService) (a : CService) : Env × Op :=
  (exEnv t online 0, Op.message (exPeer a) (NetMsg.CJTXIN (exEntry a)))

/-- The coordinator after five peers have joined: state `AcceptingEntries`, the queue
status is `Ready` as set when the third joined. -/
def exFiveJoined : CCoinJoinServer :=
  run exParams [exAccept 0 1 1, exAccept 0 2 1, exAccept 0 3 3, exAccept 0 4 1, exAccept 0 5 1]
    (CCoinJoinServer.initial exParams)

/-- The coordinator after three peers have joined and each has sent its entry: state
`Signing`, queue status `Ready`. -/
def exSigning : CCoinJoinServer :=
  run exParams [exAccept 0 1 1, exAccept 0 2 1, exAccept 0 3 3,
      exTxIn 1 exOnline 1, exTxIn 2 exOnline 2, exTxIn 3 exOnline 3]
    (CCoinJoinServer.initial exParams)

/-- An entry with ten inputs and no output. -/
def exBigEntry : CCoinJoinEntry :=
  ⟨⟨some ⟨List.replicate 10 ⟨1, [], [], 0⟩, [], 0⟩, [], []⟩, 4⟩

/-- An entry whose only output has the value `7`, which is no denomination. -/
def exOddEntry : CCoinJoinEntry :=
  ⟨⟨some ⟨[⟨1, [], [], 0⟩], [⟨7, [4]⟩], 0⟩, [], []⟩, 4⟩

/-- The run of `exEvicted`. -/
def exEvictedRun : List (Env × Op) :=
  [exAccept 0 1 1, exAccept 0 2 1, exAccept 0 3 3,
    exTxIn 1 exOnline 1, exTxIn 2 exOnline 2, exAccept 3 4 1, exAccept 3 5 1,
    (exEnv 4 [1] 0, Op.blockTip 1)]

/-- The coordinator after three peers have joined, two of them have sent their entry,
two more peers have joined, and a new block has arrived while only the first
participant was connected. -/
def exEvicted : CCoinJoinServer :=
  run exParams exEvictedRun (CCoinJoinServer.initial exParams)

/-- A run in which every participant stays connected: three peers join and two of them
send their entry. -/
def exTwoOfThreeRun : List (Env × Op) :=
  [exAccept 0 1 1, exAccept 0 2 1, exAccept 0 3 3, exTxIn 1 exOnline 1, exTxIn 2 exOnline 2]

/-- The coordinator after `exTwoOfThreeRun`. -/
def exTwoOfThree : CCoinJoinServer :=
  run exParams exTwoOfThreeRun (CCoinJoinServer.initial exParams)

/-- The run that leads to `exThreeEntries`: five peers join, three peers that are no
participants send an entry; the queue status is `Full` from the first entry on. -/
def exThreeEntriesRun : List (Env × Op) :=
  [exAccept 0 1 1, exAccept 0 2 1, exAccept 0 3 3, exAccept 0 4 1, exAccept 0 5 1,
    exTxIn 1 exOnline 6, exTxIn 2 exOnline 7, exTxIn 3 exOnline 8]

/-- The coordinator after `exThreeEntriesRun`: state `AcceptingEntries`, five
participants, three entries, mask `0b0011`. -/
def exThreeEntries : CCoinJoinServer :=
  run exParams exThreeEntriesRun (CCoinJoinServer.initial exParams)

/-- The coordinator after five peers have joined and two peers that are no participants
have sent an entry; the queue status is `Full`. -/
def exFullTwoEntries : CCoinJoinServer :=
  run exParams [exTxIn 1 exOnline 6, exTxIn 2 exOnline 7] exFiveJoined

/-- An entry of one input and one output of value `100` that pays to the payee script
of the examples. -/
def exPayingEntry : CCoinJoinEntry :=
  ⟨⟨some ⟨[⟨5, [5], [], 0⟩], [⟨100, [9]⟩], 0⟩, [], []⟩, 5⟩

/-- Surroundings like `exEnv` with a fee of `100` in which `GetBlockPayee` finds no payee. -/
def exEnvNoPayee (t : Int) (online : List CService) : Env :=
  { exEnv t online 100 with GetBlockPayee := fun _ => none }

/-- An entry of one input and one output of value `100` with an empty script. -/
def exEmptyScriptEntry : CCoinJoinEntry :=
  ⟨⟨some ⟨[⟨5, [5], [], 0⟩], [⟨100, []⟩], 0⟩, [], []⟩, 5⟩

/-- The conditions under which the `CJQUEUE` handler stores and relays `queue`: not
expired, at most one block ahead of the cached height, a known masternode whose
signature verifies, no stored queue equal to it, status at most `Open`. -/
def queueAdmissible (P : Params) (env : Env) (queue : CCoinJoinQueue) (s : CCoinJoinServer) :
    Prop :=
  IsExpired P queue s.nCachedBlockHeight = false ∧
  queue.nHeight ≤ s.nCachedBlockHeight + 1 ∧
  env.GetMasternodeInfo queue.masternodeOutpoint = true ∧
  env.CheckSignature queue = true ∧
  (∀ q ∈ s.vecCoinJoinQueue, P.queueEq q queue = false) ∧
  P.statusCode queue.status ≤ P.statusCode STATUS_OPEN

/-- The coordinator after five peers have joined and each has an entry in the pool:
state `AcceptingEntries`, as many entries as `MaxPoolInputs`. -/
def exFullPool : CCoinJoinServer :=
  { exFiveJoined with vecEntries := [exEntry 1, exEntry 2, exEntry 3, exEntry 4, exEntry 5] }

end CoinJoin

/-! ## The governance manager

The second engine of the service layer: the rate limiter of triggers, the store of
governance objects and votes, and the requests that gate what is accepted from peers. -/

namespace Governance

/-- Hashes (`uint256`) are numbers; `uint256()` is `0`. -/
abbrev uint256 := Nat

/-- A collateral outpoint, which names a masternode. -/
abbrev COutPoint := Nat

/-- The id of a connected node. -/
abbrev NodeId := Int

/-- A script or signature, as its bytes. -/
abbrev Bytes := List Nat

/-! ## Containers -/

/-- `std::map<K, V>`: the pairs in ascending order of their keys. -/
abbrev Map (K V : Type) := List (K × V)

namespace Map

variable {K V : Type} [LinearOrder K]

/-- `find`: the value stored under `k`, if any. -/
def find : Map K V → K → Option V
  | [], _ => none
  | (k', v) :: rest, k => if k' = k then some v else find rest k

/-- `count(k) == 1` -/
def contains (m : Map K V) (k : K) : Bool := (m.find k).isSome

/-- The keys, in iteration order. -/
def keys (m : Map K V) : List K := m.map Prod.fst

/-- Puts a pair at its place in the order of the keys. -/
def place : Map K V → K → V → Map K V
  | [], k, v => [(k, v)]
  | (k', v') :: rest, k, v =>
    if k < k' then (k, v) :: (k', v') :: rest else (k', v') :: place rest k v

/-- `insert` and `emplace`: a new pair is stored only when the key is not present; the
flag tells whether it was. -/
def insert (m : Map K V) (k : K) (v : V) : Map K V × Bool :=
  if m.contains k then (m, false) else (m.place k v, true)

/-- `erase` of the element with key `k`. -/
def erase (m : Map K V) (k : K) : Map K V := m.filter (fun p => decide (p.1 ≠ k))

/-- An assignment through a reference to the element with key `k`. -/
def modify (m : Map K V) (k : K) (f : V → V) : Map K V :=
  m.map (fun p => if p.1 = k then (p.1, f p.2) else p)

end Map

/-- Modelled from the spec: `CacheMap<K, V>` is not among the sources; a bounded cache
(capacity `nMaxSize`) whose `Insert` refuses a key that is present and drops the oldest
item when the cache is full.  The items are listed newest first. -/
structure CacheMap (K V : Type) where
  nMaxSize : Nat
  listItems : List (K × V)

namespace CacheMap

variable {K V : Type} [DecidableEq K]

/-- `CacheMap(nMaxSizeIn)` -/
def new (nMaxSize : Nat) : CacheMap K V := ⟨nMaxSize, []⟩

/-- `HasKey` -/
def HasKey (c : CacheMap K V) (k : K) : Bool := c.listItems.any (fun p => decide (p.1 = k))

/-- `Get` -/
def Get (c : CacheMap K V) (k : K) : Option V :=
  (c.listItems.find? (fun p => decide (p.1 = k))).map Prod.snd

/-- `Insert`, with its result. -/
def Insert (c : CacheMap K V) (k : K) (v : V) : Bool × CacheMap K V :=
  if c.HasKey k then (false, c)
  else
    let items := if c.listItems.length = c.nMaxSize then c.listItems.dropLast else c.listItems
    (true, { c with listItems := (k, v) :: items })

/-- `Erase` -/
def Erase (c : CacheMap K V) (k : K) : CacheMap K V :=
  { c with listItems := c.listItems.filter (fun p => decide (p.1 ≠ k)) }

end CacheMap

/-- Modelled from the spec: `CacheMultiMap<K, V>` is not among the sources; a bounded
cache of pairs, several values for a key, whose `Insert` refuses a pair that is
present.  The items are listed newest first. -/
structure CacheMultiMap (K V : Type) where
  nMaxSize : Nat
  listItems : List (K × V)

namespace CacheMultiMap

variable {K V : Type} [DecidableEq K] [DecidableEq V]

/-- `CacheMultiMap(nMaxSizeIn)` -/
def new (nMaxSize : Nat) : CacheMultiMap K V := ⟨nMaxSize, []⟩

/-- `Insert`, with its result. -/
def Insert (c : CacheMultiMap K V) (k : K) (v : V) : Bool × CacheMultiMap K V :=
  if c.listItems.any (fun p => decide (p = (k, v))) then (false, c)
  else
    let items := if c.listItems.length = c.nMaxSize then c.listItems.dropLast else c.listItems
    (true, { c with listItems := (k, v) :: items })

/-- `GetAll`: the values stored under `k`. -/
def GetAll (c : CacheMultiMap K V) (k : K) : List V :=
  (c.listItems.filter (fun p => decide (p.1 = k))).map Prod.snd

/-- `Erase` of one pair. -/
def Erase (c : CacheMultiMap K V) (k : K) (v : V) : CacheMultiMap K V :=
  { c with listItems := c.listItems.filter (fun p => decide (p ≠ (k, v))) }

end CacheMultiMap

/-! ## The rate limiter -/

/-- `RATE_BUFFER_SIZE` -/
def RATE_BUFFER_SIZE : Nat := 5

/-- `std::numeric_limits<int64_t>::max()` -/
def INT64_MAX : Int := 9223372036854775807

/-- The value of an `int64_t` computation whose mathematical result is `x`. -/
def int64 (x : Int) : Int := (x + 9223372036854775808) % 18446744073709551616 - 9223372036854775808

/-- The value of an `int` computation whose mathematical result is `x`. -/
def int32 (x : Int) : Int := (x + 2147483648) % 4294967296 - 2147483648

/-- `CRateCheckBuffer`: a ring buffer of timestamps. -/
structure CRateCheckBuffer where
  vecTimestamps : List Int
  nDataStart : Nat
  nDataEnd : Nat
  fBufferEmpty : Bool
  deriving DecidableEq

namespace CRateCheckBuffer

/-- `CRateCheckBuffer()` -/
def new : CRateCheckBuffer := ⟨List.replicate RATE_BUFFER_SIZE 0, 0, 0, true⟩

/-- `CRateCheckBuffer::AddTimestamp` -/
def AddTimestamp (b : CRateCheckBuffer) (nTimestamp : Int) : CRateCheckBuffer :=
  let nDataStart := if b.nDataEnd = b.nDataStart ∧ b.fBufferEmpty = false
                    then (b.nDataStart + 1) % RATE_BUFFER_SIZE else b.nDataStart
  { vecTimestamps := b.vecTimestamps.set b.nDataEnd nTimestamp
    nDataStart := nDataStart
    nDataEnd := (b.nDataEnd + 1) % RATE_BUFFER_SIZE
    fBufferEmpty := false }

/-- The `do ... while(nIndex != nDataEnd)` loop of `GetMinTimestamp`, entered with index
`nIndex` and minimum `nMin`; `none` when the loop has not ended after `fuel` rounds. -/
def GetMinTimestamp_loop (b : CRateCheckBuffer) : Nat → Nat → Int → Option Int
  | 0, _, _ => none
  | fuel + 1, nIndex, nMin =>
    let nMin1 := if b.vecTimestamps.getD nIndex 0 < nMin then b.vecTimestamps.getD nIndex 0
                 else nMin
    let nIndex1 := (nIndex + 1) % RATE_BUFFER_SIZE
    if nIndex1 ≠ b.nDataEnd then GetMinTimestamp_loop b fuel nIndex1 nMin1 else some nMin1

/-- `CRateCheckBuffer::GetMinTimestamp`; the loop is given `RATE_BUFFER_SIZE` rounds. -/
def GetMinTimestamp (b : CRateCheckBuffer) : Option Int :=
  if b.fBufferEmpty then some INT64_MAX
  else GetMinTimestamp_loop b RATE_BUFFER_SIZE b.nDataStart INT64_MAX

/-- The `do ... while(nIndex != nDataEnd)` loop of `GetMaxTimestamp`. -/
def GetMaxTimestamp_loop (b : CRateCheckBuffer) : Nat → Nat → Int → Option Int
  | 0, _, _ => none
  | fuel + 1, nIndex, nMax =>
    let nMax1 := if b.vecTimestamps.getD nIndex 0 > nMax then b.vecTimestamps.getD nIndex 0
                 else nMax
    let nIndex1 := (nIndex + 1) % RATE_BUFFER_SIZE
    if nIndex1 ≠ b.nDataEnd then GetMaxTimestamp_loop b fuel nIndex1 nMax1 else some nMax1

/-- `CRateCheckBuffer::GetMaxTimestamp`; the maximum starts from `0`. -/
def GetMaxTimestamp (b : CRateCheckBuffer) : Option Int :=
  if b.fBufferEmpty then some 0
  else GetMaxTimestamp_loop b RATE_BUFFER_SIZE b.nDataStart 0

/-- `CRateCheckBuffer::GetCount` -/
def GetCount (b : CRateCheckBuffer) : Int :=
  if b.fBufferEmpty then 0
  else if b.nDataEnd > b.nDataStart then (b.nDataEnd : Int) - b.nDataStart
  else (RATE_BUFFER_SIZE : Int) - b.nDataStart + b.nDataEnd

/-- The rate `GetRate` returns for timestamps that all coincide: `1.0e10`. -/
def INFINITE_RATE : ℚ := 10000000000

/-- `CRateCheckBuffer::GetRate`.  The `double` results are the exact rationals. -/
def GetRate (b : CRateCheckBuffer) : Option ℚ :=
  if b.GetCount < RATE_BUFFER_SIZE then some 0
  else
    match b.GetMinTimestamp, b.GetMaxTimestamp with
    | some nMin, some nMax =>
      if nMin = nMax then some INFINITE_RATE
      else some ((b.GetCount : ℚ) / (int64 (nMax - nMin) : ℚ))
    | _, _ => none

/-- The timestamps the buffer holds, read in order from `nDataStart`. -/
def retained (b : CRateCheckBuffer) : List Int :=
  (List.range b.GetCount.toNat).map
    (fun i => b.vecTimestamps.getD ((b.nDataStart + i) % RATE_BUFFER_SIZE) 0)

/-- The buffer after `AddTimestamp` of each of `ts`, in their order, to a fresh one. -/
def build (ts : List Int) : CRateCheckBuffer := ts.foldl AddTimestamp new

/-- The indices are in range, and an empty buffer starts where it ends. -/
def WF (b : CRateCheckBuffer) : Prop :=
  b.vecTimestamps.length = RATE_BUFFER_SIZE ∧ b.nDataStart < RATE_BUFFER_SIZE ∧
  b.nDataEnd < RATE_BUFFER_SIZE ∧ (b.fBufferEmpty = true → b.nDataStart = b.nDataEnd)

end CRateCheckBuffer

/-- The running minimum of `GetMinTimestamp` over a list, from the start value `init`. -/
def scanMin (init : Int) (l : List Int) : Int :=
  l.foldl (fun nMin v => if v < nMin then v else nMin) init

/-- The running maximum of `GetMaxTimestamp` over a list, from the start value `init`. -/
def scanMax (init : Int) (l : List Int) : Int :=
  l.foldl (fun nMax v => if v > nMax then v else nMax) init

/-- The last `n` elements of a list. -/
def lastN (n : Nat) (l : List Int) : List Int := l.drop (l.length - n)


/-! ## Votes and governance objects -/

/-- `CGovernanceVote` -/
structure CGovernanceVote where
  masternodeOutpoint : COutPoint
  nParentHash : uint256
  nVoteSignal : Int
  nVoteOutcome : Int
  nTime : Int
  vchSig : Bytes
  deriving DecidableEq

/-- `vote_instance_t` -/
structure vote_instance_t where
  eOutcome : Int
  nTime : Int
  nCreationTime : Int
  deriving DecidableEq

/-- `vote_rec_t` -/
structure vote_rec_t where
  mapInstances : Map Int vote_instance_t
  deriving DecidableEq

/-- `CGovernanceObject`; `fileVotes` is the list of the votes in the object's vote file,
newest first. -/
structure CGovernanceObject where
  nObjectType : Int
  nHashParent : uint256
  nRevision : Int
  nTime : Int
  nDeletionTime : Int
  nCollateralHash : uint256
  vchData : Bytes
  masternodeOutpoint : COutPoint
  vchSig : Bytes
  fCachedLocalValidity : Bool
  fCachedFunding : Bool
  fCachedValid : Bool
  fCachedDelete : Bool
  fCachedEndorsed : Bool
  fDirtyCache : Bool
  fExpired : Bool
  fUnparsable : Bool
  mapCurrentMNVotes : Map COutPoint vote_rec_t
  cmmapOrphanVotes : CacheMultiMap COutPoint (CGovernanceVote × Int)
  fileVotes : List CGovernanceVote

/-- What `CGovernanceObject::GetHash` writes to the hasher. -/
structure HashedFields where
  nHashParent : uint256
  nRevision : Int
  nTime : Int
  strDataHex : Bytes
  masternodeOutpoint : COutPoint
  vchSig : Bytes
  deriving DecidableEq

/-- An output of a transaction. -/
structure CTxOut where
  scriptPubKey : Bytes
  nValue : Int
  deriving DecidableEq

/-- `CMasternode::CollateralStatus` -/
inductive CollateralStatus where
  | COLLATERAL_OK
  | COLLATERAL_UTXO_NOT_FOUND
  | COLLATERAL_INVALID_AMOUNT
  | COLLATERAL_INVALID_PUBKEY
  deriving DecidableEq

/-- `governance_exception_type_enum_t` -/
inductive governance_exception_type_enum_t where
  | GOVERNANCE_EXCEPTION_NONE
  | GOVERNANCE_EXCEPTION_WARNING
  | GOVERNANCE_EXCEPTION_PERMANENT_ERROR
  | GOVERNANCE_EXCEPTION_TEMPORARY_ERROR
  | GOVERNANCE_EXCEPTION_INTERNAL_ERROR
  deriving DecidableEq

open governance_exception_type_enum_t

/-- `CGovernanceException`: its type and the penalty for the sending node. -/
structure CGovernanceException where
  eType : governance_exception_type_enum_t
  nNodePenalty : Int
  deriving DecidableEq

/-- `CGovernanceException()` -/
def CGovernanceException.none : CGovernanceException := ⟨GOVERNANCE_EXCEPTION_NONE, 0⟩

/-- The constants and pure functions of headers that are not among the sources. -/
structure Params where
  fLiteMode : Bool
  MIN_GOVERNANCE_PEER_PROTO_VERSION : Int
  GOVERNANCE_OBJECT_PROPOSAL : Int
  GOVERNANCE_OBJECT_TRIGGER : Int
  GOVERNANCE_OBJECT_WATCHDOG : Int
  VOTE_SIGNAL_NONE : Int
  VOTE_SIGNAL_FUNDING : Int
  VOTE_SIGNAL_VALID : Int
  VOTE_SIGNAL_DELETE : Int
  VOTE_SIGNAL_ENDORSED : Int
  MAX_SUPPORTED_VOTE_SIGNAL : Int
  VOTE_OUTCOME_NONE : Int
  VOTE_OUTCOME_YES : Int
  VOTE_OUTCOME_NO : Int
  VOTE_OUTCOME_ABSTAIN : Int
  GOVERNANCE_UPDATE_MIN : Int
  GOVERNANCE_DELETION_DELAY : Int
  GOVERNANCE_ORPHAN_EXPIRATION_TIME : Int
  GOVERNANCE_FEE_CONFIRMATIONS : Int
  GOVERNANCE_MIN_RELAY_FEE_CONFIRMATIONS : Int
  GOVERNANCE_PROPOSAL_FEE_TX : Int
  MAX_MONEY : Int
  nSuperblockCycle : Int
  nPowTargetSpacing : Int
  nGovernanceMinQuorum : Int
  /-- The hash a `CHashWriter` returns for the fields of an object. -/
  HashObject : HashedFields → uint256
  /-- `CGovernanceVote::GetHash` -/
  HashVote : CGovernanceVote → uint256
  /-- The script `OP_RETURN <hash>`. -/
  BurnScript : uint256 → Bytes
  /-- `CScript::IsUnspendable` -/
  IsUnspendable : Bytes → Bool

/-- What a call reads from the node around the governance manager. -/
structure Env where
  GetTime : Int
  GetAdjustedTime : Int
  IsBlockchainSynced : Bool
  IsMasternodeListSynced : Bool
  IsWinnersListSynced : Bool
  IsSynced : Bool
  /-- `mnodeman.Has` -/
  Has : COutPoint → Bool
  /-- `mnodeman.GetMasternodeInfo`: the key of the masternode, if it is known. -/
  GetMasternodeInfo : COutPoint → Option Nat
  /-- `CMasternode::CheckCollateral(outpoint, CPubKey())` -/
  CheckCollateral : COutPoint → CollateralStatus
  /-- `mnodeman.AddGovernanceVote` -/
  AddGovernanceVote : COutPoint → uint256 → Bool
  /-- `mnodeman.CountEnabled` -/
  CountEnabled : Int
  /-- `mnodeman.GetAndClearDirtyGovernanceObjectHashes` -/
  GetAndClearDirtyGovernanceObjectHashes : List uint256
  /-- `triggerman.AddNewTrigger` -/
  AddNewTrigger : uint256 → Bool
  /-- `CProposalValidator(data).Validate(fCheckExpiration)` -/
  Validate : Bytes → Bool → Bool
  /-- `HashVerify` of the object's serialization hash under a masternode key. -/
  HashVerify : CGovernanceObject → Nat → Bool
  /-- `CGovernanceVote::IsValid(true)` -/
  VoteIsValid : CGovernanceVote → Bool
  /-- `GetTransaction`: the outputs of the transaction and the hash of its block. -/
  GetTransaction : uint256 → Option (List CTxOut × uint256)
  /-- The height of a block of the active chain, by its hash. -/
  ActiveHeightOf : uint256 → Option Int
  /-- `ChainActive().Height()` -/
  ChainHeight : Int

namespace CGovernanceObject

/-- `CGovernanceObject::GetHash` -/
def GetHash (P : Params) (o : CGovernanceObject) : uint256 :=
  P.HashObject ⟨o.nHashParent, o.nRevision, o.nTime, o.vchData, o.masternodeOutpoint, o.vchSig⟩

/-- Modelled from the spec: `CGovernanceObjectVoteFile::HasVote` is not among the sources;
the vote file contains the vote with this hash. -/
def HasVote (P : Params) (o : CGovernanceObject) (nHash : uint256) : Bool :=
  o.fileVotes.any (fun v => decide (P.HashVote v = nHash))

/-- `CGovernanceObject::CheckSignature` -/
def CheckSignature (env : Env) (o : CGovernanceObject) (pubKeyMasternode : Nat) : Bool :=
  env.HashVerify o pubKeyMasternode

/-- `CGovernanceObject::GetMinCollateralFee` -/
def GetMinCollateralFee (P : Params) (o : CGovernanceObject) : Int :=
  if o.nObjectType = P.GOVERNANCE_OBJECT_PROPOSAL then P.GOVERNANCE_PROPOSAL_FEE_TX
  else if o.nObjectType = P.GOVERNANCE_OBJECT_TRIGGER then 0
  else if o.nObjectType = P.GOVERNANCE_OBJECT_WATCHDOG then 0
  else P.MAX_MONEY

/-- `CGovernanceObject::IsCollateralValid`: the result and `fMissingConfirmations`. -/
def IsCollateralValid (P : Params) (env : Env) (o : CGovernanceObject) : Bool × Bool :=
  let nMinFee := o.GetMinCollateralFee P
  let nExpectedHash := o.GetHash P
  match env.GetTransaction o.nCollateralHash with
  | none => (false, false)
  | some (vout, nBlockHash) =>
    if vout.length < 1 then (false, false)
    else
      let findScript := P.BurnScript nExpectedHash
      let found := vout.filter
        (fun output => decide (output.scriptPubKey = findScript) && decide (output.nValue ≥ nMinFee))
      if found.any (fun output => !P.IsUnspendable output.scriptPubKey) then (false, false)
      else if found.isEmpty then (false, false)
      else
        let nConfirmationsIn : Int := P.GOVERNANCE_FEE_CONFIRMATIONS +
          (if nBlockHash ≠ 0 then
            match env.ActiveHeightOf nBlockHash with
            | some nHeight => env.ChainHeight - nHeight + 1
            | none => 0
           else 0)
        if nConfirmationsIn < P.GOVERNANCE_FEE_CONFIRMATIONS then
          if nConfirmationsIn ≥ P.GOVERNANCE_MIN_RELAY_FEE_CONFIRMATIONS then (true, true)
          else (false, false)
        else (true, false)

/-- `CGovernanceObject::IsValidLocally` with four arguments: the result,
`fMissingMasternode` and `fMissingConfirmations`. -/
def IsValidLocally (P : Params) (env : Env) (o : CGovernanceObject) (fCheckCollateral : Bool) :
    Bool × Bool × Bool :=
  if o.fUnparsable then (false, false, false)
  else if o.nObjectType = P.GOVERNANCE_OBJECT_WATCHDOG then (false, false, false)
  else if o.nObjectType = P.GOVERNANCE_OBJECT_PROPOSAL then
    if !env.Validate o.vchData false then (false, false, false)
    else if fCheckCollateral && !(o.IsCollateralValid P env).1 then
      (false, false, (o.IsCollateralValid P env).2)
    else (true, false, if fCheckCollateral then (o.IsCollateralValid P env).2 else false)
  else if o.nObjectType = P.GOVERNANCE_OBJECT_TRIGGER then
    if !fCheckCollateral then (true, false, false)
    else
      match env.GetMasternodeInfo o.masternodeOutpoint with
      | none =>
        (false,
          decide (env.CheckCollateral o.masternodeOutpoint =
            CollateralStatus.COLLATERAL_INVALID_PUBKEY), false)
      | some pubKeyMasternode =>
        if !o.CheckSignature env pubKeyMasternode then (false, false, false)
        else (true, false, false)
  else (false, false, false)

/-- The overload of `IsValidLocally` with two arguments, which is not among the
sources: it is taken to drop the two flags. -/
def IsValidLocally2 (P : Params) (env : Env) (o : CGovernanceObject) (fCheckCollateral : Bool) :
    Bool :=
  (o.IsValidLocally P env fCheckCollateral).1

/-- `CGovernanceObject::UpdateLocalValidity` -/
def UpdateLocalValidity (P : Params) (env : Env) (o : CGovernanceObject) : CGovernanceObject :=
  { o with fCachedLocalValidity := (o.IsValidLocally P env false).1 }

/-- `CGovernanceObject::CountMatchingVotes` -/
def CountMatchingVotes (o : CGovernanceObject) (eVoteSignalIn eVoteOutcomeIn : Int) : Int :=
  (o.mapCurrentMNVotes.filter (fun votepair =>
    match votepair.2.mapInstances.find eVoteSignalIn with
    | some inst => decide (inst.eOutcome = eVoteOutcomeIn)
    | none => false)).length

/-- `CGovernanceObject::GetYesCount` -/
def GetYesCount (P : Params) (o : CGovernanceObject) (eVoteSignalIn : Int) : Int :=
  o.CountMatchingVotes eVoteSignalIn P.VOTE_OUTCOME_YES

/-- `CGovernanceObject::GetNoCount` -/
def GetNoCount (P : Params) (o : CGovernanceObject) (eVoteSignalIn : Int) : Int :=
  o.CountMatchingVotes eVoteSignalIn P.VOTE_OUTCOME_NO

/-- `CGovernanceObject::GetAbstainCount` -/
def GetAbstainCount (P : Params) (o : CGovernanceObject) (eVoteSignalIn : Int) : Int :=
  o.CountMatchingVotes eVoteSignalIn P.VOTE_OUTCOME_ABSTAIN

/-- `CGovernanceObject::GetAbsoluteYesCount` -/
def GetAbsoluteYesCount (P : Params) (o : CGovernanceObject) (eVoteSignalIn : Int) : Int :=
  o.GetYesCount P eVoteSignalIn - o.GetNoCount P eVoteSignalIn

/-- `CGovernanceObject::GetAbsoluteNoCount` -/
def GetAbsoluteNoCount (P : Params) (o : CGovernanceObject) (eVoteSignalIn : Int) : Int :=
  o.GetNoCount P eVoteSignalIn - o.GetYesCount P eVoteSignalIn

/-- `CGovernanceObject::UpdateSentinelVariables`. The count and both thresholds are
`int`: the product `2 * nMnCount` is computed in 32 bits, and the divisions round
towards zero. -/
def UpdateSentinelVariables (P : Params) (env : Env) (o : CGovernanceObject) :
    CGovernanceObject :=
  let nMnCount := env.CountEnabled
  if nMnCount = 0 then o
  else
    let nAbsVoteReq := max P.nGovernanceMinQuorum (Int.tdiv nMnCount 10)
    let nAbsDeleteReq := max P.nGovernanceMinQuorum (Int.tdiv (int32 (2 * nMnCount)) 3)
    let o1 := { o with fCachedValid := true, fCachedEndorsed := false }
    let o2 :=
      if o1.GetAbsoluteYesCount P P.VOTE_SIGNAL_FUNDING ≥ nAbsVoteReq ∧ o1.fCachedFunding = false
      then { o1 with fCachedFunding := true }
      else if o1.GetAbsoluteYesCount P P.VOTE_SIGNAL_FUNDING < nAbsVoteReq ∧
          o1.fCachedFunding = true
      then { o1 with fCachedFunding := false }
      else o1
    let o3 :=
      if o2.GetAbsoluteYesCount P P.VOTE_SIGNAL_DELETE ≥ nAbsDeleteReq ∧ o2.fCachedDelete = false
      then { o2 with fCachedDelete := true
                     nDeletionTime := if o2.nDeletionTime = 0 then env.GetAdjustedTime
                                      else o2.nDeletionTime }
      else o2
    let o4 :=
      if o3.GetAbsoluteYesCount P P.VOTE_SIGNAL_ENDORSED ≥ nAbsVoteReq ∧
          o3.fCachedEndorsed = false
      then { o3 with fCachedEndorsed := true }
      else if o3.GetAbsoluteYesCount P P.VOTE_SIGNAL_ENDORSED < nAbsVoteReq ∧
          o3.fCachedEndorsed = true
      then { o3 with fCachedEndorsed := false }
      else o3
    let o5 := if o4.GetAbsoluteNoCount P P.VOTE_SIGNAL_VALID ≥ nAbsVoteReq
              then { o4 with fCachedValid := false } else o4
    { o5 with fDirtyCache := false }

/-- Modelled from the spec: `CGovernanceObjectVoteFile::RemoveVotesFromMasternode` is not
among the sources; it drops the votes of this masternode from the vote file. -/
def RemoveVotesFromMasternode (o : CGovernanceObject) (outpoint : COutPoint) :
    CGovernanceObject :=
  { o with fileVotes := o.fileVotes.filter (fun v => decide (v.masternodeOutpoint ≠ outpoint)) }

/-- `CGovernanceObject::ClearMasternodeVotes` -/
def ClearMasternodeVotes (env : Env) (o : CGovernanceObject) : CGovernanceObject :=
  o.mapCurrentMNVotes.foldl
    (fun o1 it => if !env.Has it.1 then
        { o1.RemoveVotesFromMasternode it.1 with
          mapCurrentMNVotes := Map.erase o1.mapCurrentMNVotes it.1 }
      else o1) o

end CGovernanceObject

/-! ## The governance manager -/

/-- A node the manager talks to. -/
structure CNode where
  id : NodeId
  nSendVersion : Int
  deriving DecidableEq

/-- What the manager sends to, or reports about, other nodes. -/
inductive Event where
  | REJECT_OBSOLETE (peer : NodeId)
  | Misbehaving (peer : NodeId) (howmuch : Int)
  | RelayObject (nHash : uint256)
  | RelayVote (nHash : uint256)
  | AskForMN (peer : NodeId) (outpoint : COutPoint)
  | RequestGovernanceObject (peer : NodeId) (nHash : uint256)
  /-- The decrement `--it_count->second` in `CheckMasternodeOrphanObjects` with `it_count`
  the end iterator of `mapMasternodeOrphanCounter`: undefined behaviour, after which the
  compiled code goes on. -/
  | OrphanCounterEndDeref (outpoint : COutPoint)
  deriving DecidableEq

/-- `ExpirationInfo` -/
structure ExpirationInfo where
  nExpirationTime : Int
  idFrom : NodeId
  deriving DecidableEq

/-- `ExpirationInfo(int64_t _nExpirationTime, int _idFrom)` -/
def ExpirationInfo.new (_nExpirationTime : Int) (_idFrom : Int) : ExpirationInfo :=
  ⟨int64 _nExpirationTime, int32 _idFrom⟩

/-- `CGovernanceManager::last_object_rec` -/
structure last_object_rec where
  triggerBuffer : CRateCheckBuffer
  fStatusOK : Bool
  deriving DecidableEq

/-- `last_object_rec(bool fStatusOKIn = true)` -/
def last_object_rec.new (fStatusOKIn : Bool) : last_object_rec := ⟨CRateCheckBuffer.new, fStatusOKIn⟩

/-- `CGovernanceManager::MAX_CACHE_SIZE` -/
def MAX_CACHE_SIZE : Nat := 1000000

/-- `CGovernanceManager::MAX_TIME_FUTURE_DEVIATION` -/
def MAX_TIME_FUTURE_DEVIATION : Int := 60 * 60

/-- `CGovernanceManager::RELIABLE_PROPAGATION_TIME` -/
def RELIABLE_PROPAGATION_TIME : Int := 60

/-- `CGovernanceManager`.  A `CGovernanceObject*` in `cmapVoteToObject` points to an
element of `mapObjects` and is given by the key of that element. -/
structure CGovernanceManager where
  nCachedBlockHeight : Int
  mapObjects : Map uint256 CGovernanceObject
  mapErasedGovernanceObjects : Map uint256 Int
  mapMasternodeOrphanObjects : Map uint256 (CGovernanceObject × ExpirationInfo)
  mapMasternodeOrphanCounter : Map COutPoint Int
  mapPostponedObjects : Map uint256 CGovernanceObject
  setAdditionalRelayObjects : Finset uint256
  cmapVoteToObject : CacheMap uint256 uint256
  cmapInvalidVotes : CacheMap uint256 CGovernanceVote
  cmmapOrphanVotes : CacheMultiMap uint256 (CGovernanceVote × Int)
  mapLastMasternodeObject : Map COutPoint last_object_rec
  setRequestedObjects : Finset uint256
  setRequestedVotes : Finset uint256
  fRateChecksEnabled : Bool
  events : List Event

/-- `CGovernanceManager()` -/
def CGovernanceManager.new : CGovernanceManager where
  nCachedBlockHeight := 0
  mapObjects := []
  mapErasedGovernanceObjects := []
  mapMasternodeOrphanObjects := []
  mapMasternodeOrphanCounter := []
  mapPostponedObjects := []
  setAdditionalRelayObjects := ∅
  cmapVoteToObject := CacheMap.new MAX_CACHE_SIZE
  cmapInvalidVotes := CacheMap.new MAX_CACHE_SIZE
  cmmapOrphanVotes := CacheMultiMap.new MAX_CACHE_SIZE
  mapLastMasternodeObject := []
  setRequestedObjects := ∅
  setRequestedVotes := ∅
  fRateChecksEnabled := true
  events := []

/-- The superblock cycle in seconds, `nSuperblockCycle * nPowTargetSpacing`. -/
def nSuperblockCycleSeconds (P : Params) : Int := int64 (P.nSuperblockCycle * P.nPowTargetSpacing)

/-- `CGovernanceObject::Relay` -/
def Relay (P : Params) (env : Env) (govobj : CGovernanceObject) (s : CGovernanceManager) :
    CGovernanceManager :=
  if !env.IsSynced then s
  else { s with events := s.events ++ [Event.RelayObject (govobj.GetHash P)] }

/-- `CGovernanceManager::AddInvalidVote` -/
def AddInvalidVote (P : Params) (vote : CGovernanceVote) (s : CGovernanceManager) :
    CGovernanceManager :=
  { s with cmapInvalidVotes := (s.cmapInvalidVotes.Insert (P.HashVote vote) vote).2 }

/-- `CGovernanceManager::MasternodeRateUpdate` -/
def MasternodeRateUpdate (P : Params) (env : Env) (govobj : CGovernanceObject)
    (s : CGovernanceManager) : CGovernanceManager :=
  if govobj.nObjectType ≠ P.GOVERNANCE_OBJECT_TRIGGER then s
  else
    let masternodeOutpoint := govobj.masternodeOutpoint
    let map1 := (s.mapLastMasternodeObject.insert masternodeOutpoint (last_object_rec.new true)).1
    let nTimestamp := govobj.nTime
    let map2 := Map.modify map1 masternodeOutpoint
      (fun r => { r with triggerBuffer := r.triggerBuffer.AddTimestamp nTimestamp })
    let relay := if nTimestamp > env.GetTime + MAX_TIME_FUTURE_DEVIATION - RELIABLE_PROPAGATION_TIME
                 then insert (govobj.GetHash P) s.setAdditionalRelayObjects
                 else s.setAdditionalRelayObjects
    let map3 := Map.modify map2 masternodeOutpoint (fun r => { r with fStatusOK := true })
    { s with mapLastMasternodeObject := map3, setAdditionalRelayObjects := relay }

/-- `CGovernanceManager::MasternodeRateCheck` with four arguments: the result,
`fRateCheckBypassed` and the manager; `none` when `GetRate` does not return. -/
def MasternodeRateCheck (P : Params) (env : Env) (govobj : CGovernanceObject)
    (fUpdateFailStatus fForce : Bool) (s : CGovernanceManager) :
    Option (Bool × Bool × CGovernanceManager) :=
  if !env.IsSynced then some (true, false, s)
  else if !s.fRateChecksEnabled then some (true, false, s)
  else if govobj.nObjectType ≠ P.GOVERNANCE_OBJECT_TRIGGER then some (true, false, s)
  else
    let masternodeOutpoint := govobj.masternodeOutpoint
    let nTimestamp := govobj.nTime
    let nNow := env.GetAdjustedTime
    if nTimestamp < nNow - 2 * nSuperblockCycleSeconds P then some (false, false, s)
    else if nTimestamp > nNow + MAX_TIME_FUTURE_DEVIATION then some (false, false, s)
    else
      match s.mapLastMasternodeObject.find masternodeOutpoint with
      | none => some (true, false, s)
      | some it =>
        if it.fStatusOK && !fForce then some (true, true, s)
        else
          let dMaxRate : ℚ := 2 * (11 / 10) / (nSuperblockCycleSeconds P : ℚ)
          let buffer := it.triggerBuffer.AddTimestamp nTimestamp
          match buffer.GetRate with
          | none => none
          | some dRate =>
            if dRate < dMaxRate then some (true, false, s)
            else if fUpdateFailStatus then
              let map1 := Map.modify s.mapLastMasternodeObject masternodeOutpoint
                (fun r => { r with fStatusOK := false })
              some (false, false, { s with mapLastMasternodeObject := map1 })
            else some (false, false, s)

/-- `CGovernanceManager::MasternodeRateCheck` with two arguments. -/
def MasternodeRateCheck2 (P : Params) (env : Env) (govobj : CGovernanceObject)
    (fUpdateFailStatus : Bool) (s : CGovernanceManager) : Option (Bool × CGovernanceManager) :=
  (MasternodeRateCheck P env govobj fUpdateFailStatus true s).map (fun r => (r.1, r.2.2))

/-- `CGovernanceManager::AcceptMessage` -/
def AcceptMessage (nHash : uint256) (setHash : Finset uint256) : Bool × Finset uint256 :=
  if nHash ∉ setHash then (false, setHash)
  else (true, setHash.erase nHash)

/-- `CGovernanceManager::AcceptObjectMessage` -/
def AcceptObjectMessage (nHash : uint256) (s : CGovernanceManager) : Bool × CGovernanceManager :=
  let r := AcceptMessage nHash s.setRequestedObjects
  (r.1, { s with setRequestedObjects := r.2 })

/-- `CGovernanceManager::AcceptVoteMessage` -/
def AcceptVoteMessage (nHash : uint256) (s : CGovernanceManager) : Bool × CGovernanceManager :=
  let r := AcceptMessage nHash s.setRequestedVotes
  (r.1, { s with setRequestedVotes := r.2 })

/-- The type of an inventory item. -/
inductive InvType where
  | MSG_GOVERNANCE_OBJECT
  | MSG_GOVERNANCE_OBJECT_VOTE
  | OTHER
  deriving DecidableEq

/-- `CInv` -/
structure CInv where
  type : InvType
  hash : uint256
  deriving DecidableEq

/-- `CGovernanceManager::ConfirmInventoryRequest` -/
def ConfirmInventoryRequest (env : Env) (inv : CInv) (s : CGovernanceManager) :
    Bool × CGovernanceManager :=
  if !env.IsWinnersListSynced then (false, s)
  else
    match inv.type with
    | InvType.MSG_GOVERNANCE_OBJECT =>
      if s.mapObjects.contains inv.hash || s.mapPostponedObjects.contains inv.hash then (false, s)
      else
        let setHash := if inv.hash ∉ s.setRequestedObjects
                       then insert inv.hash s.setRequestedObjects else s.setRequestedObjects
        (true, { s with setRequestedObjects := setHash })
    | InvType.MSG_GOVERNANCE_OBJECT_VOTE =>
      if s.cmapVoteToObject.HasKey inv.hash then (false, s)
      else
        let setHash := if inv.hash ∉ s.setRequestedVotes
                       then insert inv.hash s.setRequestedVotes else s.setRequestedVotes
        (true, { s with setRequestedVotes := setHash })
    | InvType.OTHER => (false, s)

/-! ## Votes -/

/-- What `CGovernanceObject::ProcessVote` leaves behind: its result, the object, the
exception, and whether it called `funding.AddInvalidVote` and `mnodeman.AskForMN`. -/
structure ObjectVoteResult where
  fOk : Bool
  govobj : CGovernanceObject
  exception : CGovernanceException
  fAddInvalidVote : Bool
  fAskForMN : Bool

/-- `vote_instance_t()`, for the outcome `VOTE_OUTCOME_NONE`. -/
def vote_instance_t.new (P : Params) : vote_instance_t := ⟨P.VOTE_OUTCOME_NONE, 0, 0⟩

/-- `CGovernanceObject::ProcessVote`; `fFrom` tells whether `pfrom` is a node,
`fRateChecksEnabled` is the flag of the manager that `AreRateChecksEnabled` reads. -/
def CGovernanceObject.ProcessVote (P : Params) (env : Env) (fRateChecksEnabled : Bool)
    (fFrom : Bool) (vote : CGovernanceVote) (exception : CGovernanceException)
    (o : CGovernanceObject) : ObjectVoteResult :=
  if o.HasVote P (P.HashVote vote) then
    ⟨false, o, ⟨GOVERNANCE_EXCEPTION_NONE, 0⟩, false, false⟩
  else if !env.Has vote.masternodeOutpoint then
    let r := o.cmmapOrphanVotes.Insert vote.masternodeOutpoint
      (vote, int64 (env.GetAdjustedTime + P.GOVERNANCE_ORPHAN_EXPIRATION_TIME))
    ⟨false, { o with cmmapOrphanVotes := r.2 }, ⟨GOVERNANCE_EXCEPTION_WARNING, 0⟩, false,
      r.1 && fFrom⟩
  else
    let recs := (o.mapCurrentMNVotes.insert vote.masternodeOutpoint ⟨[]⟩).1
    let o1 := { o with mapCurrentMNVotes := recs }
    let eSignal := vote.nVoteSignal
    if eSignal = P.VOTE_SIGNAL_NONE then
      ⟨false, o1, ⟨GOVERNANCE_EXCEPTION_WARNING, 0⟩, false, false⟩
    else if eSignal > P.MAX_SUPPORTED_VOTE_SIGNAL then
      ⟨false, o1, ⟨GOVERNANCE_EXCEPTION_PERMANENT_ERROR, 20⟩, false, false⟩
    else
      let recs2 := Map.modify recs vote.masternodeOutpoint
        (fun r => ⟨(r.mapInstances.insert eSignal (vote_instance_t.new P)).1⟩)
      let o2 := { o1 with mapCurrentMNVotes := recs2 }
      let voteInstanceRef : vote_instance_t :=
        (((recs2.find vote.masternodeOutpoint).getD ⟨[]⟩).mapInstances.find eSignal).getD
          (vote_instance_t.new P)
      if vote.nTime < voteInstanceRef.nCreationTime then
        ⟨false, o2, ⟨GOVERNANCE_EXCEPTION_NONE, 0⟩, false, false⟩
      else
        let nNow := env.GetAdjustedTime
        let nVoteTimeUpdate := voteInstanceRef.nTime
        if fRateChecksEnabled ∧ int64 (nNow - voteInstanceRef.nTime) < P.GOVERNANCE_UPDATE_MIN then
          ⟨false, o2, ⟨GOVERNANCE_EXCEPTION_TEMPORARY_ERROR, 0⟩, false, false⟩
        else if !env.VoteIsValid vote then
          ⟨false, o2, ⟨GOVERNANCE_EXCEPTION_PERMANENT_ERROR, 20⟩, true, false⟩
        else if !env.AddGovernanceVote vote.masternodeOutpoint vote.nParentHash then
          ⟨false, o2, ⟨GOVERNANCE_EXCEPTION_PERMANENT_ERROR, 0⟩, false, false⟩
        else
          let recs3 := Map.modify recs2 vote.masternodeOutpoint
            (fun r => ⟨Map.modify r.mapInstances eSignal
              (fun _ => ⟨vote.nVoteOutcome, nVoteTimeUpdate, vote.nTime⟩)⟩)
          let o3 := { o2 with mapCurrentMNVotes := recs3
                              fileVotes := vote :: o2.fileVotes
                              fDirtyCache := true }
          ⟨true, o3, exception, false, false⟩

/-- The effects of `CGovernanceObject::ProcessVote` on the manager: the invalid vote is
recorded, the masternode is asked for. -/
def applyVoteEffects (P : Params) (pfrom : Option CNode) (vote : CGovernanceVote)
    (r : ObjectVoteResult) (s : CGovernanceManager) : CGovernanceManager :=
  let s1 := if r.fAddInvalidVote then AddInvalidVote P vote s else s
  match pfrom with
  | some node =>
    if r.fAskForMN then
      { s1 with events := s1.events ++ [Event.AskForMN node.id vote.masternodeOutpoint] }
    else s1
  | none => s1

/-- `CGovernanceManager::RequestGovernanceObject`, without a filter. -/
def RequestGovernanceObject (pfrom : Option CNode) (nHash : uint256) (s : CGovernanceManager) :
    CGovernanceManager :=
  match pfrom with
  | none => s
  | some node =>
    { s with events := s.events ++ [Event.RequestGovernanceObject node.id nHash] }

/-- `CGovernanceManager::ProcessVote`: the result, the exception and the manager. -/
def ProcessVote (P : Params) (env : Env) (pfrom : Option CNode) (vote : CGovernanceVote)
    (exception : CGovernanceException) (s : CGovernanceManager) :
    Bool × CGovernanceException × CGovernanceManager :=
  let nHashVote := P.HashVote vote
  let nHashGovobj := vote.nParentHash
  if s.cmapVoteToObject.HasKey nHashVote then (false, exception, s)
  else if s.cmapInvalidVotes.HasKey nHashVote then
    (false, ⟨GOVERNANCE_EXCEPTION_PERMANENT_ERROR, 20⟩, s)
  else
    match s.mapObjects.find nHashGovobj with
    | none =>
      let r := s.cmmapOrphanVotes.Insert nHashGovobj
        (vote, int64 (env.GetAdjustedTime + P.GOVERNANCE_ORPHAN_EXPIRATION_TIME))
      let s1 := { s with cmmapOrphanVotes := r.2 }
      if r.1 then (false, ⟨GOVERNANCE_EXCEPTION_WARNING, 0⟩, RequestGovernanceObject pfrom nHashGovobj s1)
      else (false, ⟨GOVERNANCE_EXCEPTION_WARNING, 0⟩, s1)
    | some govobj =>
      if govobj.fCachedDelete || govobj.fExpired then (false, exception, s)
      else
        let r := govobj.ProcessVote P env s.fRateChecksEnabled pfrom.isSome vote exception
        let s1 := { s with mapObjects := Map.modify s.mapObjects nHashGovobj (fun _ => r.govobj) }
        let s2 := applyVoteEffects P pfrom vote r s1
        if r.fOk then
          let c := s2.cmapVoteToObject.Insert nHashVote nHashGovobj
          (c.1, r.exception, { s2 with cmapVoteToObject := c.2 })
        else (false, r.exception, s2)

/-- `CGovernanceVote::Relay` -/
def RelayVote (P : Params) (env : Env) (vote : CGovernanceVote) (s : CGovernanceManager) :
    CGovernanceManager :=
  if !env.IsSynced then s
  else { s with events := s.events ++ [Event.RelayVote (P.HashVote vote)] }

/-- One round of the loop of `CGovernanceManager::CheckOrphanVotes`, for the object and
the manager so far. -/
def CheckOrphanVotes_step (P : Params) (env : Env) (nHash : uint256)
    (st : CGovernanceObject × CGovernanceManager) (pairVote : CGovernanceVote × Int) :
    CGovernanceObject × CGovernanceManager :=
  if pairVote.2 < env.GetAdjustedTime then
    (st.1, { st.2 with cmmapOrphanVotes := st.2.cmmapOrphanVotes.Erase nHash pairVote })
  else
    let r := st.1.ProcessVote P env st.2.fRateChecksEnabled false pairVote.1
      CGovernanceException.none
    let s1 := applyVoteEffects P none pairVote.1 r st.2
    if r.fOk then
      let s2 := RelayVote P env pairVote.1 s1
      (r.govobj, { s2 with cmmapOrphanVotes := s2.cmmapOrphanVotes.Erase nHash pairVote })
    else (r.govobj, s1)

/-- `CGovernanceManager::CheckOrphanVotes`: the votes are processed by the object that
is passed in, with the rate checks switched off for the time of the call. -/
def CheckOrphanVotes (P : Params) (env : Env) (govobj : CGovernanceObject)
    (s : CGovernanceManager) : CGovernanceObject × CGovernanceManager :=
  let nHash := govobj.GetHash P
  let vecVotePairs := s.cmmapOrphanVotes.GetAll nHash
  let r := vecVotePairs.foldl (CheckOrphanVotes_step P env nHash)
    (govobj, { s with fRateChecksEnabled := false })
  (r.1, { r.2 with fRateChecksEnabled := s.fRateChecksEnabled })

/-! ## Objects -/

/-- `CGovernanceManager::AddGovernanceObject`.  The changes to the object that is passed
in, which the callers drop or erase after the call, are not returned. -/
def AddGovernanceObject (P : Params) (env : Env) (govobj0 : CGovernanceObject)
    (s : CGovernanceManager) : CGovernanceManager :=
  let govobj := govobj0.UpdateSentinelVariables P env
  let nHash := govobj.GetHash P
  if !govobj.IsValidLocally2 P env true then s
  else
    let objpair := s.mapObjects.insert nHash govobj
    if !objpair.2 then s
    else
      let s1 := { s with mapObjects := objpair.1 }
      if govobj.nObjectType = P.GOVERNANCE_OBJECT_TRIGGER ∧ env.AddNewTrigger nHash = false then
        let objs := Map.modify s1.mapObjects nHash (fun objref =>
          { objref with fCachedDelete := true
                        nDeletionTime := if objref.nDeletionTime = 0 then env.GetAdjustedTime
                                         else objref.nDeletionTime })
        { s1 with mapObjects := objs }
      else
        let s2 := Relay P env govobj s1
        let s3 := MasternodeRateUpdate P env govobj s2
        (CheckOrphanVotes P env govobj s3).2

/-- `CGovernanceManager::AddPostponedObject` -/
def AddPostponedObject (P : Params) (govobj : CGovernanceObject) (s : CGovernanceManager) :
    CGovernanceManager :=
  { s with mapPostponedObjects := (s.mapPostponedObjects.insert (govobj.GetHash P) govobj).1 }

/-- The `MNGOVERNANCEOBJECT` branch of `CGovernanceManager::ProcessModuleMessage`; `none`
when a rate check does not return. -/
def ProcessMNGOVERNANCEOBJECT (P : Params) (env : Env) (pfrom : CNode)
    (govobj : CGovernanceObject) (s : CGovernanceManager) : Option CGovernanceManager :=
  let nHash := govobj.GetHash P
  if pfrom.nSendVersion < P.MIN_GOVERNANCE_PEER_PROTO_VERSION then
    some { s with events := s.events ++ [Event.REJECT_OBSOLETE pfrom.id] }
  else if !env.IsMasternodeListSynced then some s
  else
    let a := AcceptObjectMessage nHash s
    if !a.1 then some a.2
    else
      let s1 := a.2
      if s1.mapObjects.contains nHash || s1.mapPostponedObjects.contains nHash ||
          s1.mapErasedGovernanceObjects.contains nHash ||
          s1.mapMasternodeOrphanObjects.contains nHash then some s1
      else
        match MasternodeRateCheck P env govobj true false s1 with
        | none => none
        | some (fRate, fRateCheckBypassed, s2) =>
          if !fRate then some s2
          else
            let v := govobj.IsValidLocally P env true
            let fIsValid := v.1
            let fMasternodeMissing := v.2.1
            let fMissingConfirmations := v.2.2
            let recheck : Option (Bool × CGovernanceManager) :=
              if fRateCheckBypassed && (fIsValid || fMasternodeMissing)
              then MasternodeRateCheck2 P env govobj true s2 else some (true, s2)
            match recheck with
            | none => none
            | some (fRate2, s3) =>
              if !fRate2 then some s3
              else if !fIsValid then
                if fMasternodeMissing then
                  let info := ExpirationInfo.new pfrom.id
                    (env.GetAdjustedTime + P.GOVERNANCE_ORPHAN_EXPIRATION_TIME)
                  let orphans := (s3.mapMasternodeOrphanObjects.insert nHash (govobj, info)).1
                  some { s3 with mapMasternodeOrphanObjects := orphans }
                else if fMissingConfirmations then some (AddPostponedObject P govobj s3)
                else some { s3 with events := s3.events ++ [Event.Misbehaving pfrom.id 20] }
              else some (AddGovernanceObject P env govobj s3)

/-- The `MNGOVERNANCEOBJECTVOTE` branch of `CGovernanceManager::ProcessModuleMessage`. -/
def ProcessMNGOVERNANCEOBJECTVOTE (P : Params) (env : Env) (pfrom : CNode)
    (vote : CGovernanceVote) (s : CGovernanceManager) : CGovernanceManager :=
  let nHash := P.HashVote vote
  let s0 := if pfrom.nSendVersion < P.MIN_GOVERNANCE_PEER_PROTO_VERSION
            then { s with events := s.events ++ [Event.REJECT_OBSOLETE pfrom.id] } else s
  if !env.IsMasternodeListSynced then s0
  else
    let a := AcceptVoteMessage nHash s0
    if !a.1 then a.2
    else
      let r := ProcessVote P env (some pfrom) vote CGovernanceException.none a.2
      if r.1 then RelayVote P env vote r.2.2
      else if r.2.1.nNodePenalty ≠ 0 ∧ env.IsSynced = true then
        { r.2.2 with events := r.2.2.events ++ [Event.Misbehaving pfrom.id r.2.1.nNodePenalty] }
      else r.2.2

/-- The messages of `ProcessModuleMessage` that change the store, with their payload. -/
inductive NetMsg where
  | MNGOVERNANCEOBJECT (govobj : CGovernanceObject)
  | MNGOVERNANCEOBJECTVOTE (vote : CGovernanceVote)
  | OTHER

/-- `CGovernanceManager::ProcessModuleMessage`, but for the sync requests, which change
nothing in the store. -/
def ProcessModuleMessage (P : Params) (env : Env) (pfrom : CNode) (msg : NetMsg)
    (s : CGovernanceManager) : Option CGovernanceManager :=
  if P.fLiteMode then some s
  else if !env.IsBlockchainSynced then some s
  else
    match msg with
    | NetMsg.MNGOVERNANCEOBJECT govobj => ProcessMNGOVERNANCEOBJECT P env pfrom govobj s
    | NetMsg.MNGOVERNANCEOBJECTVOTE vote => some (ProcessMNGOVERNANCEOBJECTVOTE P env pfrom vote s)
    | NetMsg.OTHER => some s

/-! ## Maintenance -/

/-- The first loop of `UpdateCachesAndClean`, for one dirty hash. -/
def UpdateCachesAndClean_dirty (env : Env) (s : CGovernanceManager) (nHash : uint256) :
    CGovernanceManager :=
  let objs := Map.modify s.mapObjects nHash
    (fun o => { o.ClearMasternodeVotes env with fDirtyCache := true })
  { s with mapObjects := objs }

/-- A round of the loop of `UpdateCachesAndClean` over `mapObjects`, for the element with
key `nHash`. -/
def UpdateCachesAndClean_step (P : Params) (env : Env) (s : CGovernanceManager)
    (nHash : uint256) : CGovernanceManager :=
  match s.mapObjects.find nHash with
  | none => s
  | some pObj0 =>
    let nNow := env.GetAdjustedTime
    let pObj := if pObj0.fDirtyCache
                then (pObj0.UpdateLocalValidity P env).UpdateSentinelVariables P env else pObj0
    let nTimeSinceDeletion := int64 (nNow - pObj.nDeletionTime)
    if (pObj.fCachedDelete || pObj.fExpired) ∧
        nTimeSinceDeletion ≥ P.GOVERNANCE_DELETION_DELAY then
      let items := s.cmapVoteToObject.listItems.filter (fun lit => decide (lit.2 ≠ nHash))
      let cmap := { s.cmapVoteToObject with listItems := items }
      let nTimeExpired :=
        if pObj.nObjectType = P.GOVERNANCE_OBJECT_PROPOSAL then INT64_MAX
        else int64 (pObj.nTime + 2 * nSuperblockCycleSeconds P + P.GOVERNANCE_DELETION_DELAY)
      let erased := (s.mapErasedGovernanceObjects.insert nHash nTimeExpired).1
      { s with cmapVoteToObject := cmap
               mapErasedGovernanceObjects := erased
               mapObjects := Map.erase s.mapObjects nHash }
    else
      let pObj2 :=
        if pObj.nObjectType = P.GOVERNANCE_OBJECT_PROPOSAL ∧ env.Validate pObj.vchData true = false
        then { pObj with fCachedDelete := true
                         nDeletionTime := if pObj.nDeletionTime = 0 then nNow
                                          else pObj.nDeletionTime }
        else pObj
      { s with mapObjects := Map.modify s.mapObjects nHash (fun _ => pObj2) }

/-- `CGovernanceManager::UpdateCachesAndClean`.  `triggerman.CleanAndRemove`, which is not
among the sources, is taken to leave the manager as it is; `Validate()` is taken to
check the expiration. -/
def UpdateCachesAndClean (P : Params) (env : Env) (s : CGovernanceManager) :
    CGovernanceManager :=
  let s1 := env.GetAndClearDirtyGovernanceObjectHashes.foldl (UpdateCachesAndClean_dirty env) s
  let s2 := (Map.keys s1.mapObjects).foldl (UpdateCachesAndClean_step P env) s1
  let erased := s2.mapErasedGovernanceObjects.filter
    (fun s_it => decide (¬ s_it.2 < env.GetAdjustedTime))
  { s2 with mapErasedGovernanceObjects := erased }

/-- A round of the loop of `CheckMasternodeOrphanObjects`, for the element with key
`nHash`.  The counter of the masternode is looked up and decremented without a test of
the iterator.  When the look-up finds nothing the decrement is undefined; the compiled
code goes on, and so does the model: it records the event, leaves the counters as they
are and erases the orphan.  (`none` is only handed through.) -/
def CheckMasternodeOrphanObjects_step (P : Params) (env : Env)
    (st : Option CGovernanceManager) (nHash : uint256) : Option CGovernanceManager :=
  match st with
  | none => none
  | some s =>
    match s.mapMasternodeOrphanObjects.find nHash with
    | none => some s
    | some pair =>
      let govobj := pair.1
      let v := govobj.IsValidLocally P env true
      if pair.2.nExpirationTime ≥ env.GetAdjustedTime ∧ v.1 = false ∧ v.2.1 = true then some s
      else
        let s1 :=
          if pair.2.nExpirationTime ≥ env.GetAdjustedTime then
            if v.1 then AddGovernanceObject P env govobj s else s
          else { s with events := s.events ++ [Event.Misbehaving pair.2.idFrom 20] }
        let orphans := Map.erase s1.mapMasternodeOrphanObjects nHash
        match s1.mapMasternodeOrphanCounter.find govobj.masternodeOutpoint with
        | none =>
          some { s1 with
            events := s1.events ++ [Event.OrphanCounterEndDeref govobj.masternodeOutpoint]
            mapMasternodeOrphanObjects := orphans }
        | some n =>
          let counter :=
            if int32 (n - 1) = 0
            then Map.erase s1.mapMasternodeOrphanCounter govobj.masternodeOutpoint
            else Map.modify s1.mapMasternodeOrphanCounter govobj.masternodeOutpoint
              (fun _ => int32 (n - 1))
          some { s1 with mapMasternodeOrphanCounter := counter
                         mapMasternodeOrphanObjects := orphans }

/-- `CGovernanceManager::CheckMasternodeOrphanObjects`, with the rate checks switched off
for the time of the call. -/
def CheckMasternodeOrphanObjects (P : Params) (env : Env) (s : CGovernanceManager) :
    Option CGovernanceManager :=
  ((Map.keys s.mapMasternodeOrphanObjects).foldl (CheckMasternodeOrphanObjects_step P env)
    (some { s with fRateChecksEnabled := false })).map
    (fun s1 => { s1 with fRateChecksEnabled := s.fRateChecksEnabled })

/-- The elements of a `std::set` of hashes, in ascending order, as a loop over the set
meets them. -/
def setElems (s : Finset uint256) : List uint256 :=
  Quot.liftOn s.1 (List.insertionSort (· ≤ ·)) (fun a b h =>
    List.eq_of_perm_of_sorted
      ((List.perm_insertionSort (· ≤ ·) a).trans
        ((show List.Perm a b from h).trans (List.perm_insertionSort (· ≤ ·) b).symm))
      (List.sorted_insertionSort (· ≤ ·) a) (List.sorted_insertionSort (· ≤ ·) b))

/-- A round of the first loop of `CheckPostponedObjects`, for the element with key
`nHash`; `none` when the assertion on the type of the object fails. -/
def CheckPostponedObjects_step (P : Params) (env : Env)
    (st : Option CGovernanceManager) (nHash : uint256) : Option CGovernanceManager :=
  match st with
  | none => none
  | some s =>
    match s.mapPostponedObjects.find nHash with
    | none => some s
    | some govobj =>
      if govobj.nObjectType = P.GOVERNANCE_OBJECT_TRIGGER then none
      else
        let c := govobj.IsCollateralValid P env
        if c.1 then
          let s1 := if govobj.IsValidLocally2 P env false && !c.2
                    then AddGovernanceObject P env govobj s else s
          some { s1 with mapPostponedObjects := Map.erase s1.mapPostponedObjects nHash }
        else if c.2 then some s
        else some { s with mapPostponedObjects := Map.erase s.mapPostponedObjects nHash }

/-- A round of the second loop of `CheckPostponedObjects`, for the hash `nHash` of
`setAdditionalRelayObjects`. -/
def CheckPostponedObjects_relay (P : Params) (env : Env) (s : CGovernanceManager)
    (nHash : uint256) : CGovernanceManager :=
  let nNow := env.GetAdjustedTime
  match s.mapObjects.find nHash with
  | some govobj =>
    let nTimestamp := govobj.nTime
    let fValid := decide (nTimestamp ≤ nNow + MAX_TIME_FUTURE_DEVIATION) &&
      decide (nTimestamp ≥ nNow - 2 * nSuperblockCycleSeconds P)
    let fReady := decide (nTimestamp ≤ nNow + MAX_TIME_FUTURE_DEVIATION - RELIABLE_PROPAGATION_TIME)
    if fValid then
      if fReady then
        let s1 := Relay P env govobj s
        { s1 with setAdditionalRelayObjects := s1.setAdditionalRelayObjects.erase nHash }
      else s
    else { s with setAdditionalRelayObjects := s.setAdditionalRelayObjects.erase nHash }
  | none => { s with setAdditionalRelayObjects := s.setAdditionalRelayObjects.erase nHash }

/-- `CGovernanceManager::CheckPostponedObjects` -/
def CheckPostponedObjects (P : Params) (env : Env) (s : CGovernanceManager) :
    Option CGovernanceManager :=
  if !env.IsSynced then some s
  else
    ((Map.keys s.mapPostponedObjects).foldl (CheckPostponedObjects_step P env) (some s)).map
      (fun s1 => (setElems s1.setAdditionalRelayObjects).foldl
        (CheckPostponedObjects_relay P env) s1)

/-! ## Runs of the manager -/

/-- The operations by which the store changes. -/
inductive Op where
  | message (pfrom : CNode) (msg : NetMsg)
  | confirmInventoryRequest (inv : CInv)
  | addGovernanceObject (govobj : CGovernanceObject)
  | addPostponedObject (govobj : CGovernanceObject)
  | checkPostponedObjects
  | checkMasternodeOrphanObjects
  | updateCachesAndClean
  | processVote (pfrom : Option CNode) (vote : CGovernanceVote)

/-- The manager after an operation; `none` when the operation does not return. -/
def Op.apply (P : Params) (env : Env) : Op → CGovernanceManager → Option CGovernanceManager
  | Op.message pfrom msg, s => ProcessModuleMessage P env pfrom msg s
  | Op.confirmInventoryRequest inv, s => some (ConfirmInventoryRequest env inv s).2
  | Op.addGovernanceObject govobj, s => some (AddGovernanceObject P env govobj s)
  | Op.addPostponedObject govobj, s => some (AddPostponedObject P govobj s)
  | Op.checkPostponedObjects, s => CheckPostponedObjects P env s
  | Op.checkMasternodeOrphanObjects, s => CheckMasternodeOrphanObjects P env s
  | Op.updateCachesAndClean, s => some (UpdateCachesAndClean P env s)
  | Op.processVote pfrom vote, s => some (ProcessVote P env pfrom vote CGovernanceException.none s).2.2

/-- The states reached from the empty store by operations that `allowed` admits, each
in its own surroundings. -/
inductive Reachable (P : Params) (allowed : Env → Op → CGovernanceManager → Prop) :
    CGovernanceManager → Prop where
  | init : Reachable P allowed CGovernanceManager.new
  | step {s t : CGovernanceManager} (env : Env) (op : Op) :
      Reachable P allowed s → allowed env op s → op.apply P env s = some t →
      Reachable P allowed t

/-- The manager after a run of operations, each in its own surroundings. -/
def run (P : Params) : List (Env × Op) → CGovernanceManager → Option CGovernanceManager
  | [], s => some s
  | (env, op) :: rest, s =>
    match op.apply P env s with
    | none => none
    | some t => run P rest t

/-! ## Predicates of the properties -/

/-- The test that `ConfirmInventoryRequest` itself makes before it asks for an item: an
object is looked for in `mapObjects` and `mapPostponedObjects`, a vote in
`cmapVoteToObject`. -/
def alreadyHave (s : CGovernanceManager) (inv : CInv) : Bool :=
  match inv.type with
  | InvType.MSG_GOVERNANCE_OBJECT =>
    s.mapObjects.contains inv.hash || s.mapPostponedObjects.contains inv.hash
  | InvType.MSG_GOVERNANCE_OBJECT_VOTE => s.cmapVoteToObject.HasKey inv.hash
  | InvType.OTHER => false

/-- The item of an inventory message is already known, in the sense of the specification
and of the handlers: an object exists in any store, that is, its hash is a key of
`mapObjects`, `mapPostponedObjects`, `mapErasedGovernanceObjects` or
`mapMasternodeOrphanObjects` (the test of the `MNGOVERNANCEOBJECT` handler for an object
already seen); a vote is known as valid or as invalid, that is, its hash is a key of
`cmapVoteToObject` or of `cmapInvalidVotes` (the tests of `ProcessVote`). -/
def alreadyKnown (s : CGovernanceManager) (inv : CInv) : Bool :=
  match inv.type with
  | InvType.MSG_GOVERNANCE_OBJECT =>
    s.mapObjects.contains inv.hash || s.mapPostponedObjects.contains inv.hash ||
    s.mapErasedGovernanceObjects.contains inv.hash ||
    s.mapMasternodeOrphanObjects.contains inv.hash
  | InvType.MSG_GOVERNANCE_OBJECT_VOTE =>
    s.cmapVoteToObject.HasKey inv.hash || s.cmapInvalidVotes.HasKey inv.hash
  | InvType.OTHER => false

/-- The requested set that matches the type of an inventory item. -/
def requestedSet (s : CGovernanceManager) : InvType → Finset uint256
  | InvType.MSG_GOVERNANCE_OBJECT => s.setRequestedObjects
  | InvType.MSG_GOVERNANCE_OBJECT_VOTE => s.setRequestedVotes
  | InvType.OTHER => ∅

/-- The requested set that does not match the type of an inventory item. -/
def otherRequestedSet (s : CGovernanceManager) : InvType → Finset uint256
  | InvType.MSG_GOVERNANCE_OBJECT => s.setRequestedVotes
  | InvType.MSG_GOVERNANCE_OBJECT_VOTE => s.setRequestedObjects
  | InvType.OTHER => ∅

/-! ## Example data -/

/-- A hash of the fields of an object, good enough to tell the objects of the examples
apart. -/
def exHashObject (f : HashedFields) : uint256 :=
  1 + f.nTime.toNat + 1000 * f.masternodeOutpoint + 1000000 * f.nRevision.toNat

/-- A hash of a vote, good enough to tell the votes of the examples apart. -/
def exHashVote (v : CGovernanceVote) : uint256 :=
  500 + v.nTime.toNat + 1000 * v.masternodeOutpoint + 1000000 * v.nVoteSignal.toNat

/-- Parameters with a superblock cycle of `100` seconds. -/
def exParams : Params where
  fLiteMode := false
  MIN_GOVERNANCE_PEER_PROTO_VERSION := 70015
  GOVERNANCE_OBJECT_PROPOSAL := 1
  GOVERNANCE_OBJECT_TRIGGER := 2
  GOVERNANCE_OBJECT_WATCHDOG := 3
  VOTE_SIGNAL_NONE := 0
  VOTE_SIGNAL_FUNDING := 1
  VOTE_SIGNAL_VALID := 2
  VOTE_SIGNAL_DELETE := 3
  VOTE_SIGNAL_ENDORSED := 4
  MAX_SUPPORTED_VOTE_SIGNAL := 4
  VOTE_OUTCOME_NONE := 0
  VOTE_OUTCOME_YES := 1
  VOTE_OUTCOME_NO := 2
  VOTE_OUTCOME_ABSTAIN := 3
  GOVERNANCE_UPDATE_MIN := 3600
  GOVERNANCE_DELETION_DELAY := 600
  GOVERNANCE_ORPHAN_EXPIRATION_TIME := 600
  GOVERNANCE_FEE_CONFIRMATIONS := 6
  GOVERNANCE_MIN_RELAY_FEE_CONFIRMATIONS := 1
  GOVERNANCE_PROPOSAL_FEE_TX := 500
  MAX_MONEY := 21000000
  nSuperblockCycle := 10
  nPowTargetSpacing := 10
  nGovernanceMinQuorum := 1
  HashObject := exHashObject
  HashVote := exHashVote
  BurnScript := fun h => [106, h]
  IsUnspendable := fun b => b.head? == some 106

/-- A synced node at time `t` that knows every masternode, with valid objects and
votes all around. -/
def exEnv (t : Int) : Env where
  GetTime := t
  GetAdjustedTime := t
  IsBlockchainSynced := true
  IsMasternodeListSynced := true
  IsWinnersListSynced := true
  IsSynced := true
  Has := fun _ => true
  GetMasternodeInfo := fun o => some o
  CheckCollateral := fun _ => CollateralStatus.COLLATERAL_OK
  AddGovernanceVote := fun _ _ => true
  CountEnabled := 10
  GetAndClearDirtyGovernanceObjectHashes := []
  AddNewTrigger := fun _ => true
  Validate := fun _ _ => true
  HashVerify := fun _ _ => true
  VoteIsValid := fun _ => true
  GetTransaction := fun h => some ([⟨[106, h], 500⟩], 0)
  ActiveHeightOf := fun _ => none
  ChainHeight := 100

/-- A trigger of masternode `mn` created at `nTime`. -/
def exTrigger (mn : COutPoint) (nTime : Int) : CGovernanceObject where
  nObjectType := 2
  nHashParent := 0
  nRevision := 1
  nTime := nTime
  nDeletionTime := 0
  nCollateralHash := 0
  vchData := []
  masternodeOutpoint := mn
  vchSig := []
  fCachedLocalValidity := false
  fCachedFunding := false
  fCachedValid := true
  fCachedDelete := false
  fCachedEndorsed := false
  fDirtyCache := true
  fExpired := false
  fUnparsable := false
  mapCurrentMNVotes := []
  cmmapOrphanVotes := CacheMultiMap.new 0
  fileVotes := []

/-- A manager that has recorded five triggers of masternode `7`, created at the times
`-300` to `-296`. -/
def exRateState : CGovernanceManager :=
  { CGovernanceManager.new with
    mapLastMasternodeObject :=
      [(7, ⟨CRateCheckBuffer.build [-300, -299, -298, -297, -296], true⟩)] }

/-- A proposal of revision `1` created at `nTime`, whose collateral transaction burns
the fee for it. -/
def exProposal (nTime : Int) : CGovernanceObject :=
  { exTrigger 0 nTime with
    nObjectType := 1
    nCollateralHash := 1000001 + nTime.toNat }

/-- The vote of masternode `mn`, cast at `nTime`, for funding the object `nParentHash`. -/
def exVote (mn : COutPoint) (nParentHash : uint256) (nTime : Int) : CGovernanceVote :=
  ⟨mn, nParentHash, 1, 1, nTime, []⟩

/-- A run that postpones the proposal `exProposal 50` and then adds it. -/
def exPostponedThenAdded : List (Env × Op) :=
  [(exEnv 100, Op.addPostponedObject (exProposal 50)),
   (exEnv 100, Op.addGovernanceObject (exProposal 50))]

/-- Surroundings like `exEnv` in which no masternode is known any more and the object
`nHash` is reported dirty. -/
def exEnvRemoved (t : Int) (nHash : uint256) : Env :=
  { exEnv t with
    Has := fun _ => false
    GetAndClearDirtyGovernanceObjectHashes := [nHash] }

/-- A run that adds the proposal `exProposal 50`, takes a vote of masternode `7` for it,
and cleans up after the masternode manager has removed that masternode. -/
def exVoteCleared : List (Env × Op) :=
  [(exEnv 100, Op.addGovernanceObject (exProposal 50)),
   (exEnv 5000, Op.processVote none (exVote 7 1000051 4000)),
   (exEnvRemoved 6000 1000051, Op.updateCachesAndClean)]

/-! ## Invariants of the stores -/

/-- `1` for true, `0` for false. -/
def bit (b : Bool) : Nat := if b then 1 else 0

/-- The number of primary stores, among `mapObjects`, `mapPostponedObjects`,
`mapMasternodeOrphanObjects` and `mapErasedGovernanceObjects`, that have the key
`nHash`. -/
def holders (s : CGovernanceManager) (nHash : uint256) : Nat :=
  bit (s.mapObjects.contains nHash) + bit (s.mapPostponedObjects.contains nHash) +
  bit (s.mapMasternodeOrphanObjects.contains nHash) +
  bit (s.mapErasedGovernanceObjects.contains nHash)

/-- Each hash is a key of at most one primary store. -/
def AtMostOneStore (s : CGovernanceManager) : Prop := ∀ nHash : uint256, holders s nHash ≤ 1

/-- The operations of the store: the object handler, with the requests that let it
accept an object, `AddGovernanceObject`, `AddPostponedObject`, `CheckPostponedObjects`,
`CheckMasternodeOrphanObjects` and `UpdateCachesAndClean`. -/
def storeOp : Op → Bool
  | Op.message _ (NetMsg.MNGOVERNANCEOBJECT _) => true
  | Op.confirmInventoryRequest _ => true
  | Op.addGovernanceObject _ => true
  | Op.addPostponedObject _ => true
  | Op.checkPostponedObjects => true
  | Op.checkMasternodeOrphanObjects => true
  | Op.updateCachesAndClean => true
  | _ => false

/-- Runs of the operations of the store. -/
def storeOps (_ : Env) (op : Op) (_ : CGovernanceManager) : Prop := storeOp op = true

/-- Runs of any operations in which `AddGovernanceObject` and `AddPostponedObject` are
called, as by the object handler, only for an object whose hash no primary store has. -/
def guardedOps (P : Params) (_ : Env) (op : Op) (s : CGovernanceManager) : Prop :=
  match op with
  | Op.addGovernanceObject govobj => holders s (govobj.GetHash P) = 0
  | Op.addPostponedObject govobj => holders s (govobj.GetHash P) = 0
  | _ => True

/-- The operations on votes: `ProcessVote`, `AddGovernanceObject` and
`UpdateCachesAndClean`. -/
def voteOp : Op → Bool
  | Op.processVote _ _ => true
  | Op.addGovernanceObject _ => true
  | Op.updateCachesAndClean => true
  | _ => false

/-- Runs of the operations on votes. -/
def voteOps (_ : Env) (op : Op) (_ : CGovernanceManager) : Prop := voteOp op = true

/-- Every masternode with a vote on an object that is reported dirty is still known, so
that `ClearMasternodeVotes` removes no vote. -/
def clearsNothing (env : Env) (s : CGovernanceManager) : Bool :=
  env.GetAndClearDirtyGovernanceObjectHashes.all (fun nHash =>
    match s.mapObjects.find nHash with
    | some o => o.mapCurrentMNVotes.all (fun it => env.Has it.1)
    | none => true)

/-- Runs of the operations on votes in which `UpdateCachesAndClean` clears no vote. -/
def quietVoteOps (env : Env) (op : Op) (s : CGovernanceManager) : Prop :=
  voteOp op = true ∧
  match op with
  | Op.updateCachesAndClean => clearsNothing env s = true
  | _ => True

instance (env : Env) (op : Op) (s : CGovernanceManager) : Decidable (storeOps env op s) :=
  inferInstanceAs (Decidable (storeOp op = true))

instance (P : Params) (env : Env) (op : Op) (s : CGovernanceManager) :
    Decidable (guardedOps P env op s) :=
  match op with
  | Op.addGovernanceObject govobj =>
    inferInstanceAs (Decidable (holders s (govobj.GetHash P) = 0))
  | Op.addPostponedObject govobj =>
    inferInstanceAs (Decidable (holders s (govobj.GetHash P) = 0))
  | Op.message _ _ => isTrue trivial
  | Op.confirmInventoryRequest _ => isTrue trivial
  | Op.checkPostponedObjects => isTrue trivial
  | Op.checkMasternodeOrphanObjects => isTrue trivial
  | Op.updateCachesAndClean => isTrue trivial
  | Op.processVote _ _ => isTrue trivial

instance (env : Env) (op : Op) (s : CGovernanceManager) : Decidable (voteOps env op s) :=
  inferInstanceAs (Decidable (voteOp op = true))

instance (env : Env) (op : Op) (s : CGovernanceManager) : Decidable (quietVoteOps env op s) :=
  match op with
  | Op.updateCachesAndClean =>
    inferInstanceAs (Decidable (voteOp Op.updateCachesAndClean = true ∧
      clearsNothing env s = true))
  | Op.addGovernanceObject govobj =>
    inferInstanceAs (Decidable (voteOp (Op.addGovernanceObject govobj) = true ∧ True))
  | Op.addPostponedObject govobj =>
    inferInstanceAs (Decidable (voteOp (Op.addPostponedObject govobj) = true ∧ True))
  | Op.message pfrom msg =>
    inferInstanceAs (Decidable (voteOp (Op.message pfrom msg) = true ∧ True))
  | Op.confirmInventoryRequest inv =>
    inferInstanceAs (Decidable (voteOp (Op.confirmInventoryRequest inv) = true ∧ True))
  | Op.checkPostponedObjects =>
    inferInstanceAs (Decidable (voteOp Op.checkPostponedObjects = true ∧ True))
  | Op.checkMasternodeOrphanObjects =>
    inferInstanceAs (Decidable (voteOp Op.checkMasternodeOrphanObjects = true ∧ True))
  | Op.processVote pfrom vote =>
    inferInstanceAs (Decidable (voteOp (Op.processVote pfrom vote) = true ∧ True))

/-- The operations of a run are admitted by `allowed`, each in the state it is run in,
and each of them returns. -/
def runOk (P : Params) (allowed : Env → Op → CGovernanceManager → Prop) :
    List (Env × Op) → CGovernanceManager → Prop
  | [], _ => True
  | (env, op) :: rest, s =>
    allowed env op s ∧
    match op.apply P env s with
    | none => False
    | some t => runOk P allowed rest t

/-- `runOk` can be decided when `allowed` can. -/
def runOk.decide (P : Params) (allowed : Env → Op → CGovernanceManager → Prop)
    [∀ env op s, Decidable (allowed env op s)] :
    ∀ (trace : List (Env × Op)) (s : CGovernanceManager), Decidable (runOk P allowed trace s)
  | [], _ => isTrue trivial
  | (env, op) :: rest, s =>
    match h : op.apply P env s with
    | none => isFalse (by simp [runOk, h])
    | some t =>
      match runOk.decide P allowed rest t with
      | isTrue h2 =>
        if h1 : allowed env op s then isTrue (by simp [runOk, h, h1, h2])
        else isFalse (by simp [runOk, h1])
      | isFalse h2 => isFalse (by simp [runOk, h, h2])

instance (P : Params) (allowed : Env → Op → CGovernanceManager → Prop)
    [∀ env op s, Decidable (allowed env op s)] (trace : List (Env × Op))
    (s : CGovernanceManager) : Decidable (runOk P allowed trace s) :=
  runOk.decide P allowed trace s

/-- The manager after the run, the manager before it when an operation does not return. -/
def runD (P : Params) (trace : List (Env × Op)) (s : CGovernanceManager) : CGovernanceManager :=
  (run P trace s).getD s

/-- The entries of `cmapVoteToObject` point to elements of `mapObjects`. -/
def VoteIndexValid (s : CGovernanceManager) : Prop :=
  ∀ e ∈ s.cmapVoteToObject.listItems, s.mapObjects.contains e.2 = true

/-- The entries of `cmapVoteToObject` point to elements of `mapObjects` whose vote file
contains the vote. -/
def VoteIndexSound (P : Params) (s : CGovernanceManager) : Prop :=
  ∀ e ∈ s.cmapVoteToObject.listItems,
    ∃ o, s.mapObjects.find e.2 = some o ∧ o.HasVote P e.1 = true

/-- The primary stores and the vote index are the same in `s` and `t`. -/
def SameStore (s t : CGovernanceManager) : Prop :=
  t.mapObjects = s.mapObjects ∧ t.mapPostponedObjects = s.mapPostponedObjects ∧
  t.mapMasternodeOrphanObjects = s.mapMasternodeOrphanObjects ∧
  t.mapErasedGovernanceObjects = s.mapErasedGovernanceObjects ∧
  t.cmapVoteToObject = s.cmapVoteToObject

/-- The object `o1` has the hashed fields, the type, the vote file and the current votes
of `o`. -/
def SameContent (o o1 : CGovernanceObject) : Prop :=
  o1.nHashParent = o.nHashParent ∧ o1.nRevision = o.nRevision ∧ o1.nTime = o.nTime ∧
  o1.vchData = o.vchData ∧ o1.masternodeOutpoint = o.masternodeOutpoint ∧
  o1.vchSig = o.vchSig ∧ o1.nObjectType = o.nObjectType ∧ o1.fileVotes = o.fileVotes ∧
  o1.mapCurrentMNVotes = o.mapCurrentMNVotes

/-- The objects in `mapPostponedObjects` and `mapMasternodeOrphanObjects` are stored under
their hash. -/
def KeysMatch (P : Params) (s : CGovernanceManager) : Prop :=
  (∀ k o, s.mapPostponedObjects.find k = some o → o.GetHash P = k) ∧
  (∀ k p, s.mapMasternodeOrphanObjects.find k = some p → p.1.GetHash P = k)

/-- Each hash is a key of at most one primary store, and the postponed objects and the
orphan objects are stored under their hash. -/
def StoreInv (P : Params) (s : CGovernanceManager) : Prop := AtMostOneStore s ∧ KeysMatch P s

/-- The entries of `cmapVoteToObject` point to elements of `mapObjects` of which, with the
hash of the vote, `Q` holds. -/
def IndexInv (Q : CGovernanceObject → uint256 → Prop) (s : CGovernanceManager) : Prop :=
  ∀ e ∈ s.cmapVoteToObject.listItems, ∃ o, s.mapObjects.find e.2 = some o ∧ Q o e.1

/-- A run in which a peer sends the proposal `exProposal 50` after it has been requested,
and the manager then looks after its stores. -/
def exObjectRun : List (Env × Op) :=
  [(exEnv 100, Op.confirmInventoryRequest ⟨InvType.MSG_GOVERNANCE_OBJECT, 1000051⟩),
   (exEnv 100, Op.message ⟨3, 70015⟩ (NetMsg.MNGOVERNANCEOBJECT (exProposal 50))),
   (exEnv 100, Op.checkPostponedObjects),
   (exEnv 200, Op.updateCachesAndClean)]

/-- A run that adds the proposal `exProposal 50`, takes a vote of masternode `7` for it,
and cleans up with every masternode still known. -/
def exVoteKept : List (Env × Op) :=
  [(exEnv 100, Op.addGovernanceObject (exProposal 50)),
   (exEnv 5000, Op.processVote none (exVote 7 1000051 4000)),
   (exEnv 6000, Op.updateCachesAndClean)]


/-! ## Further examples -/

/-- Surroundings like `exEnv` in which the masternode of no object is known. -/
def exEnvNoMasternode (t : Int) : Env :=
  { exEnv t with
    GetMasternodeInfo := fun _ => none
    CheckCollateral := fun _ => CollateralStatus.COLLATERAL_INVALID_PUBKEY }

/-- A run in which peer `3` sends at time `100` the trigger `exTrigger 7 50`, which has
been requested, while masternode `7` is not known. -/
def exOrphanRun : List (Env × Op) :=
  [(exEnvNoMasternode 100, Op.confirmInventoryRequest ⟨InvType.MSG_GOVERNANCE_OBJECT, 1007051⟩),
   (exEnvNoMasternode 100, Op.message ⟨3, 70015⟩ (NetMsg.MNGOVERNANCEOBJECT (exTrigger 7 50)))]

/-- The run `exOrphanRun` followed at time `101` by `CheckMasternodeOrphanObjects`, which
finds the orphan expired and drops it. -/
def exOrphanDroppedRun : List (Env × Op) :=
  exOrphanRun ++ [(exEnvNoMasternode 101, Op.checkMasternodeOrphanObjects)]

/-- A run in which peer `500` sends at time `100` the requested trigger `exTrigger 7 50`
while masternode `7` is not known, and `CheckMasternodeOrphanObjects` runs at time `101`
with the masternode known: the orphan is valid now and is added to the objects. -/
def exOrphanPromotedRun : List (Env × Op) :=
  [(exEnvNoMasternode 100, Op.confirmInventoryRequest ⟨InvType.MSG_GOVERNANCE_OBJECT, 1007051⟩),
   (exEnvNoMasternode 100, Op.message ⟨500, 70015⟩ (NetMsg.MNGOVERNANCEOBJECT (exTrigger 7 50))),
   (exEnv 101, Op.checkMasternodeOrphanObjects)]

/-- Surroundings like `exEnv` in which every collateral transaction is in the block `9`
at the tip of the active chain, so that it has one confirmation. -/
def exEnvYoung (t : Int) : Env :=
  { exEnv t with
    GetTransaction := fun h => some ([⟨[106, h], 500⟩], 9)
    ActiveHeightOf := fun h => if h = 9 then some 100 else none }

/-- A run in which peer `3` sends at time `100` the proposal `exProposal 50`, which has
been requested, while its collateral has one confirmation. -/
def exYoungRun : List (Env × Op) :=
  [(exEnvYoung 100, Op.confirmInventoryRequest ⟨InvType.MSG_GOVERNANCE_OBJECT, 1000051⟩),
   (exEnvYoung 100, Op.message ⟨3, 70015⟩ (NetMsg.MNGOVERNANCEOBJECT (exProposal 50)))]

/-- The proposal `exProposal 50` after the vote `exVote 7 1000051 4000` has been processed
at time `5000` with the rate checks enabled. -/
def exVotedOnce : ObjectVoteResult :=
  (exProposal 50).ProcessVote exParams (exEnv 5000) true false (exVote 7 1000051 4000)
    CGovernanceException.none

/-- The object of `exVotedOnce` after the vote `exVote 7 1000051 4001` of the same
masternode for the same signal has been processed one second later. -/
def exVotedTwice : ObjectVoteResult :=
  exVotedOnce.govobj.ProcessVote exParams (exEnv 5001) true false (exVote 7 1000051 4001)
    CGovernanceException.none

/-- What a call of `MasternodeRateCheck` for `govobj` with the result `fResult` may have
done to the manager: nothing but `mapLastMasternodeObject` differs, it has the keys it
had, every buffer is as it was, and a status that differs is that of the masternode of
`govobj`, was `true` and is `false`, with `fUpdateFailStatus` set and the result
`false`. -/
def RateCheckFrame (govobj : CGovernanceObject) (fUpdateFailStatus fResult : Bool)
    (s t : CGovernanceManager) : Prop :=
  t = { s with mapLastMasternodeObject := t.mapLastMasternodeObject } ∧
  Map.keys t.mapLastMasternodeObject = Map.keys s.mapLastMasternodeObject ∧
  (∀ mn, (t.mapLastMasternodeObject.find mn).map (fun r => r.triggerBuffer) =
    (s.mapLastMasternodeObject.find mn).map (fun r => r.triggerBuffer)) ∧
  (∀ mn, (t.mapLastMasternodeObject.find mn).map (fun r => r.fStatusOK) ≠
      (s.mapLastMasternodeObject.find mn).map (fun r => r.fStatusOK) →
    mn = govobj.masternodeOutpoint ∧
    (s.mapLastMasternodeObject.find mn).map (fun r => r.fStatusOK) = some true ∧
    (t.mapLastMasternodeObject.find mn).map (fun r => r.fStatusOK) = some false ∧
    fUpdateFailStatus = true ∧ fResult = false)

/-- The object stored under `nHash`, of type `nObjectType` and creation time `nTime`, is
either still in `mapObjects` and has no tombstone, or it has been evicted and has the
tombstone with the expiry `nTimeExpired`. -/
def Tracked (nHash : uint256) (nObjectType nTime nTimeExpired : Int)
    (s : CGovernanceManager) : Prop :=
  (∃ o, s.mapObjects.find nHash = some o ∧ o.nObjectType = nObjectType ∧ o.nTime = nTime ∧
    s.mapErasedGovernanceObjects.contains nHash = false) ∨
  (s.mapObjects.contains nHash = false ∧
    s.mapErasedGovernanceObjects.find nHash = some nTimeExpired)

/-- The expiry that `UpdateCachesAndClean` computes for the tombstone of an object of type
`nObjectType` created at `nTime`. -/
def tombstoneExpiry (P : Params) (nObjectType nTime : Int) : Int :=
  if nObjectType = P.GOVERNANCE_OBJECT_PROPOSAL then INT64_MAX
  else int64 (nTime + 2 * nSuperblockCycleSeconds P + P.GOVERNANCE_DELETION_DELAY)

/-- Surroundings like `exEnv` in which the trigger manager takes no trigger. -/
def exEnvNoTrigger (t : Int) : Env := { exEnv t with AddNewTrigger := fun _ => false }

/-- Surroundings like `exEnv` in which every proposal has expired. -/
def exEnvExpired (t : Int) : Env :=
  { exEnv t with Validate := fun _ fCheckExpiration => !fCheckExpiration }

/-- The manager after `AddGovernanceObject` of the trigger `exTrigger 7 50` at time `100`,
the trigger manager refusing it: the trigger is flagged for deletion since `100`. -/
def exRefusedTrigger : CGovernanceManager :=
  AddGovernanceObject exParams (exEnvNoTrigger 100) (exTrigger 7 50) CGovernanceManager.new

/-- A proposal with the hashed fields of `exTrigger 7 50`, and so with its hash. -/
def exTwin : CGovernanceObject :=
  { exTrigger 7 50 with nObjectType := 1, nCollateralHash := 1007051 }

/-- A run in which the refused trigger `exTrigger 7 50` is evicted at time `750`, the
proposal `exTwin` is added under the same hash at `760` and found expired at `800`. -/
def exTwinRun : List (Env × Op) :=
  [(exEnvNoTrigger 100, Op.addGovernanceObject (exTrigger 7 50)),
   (exEnv 750, Op.updateCachesAndClean),
   (exEnv 760, Op.addGovernanceObject exTwin),
   (exEnvExpired 800, Op.updateCachesAndClean)]

/-- The two loops of `UpdateCachesAndClean`, over the dirty hashes and over `mapObjects`:
the manager before the expired tombstones are swept. -/
def UpdateCachesAndClean_loops (P : Params) (env : Env) (s : CGovernanceManager) :
    CGovernanceManager :=
  let s1 := env.GetAndClearDirtyGovernanceObjectHashes.foldl (UpdateCachesAndClean_dirty env) s
  (Map.keys s1.mapObjects).foldl (UpdateCachesAndClean_step P env) s1

/-- The proposal `exProposal 50` with a vote on file and other flags, deletion time and
collateral hash. -/
def exTouched : CGovernanceObject :=
  { exVotedOnce.govobj with
    fCachedFunding := true
    fCachedDelete := true
    fExpired := true
    nDeletionTime := 100
    nCollateralHash := 5 }

/-- A run in which peer `3` sends at time `100` the requested trigger `exTrigger 7 50`,
which the trigger manager refuses, so that it is flagged for deletion, and the clean-up
at time `750` evicts it and leaves its tombstone. -/
def exEvictedRun : List (Env × Op) :=
  [(exEnvNoTrigger 100, Op.confirmInventoryRequest ⟨InvType.MSG_GOVERNANCE_OBJECT, 1007051⟩),
   (exEnvNoTrigger 100, Op.message ⟨3, 70015⟩ (NetMsg.MNGOVERNANCEOBJECT (exTrigger 7 50))),
   (exEnv 750, Op.updateCachesAndClean)]

/-- The announcement of the trigger `exTrigger 7 50` at time `t`, followed by the trigger
itself from peer `4`. -/
def exAnnounced (t : Int) : List (Env × Op) :=
  [(exEnv t, Op.confirmInventoryRequest ⟨InvType.MSG_GOVERNANCE_OBJECT, 1007051⟩),
   (exEnv t, Op.message ⟨4, 70015⟩ (NetMsg.MNGOVERNANCEOBJECT (exTrigger 7 50)))]

/-- A manager that has recorded five triggers of masternode `7`, created at the times
`10` to `14`. -/
def exBusyState : CGovernanceManager :=
  { CGovernanceManager.new with
    mapLastMasternodeObject := [(7, ⟨CRateCheckBuffer.build [10, 11, 12, 13, 14], true⟩)] }

end Governance

namespace CoinJoin

open PoolState PoolMessage PoolStatusUpdate

/-! ## Properties -/

/-! ### Bitwise facts on denomination masks -/

theorem int_eq_of_testBit_eq : ∀ {x y : Int}, (∀ i, x.testBit i = y.testBit i) → x = y
  | (m : ℕ), (n : ℕ), h => by
    have : m = n := Nat.eq_of_testBit_eq (fun i => by simpa [Int.testBit] using h i)
    rw [this]
  | (m : ℕ), Int.negSucc n, h => by
    exfalso
    have hm : m < 2 ^ (m + n) :=
      lt_of_lt_of_le (Nat.lt_two_pow m) (Nat.pow_le_pow_right (by decide) (by omega))
    have hn : n < 2 ^ (m + n) :=
      lt_of_lt_of_le (Nat.lt_two_pow n) (Nat.pow_le_pow_right (by decide) (by omega))
    have := h (m + n)
    simp [Int.testBit, Nat.testBit_lt_two_pow hm, Nat.testBit_lt_two_pow hn] at this
  | Int.negSucc m, (n : ℕ), h => by
    exfalso
    have hm : m < 2 ^ (m + n) :=
      lt_of_lt_of_le (Nat.lt_two_pow m) (Nat.pow_le_pow_right (by decide) (by omega))
    have hn : n < 2 ^ (m + n) :=
      lt_of_lt_of_le (Nat.lt_two_pow n) (Nat.pow_le_pow_right (by decide) (by omega))
    have := h (m + n)
    simp [Int.testBit, Nat.testBit_lt_two_pow hm, Nat.testBit_lt_two_pow hn] at this
  | Int.negSucc m, Int.negSucc n, h => by
    have : m = n := Nat.eq_of_testBit_eq (fun i => by simpa [Int.testBit] using h i)
    rw [this]

theorem int_testBit_zero (i : Nat) : Int.testBit 0 i = false := by
  show Int.testBit ((0 : ℕ) : Int) i = false
  simp [Int.testBit]

theorem int_xor_eq_lor_iff (m d : Int) : Int.xor m d = Int.lor m d ↔ Int.land m d = 0 := by
  constructor
  · intro h
    apply int_eq_of_testBit_eq
    intro i
    have hi := congrArg (fun z => Int.testBit z i) h
    simp only [Int.testBit_lxor, Int.testBit_lor] at hi
    rw [Int.testBit_land, int_testBit_zero]
    cases hm : m.testBit i <;> cases hd : d.testBit i <;> simp_all
  · intro h
    apply int_eq_of_testBit_eq
    intro i
    have hi := congrArg (fun z => Int.testBit z i) h
    simp only [Int.testBit_land, int_testBit_zero] at hi
    rw [Int.testBit_lxor, Int.testBit_lor]
    cases hm : m.testBit i <;> cases hd : d.testBit i <;> simp_all

theorem int_lor_eq_zero {m d : Int} (h : Int.lor m d = 0) : m = 0 := by
  apply int_eq_of_testBit_eq
  intro i
  have hi := congrArg (fun z => Int.testBit z i) h
  simp only [Int.testBit_lor, int_testBit_zero] at hi
  rw [int_testBit_zero]
  cases hm : m.testBit i <;> simp_all

/-! ### Joining an existing session -/

/-- C1: the masks `m` and `d` satisfy `(m ^ d) == (m | d)` iff `(m & d) == 0`; hence
`AddUserToExistingSession`, in masternode mode, with a session id other than zero, in
state `Queue` or `AcceptingEntries` and for a denomination in the valid range,
returns `true` iff `nSessionDenom & nDenom != 0`, and returns `false` with `ERR_DENOM`
otherwise. -/
theorem AddUserToExistingSession_compatible (P : Params) (s : CCoinJoinServer)
    (nDenom : CAmount) (nMessageID : PoolMessage)
    (hmn : P.fMasternodeMode = true) (hid : s.nSessionID ≠ 0)
    (hst : s.nState = POOL_STATE_QUEUE ∨ s.nState = POOL_STATE_ACCEPTING_ENTRIES)
    (hrange : P.IsInDenomRange nDenom = true) :
    (∀ m d : CAmount, Int.xor m d = Int.lor m d ↔ Int.land m d = 0) ∧
    ((AddUserToExistingSession P nDenom nMessageID s).1 = true ↔
      Int.land s.nSessionDenom nDenom ≠ 0) ∧
    (Int.land s.nSessionDenom nDenom = 0 →
      (AddUserToExistingSession P nDenom nMessageID s).1 = false ∧
      (AddUserToExistingSession P nDenom nMessageID s).2.1 = ERR_DENOM) := by
  refine ⟨int_xor_eq_lor_iff, ?_, ?_⟩
  · have hst' : ¬ (s.nState ≠ POOL_STATE_QUEUE ∧ s.nState ≠ POOL_STATE_ACCEPTING_ENTRIES) := by
      rcases hst with h | h <;> simp [h]
    by_cases hx : Int.xor s.nSessionDenom nDenom = Int.lor s.nSessionDenom nDenom
    · have h0 := (int_xor_eq_lor_iff _ _).1 hx
      simp [AddUserToExistingSession, hmn, hid, hst', hrange, hx, h0]
    · have h0 : Int.land s.nSessionDenom nDenom ≠ 0 := fun h => hx ((int_xor_eq_lor_iff _ _).2 h)
      simp [AddUserToExistingSession, hmn, hid, hst', hrange, hx, h0]
  · intro h0
    have hst' : ¬ (s.nState ≠ POOL_STATE_QUEUE ∧ s.nState ≠ POOL_STATE_ACCEPTING_ENTRIES) := by
      rcases hst with h | h <;> simp [h]
    have hx := (int_xor_eq_lor_iff s.nSessionDenom nDenom).2 h0
    simp [AddUserToExistingSession, hmn, hid, hst', hrange, hx]

/-- Witness of C1: a session with mask `0b0001` and a new user with denomination `0b0011`. -/
theorem AddUserToExistingSession_compatible_witness :
    (AddUserToExistingSession exParams 3 MSG_NOERR (exQueueState 1)).1 = true ∧
    ((∀ m d : CAmount, Int.xor m d = Int.lor m d ↔ Int.land m d = 0) ∧
    ((AddUserToExistingSession exParams 3 MSG_NOERR (exQueueState 1)).1 = true ↔
      Int.land (exQueueState 1).nSessionDenom 3 ≠ 0) ∧
    (Int.land (exQueueState 1).nSessionDenom 3 = 0 →
      (AddUserToExistingSession exParams 3 MSG_NOERR (exQueueState 1)).1 = false ∧
      (AddUserToExistingSession exParams 3 MSG_NOERR (exQueueState 1)).2.1 = ERR_DENOM)) :=
  ⟨by decide,
   AddUserToExistingSession_compatible exParams (exQueueState 1) 3 MSG_NOERR
    (by decide) (by decide) (Or.inl (by decide)) (by decide)⟩

/-- C2: a call of `AddUserToExistingSession` that returns `true` leaves the mask
`old nSessionDenom | nDenom`, in which every bit of the old mask is still set; a call
that returns `false` changes neither `nSessionDenom` nor the pool state nor the
session id (nor anything else). -/
theorem AddUserToExistingSession_frame (P : Params) (s : CCoinJoinServer)
    (nDenom : CAmount) (nMessageID : PoolMessage) :
    ((AddUserToExistingSession P nDenom nMessageID s).1 = true →
      (AddUserToExistingSession P nDenom nMessageID s).2.2.nSessionDenom =
          Int.lor s.nSessionDenom nDenom ∧
        ∀ i : Nat, s.nSessionDenom.testBit i = true →
          (AddUserToExistingSession P nDenom nMessageID s).2.2.nSessionDenom.testBit i = true) ∧
    ((AddUserToExistingSession P nDenom nMessageID s).1 = false →
      (AddUserToExistingSession P nDenom nMessageID s).2.2.nSessionDenom = s.nSessionDenom ∧
      (AddUserToExistingSession P nDenom nMessageID s).2.2.nState = s.nState ∧
      (AddUserToExistingSession P nDenom nMessageID s).2.2.nSessionID = s.nSessionID ∧
      (AddUserToExistingSession P nDenom nMessageID s).2.2 = s) := by
  unfold AddUserToExistingSession
  split_ifs with h1 h2 h3 h4
  all_goals simp
  intro i hi
  exact Or.inl hi

/-! ### Queue updates and reset -/

/-- What a returning `UpdateQueue` and a returning `SetNull` leave behind. -/
theorem UpdateQueueF_SetNullF_post (P : Params) (env : Env) : ∀ fuel : Nat,
    (∀ update s t, UpdateQueueF P env fuel update s = some t →
      t.nTimeStart = s.nTimeStart ∧ t.nCachedBlockHeight = s.nCachedBlockHeight ∧
      ((IsNullSession P t ∧ s.vecDenom.filter (fun p => env.ForNode p.1) = [] ∧
          P.statusCode update > 1 ∧ s.activeQueue.status ≠ update) ∨
        (SameSession s t ∧
          (t.vecDenom = s.vecDenom ∨
            (t.vecDenom = s.vecDenom.filter (fun p => env.ForNode p.1) ∧ t.vecDenom ≠ []))))) ∧
    (∀ s t, SetNullF P env fuel s = some t →
      t.nTimeStart = s.nTimeStart ∧ t.nCachedBlockHeight = s.nCachedBlockHeight ∧
      IsNullSession P t) := by
  intro fuel
  induction fuel with
  | zero =>
    constructor
    · intro update s t h; simp [UpdateQueueF] at h
    · intro s t h; simp [SetNullF] at h
  | succ n ih =>
    constructor
    · intro update s t h
      simp only [UpdateQueueF] at h
      split_ifs at h with h1 h2 h3 h4 h5
      · cases h; exact ⟨rfl, rfl, Or.inr ⟨⟨rfl, rfl, rfl, rfl, rfl, rfl⟩, Or.inl rfl⟩⟩
      · cases h; exact ⟨rfl, rfl, Or.inr ⟨⟨rfl, rfl, rfl, rfl, rfl, rfl⟩, Or.inl rfl⟩⟩
      · obtain ⟨a, b, c⟩ := ih.2 _ _ h
        exact ⟨a, b, Or.inl ⟨c, List.isEmpty_iff.1 h5, h4, h3⟩⟩
      · cases h
        refine ⟨rfl, rfl, Or.inr ⟨⟨rfl, rfl, rfl, rfl, rfl, rfl⟩, Or.inr ⟨rfl, ?_⟩⟩⟩
        intro hnil
        apply h5
        simp only at hnil
        simp [hnil]
      · cases h; exact ⟨rfl, rfl, Or.inr ⟨⟨rfl, rfl, rfl, rfl, rfl, rfl⟩, Or.inl rfl⟩⟩
      · cases h; exact ⟨rfl, rfl, Or.inr ⟨⟨rfl, rfl, rfl, rfl, rfl, rfl⟩, Or.inl rfl⟩⟩
    · intro s t h
      rw [SetNullF] at h
      cases hu : UpdateQueueF P env n STATUS_CLOSED s with
      | none => simp [hu] at h
      | some s1 =>
        simp only [hu] at h
        cases h
        obtain ⟨a, b, _⟩ := ih.1 _ _ _ hu
        exact ⟨a, b, rfl, rfl, rfl, rfl, rfl, rfl, rfl, rfl⟩

/-- `UpdateQueue(STATUS_CLOSED)` on a queue that is closed already does nothing. -/
theorem UpdateQueueF_closed (P : Params) (env : Env) (k : Nat) (s : CCoinJoinServer)
    (h : s.activeQueue.status = STATUS_CLOSED) :
    UpdateQueueF P env (k + 1) STATUS_CLOSED s = some s := by
  simp only [UpdateQueueF]
  split_ifs <;> first | rfl | contradiction

/-- `SetNull` returns when the active queue is closed already. -/
theorem SetNullF_of_closed (P : Params) (env : Env) (k : Nat) (s : CCoinJoinServer)
    (h : s.activeQueue.status = STATUS_CLOSED) :
    ∃ t, SetNullF P env (k + 2) s = some t := by
  rw [SetNullF, UpdateQueueF_closed P env k s h]
  exact ⟨_, rfl⟩

/-- `UpdateQueue(STATUS_CLOSED)` returns. -/
theorem UpdateQueueF_closed_isSome (P : Params) (env : Env) (k : Nat) (s : CCoinJoinServer) :
    ∃ t, UpdateQueueF P env (k + 3) STATUS_CLOSED s = some t := by
  simp only [UpdateQueueF]
  split_ifs
  · exact ⟨_, rfl⟩
  · exact ⟨_, rfl⟩
  · exact SetNullF_of_closed P env k _ rfl
  · exact ⟨_, rfl⟩
  · exact ⟨_, rfl⟩
  · exact ⟨_, rfl⟩

/-- `SetNull` returns: a call depth of four is enough. -/
theorem SetNullF_isSome (P : Params) (env : Env) (k : Nat) (s : CCoinJoinServer) :
    ∃ t, SetNullF P env (k + 4) s = some t := by
  obtain ⟨t, ht⟩ := UpdateQueueF_closed_isSome P env k s
  rw [SetNullF, ht]
  exact ⟨_, rfl⟩

/-- `UpdateQueue` returns: a call depth of five is enough. -/
theorem UpdateQueueF_isSome (P : Params) (env : Env) (k : Nat) (update : PoolStatusUpdate)
    (s : CCoinJoinServer) :
    ∃ t, UpdateQueueF P env (k + 5) update s = some t := by
  simp only [UpdateQueueF]
  split_ifs
  · exact ⟨_, rfl⟩
  · exact ⟨_, rfl⟩
  · exact SetNullF_isSome P env k _
  · exact ⟨_, rfl⟩
  · exact ⟨_, rfl⟩
  · exact ⟨_, rfl⟩

/-- After `SetNull` there is no session; start time and cached height are kept. -/
theorem SetNull_post (P : Params) (env : Env) (s : CCoinJoinServer) :
    (SetNull P env s).nTimeStart = s.nTimeStart ∧
    (SetNull P env s).nCachedBlockHeight = s.nCachedBlockHeight ∧
    IsNullSession P (SetNull P env s) := by
  obtain ⟨t, ht⟩ := SetNullF_isSome P env 4 s
  have := (UpdateQueueF_SetNullF_post P env 8).2 s t ht
  simpa [SetNull, callDepth, ht] using this

/-- After `UpdateQueue` either the session has been reset, or it is as before but for
the participants that could not be reached. -/
theorem UpdateQueue_post (P : Params) (env : Env) (update : PoolStatusUpdate)
    (s : CCoinJoinServer) :
    (UpdateQueue P env update s).nTimeStart = s.nTimeStart ∧
    (UpdateQueue P env update s).nCachedBlockHeight = s.nCachedBlockHeight ∧
    ((IsNullSession P (UpdateQueue P env update s) ∧
        s.vecDenom.filter (fun p => env.ForNode p.1) = [] ∧
        P.statusCode update > 1 ∧ s.activeQueue.status ≠ update) ∨
      (SameSession s (UpdateQueue P env update s) ∧
        ((UpdateQueue P env update s).vecDenom = s.vecDenom ∨
          ((UpdateQueue P env update s).vecDenom = s.vecDenom.filter (fun p => env.ForNode p.1) ∧
            (UpdateQueue P env update s).vecDenom ≠ [])))) := by
  obtain ⟨t, ht⟩ := UpdateQueueF_isSome P env 3 update s
  have := (UpdateQueueF_SetNullF_post P env 8).1 update s t ht
  simpa [UpdateQueue, callDepth, ht] using this

/-- C5: `SetNull` returns, and afterwards the participant list is empty, the entry list
is empty, the active queue is the default queue, the queue vector is empty and the
pool state is `Idle`. -/
theorem SetNull_clears (P : Params) (env : Env) (s : CCoinJoinServer) :
    ∃ t, SetNullF P env callDepth s = some t ∧ SetNull P env s = t ∧
      t.vecDenom = [] ∧ t.vecEntries = [] ∧ t.activeQueue = P.nullQueue ∧
      t.vecCoinJoinQueue = [] ∧ t.nState = POOL_STATE_IDLE := by
  obtain ⟨t, ht⟩ := SetNullF_isSome P env 4 s
  obtain ⟨_, _, h1, h2, h3, h4, _, _, _, h8⟩ := (UpdateQueueF_SetNullF_post P env 8).2 s t ht
  exact ⟨t, ht, by simp [SetNull, callDepth, ht], h3, h2, h4, h8, h1⟩

/-! ### The final transaction -/

theorem filter_idem {α : Type} (p : α → Bool) (l : List α) :
    (l.filter p).filter p = l.filter p := by
  rw [List.filter_filter]
  congr 1
  funext a
  cases p a <;> rfl

theorem CreateFinalTransactionF_post (P : Params) (env : Env) : ∀ fuel : Nat,
    (∀ s t, CreateFinalTransactionF P env fuel s = some t →
      t.nTimeStart = s.nTimeStart ∧ t.nCachedBlockHeight = s.nCachedBlockHeight ∧
      (IsNullSession P t ∨
        (SameButEntries s t ∧ t.vecEntries = s.vecEntries.filter (fun e => env.ForNode e.addr) ∧
          t.finalPartiallySignedTransaction = buildFinalPSBT env t.vecEntries))) ∧
    (∀ txFinal s t, RelayFinalTransactionF P env fuel txFinal s = some t →
      t.nTimeStart = s.nTimeStart ∧ t.nCachedBlockHeight = s.nCachedBlockHeight ∧
      (IsNullSession P t ∨
        (SameButEntries s t ∧ t.vecEntries = s.vecEntries.filter (fun e => env.ForNode e.addr) ∧
          ((t.finalPartiallySignedTransaction = s.finalPartiallySignedTransaction ∧
              t.vecEntries = s.vecEntries) ∨
            t.finalPartiallySignedTransaction = buildFinalPSBT env t.vecEntries)))) := by
  intro fuel
  induction fuel with
  | zero =>
    constructor
    · intro s t h; simp [CreateFinalTransactionF] at h
    · intro txFinal s t h; simp [RelayFinalTransactionF] at h
  | succ n ih =>
    constructor
    · intro s t h
      simp only [CreateFinalTransactionF] at h
      obtain ⟨a, b, c⟩ := ih.2 _ _ _ h
      refine ⟨a, b, ?_⟩
      rcases c with c | ⟨c1, c2, c3⟩
      · exact Or.inl c
      · refine Or.inr ⟨c1, c2, ?_⟩
        rcases c3 with ⟨c3, c4⟩ | c3
        · rw [c3, c4]
        · exact c3
    · intro txFinal s t h
      simp only [RelayFinalTransactionF] at h
      split_ifs at h with h1 h2
      · cases h
        refine ⟨rfl, rfl, Or.inr ⟨⟨rfl, rfl, rfl, rfl, rfl, rfl⟩, rfl, Or.inl ⟨rfl, ?_⟩⟩⟩
        exact List.filter_eq_self.2 (by simpa using h1)
      · obtain ⟨a, b, c⟩ := ih.1 _ _ h
        refine ⟨a, b, ?_⟩
        rcases c with c | ⟨c1, c2, c3⟩
        · exact Or.inl c
        · refine Or.inr ⟨c1, ?_, Or.inr c3⟩
          rw [c2]
          exact filter_idem _ _
      · cases h
        obtain ⟨a, b, c⟩ := SetNull_post P env
          { s with vecEntries := s.vecEntries.filter (fun e => env.ForNode e.addr)
                   sent := s.sent ++ (s.vecEntries.filter (fun e => env.ForNode e.addr)).map
                     (fun e => NetEvent.CJFINALTX e.addr
                       ⟨s.nSessionID, txFinal, P.activeOutpoint, env.GetAdjustedTime,
                        P.SignBroadcast s.nSessionID txFinal P.activeOutpoint env.GetAdjustedTime⟩) }
        exact ⟨a, b, Or.inl c⟩

theorem CreateFinalTransactionF_isSome (P : Params) (env : Env) : ∀ (len : Nat)
    (s : CCoinJoinServer) (fuel : Nat), s.vecEntries.length ≤ len → 2 * len + 2 ≤ fuel →
    ∃ t, CreateFinalTransactionF P env fuel s = some t := by
  intro len
  induction len with
  | zero =>
    intro s fuel hlen hfuel
    obtain ⟨k, rfl⟩ : ∃ k, fuel = k + 2 := ⟨fuel - 2, by omega⟩
    have hnil : s.vecEntries = [] := List.length_eq_zero.1 (by omega)
    simp only [CreateFinalTransactionF, RelayFinalTransactionF, hnil]
    simp
  | succ n ih =>
    intro s fuel hlen hfuel
    obtain ⟨k, rfl⟩ : ∃ k, fuel = k + 2 := ⟨fuel - 2, by omega⟩
    simp only [CreateFinalTransactionF, RelayFinalTransactionF]
    split_ifs with h1 h2
    · exact ⟨_, rfl⟩
    · apply ih
      · have hlt : (s.vecEntries.filter (fun e => env.ForNode e.addr)).length <
            s.vecEntries.length := by
          rw [List.length_filter_lt_length_iff_exists]
          simpa using h1
        simp only
        omega
      · omega
    · exact ⟨_, rfl⟩

/-- After `CreateFinalTransaction` either the session has been reset, or the entries
are those whose node was found and the final transaction is built from them. -/
theorem CreateFinalTransaction_post (P : Params) (env : Env) (s : CCoinJoinServer) :
    (CreateFinalTransaction P env s).nTimeStart = s.nTimeStart ∧
    (CreateFinalTransaction P env s).nCachedBlockHeight = s.nCachedBlockHeight ∧
    (IsNullSession P (CreateFinalTransaction P env s) ∨
      (SameButEntries s (CreateFinalTransaction P env s) ∧
        (CreateFinalTransaction P env s).vecEntries =
          s.vecEntries.filter (fun e => env.ForNode e.addr) ∧
        (CreateFinalTransaction P env s).finalPartiallySignedTransaction =
          buildFinalPSBT env (CreateFinalTransaction P env s).vecEntries)) := by
  obtain ⟨t, ht⟩ := CreateFinalTransactionF_isSome P env s.vecEntries.length s
    (2 * s.vecEntries.length + 2) le_rfl le_rfl
  have := (CreateFinalTransactionF_post P env _).1 s t ht
  simpa [CreateFinalTransaction, ht] using this

/-! ### Checking the pool -/

theorem SetState_signing (P : Params) (s : CCoinJoinServer) (hmn : P.fMasternodeMode = true) :
    SetState P POOL_STATE_SIGNING s = { s with nState := POOL_STATE_SIGNING } := by
  simp [SetState, hmn]

/-- C6, amended: for a coordinator in masternode mode in state `AcceptingEntries`,
`CheckPool` runs the finalization (queue update to `Ready`, restart of the session
timer, state `Signing`, `CreateFinalTransaction`) iff `finalize_ready` holds; after it
the timer is the current time and either the state is `Signing` with the final
transaction built from the entries, or the session has been reset.  When
`finalize_ready` does not hold the state is never `Signing`, the timer is unchanged,
and the state stays `AcceptingEntries` with the same entries and final transaction,
unless the session is full, the queue status is not `Full` yet and the push of the
`Full` status finds no participant, in which case the session is reset. -/
theorem CheckPool_finalize_iff (P : Params) (env : Env) (s : CCoinJoinServer)
    (hmn : P.fMasternodeMode = true) (hst : s.nState = POOL_STATE_ACCEPTING_ENTRIES) :
    (finalize_ready P env s →
      CheckPool P env s = CreateFinalTransaction P env
        (SetState P POOL_STATE_SIGNING
          { UpdateQueue P env STATUS_READY s with nTimeStart := env.GetTime }) ∧
      (SetState P POOL_STATE_SIGNING
          { UpdateQueue P env STATUS_READY s with nTimeStart := env.GetTime }).nState =
        POOL_STATE_SIGNING ∧
      (CheckPool P env s).nTimeStart = env.GetTime ∧
      (IsNullSession P (CheckPool P env s) ∨
        ((CheckPool P env s).nState = POOL_STATE_SIGNING ∧
          (CheckPool P env s).finalPartiallySignedTransaction =
            buildFinalPSBT env (CheckPool P env s).vecEntries))) ∧
    (¬ finalize_ready P env s →
      (CheckPool P env s).nState ≠ POOL_STATE_SIGNING ∧
      (CheckPool P env s).nTimeStart = s.nTimeStart ∧
      (((CheckPool P env s).nState = POOL_STATE_ACCEPTING_ENTRIES ∧
          (CheckPool P env s).vecEntries = s.vecEntries ∧
          (CheckPool P env s).finalPartiallySignedTransaction =
            s.finalPartiallySignedTransaction) ∨
        (IsNullSession P (CheckPool P env s) ∧ IsSessionFull P s = true ∧
          s.vecDenom.filter (fun p => env.ForNode p.1) = [] ∧
          s.activeQueue.status ≠ STATUS_FULL))) := by
  constructor
  · intro hr
    have hf : (decide (s.vecEntries.length ≥ s.vecDenom.length) ||
        (decide (env.GetTime - s.nTimeStart ≥ P.COINJOIN_ACCEPT_TIMEOUT) &&
          decide (s.vecEntries.length ≥ P.MinPoolInputs))) = true := by
      simpa [finalize_ready] using hr
    have heq : CheckPool P env s = CreateFinalTransaction P env
        (SetState P POOL_STATE_SIGNING
          { UpdateQueue P env STATUS_READY s with nTimeStart := env.GetTime }) := by
      simp only [CheckPool, hmn, hst, hf]
      simp
    refine ⟨heq, by simp [SetState_signing, hmn], ?_, ?_⟩
    · rw [heq, (CreateFinalTransaction_post P env _).1]
      simp [SetState_signing, hmn]
    · rw [heq]
      rcases (CreateFinalTransaction_post P env (SetState P POOL_STATE_SIGNING
          { UpdateQueue P env STATUS_READY s with nTimeStart := env.GetTime })).2.2 with h | h
      · exact Or.inl h
      · refine Or.inr ⟨?_, h.2.2⟩
        rw [h.1.1]
        simp [SetState_signing, hmn]
  · intro hr
    have hf : (decide (s.vecEntries.length ≥ s.vecDenom.length) ||
        (decide (env.GetTime - s.nTimeStart ≥ P.COINJOIN_ACCEPT_TIMEOUT) &&
          decide (s.vecEntries.length ≥ P.MinPoolInputs))) = false := by
      rw [Bool.eq_false_iff]
      intro h
      apply hr
      simpa [finalize_ready] using h
    by_cases hfull : IsSessionFull P s = true
    · have heq : CheckPool P env s = UpdateQueue P env STATUS_FULL s := by
        simp only [CheckPool, hmn, hst, hf, hfull]
        simp
      rw [heq]
      obtain ⟨a, _, c⟩ := UpdateQueue_post P env STATUS_FULL s
      rcases c with ⟨c1, c2, _, c4⟩ | ⟨c1, _⟩
      · exact ⟨by rw [c1.1]; decide, a, Or.inr ⟨c1, hfull, c2, c4⟩⟩
      · exact ⟨by rw [c1.1, hst]; decide, a, Or.inl ⟨by rw [c1.1, hst], c1.2.1, c1.2.2.2.2.1⟩⟩
    · have heq : CheckPool P env s = s := by
        simp only [CheckPool, hmn, hst, hf, hfull]
        simp
      rw [heq]
      exact ⟨by rw [hst]; decide, rfl, Or.inl ⟨hst, rfl, rfl⟩⟩

/-- Witness of C6: five participants that can be reached and no entry yet. -/
theorem CheckPool_finalize_iff_witness :
    (exParams.fMasternodeMode = true ∧ exFiveJoined.nState = POOL_STATE_ACCEPTING_ENTRIES) ∧
    ¬ finalize_ready exParams (exEnv 10 exOnline 0) exFiveJoined ∧
    (CheckPool exParams (exEnv 10 exOnline 0) exFiveJoined).nState =
      POOL_STATE_ACCEPTING_ENTRIES :=
  ⟨⟨by decide, by decide⟩, by decide,
    ((CheckPool_finalize_iff exParams (exEnv 10 exOnline 0) exFiveJoined (by decide)
      (by decide)).2 (by decide)).2.2.elim (fun h => h.1)
      (fun h => absurd h.2.2.1 (by decide))⟩

/-- Counterexample to C6 as stated: five participants have joined, none has sent an
entry and none can be reached any more; `finalize_ready` does not hold, yet
`CheckPool` does not leave the state `AcceptingEntries`: it resets the session. -/
theorem CheckPool_not_ready_resets :
    exParams.fMasternodeMode = true ∧
    exFiveJoined.nState = POOL_STATE_ACCEPTING_ENTRIES ∧
    ¬ finalize_ready exParams (exEnv 10 [] 0) exFiveJoined ∧
    (CheckPool exParams (exEnv 10 [] 0) exFiveJoined).nState = POOL_STATE_IDLE ∧
    (CheckPool exParams (exEnv 10 [] 0) exFiveJoined).nState ≠ POOL_STATE_ACCEPTING_ENTRIES := by
  decide

/-! ### Message handling -/

theorem PushStatus_eq (dest : CService) (u : PoolStatusUpdate) (m : PoolMessage)
    (s : CCoinJoinServer) :
    PushStatus dest u m s = { s with sent := s.sent ++
      [NetEvent.CJSTATUSUPDATE dest s.nSessionID s.nState s.vecEntries.length u m] } := rfl

theorem int64_int64 (x : Int) : int64 (int64 x) = int64 x := by
  unfold int64
  omega

theorem int64_add_left (a b c : Int) : int64 (int64 (a + b) + c) = int64 (a + (b + c)) := by
  simp only [int64]
  omega

theorem int64_le_self (x : Int) (h : 0 ≤ x) : int64 x ≤ x := by
  unfold int64
  omega

theorem IsCompatibleTxOut_loop_spec (P : Params) (payee : CScript) :
    ∀ (vout : List CTxOut) (fee : CAmount),
      ((IsCompatibleTxOut_loop P payee vout fee).1 = true ↔
        ∀ o ∈ vout, P.IsDenominatedAmount o.nValue = true) ∧
      (int64 fee = fee → (IsCompatibleTxOut_loop P payee vout fee).1 = true →
        (IsCompatibleTxOut_loop P payee vout fee).2 =
          int64 (fee + paidToPayee payee vout)) := by
  intro vout
  induction vout with
  | nil =>
    intro fee
    refine ⟨by simp [IsCompatibleTxOut_loop], fun h _ => ?_⟩
    simp only [IsCompatibleTxOut_loop, paidToPayee, List.filter_nil, List.map_nil,
      List.sum_nil, add_zero]
    exact h.symm
  | cons o rest ih =>
    intro fee
    by_cases hd : P.IsDenominatedAmount o.nValue = true
    · by_cases hp : o.scriptPubKey = payee
      · have := ih (int64 (fee + o.nValue))
        simp only [IsCompatibleTxOut_loop, hd, hp, if_true, Bool.not_true, Bool.false_eq_true,
          if_false]
        refine ⟨by simpa [hd] using this.1, fun _ h => ?_⟩
        rw [this.2 (int64_int64 _) h]
        have e : paidToPayee payee (o :: rest) = o.nValue + paidToPayee payee rest := by
          simp [paidToPayee, hp]
        rw [e]
        exact int64_add_left _ _ _
      · have := ih fee
        simp only [IsCompatibleTxOut_loop, hd, hp, if_false, Bool.not_true, Bool.false_eq_true]
        refine ⟨by simpa [hd] using this.1, fun h0 h => ?_⟩
        rw [this.2 h0 h]
        simp [paidToPayee, hp]
    · simp [IsCompatibleTxOut_loop, hd]

theorem CheckSessionMessage_false (P : Params) (pfrom : CNode) (s : CCoinJoinServer)
    (h : (CheckSessionMessage P pfrom s).1 = false) :
    (CheckSessionMessage P pfrom s).2 = PushStatus pfrom.addr STATUS_REJECTED ERR_SESSION s := by
  unfold CheckSessionMessage at h ⊢
  split_ifs at h ⊢ <;> simp_all

theorem CheckSessionMessage_gate (P : Params) (pfrom : CNode) (s : CCoinJoinServer)
    (h : P.statusCode s.activeQueue.status < P.statusCode STATUS_READY ∨
      P.statusCode s.activeQueue.status > P.statusCode STATUS_FULL ∨
      s.vecDenom.length < P.MinPoolInputs) :
    (CheckSessionMessage P pfrom s).1 = false := by
  unfold CheckSessionMessage
  split_ifs with h1 h2
  · rfl
  · rfl
  · exfalso
    rcases h with h | h | h
    · exact h1 (Or.inl h)
    · exact h1 (Or.inr h)
    · simp [IsSessionReady] at h2
      omega

theorem ProcessModuleMessage_eq (P : Params) (env : Env) (pfrom : CNode) (msg : NetMsg)
    (s : CCoinJoinServer) (hmn : P.fMasternodeMode = true) (hlite : P.fLiteMode = false)
    (hsync : env.IsBlockchainSynced = true)
    (hver : ¬ pfrom.nSendVersion < P.MIN_COINJOIN_PEER_PROTO_VERSION) :
    ProcessModuleMessage P env pfrom msg s =
      match msg with
      | NetMsg.CJACCEPT nDenom => ProcessCJACCEPT P env pfrom nDenom s
      | NetMsg.CJQUEUE queue => ProcessCJQUEUE P env pfrom queue s
      | NetMsg.CJTXIN entry => ProcessCJTXIN P env pfrom entry s
      | NetMsg.CJSIGNFINALTX ptx => ProcessCJSIGNFINALTX P env pfrom ptx s
      | NetMsg.OTHER => s := by
  simp [ProcessModuleMessage, hmn, hlite, hsync, hver]

theorem ProcessCJTXIN_wrong_state (P : Params) (env : Env) (pfrom : CNode)
    (entry : CCoinJoinEntry) (s : CCoinJoinServer)
    (hst : s.nState ≠ POOL_STATE_ACCEPTING_ENTRIES) (hmn : P.fMasternodeMode = true) :
    ∃ code, ProcessCJTXIN P env pfrom entry s = PushStatus pfrom.addr STATUS_REJECTED code s := by
  unfold ProcessCJTXIN
  simp only
  split_ifs with h1 h2 h3 h4 h5 h6 h7
  · exact ⟨_, CheckSessionMessage_false P pfrom s (by simpa using h1)⟩
  · exact ⟨_, rfl⟩
  · exact ⟨_, rfl⟩
  · exact ⟨_, rfl⟩
  · exact ⟨_, rfl⟩
  · exact ⟨_, rfl⟩
  · exfalso
    simp [AddEntry, hmn, hst] at h7
  · refine ⟨ERR_ENTRIES_FULL, ?_⟩
    simp [AddEntry, hmn, hst]

/-- C7, amended: a `CJTXIN` or `CJSIGNFINALTX` that arrives while the status of the
active queue is below `Ready` or above `Full`, or while fewer than `MinPoolInputs`
participants have joined, is answered `Rejected` with `ERR_SESSION` and nothing but
the list of sent messages changes; a `CJTXIN` that arrives while the state is not
`AcceptingEntries` is answered `Rejected` with some code in every case, and again
entries, final transaction and pool state are unchanged. -/
theorem session_gate_rejects (P : Params) (env : Env) (pfrom : CNode) (s : CCoinJoinServer)
    (hmn : P.fMasternodeMode = true) (hlite : P.fLiteMode = false)
    (hsync : env.IsBlockchainSynced = true)
    (hver : ¬ pfrom.nSendVersion < P.MIN_COINJOIN_PEER_PROTO_VERSION) :
    ((P.statusCode s.activeQueue.status < P.statusCode STATUS_READY ∨
        P.statusCode s.activeQueue.status > P.statusCode STATUS_FULL ∨
        s.vecDenom.length < P.MinPoolInputs) →
      (∀ entry, ProcessModuleMessage P env pfrom (NetMsg.CJTXIN entry) s =
        PushStatus pfrom.addr STATUS_REJECTED ERR_SESSION s) ∧
      (∀ ptx, ProcessModuleMessage P env pfrom (NetMsg.CJSIGNFINALTX ptx) s =
        PushStatus pfrom.addr STATUS_REJECTED ERR_SESSION s)) ∧
    (s.nState ≠ POOL_STATE_ACCEPTING_ENTRIES →
      ∀ entry, ∃ code, ProcessModuleMessage P env pfrom (NetMsg.CJTXIN entry) s =
        PushStatus pfrom.addr STATUS_REJECTED code s) ∧
    (∀ code,
      (PushStatus pfrom.addr STATUS_REJECTED code s).vecEntries = s.vecEntries ∧
      (PushStatus pfrom.addr STATUS_REJECTED code s).finalPartiallySignedTransaction =
        s.finalPartiallySignedTransaction ∧
      (PushStatus pfrom.addr STATUS_REJECTED code s).nState = s.nState ∧
      (PushStatus pfrom.addr STATUS_REJECTED code s).vecDenom = s.vecDenom ∧
      (PushStatus pfrom.addr STATUS_REJECTED code s).nSessionID = s.nSessionID ∧
      (PushStatus pfrom.addr STATUS_REJECTED code s).nSessionDenom = s.nSessionDenom ∧
      (PushStatus pfrom.addr STATUS_REJECTED code s).activeQueue = s.activeQueue ∧
      (PushStatus pfrom.addr STATUS_REJECTED code s).sent = s.sent ++
        [NetEvent.CJSTATUSUPDATE pfrom.addr s.nSessionID s.nState s.vecEntries.length
          STATUS_REJECTED code]) := by
  refine ⟨fun hgate => ⟨fun entry => ?_, fun ptx => ?_⟩, fun hst entry => ?_, fun code => ?_⟩
  · have hg := CheckSessionMessage_gate P pfrom s hgate
    rw [ProcessModuleMessage_eq P env pfrom _ s hmn hlite hsync hver]
    simp only [ProcessCJTXIN, hg]
    simpa using CheckSessionMessage_false P pfrom s hg
  · have hg := CheckSessionMessage_gate P pfrom s hgate
    rw [ProcessModuleMessage_eq P env pfrom _ s hmn hlite hsync hver]
    simp only [ProcessCJSIGNFINALTX, hg]
    simpa using CheckSessionMessage_false P pfrom s hg
  · rw [ProcessModuleMessage_eq P env pfrom _ s hmn hlite hsync hver]
    exact ProcessCJTXIN_wrong_state P env pfrom entry s hst hmn
  · exact ⟨rfl, rfl, rfl, rfl, rfl, rfl, rfl, rfl⟩

/-- Witness of C7: a `CJTXIN` to the idle coordinator. -/
theorem session_gate_rejects_witness :
    ProcessModuleMessage exParams (exEnv 0 exOnline 0) (exPeer 1) (NetMsg.CJTXIN (exEntry 1))
        (CCoinJoinServer.initial exParams) =
      PushStatus 1 STATUS_REJECTED ERR_SESSION (CCoinJoinServer.initial exParams) :=
  ((session_gate_rejects exParams (exEnv 0 exOnline 0) (exPeer 1)
    (CCoinJoinServer.initial exParams) (by decide) (by decide) (by decide) (by decide)).1
    (Or.inr (Or.inl (by decide)))).1 (exEntry 1)

/-- Counterexample to C7 as stated: in state `Signing`, with the queue `Ready` and three
participants, a `CJTXIN` passes `CheckSessionMessage` and is answered with
`ERR_ENTRIES_FULL`, not `ERR_SESSION`; in state `AcceptingEntries` a `CJSIGNFINALTX`
for another transaction passes `CheckSessionMessage` and gets no answer at all. -/
theorem CJTXIN_in_signing_not_ERR_SESSION :
    exSigning.nState = POOL_STATE_SIGNING ∧
    ProcessModuleMessage exParams (exEnv 5 exOnline 0) (exPeer 4) (NetMsg.CJTXIN (exEntry 4))
        exSigning =
      PushStatus 4 STATUS_REJECTED ERR_ENTRIES_FULL exSigning ∧
    exFiveJoined.nState = POOL_STATE_ACCEPTING_ENTRIES ∧
    ProcessModuleMessage exParams (exEnv 5 exOnline 0) (exPeer 4)
        (NetMsg.CJSIGNFINALTX (exEntry 4).psbtx) exFiveJoined = exFiveJoined := by
  decide

theorem AddEntry_of_false (P : Params) (e : CCoinJoinEntry) (m : PoolMessage)
    (s : CCoinJoinServer) (h : ¬ (AddEntry P e m s).1 = true) : (AddEntry P e m s).2.2 = s := by
  unfold AddEntry at h ⊢
  split_ifs at h ⊢ <;> simp_all

/-- C9, amended: a `CJTXIN` whose transaction has more than `COINJOIN_ENTRY_MAX_SIZE`
inputs, more than three times as many outputs, or an output that is no
denomination is answered `Rejected` and the server is unchanged but for that answer,
so an entry is appended and answered `Accepted` only if it keeps all three limits.
For a message that passes `CheckSessionMessage`, an entry over either count limit is
answered with `ERR_MAXIMUM`, and an entry within the limits that passes
`CheckTransaction` and has an output that is no denomination with
`ERR_INVALID_OUT`; in both cases `vecEntries` is unchanged. -/
theorem CJTXIN_limits (P : Params) (env : Env) (pfrom : CNode) (entry : CCoinJoinEntry)
    (s : CCoinJoinServer)
    (hmn : P.fMasternodeMode = true) (hlite : P.fLiteMode = false)
    (hsync : env.IsBlockchainSynced = true)
    (hver : ¬ pfrom.nSendVersion < P.MIN_COINJOIN_PEER_PROTO_VERSION) :
    (¬ ((entry.psbtx.tx.getD ⟨[], [], 0⟩).vin.length ≤ P.COINJOIN_ENTRY_MAX_SIZE ∧
        (entry.psbtx.tx.getD ⟨[], [], 0⟩).vout.length ≤ P.COINJOIN_ENTRY_MAX_SIZE * 3 ∧
        ∀ o ∈ (entry.psbtx.tx.getD ⟨[], [], 0⟩).vout, P.IsDenominatedAmount o.nValue = true) →
      ∃ code, ProcessModuleMessage P env pfrom (NetMsg.CJTXIN entry) s =
        PushStatus pfrom.addr STATUS_REJECTED code s) ∧
    ((CheckSessionMessage P pfrom s).1 = true →
      ((entry.psbtx.tx.getD ⟨[], [], 0⟩).vin.length > P.COINJOIN_ENTRY_MAX_SIZE ∨
        (entry.psbtx.tx.getD ⟨[], [], 0⟩).vout.length > P.COINJOIN_ENTRY_MAX_SIZE * 3) →
      ProcessModuleMessage P env pfrom (NetMsg.CJTXIN entry) s =
        PushStatus pfrom.addr STATUS_REJECTED ERR_MAXIMUM s) ∧
    ((CheckSessionMessage P pfrom s).1 = true →
      (entry.psbtx.tx.getD ⟨[], [], 0⟩).vin.length ≤ P.COINJOIN_ENTRY_MAX_SIZE →
      (entry.psbtx.tx.getD ⟨[], [], 0⟩).vout.length ≤ P.COINJOIN_ENTRY_MAX_SIZE * 3 →
      (env.CheckTransaction entry.psbtx true).1 = true →
      (∃ o ∈ (entry.psbtx.tx.getD ⟨[], [], 0⟩).vout, P.IsDenominatedAmount o.nValue = false) →
      ProcessModuleMessage P env pfrom (NetMsg.CJTXIN entry) s =
        PushStatus pfrom.addr STATUS_REJECTED ERR_INVALID_OUT s) ∧
    (∀ code, (PushStatus pfrom.addr STATUS_REJECTED code s).vecEntries = s.vecEntries) := by
  rw [ProcessModuleMessage_eq P env pfrom _ s hmn hlite hsync hver]
  refine ⟨fun hnot => ?_, fun hgate hbig => ?_, fun hgate hin hout hct hden => ?_, fun _ => rfl⟩
  · simp only [ProcessCJTXIN]
    split_ifs with h1 h2 h3 h4 h5 h6 h7
    · exact ⟨_, CheckSessionMessage_false P pfrom s (by simpa using h1)⟩
    · exact ⟨_, rfl⟩
    · exact ⟨_, rfl⟩
    · exact ⟨_, rfl⟩
    · exact ⟨_, rfl⟩
    · exact ⟨_, rfl⟩
    · exfalso
      apply hnot
      refine ⟨by simpa using h2, by simpa using h3, ?_⟩
      have h5' : (IsCompatibleTxOut P env (entry.psbtx.tx.getD ⟨[], [], 0⟩) 0).1 = true := by
        simpa using h5
      exact ((IsCompatibleTxOut_loop_spec P _ _ _).1).1 h5'
    · exact ⟨_, by rw [AddEntry_of_false P _ _ s h7]⟩
  · simp only [ProcessCJTXIN, hgate]
    rcases hbig with hb | hb
    · simp [hb]
    · by_cases hv : (entry.psbtx.tx.getD ⟨[], [], 0⟩).vin.length > P.COINJOIN_ENTRY_MAX_SIZE
      · simp [hv]
      · simp [hv, hb]
  · have hco : (IsCompatibleTxOut P env (entry.psbtx.tx.getD ⟨[], [], 0⟩) 0).1 = false := by
      rw [Bool.eq_false_iff]
      intro h
      obtain ⟨o, ho, hd⟩ := hden
      have := ((IsCompatibleTxOut_loop_spec P _ _ _).1).1 h o ho
      rw [hd] at this
      exact Bool.false_ne_true this
    simp only [ProcessCJTXIN, hgate]
    simp [Nat.not_lt.2 hin, Nat.not_lt.2 hout, hct, hco]

/-- Witness of C9: an entry with ten inputs sent to a session that accepts entries. -/
theorem CJTXIN_limits_witness :
    ProcessModuleMessage exParams (exEnv 5 exOnline 0) (exPeer 4) (NetMsg.CJTXIN exBigEntry)
        exFiveJoined =
      PushStatus 4 STATUS_REJECTED ERR_MAXIMUM exFiveJoined :=
  (CJTXIN_limits exParams (exEnv 5 exOnline 0) (exPeer 4) exBigEntry exFiveJoined
    (by decide) (by decide) (by decide) (by decide)).2.1 (by decide) (Or.inl (by decide))

/-- Counterexample to C9 as stated: sent to the idle coordinator, an entry with ten
inputs and an entry with an output that is no denomination are both answered with
`ERR_SESSION`, neither with `ERR_MAXIMUM` nor with `ERR_INVALID_OUT`. -/
theorem CJTXIN_oversize_outside_session :
    (exBigEntry.psbtx.tx.getD ⟨[], [], 0⟩).vin.length > exParams.COINJOIN_ENTRY_MAX_SIZE ∧
    ProcessModuleMessage exParams (exEnv 0 exOnline 0) (exPeer 4) (NetMsg.CJTXIN exBigEntry)
        (CCoinJoinServer.initial exParams) =
      PushStatus 4 STATUS_REJECTED ERR_SESSION (CCoinJoinServer.initial exParams) ∧
    (∃ o ∈ (exOddEntry.psbtx.tx.getD ⟨[], [], 0⟩).vout,
      exParams.IsDenominatedAmount o.nValue = false) ∧
    ProcessModuleMessage exParams (exEnv 0 exOnline 0) (exPeer 4) (NetMsg.CJTXIN exOddEntry)
        (CCoinJoinServer.initial exParams) =
      PushStatus 4 STATUS_REJECTED ERR_SESSION (CCoinJoinServer.initial exParams) := by
  decide

/-- C10, amended: the `CJTXIN` handler either answers `Rejected` and leaves the server
as it is, or appends the entry, answers `Accepted` and goes on with `RelayStatus` and
`CheckPool`; in the second case, when `GetBlockPayee` has found the payee script for the
lock time of the entry (denominated amounts being not negative), the values of the
outputs that pay to that script total at least the fee computed by `CheckTransaction`,
and when that fee is positive at least one output pays to the payee script. -/
theorem CJTXIN_accepted_pays_fee (P : Params) (env : Env) (pfrom : CNode)
    (entry : CCoinJoinEntry) (s : CCoinJoinServer) (payee : CScript)
    (hmn : P.fMasternodeMode = true) (hlite : P.fLiteMode = false)
    (hsync : env.IsBlockchainSynced = true)
    (hver : ¬ pfrom.nSendVersion < P.MIN_COINJOIN_PEER_PROTO_VERSION)
    (hpayee : env.GetBlockPayee (entry.psbtx.tx.getD ⟨[], [], 0⟩).nLockTime = some payee)
    (hden : ∀ v : Int, P.IsDenominatedAmount v = true → 0 ≤ v) :
    (∃ code, ProcessModuleMessage P env pfrom (NetMsg.CJTXIN entry) s =
        PushStatus pfrom.addr STATUS_REJECTED code s) ∨
    (ProcessModuleMessage P env pfrom (NetMsg.CJTXIN entry) s =
        CheckPool P env (RelayStatus P env STATUS_ACCEPTED MSG_NOERR
          (PushStatus pfrom.addr STATUS_ACCEPTED MSG_ENTRIES_ADDED
            { s with vecEntries := s.vecEntries ++ [{ entry with addr := pfrom.addr }] })) ∧
      paidToPayee payee (entry.psbtx.tx.getD ⟨[], [], 0⟩).vout ≥
        (env.CheckTransaction entry.psbtx true).2.1 ∧
      (0 < (env.CheckTransaction entry.psbtx true).2.1 →
        ∃ o ∈ (entry.psbtx.tx.getD ⟨[], [], 0⟩).vout, o.scriptPubKey = payee)) := by
  rw [ProcessModuleMessage_eq P env pfrom _ s hmn hlite hsync hver]
  simp only [ProcessCJTXIN]
  split_ifs with h1 h2 h3 h4 h5 h6 h7
  · exact Or.inl ⟨_, CheckSessionMessage_false P pfrom s (by simpa using h1)⟩
  · exact Or.inl ⟨_, rfl⟩
  · exact Or.inl ⟨_, rfl⟩
  · exact Or.inl ⟨_, rfl⟩
  · exact Or.inl ⟨_, rfl⟩
  · exact Or.inl ⟨_, rfl⟩
  · right
    have h5' : (IsCompatibleTxOut P env (entry.psbtx.tx.getD ⟨[], [], 0⟩) 0).1 = true := by
      simpa using h5
    have hall := ((IsCompatibleTxOut_loop_spec P _ _ _).1).1 h5'
    have hpaid := (IsCompatibleTxOut_loop_spec P _ _ _).2 (by decide) h5'
    have hnn : 0 ≤ paidToPayee payee (entry.psbtx.tx.getD ⟨[], [], 0⟩).vout := by
      unfold paidToPayee
      apply List.sum_nonneg
      intro x hx
      obtain ⟨o, ho, rfl⟩ := List.mem_map.1 hx
      exact hden _ (hall o (List.mem_filter.1 ho).1)
    have hfee : (env.CheckTransaction entry.psbtx true).2.1 ≤
        paidToPayee payee (entry.psbtx.tx.getD ⟨[], [], 0⟩).vout := by
      have h6' := Int.not_lt.1 h6
      simp only [IsCompatibleTxOut, hpayee, Option.getD_some] at hpaid h6'
      rw [hpaid, zero_add] at h6'
      exact le_trans h6' (int64_le_self _ hnn)
    have hadd : AddEntry P { entry with addr := pfrom.addr }
          (env.CheckTransaction entry.psbtx true).2.2 s =
        (true, MSG_ENTRIES_ADDED,
          { s with vecEntries := s.vecEntries ++ [{ entry with addr := pfrom.addr }] }) := by
      unfold AddEntry at h7 ⊢
      split_ifs at h7 ⊢
      all_goals simp_all
    refine ⟨by rw [hadd], hfee, fun hpos => ?_⟩
    by_contra hno
    have hzero : paidToPayee payee (entry.psbtx.tx.getD ⟨[], [], 0⟩).vout = 0 := by
      unfold paidToPayee
      rw [List.filter_eq_nil_iff.2]
      · rfl
      · intro o ho hdec
        exact hno ⟨o, ho, by simpa using hdec⟩
    rw [hzero] at hfee
    exact absurd hpos (not_lt.2 hfee)
  · exact Or.inl ⟨_, by rw [AddEntry_of_false P _ _ s h7]⟩

/-- Witness of C10: with a computed fee of `100` and the payee script `[9]`, an entry
whose output of `100` pays to the payee script is accepted. -/
theorem CJTXIN_accepted_pays_fee_witness :
    ((exEnv 5 exOnline 100).CheckTransaction exPayingEntry.psbtx true).2.1 = 100 ∧
    (exEnv 5 exOnline 100).GetBlockPayee
      (exPayingEntry.psbtx.tx.getD ⟨[], [], 0⟩).nLockTime = some [9] ∧
    (∀ v : Int, exParams.IsDenominatedAmount v = true → 0 ≤ v) ∧
    (ProcessModuleMessage exParams (exEnv 5 exOnline 100) (exPeer 5)
      (NetMsg.CJTXIN exPayingEntry) exFiveJoined).vecEntries = [exPayingEntry] ∧
    ∃ o ∈ (exPayingEntry.psbtx.tx.getD ⟨[], [], 0⟩).vout, o.scriptPubKey = [9] :=
  ⟨by decide, rfl,
   fun v h => by
     have h1 : v = 100 ∨ v = 1000 ∨ v = 10000 := of_decide_eq_true h
     omega,
   by decide,
   (CJTXIN_accepted_pays_fee exParams (exEnv 5 exOnline 100) (exPeer 5) exPayingEntry
      exFiveJoined [9] (by decide) (by decide) (by decide) (by decide) rfl
      (fun v h => by
        have h1 : v = 100 ∨ v = 1000 ∨ v = 10000 := of_decide_eq_true h
        omega)).elim
    (fun h => h.elim (fun code hc =>
      absurd (show (ProcessModuleMessage exParams (exEnv 5 exOnline 100) (exPeer 5)
          (NetMsg.CJTXIN exPayingEntry) exFiveJoined).vecEntries.length =
            exFiveJoined.vecEntries.length from
          congrArg (fun t => t.vecEntries.length) hc) (by decide)))
    (fun h => h.2.2 (by decide))⟩

/-- Counterexample to C10 as stated. With a computed fee of zero an entry none of whose
outputs pays to the payee script is appended and answered `Accepted`. And when
`GetBlockPayee` finds no payee, the outputs with the empty script are the ones counted:
with a fee of `100` an entry whose only output has the empty script is appended and
answered `Accepted`. -/
theorem CJTXIN_accepted_without_payee_output :
    (((exEnv 5 exOnline 0).CheckTransaction (exEntry 6).psbtx true).2.1 = 0 ∧
    (ProcessModuleMessage exParams (exEnv 5 exOnline 0) (exPeer 6) (NetMsg.CJTXIN (exEntry 6))
        exFiveJoined).vecEntries = [exEntry 6] ∧
    NetEvent.CJSTATUSUPDATE 6 42 POOL_STATE_ACCEPTING_ENTRIES 1 STATUS_ACCEPTED
        MSG_ENTRIES_ADDED ∈
      (ProcessModuleMessage exParams (exEnv 5 exOnline 0) (exPeer 6) (NetMsg.CJTXIN (exEntry 6))
        exFiveJoined).sent ∧
    ∀ o ∈ ((exEntry 6).psbtx.tx.getD ⟨[], [], 0⟩).vout,
      o.scriptPubKey ≠ ((exEnv 5 exOnline 0).GetBlockPayee 0).getD []) ∧
    (((exEnvNoPayee 5 exOnline).CheckTransaction exEmptyScriptEntry.psbtx true).2.1 = 100 ∧
    (exEnvNoPayee 5 exOnline).GetBlockPayee 0 = none ∧
    (ProcessModuleMessage exParams (exEnvNoPayee 5 exOnline) (exPeer 5)
        (NetMsg.CJTXIN exEmptyScriptEntry) exFiveJoined).vecEntries = [exEmptyScriptEntry] ∧
    NetEvent.CJSTATUSUPDATE 5 42 POOL_STATE_ACCEPTING_ENTRIES 1 STATUS_ACCEPTED
        MSG_ENTRIES_ADDED ∈
      (ProcessModuleMessage exParams (exEnvNoPayee 5 exOnline) (exPeer 5)
        (NetMsg.CJTXIN exEmptyScriptEntry) exFiveJoined).sent) := by
  decide

/-! ### Participants and entries along runs -/

theorem Shrinks.refl (s : CCoinJoinServer) : Shrinks s s := ⟨le_rfl, le_rfl⟩

theorem Shrinks.trans {s t u : CCoinJoinServer} (h1 : Shrinks s t) (h2 : Shrinks t u) :
    Shrinks s u := ⟨le_trans h2.1 h1.1, le_trans h2.2 h1.2⟩

theorem Shrinks.of_null {P : Params} {s t : CCoinJoinServer} (h : IsNullSession P t) :
    Shrinks s t := by
  obtain ⟨_, h2, h3, _⟩ := h
  simp [Shrinks, h2, h3]

theorem Shrinks.of_eq {s t : CCoinJoinServer} (h1 : t.vecDenom = s.vecDenom)
    (h2 : t.vecEntries = s.vecEntries) : Shrinks s t := by
  simp [Shrinks, h1, h2]

theorem UpdateQueue_shrinks (P : Params) (env : Env) (u : PoolStatusUpdate)
    (s : CCoinJoinServer) : Shrinks s (UpdateQueue P env u s) := by
  rcases (UpdateQueue_post P env u s).2.2 with h | ⟨h1, h2⟩
  · exact Shrinks.of_null h.1
  · refine ⟨?_, by rw [h1.2.1]⟩
    rcases h2 with h2 | ⟨h2, _⟩
    · rw [h2]
    · rw [h2]; exact List.length_filter_le _ _

theorem SetNull_shrinks (P : Params) (env : Env) (s : CCoinJoinServer) :
    Shrinks s (SetNull P env s) := Shrinks.of_null (SetNull_post P env s).2.2

theorem CreateFinalTransaction_shrinks (P : Params) (env : Env) (s : CCoinJoinServer) :
    Shrinks s (CreateFinalTransaction P env s) := by
  rcases (CreateFinalTransaction_post P env s).2.2 with h | ⟨h1, h2, _⟩
  · exact Shrinks.of_null h
  · refine ⟨by rw [h1.2.1], ?_⟩
    rw [h2]; exact List.length_filter_le _ _

theorem RelayStatus_loop_fst (env : Env) (u : PoolStatusUpdate) (m : PoolMessage) (sid : Int)
    (st : PoolState) : ∀ (rest kept : List CCoinJoinEntry) (out : List NetEvent),
    (RelayStatus_loop env u m sid st kept rest out).1 =
      kept ++ rest.filter (fun e => env.ForNode e.addr) := by
  intro rest
  induction rest with
  | nil => intro kept out; simp [RelayStatus_loop]
  | cons e rest ih =>
    intro kept out
    by_cases h : env.ForNode e.addr = true
    · simp [RelayStatus_loop, h, ih]
    · simp [RelayStatus_loop, h, ih]

/-- After `RelayStatus` either the session has been reset, or the entries are those
whose node was found, at least one, and pool state and participants are as before. -/
theorem RelayStatus_post (P : Params) (env : Env) (u : PoolStatusUpdate) (m : PoolMessage)
    (s : CCoinJoinServer) :
    IsNullSession P (RelayStatus P env u m s) ∨
      ((RelayStatus P env u m s).nState = s.nState ∧
        (RelayStatus P env u m s).vecDenom = s.vecDenom ∧
        (RelayStatus P env u m s).vecEntries =
          s.vecEntries.filter (fun e => env.ForNode e.addr)) := by
  unfold RelayStatus
  simp only [RelayStatus_loop_fst, List.nil_append]
  split_ifs with h
  · exact Or.inl (SetNull_post P env _).2.2
  · exact Or.inr ⟨rfl, rfl, rfl⟩

theorem RelayStatus_shrinks (P : Params) (env : Env) (u : PoolStatusUpdate) (m : PoolMessage)
    (s : CCoinJoinServer) : Shrinks s (RelayStatus P env u m s) := by
  rcases RelayStatus_post P env u m s with h | ⟨_, h2, h3⟩
  · exact Shrinks.of_null h
  · refine ⟨by rw [h2], ?_⟩
    rw [h3]; exact List.length_filter_le _ _

theorem SetState_fields (P : Params) (st : PoolState) (s : CCoinJoinServer) :
    (SetState P st s).vecDenom = s.vecDenom ∧ (SetState P st s).vecEntries = s.vecEntries ∧
    (SetState P st s).nSessionDenom = s.nSessionDenom ∧
    (SetState P st s).nSessionID = s.nSessionID ∧
    (SetState P st s).activeQueue = s.activeQueue ∧
    (SetState P st s).nTimeStart = s.nTimeStart := by
  unfold SetState
  split_ifs <;> exact ⟨rfl, rfl, rfl, rfl, rfl, rfl⟩

theorem Shrinks.setState {s t : CCoinJoinServer} (P : Params) (st : PoolState)
    (h : Shrinks s t) : Shrinks s (SetState P st t) := by
  obtain ⟨a, b, _⟩ := SetState_fields P st t
  exact ⟨by rw [a]; exact h.1, by rw [b]; exact h.2⟩

theorem Shrinks.updateQueue {s t : CCoinJoinServer} (P : Params) (env : Env)
    (u : PoolStatusUpdate) (h : Shrinks s t) : Shrinks s (UpdateQueue P env u t) :=
  Shrinks.trans h (UpdateQueue_shrinks P env u t)

theorem Shrinks.setNull {s t : CCoinJoinServer} (P : Params) (env : Env)
    (h : Shrinks s t) : Shrinks s (SetNull P env t) :=
  Shrinks.trans h (SetNull_shrinks P env t)

theorem Shrinks.createFinal {s t : CCoinJoinServer} (P : Params) (env : Env)
    (h : Shrinks s t) : Shrinks s (CreateFinalTransaction P env t) :=
  Shrinks.trans h (CreateFinalTransaction_shrinks P env t)

theorem CheckPool_shrinks (P : Params) (env : Env) (s : CCoinJoinServer) :
    Shrinks s (CheckPool P env s) := by
  unfold CheckPool
  simp only
  split_ifs
  · exact Shrinks.refl s
  · apply Shrinks.createFinal
    apply Shrinks.setState
    have h := UpdateQueue_shrinks P env STATUS_READY s
    exact ⟨h.1, h.2⟩
  · exact UpdateQueue_shrinks P env STATUS_FULL s
  · exact Shrinks.refl s

theorem CheckForCompleteQueue_shrinks (P : Params) (env : Env) (s : CCoinJoinServer) :
    Shrinks s (CheckForCompleteQueue P env s) := by
  unfold CheckForCompleteQueue
  simp only
  split_ifs
  · exact Shrinks.refl s
  · apply Shrinks.updateQueue
    apply Shrinks.setState
    exact ⟨le_rfl, le_rfl⟩
  · apply Shrinks.updateQueue
    apply Shrinks.setState
    exact ⟨le_rfl, le_rfl⟩
  · exact Shrinks.refl s

theorem CheckQueue_shrinks (P : Params) (h : Int) (s : CCoinJoinServer) :
    Shrinks s (CheckQueue P h s) := ⟨le_rfl, le_rfl⟩

theorem CheckTimeout_shrinks (P : Params) (env : Env) (h : Int) (s : CCoinJoinServer) :
    Shrinks s (CheckTimeout P env h s) := by
  unfold CheckTimeout
  simp only
  split_ifs
  · exact Shrinks.refl s
  · exact Shrinks.setNull P env (Shrinks.setNull P env (CheckQueue_shrinks P h s))
  · exact Shrinks.setNull P env (CheckQueue_shrinks P h s)
  · exact Shrinks.setNull P env (CheckQueue_shrinks P h s)
  · exact CheckQueue_shrinks P h s

theorem RelayCompletedTransaction_shrinks (env : Env) (m : PoolMessage) (s : CCoinJoinServer) :
    Shrinks s (RelayCompletedTransaction env m s) := ⟨le_rfl, le_rfl⟩

theorem CommitFinalTransaction_shrinks (P : Params) (env : Env) (s : CCoinJoinServer) :
    Shrinks s (CommitFinalTransaction P env s) := by
  unfold CommitFinalTransaction
  simp only
  split_ifs
  · exact Shrinks.refl s
  · split
    · apply Shrinks.setNull
      exact ⟨le_rfl, le_rfl⟩
    · split_ifs
      · apply Shrinks.setNull
        exact ⟨le_rfl, le_rfl⟩
      · apply Shrinks.setNull
        exact ⟨le_rfl, le_rfl⟩

theorem UpdatedBlockTip_shrinks (P : Params) (env : Env) (h : Int) (s : CCoinJoinServer) :
    Shrinks s (UpdatedBlockTip P env h s) := by
  unfold UpdatedBlockTip
  simp only
  split_ifs
  · exact Shrinks.refl s
  · exact Shrinks.refl s
  · exact Shrinks.refl s
  · exact ⟨le_rfl, le_rfl⟩
  all_goals
    refine Shrinks.trans ?_ (CheckTimeout_shrinks P env _ _)
    first
    | refine Shrinks.trans (Shrinks.trans ?_ (CheckForCompleteQueue_shrinks P env _))
        (CheckPool_shrinks P env _)
      exact ⟨le_rfl, le_rfl⟩
    | refine Shrinks.trans ?_ (CheckForCompleteQueue_shrinks P env _)
      exact ⟨le_rfl, le_rfl⟩
    | refine Shrinks.trans ?_ (CheckPool_shrinks P env _)
      exact ⟨le_rfl, le_rfl⟩
    | exact ⟨le_rfl, le_rfl⟩

theorem ProcessCJSIGNFINALTX_shrinks (P : Params) (env : Env) (pfrom : CNode)
    (ptx : PartiallySignedTransaction) (s : CCoinJoinServer) :
    Shrinks s (ProcessCJSIGNFINALTX P env pfrom ptx s) := by
  unfold ProcessCJSIGNFINALTX
  simp only
  split_ifs with h1
  · rw [CheckSessionMessage_false P pfrom s (by simpa using h1)]
    exact ⟨le_rfl, le_rfl⟩
  · exact Shrinks.refl s
  · refine Shrinks.trans ?_ (CommitFinalTransaction_shrinks P env _)
    apply Shrinks.setNull
    exact ⟨le_rfl, le_rfl⟩
  · apply Shrinks.setNull
    exact ⟨le_rfl, le_rfl⟩
  · refine Shrinks.trans ?_ (CommitFinalTransaction_shrinks P env _)
    exact ⟨le_rfl, le_rfl⟩
  · exact ⟨le_rfl, le_rfl⟩

theorem ProcessCJQUEUE_unchanged (P : Params) (env : Env) (pfrom : CNode)
    (queue : CCoinJoinQueue) (s : CCoinJoinServer) :
    Unchanged s (ProcessCJQUEUE P env pfrom queue s) := by
  simp only [ProcessCJQUEUE]
  split_ifs
  all_goals exact ⟨rfl, rfl, rfl⟩

theorem Bounded.of_shrinks {P : Params} {s t : CCoinJoinServer} (h : Bounded P s)
    (hs : Shrinks s t) : Bounded P t := ⟨le_trans hs.1 h.1, le_trans hs.2 h.2⟩

theorem CreateNewSession_true (P : Params) (env : Env) (d : CAmount) (m : PoolMessage)
    (s : CCoinJoinServer) (h : (CreateNewSession P env d m s).1 = true) :
    P.fMasternodeMode = true ∧ s.nState = POOL_STATE_IDLE ∧ P.IsInDenomRange d = true ∧
    (CreateNewSession P env d m s).2.2.nState = POOL_STATE_QUEUE ∧
    (CreateNewSession P env d m s).2.2.vecEntries = s.vecEntries ∧
    (CreateNewSession P env d m s).2.2.vecDenom = s.vecDenom ∧
    (CreateNewSession P env d m s).2.2.nSessionDenom = d := by
  unfold CreateNewSession at h ⊢
  simp only at h ⊢
  split_ifs at h ⊢ with h1 h2 h3 h4
  all_goals
    have hmn : P.fMasternodeMode = true := by
      cases hm : P.fMasternodeMode
      · simp [hm] at h1
      · rfl
    simp [SetState, hmn] at h3 ⊢
    exact ⟨by simpa using h2, h3⟩

theorem CreateNewSession_false (P : Params) (env : Env) (d : CAmount) (m : PoolMessage)
    (s : CCoinJoinServer) (h : ¬ (CreateNewSession P env d m s).1 = true) :
    (CreateNewSession P env d m s).2.2 = s := by
  unfold CreateNewSession at h ⊢
  simp only at h ⊢
  split_ifs at h ⊢ <;> simp_all

theorem AddUserToExistingSession_true (P : Params) (d : CAmount) (m : PoolMessage)
    (s : CCoinJoinServer) (h : (AddUserToExistingSession P d m s).1 = true) :
    Unchanged s (AddUserToExistingSession P d m s).2.2 ∧
    (AddUserToExistingSession P d m s).2.2.nSessionDenom = Int.lor s.nSessionDenom d := by
  unfold AddUserToExistingSession at h ⊢
  split_ifs at h ⊢
  exact ⟨⟨rfl, rfl, rfl⟩, rfl⟩

theorem AddUserToExistingSession_false (P : Params) (d : CAmount) (m : PoolMessage)
    (s : CCoinJoinServer) (h : ¬ (AddUserToExistingSession P d m s).1 = true) :
    (AddUserToExistingSession P d m s).2.2 = s := by
  unfold AddUserToExistingSession at h ⊢
  split_ifs at h ⊢ <;> simp_all

theorem AddEntry_true (P : Params) (e : CCoinJoinEntry) (m : PoolMessage)
    (s : CCoinJoinServer) (h : (AddEntry P e m s).1 = true) :
    P.fMasternodeMode = true ∧ s.nState = POOL_STATE_ACCEPTING_ENTRIES ∧
    s.vecEntries.length < P.MaxPoolInputs ∧
    AddEntry P e m s = (true, MSG_ENTRIES_ADDED, { s with vecEntries := s.vecEntries ++ [e] }) := by
  unfold AddEntry at h ⊢
  split_ifs at h ⊢ with h1 h2 h3
  refine ⟨by simpa using h1, ?_, ?_, rfl⟩
  · by_contra hc; exact h2 (Or.inr hc)
  · by_contra hc; exact h2 (Or.inl (Nat.not_lt.1 hc))

theorem QueuePush_unchanged (env : Env) (q : CCoinJoinQueue) (a : CService)
    (s : CCoinJoinServer) : Unchanged s (QueuePush env q a s) := by
  unfold QueuePush
  split_ifs <;> exact ⟨rfl, rfl, rfl⟩

theorem QueuePush_fields (env : Env) (q : CCoinJoinQueue) (a : CService)
    (s : CCoinJoinServer) :
    (QueuePush env q a s).nState = s.nState ∧ (QueuePush env q a s).vecEntries = s.vecEntries ∧
    (QueuePush env q a s).vecDenom = s.vecDenom ∧
    (QueuePush env q a s).nSessionDenom = s.nSessionDenom := by
  unfold QueuePush
  split_ifs <;> exact ⟨rfl, rfl, rfl, rfl⟩

/-- The two ways the `CJACCEPT` branch ends: with a rejection that leaves the server as
it is, or with the new participant registered and `CheckForCompleteQueue`. -/
theorem ProcessCJACCEPT_cases (P : Params) (env : Env) (pfrom : CNode) (d : CAmount)
    (s : CCoinJoinServer) :
    (∃ code, ProcessCJACCEPT P env pfrom d s = PushStatus pfrom.addr STATUS_REJECTED code s) ∨
    (∃ s3, ProcessCJACCEPT P env pfrom d s = CheckForCompleteQueue P env s3 ∧
      s.vecDenom.length < P.MaxPoolInputs ∧
      s3.vecEntries = s.vecEntries ∧ s3.vecDenom = s.vecDenom ++ [(pfrom.addr, d)] ∧
      ((P.fMasternodeMode = true ∧ s.nState = POOL_STATE_IDLE ∧ P.IsInDenomRange d = true ∧
          s3.nState = POOL_STATE_QUEUE ∧ s3.nSessionDenom = d) ∨
        (s3.nState = s.nState ∧ s3.nSessionDenom = Int.lor s.nSessionDenom d))) := by
  unfold ProcessCJACCEPT
  simp only
  split_ifs with h1 h2 h3 h4 h5 h6 h7 h8
  · exact Or.inl ⟨_, rfl⟩
  · exact Or.inl ⟨_, rfl⟩
  · exact Or.inl ⟨_, rfl⟩
  · have hfull : s.vecDenom.length < P.MaxPoolInputs := by simpa [IsSessionFull] using h1
    obtain ⟨c1, c2, c3, c4, c5, c6, c7⟩ := CreateNewSession_true P env d MSG_NOERR s h5
    refine Or.inr ⟨_, rfl, hfull, ?_, ?_, Or.inl ⟨c1, c2, c3, ?_, ?_⟩⟩
    · rw [(QueuePush_fields _ _ _ _).2.1]; exact c5
    · rw [(QueuePush_fields _ _ _ _).2.2.1]; exact congrArg (fun l => l ++ [(pfrom.addr, d)]) c6
    · rw [(QueuePush_fields _ _ _ _).1]; exact c4
    · rw [(QueuePush_fields _ _ _ _).2.2.2]; exact c7
  · have hfull : s.vecDenom.length < P.MaxPoolInputs := by simpa [IsSessionFull] using h1
    obtain ⟨c1, c2, c3, c4, c5, c6, c7⟩ := CreateNewSession_true P env d MSG_NOERR s h5
    refine Or.inr ⟨_, rfl, hfull, c5, ?_, Or.inl ⟨c1, c2, c3, c4, c7⟩⟩
    exact congrArg (fun l => l ++ [(pfrom.addr, d)]) c6
  · rw [CreateNewSession_false P env d MSG_NOERR s h5]
    exact Or.inl ⟨_, rfl⟩
  · have hfull : s.vecDenom.length < P.MaxPoolInputs := by simpa [IsSessionFull] using h1
    obtain ⟨⟨c1, c2, c3⟩, c4⟩ := AddUserToExistingSession_true P d MSG_NOERR s h7
    refine Or.inr ⟨_, rfl, hfull, ?_, ?_, Or.inr ⟨?_, ?_⟩⟩
    · rw [(QueuePush_fields _ _ _ _).2.1]; exact c2
    · rw [(QueuePush_fields _ _ _ _).2.2.1]; exact congrArg (fun l => l ++ [(pfrom.addr, d)]) c3
    · rw [(QueuePush_fields _ _ _ _).1]; exact c1
    · rw [(QueuePush_fields _ _ _ _).2.2.2]; exact c4
  · have hfull : s.vecDenom.length < P.MaxPoolInputs := by simpa [IsSessionFull] using h1
    obtain ⟨⟨c1, c2, c3⟩, c4⟩ := AddUserToExistingSession_true P d MSG_NOERR s h7
    refine Or.inr ⟨_, rfl, hfull, c2, ?_, Or.inr ⟨c1, c4⟩⟩
    exact congrArg (fun l => l ++ [(pfrom.addr, d)]) c3
  · rw [AddUserToExistingSession_false P d MSG_NOERR s h7]
    exact Or.inl ⟨_, rfl⟩

/-- The two ways the `CJTXIN` branch ends: with a rejection that leaves the server as it
is, or with the entry appended, `RelayStatus` and `CheckPool`. -/
theorem ProcessCJTXIN_cases (P : Params) (env : Env) (pfrom : CNode) (entry : CCoinJoinEntry)
    (s : CCoinJoinServer) :
    (∃ code, ProcessCJTXIN P env pfrom entry s = PushStatus pfrom.addr STATUS_REJECTED code s) ∨
    (P.fMasternodeMode = true ∧ s.nState = POOL_STATE_ACCEPTING_ENTRIES ∧
      s.vecEntries.length < P.MaxPoolInputs ∧
      ProcessCJTXIN P env pfrom entry s =
        CheckPool P env (RelayStatus P env STATUS_ACCEPTED MSG_NOERR
          (PushStatus pfrom.addr STATUS_ACCEPTED MSG_ENTRIES_ADDED
            { s with vecEntries := s.vecEntries ++ [{ entry with addr := pfrom.addr }] }))) := by
  unfold ProcessCJTXIN
  simp only
  split_ifs with h1 h2 h3 h4 h5 h6 h7
  · exact Or.inl ⟨_, CheckSessionMessage_false P pfrom s (by simpa using h1)⟩
  · exact Or.inl ⟨_, rfl⟩
  · exact Or.inl ⟨_, rfl⟩
  · exact Or.inl ⟨_, rfl⟩
  · exact Or.inl ⟨_, rfl⟩
  · exact Or.inl ⟨_, rfl⟩
  · obtain ⟨a, b, c, e⟩ := AddEntry_true P _ _ s h7
    exact Or.inr ⟨a, b, c, by rw [e]⟩
  · exact Or.inl ⟨_, by rw [AddEntry_of_false P _ _ s h7]⟩

theorem Bounded.pushStatus {P : Params} {s : CCoinJoinServer} (h : Bounded P s) (a : CService)
    (u : PoolStatusUpdate) (m : PoolMessage) : Bounded P (PushStatus a u m s) := h

theorem ProcessModuleMessage_bounded (P : Params) (env : Env) (pfrom : CNode) (msg : NetMsg)
    (s : CCoinJoinServer) (h : Bounded P s) :
    Bounded P (ProcessModuleMessage P env pfrom msg s) := by
  unfold ProcessModuleMessage
  split_ifs
  · exact h
  · exact h
  · exact h
  · exact h
  · cases msg with
    | CJACCEPT d =>
      show Bounded P (ProcessCJACCEPT P env pfrom d s)
      rcases ProcessCJACCEPT_cases P env pfrom d s with ⟨code, hc⟩ | ⟨s3, hc, hlt, he, hd, _⟩
      · rw [hc]; exact h
      · rw [hc]
        refine Bounded.of_shrinks ?_ (CheckForCompleteQueue_shrinks P env s3)
        refine ⟨?_, ?_⟩
        · rw [hd, List.length_append]; simpa using hlt
        · rw [he]; exact h.2
    | CJQUEUE q =>
      show Bounded P (ProcessCJQUEUE P env pfrom q s)
      obtain ⟨_, b, c⟩ := ProcessCJQUEUE_unchanged P env pfrom q s
      exact ⟨by rw [c]; exact h.1, by rw [b]; exact h.2⟩
    | CJTXIN e =>
      show Bounded P (ProcessCJTXIN P env pfrom e s)
      rcases ProcessCJTXIN_cases P env pfrom e s with ⟨code, hc⟩ | ⟨_, _, hlt, hc⟩
      · rw [hc]; exact h
      · rw [hc]
        refine Bounded.of_shrinks ?_ (Shrinks.trans (RelayStatus_shrinks P env _ _ _)
          (CheckPool_shrinks P env _))
        refine ⟨h.1, ?_⟩
        show (s.vecEntries ++ [_]).length ≤ _
        rw [List.length_append]; simpa using hlt
    | CJSIGNFINALTX ptx =>
      exact Bounded.of_shrinks h (ProcessCJSIGNFINALTX_shrinks P env pfrom ptx s)
    | OTHER => exact h

theorem Op.apply_bounded (P : Params) (env : Env) (op : Op) (s : CCoinJoinServer)
    (hop : handlerOp op = true) (h : Bounded P s) : Bounded P (op.apply P env s) := by
  cases op with
  | message pfrom msg => exact ProcessModuleMessage_bounded P env pfrom msg s h
  | blockTip n => exact Bounded.of_shrinks h (UpdatedBlockTip_shrinks P env n s)
  | updateQueue u => exact Bounded.of_shrinks h (UpdateQueue_shrinks P env u s)
  | relayStatus u m => exact Bounded.of_shrinks h (RelayStatus_shrinks P env u m s)
  | setNull => exact Bounded.of_shrinks h (SetNull_shrinks P env s)
  | createNewSession d => simp [handlerOp] at hop
  | addUserToExistingSession d => simp [handlerOp] at hop
  | checkForCompleteQueue => simp [handlerOp] at hop
  | checkPool => simp [handlerOp] at hop
  | checkTimeout n => simp [handlerOp] at hop

theorem Reachable.bounded (P : Params) (G : CCoinJoinServer → Env → Op → Prop)
    (hG : ∀ s env op, G s env op → handlerOp op = true) (s : CCoinJoinServer)
    (h : Reachable P G s) : Bounded P s := by
  induction h with
  | init => exact ⟨Nat.zero_le _, Nat.zero_le _⟩
  | step s env op _ hg ih => exact Op.apply_bounded P env op s (hG s env op hg) ih

theorem Within.of_nullSession {P : Params} {env : Env} {s : CCoinJoinServer}
    (h : IsNullSession P s) : Within env s := by
  obtain ⟨h1, h2, h3, _⟩ := h
  refine ⟨?_, ?_, ?_⟩
  · intro p hp; rw [h3] at hp; cases hp
  · intro _; exact h2
  · intro hacc; rw [h1] at hacc; cases hacc

theorem Within.early {env : Env} {s : CCoinJoinServer} (h : Within env s) : Early env s :=
  ⟨h.1, h.2.1⟩

theorem Within.of_unchanged {env : Env} {s t : CCoinJoinServer} (h : Within env s)
    (hu : Unchanged s t) : Within env t := by
  obtain ⟨u1, u2, u3⟩ := hu
  refine ⟨?_, ?_, ?_⟩
  · intro p hp; rw [u3] at hp; exact h.1 p hp
  · intro hst; rw [u1] at hst; rw [u2]; exact h.2.1 hst
  · intro hst; rw [u1] at hst; rw [u2, u3]; exact h.2.2 hst

theorem UpdateQueue_found (P : Params) (env : Env) (u : PoolStatusUpdate)
    (s : CCoinJoinServer) (hf : AllFound env s) :
    IsNullSession P (UpdateQueue P env u s) ∨ Unchanged s (UpdateQueue P env u s) := by
  rcases (UpdateQueue_post P env u s).2.2 with h | ⟨h1, h2⟩
  · exact Or.inl h.1
  · refine Or.inr ⟨h1.1, h1.2.1, ?_⟩
    rcases h2 with h2 | ⟨h2, _⟩
    · exact h2
    · rw [h2]; exact List.filter_eq_self.2 hf

theorem UpdateQueue_within (P : Params) (env : Env) (u : PoolStatusUpdate)
    (s : CCoinJoinServer) (h : Within env s) : Within env (UpdateQueue P env u s) := by
  rcases UpdateQueue_found P env u s h.1 with hn | hu
  · exact Within.of_nullSession hn
  · exact h.of_unchanged hu

theorem SetNull_within (P : Params) (env : Env) (s : CCoinJoinServer) :
    Within env (SetNull P env s) := Within.of_nullSession (SetNull_post P env s).2.2

theorem CreateFinalTransaction_within (P : Params) (env : Env) (s : CCoinJoinServer)
    (hf : AllFound env s) (hst : s.nState = POOL_STATE_SIGNING) :
    Within env (CreateFinalTransaction P env s) := by
  rcases (CreateFinalTransaction_post P env s).2.2 with h | ⟨h1, _, _⟩
  · exact Within.of_nullSession h
  · obtain ⟨a, b, _⟩ := h1
    refine ⟨?_, ?_, ?_⟩
    · intro p hp; rw [b] at hp; exact hf p hp
    · intro hc; rw [a, hst] at hc; rcases hc with hc | hc <;> cases hc
    · intro hc; rw [a, hst] at hc; cases hc

theorem CheckPool_within (P : Params) (env : Env) (s : CCoinJoinServer)
    (hmn : P.fMasternodeMode = true) (h : Early env s) : Within env (CheckPool P env s) := by
  unfold CheckPool
  simp only [hmn, Bool.not_true, Bool.false_eq_true, if_false]
  split_ifs with h1 h2
  · apply CreateFinalTransaction_within
    · intro p hp
      rw [(SetState_fields P _ _).1] at hp
      rcases UpdateQueue_found P env STATUS_READY s h.1 with hn | hu
      · rw [show (UpdateQueue P env STATUS_READY s).vecDenom = [] from hn.2.2.1] at hp
        cases hp
      · rw [show (UpdateQueue P env STATUS_READY s).vecDenom = s.vecDenom from hu.2.2] at hp
        exact h.1 p hp
    · simp [SetState, hmn]
  · rcases UpdateQueue_found P env STATUS_FULL s h.1 with hn | hu
    · exact Within.of_nullSession hn
    · refine Within.of_unchanged ⟨h.1, h.2, fun _ => ?_⟩ hu
      have : ¬ (s.vecEntries.length ≥ s.vecDenom.length) := by
        intro hge
        apply h1
        exact ⟨h2.1, by simp [hge]⟩
      omega
  · refine ⟨h.1, h.2, fun hacc => ?_⟩
    have : ¬ (s.vecEntries.length ≥ s.vecDenom.length) := by
      intro hge
      apply h1
      exact ⟨hacc, by simp [hge]⟩
    omega

theorem CheckForCompleteQueue_within (P : Params) (env : Env) (s : CCoinJoinServer)
    (h : Within env s) : Within env (CheckForCompleteQueue P env s) := by
  unfold CheckForCompleteQueue
  simp only
  split_ifs with h1 h2 h3
  · exact h
  · apply UpdateQueue_within
    have hmn : P.fMasternodeMode = true := by simpa using h1
    have he : s.vecEntries = [] := h.2.1 (Or.inr h2.1)
    refine ⟨?_, ?_, ?_⟩
    · intro p hp; rw [(SetState_fields P _ _).1] at hp; exact h.1 p hp
    · intro _; rw [(SetState_fields P _ _).2.1]; exact he
    · intro _; rw [(SetState_fields P _ _).2.1]; show s.vecEntries.length ≤ _; rw [he]
      exact Nat.zero_le _
  · apply UpdateQueue_within
    have hmn : P.fMasternodeMode = true := by simpa using h1
    have he : s.vecEntries = [] := h.2.1 (Or.inr h2.1)
    refine ⟨?_, ?_, ?_⟩
    · intro p hp; rw [(SetState_fields P _ _).1] at hp; exact h.1 p hp
    · intro _; rw [(SetState_fields P _ _).2.1]; exact he
    · intro _; rw [(SetState_fields P _ _).2.1]; show s.vecEntries.length ≤ _; rw [he]
      exact Nat.zero_le _
  · exact h

theorem CheckTimeout_within (P : Params) (env : Env) (n : Int) (s : CCoinJoinServer)
    (h : Within env s) : Within env (CheckTimeout P env n s) := by
  unfold CheckTimeout
  simp only
  split_ifs
  · exact h
  · exact SetNull_within P env _
  · exact SetNull_within P env _
  · exact SetNull_within P env _
  · exact h.of_unchanged ⟨rfl, rfl, rfl⟩

theorem RelayStatus_early (P : Params) (env : Env) (u : PoolStatusUpdate) (m : PoolMessage)
    (s : CCoinJoinServer) (h : Early env s) : Early env (RelayStatus P env u m s) := by
  rcases RelayStatus_post P env u m s with hn | ⟨a, b, c⟩
  · exact (Within.of_nullSession hn).early
  · refine ⟨?_, ?_⟩
    · intro p hp; rw [b] at hp; exact h.1 p hp
    · intro hst; rw [a] at hst; rw [c, h.2 hst]; rfl

theorem RelayStatus_within (P : Params) (env : Env) (u : PoolStatusUpdate) (m : PoolMessage)
    (s : CCoinJoinServer) (h : Within env s) : Within env (RelayStatus P env u m s) := by
  rcases RelayStatus_post P env u m s with hn | ⟨a, b, c⟩
  · exact Within.of_nullSession hn
  · refine ⟨(RelayStatus_early P env u m s h.early).1, (RelayStatus_early P env u m s h.early).2,
      fun hst => ?_⟩
    rw [a] at hst
    rw [b, c]
    exact le_trans (List.length_filter_le _ _) (h.2.2 hst)

theorem CommitFinalTransaction_within (P : Params) (env : Env) (s : CCoinJoinServer)
    (hmn : P.fMasternodeMode = true) : Within env (CommitFinalTransaction P env s) := by
  unfold CommitFinalTransaction
  simp only [hmn, Bool.not_true, Bool.false_eq_true, if_false]
  split
  · exact SetNull_within P env _
  · split_ifs
    · exact SetNull_within P env _
    · exact SetNull_within P env _

theorem ProcessCJSIGNFINALTX_within (P : Params) (env : Env) (pfrom : CNode)
    (ptx : PartiallySignedTransaction) (s : CCoinJoinServer)
    (hmn : P.fMasternodeMode = true) (h : Within env s) :
    Within env (ProcessCJSIGNFINALTX P env pfrom ptx s) := by
  unfold ProcessCJSIGNFINALTX
  simp only
  split_ifs with h1
  · rw [CheckSessionMessage_false P pfrom s (by simpa using h1)]
    exact h.of_unchanged ⟨rfl, rfl, rfl⟩
  · exact h
  · exact CommitFinalTransaction_within P env _ hmn
  · exact SetNull_within P env _
  · exact CommitFinalTransaction_within P env _ hmn
  · exact h.of_unchanged ⟨rfl, rfl, rfl⟩

theorem ProcessModuleMessage_within (P : Params) (env : Env) (pfrom : CNode) (msg : NetMsg)
    (s : CCoinJoinServer) (hfrom : env.ForNode pfrom.addr = true) (h : Within env s) :
    Within env (ProcessModuleMessage P env pfrom msg s) := by
  unfold ProcessModuleMessage
  split_ifs with h1
  · exact h
  · exact h
  · exact h
  · exact h.of_unchanged ⟨rfl, rfl, rfl⟩
  · have hmn : P.fMasternodeMode = true := by simpa using h1
    cases msg with
    | CJACCEPT d =>
      show Within env (ProcessCJACCEPT P env pfrom d s)
      rcases ProcessCJACCEPT_cases P env pfrom d s with ⟨code, hc⟩ | ⟨s3, hc, _, he, hd, hk⟩
      · rw [hc]; exact h.of_unchanged ⟨rfl, rfl, rfl⟩
      · rw [hc]
        apply CheckForCompleteQueue_within
        refine ⟨?_, ?_, ?_⟩
        · intro p hp
          rw [hd] at hp
          rcases List.mem_append.1 hp with hp | hp
          · exact h.1 p hp
          · rw [List.mem_singleton.1 hp]; exact hfrom
        · intro hst
          rw [he]
          rcases hk with ⟨_, hidle, _, _, _⟩ | ⟨hsame, _⟩
          · exact h.2.1 (Or.inl hidle)
          · rw [hsame] at hst; exact h.2.1 hst
        · intro hst
          rw [he, hd, List.length_append]
          rcases hk with ⟨_, _, _, hq, _⟩ | ⟨hsame, _⟩
          · rw [hq] at hst; cases hst
          · rw [hsame] at hst
            exact le_trans (h.2.2 hst) (Nat.le_add_right _ _)
    | CJQUEUE q =>
      exact h.of_unchanged (ProcessCJQUEUE_unchanged P env pfrom q s)
    | CJTXIN e =>
      show Within env (ProcessCJTXIN P env pfrom e s)
      rcases ProcessCJTXIN_cases P env pfrom e s with ⟨code, hc⟩ | ⟨_, hacc, _, hc⟩
      · rw [hc]; exact h.of_unchanged ⟨rfl, rfl, rfl⟩
      · rw [hc]
        apply CheckPool_within P env _ hmn
        apply RelayStatus_early
        refine ⟨h.1, ?_⟩
        intro hst
        have hst' : s.nState = POOL_STATE_IDLE ∨ s.nState = POOL_STATE_QUEUE := hst
        rw [hacc] at hst'
        rcases hst' with hst' | hst' <;> cases hst'
    | CJSIGNFINALTX ptx => exact ProcessCJSIGNFINALTX_within P env pfrom ptx s hmn h
    | OTHER => exact h

theorem UpdatedBlockTip_within (P : Params) (env : Env) (n : Int) (s : CCoinJoinServer)
    (h : Within env s) : Within env (UpdatedBlockTip P env n s) := by
  unfold UpdatedBlockTip
  simp only
  split_ifs with h1 h2 h3 h4 h5 h6
  · exact h
  · exact h
  · exact h
  · exact h.of_unchanged ⟨rfl, rfl, rfl⟩
  all_goals
    have hmn : P.fMasternodeMode = true := by simpa using h3
    have h0 : Within env { s with nCachedBlockHeight := n } := h.of_unchanged ⟨rfl, rfl, rfl⟩
    apply CheckTimeout_within
  · exact CheckPool_within P env _ hmn (CheckForCompleteQueue_within P env _ h0).early
  · exact CheckForCompleteQueue_within P env _ h0
  · exact CheckPool_within P env _ hmn h0.early
  · exact h0

theorem Op.apply_within (P : Params) (env : Env) (op : Op) (s : CCoinJoinServer)
    (hg : foundGuard s env op) (h : EntriesWithin s) : EntriesWithin (op.apply P env s) := by
  obtain ⟨hop, hall, hsend⟩ := hg
  have hw : Within env s := ⟨by simpa [AllFound] using hall, h⟩
  cases op with
  | message pfrom msg => exact (ProcessModuleMessage_within P env pfrom msg s hsend hw).2
  | blockTip n => exact (UpdatedBlockTip_within P env n s hw).2
  | updateQueue u => exact (UpdateQueue_within P env u s hw).2
  | relayStatus u m => exact (RelayStatus_within P env u m s hw).2
  | setNull => exact (SetNull_within P env s).2
  | createNewSession d => simp [handlerOp] at hop
  | addUserToExistingSession d => simp [handlerOp] at hop
  | checkForCompleteQueue => simp [handlerOp] at hop
  | checkPool => simp [handlerOp] at hop
  | checkTimeout n => simp [handlerOp] at hop

theorem Reachable.entriesWithin (P : Params) (s : CCoinJoinServer)
    (h : Reachable P foundGuard s) : EntriesWithin s := by
  induction h with
  | init => exact ⟨fun _ => rfl, fun _ => Nat.zero_le _⟩
  | step s env op _ hg ih => exact Op.apply_within P env op s hg ih

theorem Reachable.run (P : Params) (G : CCoinJoinServer → Env → Op → Prop) :
    ∀ (trace : List (Env × Op)) (s : CCoinJoinServer), Reachable P G s → runOk P G trace s →
      Reachable P G (run P trace s) := by
  intro trace
  induction trace with
  | nil => intro s h _; exact h
  | cons x rest ih =>
    intro s h hok
    obtain ⟨env, op⟩ := x
    exact ih _ (Reachable.step s env op h hok.1) hok.2

/-! ### Invariants of the coordinator -/

/-- C3, amended: in every state the coordinator reaches from the idle state through the
message handlers, the chain-tip hook, `UpdateQueue`, `RelayStatus` and `SetNull`, the
participants are at most `MaxPoolInputs` and the entries are at most `MaxPoolInputs`,
whatever the pool state; and if the state is reached by a run in which every
participant and every sender can be reached, so that `UpdateQueue` erases no
participant, then in state `AcceptingEntries` the entries are at most as many as the
participants. -/
theorem entries_participants_bounded (P : Params) (s : CCoinJoinServer)
    (h : Reachable P handlerGuard s) :
    s.vecDenom.length ≤ P.MaxPoolInputs ∧ s.vecEntries.length ≤ P.MaxPoolInputs ∧
    (Reachable P foundGuard s → s.nState = POOL_STATE_ACCEPTING_ENTRIES →
      s.vecEntries.length ≤ s.vecDenom.length ∧ s.vecDenom.length ≤ P.MaxPoolInputs) := by
  have hb := Reachable.bounded P handlerGuard (fun _ _ _ hg => hg) s h
  exact ⟨hb.1, hb.2, fun hf hacc => ⟨(Reachable.entriesWithin P s hf).2 hacc, hb.1⟩⟩

/-- Witness of C3: three participants, two entries. -/
theorem entries_participants_bounded_witness :
    Reachable exParams handlerGuard exTwoOfThree ∧
    exTwoOfThree.nState = POOL_STATE_ACCEPTING_ENTRIES ∧
    exTwoOfThree.vecEntries.length ≤ exTwoOfThree.vecDenom.length ∧
    exTwoOfThree.vecDenom.length ≤ exParams.MaxPoolInputs :=
  ⟨Reachable.run exParams handlerGuard exTwoOfThreeRun _ Reachable.init (by decide),
   by decide,
   (entries_participants_bounded exParams exTwoOfThree
      (Reachable.run exParams handlerGuard exTwoOfThreeRun _ Reachable.init (by decide))).2.2
      (Reachable.run exParams foundGuard exTwoOfThreeRun _ Reachable.init (by decide))
      (by decide)⟩

/-- Counterexample to C3 as stated: three peers join, two of them send their entry, two
more peers join, and at the next block only the first participant is connected;
`CheckPool` pushes the `Full` status, `UpdateQueue` erases the four participants that
are gone, and the coordinator is left in `AcceptingEntries` with two entries and one
participant. -/
theorem entries_exceed_participants :
    Reachable exParams handlerGuard exEvicted ∧
    exEvicted.nState = POOL_STATE_ACCEPTING_ENTRIES ∧
    exEvicted.vecEntries.length = 2 ∧ exEvicted.vecDenom.length = 1 ∧
    ¬ (exEvicted.vecEntries.length ≤ exEvicted.vecDenom.length) :=
  ⟨Reachable.run exParams handlerGuard exEvictedRun _ Reachable.init (by decide),
   by decide, by decide, by decide, by decide⟩

/-- C4, the failing run: five peers have joined with mask `0b0011`, three entries have
arrived and the accept timeout has passed, so `finalize_ready` holds; no participant
can be reached any more.  `CheckPool` calls `UpdateQueue(STATUS_READY)`, which erases
all participants and resets the session, and then goes on to set the state to
`Signing`: the coordinator is left in a state other than `Idle` with
`nSessionDenom == 0`.  The same happens when `CheckPool` is called by the `CJTXIN`
handler for the third entry. -/
theorem CheckPool_signing_after_reset :
    Reachable exParams (fun _ _ _ => True) exThreeEntries ∧
    exThreeEntries.nState = POOL_STATE_ACCEPTING_ENTRIES ∧
    exThreeEntries.nSessionDenom = 3 ∧
    (CheckPool exParams (exEnv 100 [6, 7, 8] 0) exThreeEntries).nState = POOL_STATE_SIGNING ∧
    (CheckPool exParams (exEnv 100 [6, 7, 8] 0) exThreeEntries).nSessionDenom = 0 ∧
    (ProcessModuleMessage exParams (exEnv 100 [6, 7, 8] 0) (exPeer 8)
      (NetMsg.CJTXIN (exEntry 8)) exFullTwoEntries).nState = POOL_STATE_SIGNING ∧
    (ProcessModuleMessage exParams (exEnv 100 [6, 7, 8] 0) (exPeer 8)
      (NetMsg.CJTXIN (exEntry 8)) exFullTwoEntries).nSessionDenom = 0 :=
  ⟨Reachable.run exParams _ exThreeEntriesRun _ Reachable.init (by decide),
   by decide, by decide, by decide, by decide, by decide, by decide⟩

/-! ### Failure of the merge -/

/-- What the `CJSIGNFINALTX` handler does after a failed merge: the session ends reset in
every case; and when `CheckTransaction` rejects the final transaction that the reset
has left, the handler does nothing beyond the notifications and the reset. -/
theorem merge_failure_resets (P : Params) (env : Env) (pfrom : CNode)
    (ptx : PartiallySignedTransaction) (s : CCoinJoinServer)
    (hmn : P.fMasternodeMode = true)
    (hgate : (CheckSessionMessage P pfrom s).1 = true)
    (hhash : P.GetHash s.finalPartiallySignedTransaction.tx = P.GetHash ptx.tx)
    (hmerge : (env.Merge s.finalPartiallySignedTransaction ptx).1 = false) :
    IsNullSession P (ProcessCJSIGNFINALTX P env pfrom ptx s) ∧
    ((env.CheckTransaction nullPSBT false).1 = false →
      ProcessCJSIGNFINALTX P env pfrom ptx s =
        SetNull P env
          { s with
            finalPartiallySignedTransaction := (env.Merge s.finalPartiallySignedTransaction ptx).2
            sent := s.sent ++ (s.vecEntries.filter (fun e => env.ForNode e.addr)).map (fun e =>
              NetEvent.CJSTATUSUPDATE e.addr s.nSessionID s.nState s.vecEntries.length
                STATUS_REJECTED MSG_NOERR) }) := by
  have hfinal : ∀ t, (SetNull P env t).finalPartiallySignedTransaction = nullPSBT :=
    fun t => (SetNull_post P env t).2.2.2.2.2.2.2.2.1
  constructor
  · unfold ProcessCJSIGNFINALTX
    simp only [hgate, hhash, hmerge, Bool.not_true, Bool.not_false, Bool.false_eq_true,
      if_false, if_true, ne_eq, not_true_eq_false]
    split_ifs
    · unfold CommitFinalTransaction
      simp only [hmn, Bool.not_true, Bool.false_eq_true, if_false]
      split
      · exact (SetNull_post P env _).2.2
      · split_ifs
        · exact (SetNull_post P env _).2.2
        · exact (SetNull_post P env _).2.2
    · exact (SetNull_post P env _).2.2
  · intro hct
    unfold ProcessCJSIGNFINALTX
    simp only [hgate, hhash, hmerge, Bool.not_true, Bool.not_false, Bool.false_eq_true,
      if_false, if_true, ne_eq, not_true_eq_false, hfinal, hct]

/-- C11, as amended: `AddEntry` returns true iff the node is in masternode mode, there are
fewer than `MaxPoolInputs` entries, the state is `AcceptingEntries` and no stored entry
equals the new one. On true the new entry is appended at the end of the entries and the
message id is `MSG_ENTRIES_ADDED`. On false the server is unchanged; outside masternode
mode the message id is the one the caller passed, in masternode mode it is
`ERR_ENTRIES_FULL` for a full pool or a wrong state, whether or not the entry is a
duplicate, and `ERR_ALREADY_HAVE` otherwise, that is for a duplicate in a pool that
accepts entries. -/
theorem AddEntry_spec (P : Params) (entryNew : CCoinJoinEntry) (nMessageID : PoolMessage)
    (s : CCoinJoinServer) :
    ((AddEntry P entryNew nMessageID s).1 = true ↔
      (P.fMasternodeMode = true ∧ s.vecEntries.length < P.MaxPoolInputs ∧
        s.nState = POOL_STATE_ACCEPTING_ENTRIES ∧
        ∀ entry ∈ s.vecEntries, P.entryEq entry entryNew = false)) ∧
    ((AddEntry P entryNew nMessageID s).1 = true →
      (AddEntry P entryNew nMessageID s).2.2.vecEntries = s.vecEntries ++ [entryNew] ∧
      (AddEntry P entryNew nMessageID s).2.1 = MSG_ENTRIES_ADDED) ∧
    ((AddEntry P entryNew nMessageID s).1 = false →
      (AddEntry P entryNew nMessageID s).2.2 = s ∧
      (P.fMasternodeMode = false → (AddEntry P entryNew nMessageID s).2.1 = nMessageID) ∧
      (P.fMasternodeMode = true →
        (s.vecEntries.length ≥ P.MaxPoolInputs ∨ s.nState ≠ POOL_STATE_ACCEPTING_ENTRIES) →
        (AddEntry P entryNew nMessageID s).2.1 = ERR_ENTRIES_FULL) ∧
      (P.fMasternodeMode = true → s.vecEntries.length < P.MaxPoolInputs →
        s.nState = POOL_STATE_ACCEPTING_ENTRIES →
        (AddEntry P entryNew nMessageID s).2.1 = ERR_ALREADY_HAVE)) := by
  unfold AddEntry
  split_ifs with h1 h2 h3
  · have hm : P.fMasternodeMode = false := by simpa using h1
    simp [hm]
  · have hm : P.fMasternodeMode = true := by simpa using h1
    simp only [hm, true_and, false_iff, Bool.false_eq_true, IsEmpty.forall_iff,
      forall_true_left, true_implies, and_true]
    refine ⟨?_, ?_, ?_⟩
    · rintro ⟨a, b, _⟩
      rcases h2 with h2 | h2
      · omega
      · exact h2 b
    · simp
    · refine ⟨fun _ => trivial, fun a b => ?_⟩
      rcases h2 with h2 | h2
      · omega
      · exact absurd b h2
  · have hm : P.fMasternodeMode = true := by simpa using h1
    have h2a : s.vecEntries.length < P.MaxPoolInputs := by
      by_contra hc; exact h2 (Or.inl (not_lt.1 hc))
    have h2b : s.nState = POOL_STATE_ACCEPTING_ENTRIES := by
      by_contra hc; exact h2 (Or.inr hc)
    simp only [List.any_eq_true] at h3
    obtain ⟨x, hx, hx2⟩ := h3
    simp only [hm, true_and, false_iff, Bool.false_eq_true, IsEmpty.forall_iff,
      forall_true_left, true_implies, and_true]
    refine ⟨?_, ?_⟩
    · rintro ⟨_, _, h⟩
      rw [h x hx] at hx2
      exact Bool.false_ne_true hx2
    · refine ⟨fun h => absurd h (by decide), fun hc => ?_, fun _ _ => trivial⟩
      rcases hc with hc | hc
      · omega
      · exact absurd h2b hc
  · have hm : P.fMasternodeMode = true := by simpa using h1
    have h2a : s.vecEntries.length < P.MaxPoolInputs := by
      by_contra hc; exact h2 (Or.inl (not_lt.1 hc))
    have h2b : s.nState = POOL_STATE_ACCEPTING_ENTRIES := by
      by_contra hc; exact h2 (Or.inr hc)
    simp only [List.any_eq_true, not_exists, not_and, Bool.not_eq_true] at h3
    simp [hm, h2a, h2b]
    exact h3

/-- C11, counterexample: in a full pool the entry `exEntry 1` is a duplicate of a stored
entry, `AddEntry` returns false, and the message id is `ERR_ENTRIES_FULL`, not
`ERR_ALREADY_HAVE`. -/
theorem AddEntry_duplicate_in_full_pool :
    exParams.fMasternodeMode = true ∧
    (exFullPool.vecEntries.any (fun entry => exParams.entryEq entry (exEntry 1))) = true ∧
    (AddEntry exParams (exEntry 1) MSG_NOERR exFullPool).1 = false ∧
    (AddEntry exParams (exEntry 1) MSG_NOERR exFullPool).2.1 = ERR_ENTRIES_FULL ∧
    (AddEntry exParams (exEntry 1) MSG_NOERR exFullPool).2.1 ≠ ERR_ALREADY_HAVE := by
  decide

/-! ### Queue advertisements -/

theorem ProcessCJQUEUE_loop_length (P : Params) (queue : CCoinJoinQueue) :
    ∀ l : List CCoinJoinQueue, (ProcessCJQUEUE_loop P queue l).2.length = l.length
  | [] => rfl
  | q :: rest => by
    have ih := ProcessCJQUEUE_loop_length P queue rest
    simp only [ProcessCJQUEUE_loop]
    split_ifs <;> simp [ih]

theorem ProcessCJQUEUE_loop_false (P : Params) (queue : CCoinJoinQueue) :
    ∀ l : List CCoinJoinQueue, (ProcessCJQUEUE_loop P queue l).1 = false →
      ∀ q ∈ l, P.queueEq q queue = false
  | [], _ => by simp
  | q :: rest, h => by
    have ih := ProcessCJQUEUE_loop_false P queue rest
    simp only [ProcessCJQUEUE_loop] at h
    split_ifs at h with h1
    all_goals first
      | (simp at h; done)
      | (intro x hx
         rcases List.mem_cons.1 hx with rfl | hx
         · simpa using h1
         · exact ih (by simpa using h) x hx)

theorem ProcessCJQUEUE_cases (P : Params) (env : Env) (pfrom : CNode) (queue : CCoinJoinQueue)
    (s : CCoinJoinServer) :
    (queueAdmissible P env queue s ∧
      (∃ vec : List CCoinJoinQueue, vec.length = s.vecCoinJoinQueue.length ∧
        (ProcessCJQUEUE P env pfrom queue s).vecCoinJoinQueue = vec ++ [queue]) ∧
      (ProcessCJQUEUE P env pfrom queue s).sent = s.sent ++ [NetEvent.CJQUEUE_RELAY queue]) ∨
    ((ProcessCJQUEUE P env pfrom queue s).vecCoinJoinQueue.length = s.vecCoinJoinQueue.length ∧
      ((ProcessCJQUEUE P env pfrom queue s).sent = s.sent ∨
        (ProcessCJQUEUE P env pfrom queue s).sent =
          s.sent ++ [NetEvent.ASK_FOR_MN pfrom.addr queue.masternodeOutpoint])) := by
  simp only [ProcessCJQUEUE]
  split_ifs with h1 h2 h3 h4 h5
  · exact Or.inr ⟨rfl, Or.inl rfl⟩
  · exact Or.inr ⟨rfl, Or.inl rfl⟩
  · exact Or.inr ⟨rfl, Or.inr rfl⟩
  · exact Or.inr ⟨ProcessCJQUEUE_loop_length P queue _, Or.inl rfl⟩
  · refine Or.inl ⟨⟨by simpa using h1, not_lt.1 h2, ?_, ?_, ?_, h5⟩,
      ⟨_, ProcessCJQUEUE_loop_length P queue _, rfl⟩, rfl⟩
    · cases hg : env.GetMasternodeInfo queue.masternodeOutpoint
      · simp [hg] at h3
      · rfl
    · cases hc : env.CheckSignature queue
      · simp [hc] at h3
      · rfl
    · exact ProcessCJQUEUE_loop_false P queue _ (by simpa using h4)
  · exact Or.inr ⟨ProcessCJQUEUE_loop_length P queue _, Or.inl rfl⟩

/-- C12: for every queue advertisement, the `CJQUEUE` handler either appends it to
`vecCoinJoinQueue` and relays it, and then the advertisement is admissible (not expired,
height at most the cached height plus one, known masternode, valid signature, no stored
queue equal to it, status at most `Open`), or it leaves the number of stored queues as
it is and relays nothing. -/
theorem CJQUEUE_appends_only_admissible (P : Params) (env : Env) (pfrom : CNode)
    (queue : CCoinJoinQueue) (s : CCoinJoinServer) :
    (queueAdmissible P env queue s ∧
      (∃ vec : List CCoinJoinQueue, vec.length = s.vecCoinJoinQueue.length ∧
        (ProcessModuleMessage P env pfrom (NetMsg.CJQUEUE queue) s).vecCoinJoinQueue =
          vec ++ [queue]) ∧
      (ProcessModuleMessage P env pfrom (NetMsg.CJQUEUE queue) s).sent =
        s.sent ++ [NetEvent.CJQUEUE_RELAY queue]) ∨
    ((ProcessModuleMessage P env pfrom (NetMsg.CJQUEUE queue) s).vecCoinJoinQueue.length =
        s.vecCoinJoinQueue.length ∧
      ∀ q, NetEvent.CJQUEUE_RELAY q ∈
          (ProcessModuleMessage P env pfrom (NetMsg.CJQUEUE queue) s).sent →
        NetEvent.CJQUEUE_RELAY q ∈ s.sent) := by
  unfold ProcessModuleMessage
  split_ifs
  · exact Or.inr ⟨rfl, fun _ h => h⟩
  · exact Or.inr ⟨rfl, fun _ h => h⟩
  · exact Or.inr ⟨rfl, fun _ h => h⟩
  · exact Or.inr ⟨rfl, fun _ h => by simpa using h⟩
  · rcases ProcessCJQUEUE_cases P env pfrom queue s with h | ⟨h, h2⟩
    · exact Or.inl h
    · refine Or.inr ⟨h, fun q hq => ?_⟩
      rcases h2 with h2 | h2
      · rwa [h2] at hq
      · rw [h2] at hq
        simpa using hq

/-! ### The chain-tip check in state `AcceptingEntries` -/

/-- C13, as amended: in state `AcceptingEntries`, with fewer entries than
`MinPoolInputs`, fewer entries than participants, fewer participants than
`MaxPoolInputs` and an active queue that is not expired at the new height,
`UpdatedBlockTip` keeps the state `AcceptingEntries`, the entries and the participants,
however long ago the session started. -/
theorem UpdatedBlockTip_keeps_accepting (P : Params) (env : Env) (nHeight : Int)
    (s : CCoinJoinServer)
    (hst : s.nState = POOL_STATE_ACCEPTING_ENTRIES)
    (hlt : s.vecEntries.length < s.vecDenom.length)
    (hmin : s.vecEntries.length < P.MinPoolInputs)
    (hfull : s.vecDenom.length < P.MaxPoolInputs)
    (hq : IsExpired P s.activeQueue nHeight = false) :
    (UpdatedBlockTip P env nHeight s).nState = POOL_STATE_ACCEPTING_ENTRIES ∧
    (UpdatedBlockTip P env nHeight s).vecEntries = s.vecEntries ∧
    (UpdatedBlockTip P env nHeight s).vecDenom = s.vecDenom := by
  have hpool : CheckPool P env { s with nCachedBlockHeight := nHeight } =
      { s with nCachedBlockHeight := nHeight } := by
    unfold CheckPool
    simp only [IsSessionFull]
    split_ifs with h1 h2 h3
    · rfl
    · exfalso
      have := h2.2
      simp at this
      omega
    · exfalso
      have := h3.2
      simp at this
      omega
    · rfl
  have hto : ∀ (t : CCoinJoinServer) (h : Int), t.nState = POOL_STATE_ACCEPTING_ENTRIES →
      IsExpired P t.activeQueue t.nCachedBlockHeight = false →
      (CheckTimeout P env h t).nState = POOL_STATE_ACCEPTING_ENTRIES ∧
      (CheckTimeout P env h t).vecEntries = t.vecEntries ∧
      (CheckTimeout P env h t).vecDenom = t.vecDenom := by
    intro t h ht hqt
    unfold CheckTimeout
    simp only [CheckQueue, hqt, Bool.false_eq_true, if_false, ht, reduceCtorEq, false_and]
    split_ifs <;> first | exact ⟨rfl, rfl, rfl⟩ | exact ⟨ht, rfl, rfl⟩
  unfold UpdatedBlockTip
  simp only
  split_ifs with h1 h2 h3 h4 h5 h6
  · exact ⟨hst, rfl, rfl⟩
  · exact ⟨hst, rfl, rfl⟩
  · exact ⟨hst, rfl, rfl⟩
  · exact ⟨hst, rfl, rfl⟩
  · exact absurd (hst.symm.trans h5) (by decide)
  · exact absurd (hst.symm.trans h5) (by decide)
  · rw [hpool]
    exact hto _ _ hst hq

/-- C13, witness: the coordinator with three participants and two entries, at time
`100` and height `1`. -/
theorem UpdatedBlockTip_keeps_accepting_witness :
    (UpdatedBlockTip exParams (exEnv 100 exOnline 0) 1 exTwoOfThree).nState =
      POOL_STATE_ACCEPTING_ENTRIES ∧
    (UpdatedBlockTip exParams (exEnv 100 exOnline 0) 1 exTwoOfThree).vecEntries =
      exTwoOfThree.vecEntries ∧
    (UpdatedBlockTip exParams (exEnv 100 exOnline 0) 1 exTwoOfThree).vecDenom =
      exTwoOfThree.vecDenom :=
  UpdatedBlockTip_keeps_accepting exParams (exEnv 100 exOnline 0) 1 exTwoOfThree
    (by decide) (by decide) (by decide) (by decide) (by decide)

/-- C13, counterexample: a masternode in state `AcceptingEntries` whose session started
`100` seconds ago, with `COINJOIN_ACCEPT_TIMEOUT = 60` and two entries where
`MinPoolInputs = 3`, is still in state `AcceptingEntries` after `UpdatedBlockTip`. -/
theorem accept_timeout_does_not_reset :
    exParams.fMasternodeMode = true ∧
    exTwoOfThree.nState = POOL_STATE_ACCEPTING_ENTRIES ∧
    (exEnv 100 exOnline 0).GetTime - exTwoOfThree.nTimeStart ≥ exParams.COINJOIN_ACCEPT_TIMEOUT ∧
    exTwoOfThree.vecEntries.length < exParams.MinPoolInputs ∧
    (UpdatedBlockTip exParams (exEnv 100 exOnline 0) 1 exTwoOfThree).nState =
      POOL_STATE_ACCEPTING_ENTRIES := by
  decide


/-! ### The nesting of `SetNull` and `UpdateQueue`, the inputs of the final transaction -/

/-- `UpdateQueue(STATUS_CLOSED)` needs a nested call exactly when it has set the status
of the active queue and no participant can be reached. -/
theorem UpdateQueueF_closed_one (P : Params) (env : Env) (s : CCoinJoinServer) :
    UpdateQueueF P env 1 STATUS_CLOSED s = none ↔
      (P.queueEq s.activeQueue P.nullQueue = false ∧
       IsExpired P s.activeQueue s.nCachedBlockHeight = false ∧
       s.activeQueue.status ≠ STATUS_CLOSED ∧ P.statusCode STATUS_CLOSED > 1 ∧
       s.vecDenom.filter (fun p => env.ForNode p.1) = []) := by
  simp only [UpdateQueueF]
  split_ifs with h1 h2 h3 h4 h5
  · simp [h1]
  · simp [h2]
  · simp only [SetNullF, true_iff]
    exact ⟨by simpa using h1, by simpa using h2, h3, h4, List.isEmpty_iff.1 h5⟩
  · simp only [false_iff, not_and]
    intro _ _ _ _ h
    exact h5 (by simp [h])
  · simp only [false_iff, not_and]
    intro _ _ _ h
    exact absurd h h4
  · simp only [false_iff, not_and]
    intro _ _ h
    exact absurd h3 (not_not.1 (fun hh => h (by simpa using hh)))

/-- C30: the calls between `SetNull` and `UpdateQueue` end, with at most two frames of
`SetNull` on the stack.  `UpdateQueue(STATUS_CLOSED)` calls `SetNull` again exactly when
it has just set the status of the active queue to closed and no participant can be
reached; the nested `SetNull` then returns with a call depth of two, its
`UpdateQueue(STATUS_CLOSED)` making no further call; so for every state of the
coordinator and every reachability of the participants `SetNull` returns with a call
depth of four, and more depth changes nothing. -/
theorem SetNull_nesting_depth (P : Params) (env : Env) (s : CCoinJoinServer) :
    (UpdateQueueF P env 1 STATUS_CLOSED s = none ↔
      (P.queueEq s.activeQueue P.nullQueue = false ∧
       IsExpired P s.activeQueue s.nCachedBlockHeight = false ∧
       s.activeQueue.status ≠ STATUS_CLOSED ∧ P.statusCode STATUS_CLOSED > 1 ∧
       s.vecDenom.filter (fun p => env.ForNode p.1) = [])) ∧
    (∀ s1 : CCoinJoinServer, s1.activeQueue.status = STATUS_CLOSED →
      UpdateQueueF P env 1 STATUS_CLOSED s1 = some s1 ∧ (SetNullF P env 2 s1).isSome = true) ∧
    (SetNullF P env 4 s).isSome = true ∧
    (∀ k, SetNullF P env (k + 4) s = SetNullF P env 4 s) := by
  refine ⟨UpdateQueueF_closed_one P env s, fun s1 h1 => ?_, ?_, fun k => ?_⟩
  · refine ⟨UpdateQueueF_closed P env 0 s1 h1, ?_⟩
    rw [SetNullF, UpdateQueueF_closed P env 0 s1 h1]
    rfl
  · obtain ⟨t, ht⟩ := SetNullF_isSome P env 0 s
    rw [ht]
    rfl
  · have key : ∀ j, UpdateQueueF P env (j + 3) STATUS_CLOSED s =
        UpdateQueueF P env 3 STATUS_CLOSED s := by
      intro j
      simp only [UpdateQueueF]
      split_ifs
      · rfl
      · rfl
      · rw [SetNullF, SetNullF, UpdateQueueF_closed P env j _ rfl,
          UpdateQueueF_closed P env 0 _ rfl]
      · rfl
      · rfl
      · rfl
    rw [SetNullF, SetNullF, key k]

/-- With five participants joined and none of them connected any more,
`UpdateQueue(STATUS_CLOSED)` calls `SetNull` again, and `SetNull` returns with a call
depth of four. -/
theorem SetNull_nesting_depth_witness :
    UpdateQueueF exParams (exEnv 0 [] 0) 1 STATUS_CLOSED exFiveJoined = none ∧
    (SetNullF exParams (exEnv 0 [] 0) 2 exFiveJoined).isSome = false ∧
    (SetNullF exParams (exEnv 0 [] 0) 4 exFiveJoined).isSome = true :=
  ⟨(SetNull_nesting_depth exParams (exEnv 0 [] 0) exFiveJoined).1.2
      ⟨by decide, by decide, by decide, by decide, by decide⟩,
    by decide,
    (SetNull_nesting_depth exParams (exEnv 0 [] 0) exFiveJoined).2.2.1⟩

theorem clearSigAt_prevout : ∀ (i : Nat) (l : List CTxIn),
    (clearSigAt i l).map (fun txin => txin.prevout) = l.map (fun txin => txin.prevout)
  | 0, [] => rfl
  | _ + 1, [] => rfl
  | 0, _ :: _ => rfl
  | i + 1, x :: xs => by
    show x.prevout :: (clearSigAt i xs).map _ = _
    rw [clearSigAt_prevout i xs]
    rfl

theorem pushInputs_prevout : ∀ (ins : List CTxIn) (i : Nat) (vin : List CTxIn),
    (pushInputs i ins vin).map (fun txin => txin.prevout) =
      vin.map (fun txin => txin.prevout) ++ ins.map (fun txin => txin.prevout)
  | [], _, vin => by simp [pushInputs]
  | txin :: rest, i, vin => by
    rw [pushInputs, pushInputs_prevout rest (i + 1), clearSigAt_prevout]
    simp

/-- Before the shuffle, the inputs of the final transaction spend the previous outputs
of the entries, in the order of the entries, and its outputs are those of the
entries. -/
theorem collectEntries_spec : ∀ (entries : List CCoinJoinEntry) (mtx : CMutableTransaction),
    (collectEntries entries mtx).vin.map (fun txin => txin.prevout) =
      mtx.vin.map (fun txin => txin.prevout) ++
        (entries.map (fun e => (e.psbtx.tx.getD ⟨[], [], 0⟩).vin.map
          (fun txin => txin.prevout))).flatten ∧
    (collectEntries entries mtx).vout =
      mtx.vout ++ (entries.map (fun e => (e.psbtx.tx.getD ⟨[], [], 0⟩).vout)).flatten
  | [], mtx => by simp [collectEntries]
  | entry :: rest, mtx => by
    rw [collectEntries]
    obtain ⟨h1, h2⟩ := collectEntries_spec rest
      { mtx with vin := pushInputs 0 (entry.psbtx.tx.getD ⟨[], [], 0⟩).vin mtx.vin,
                 vout := mtx.vout ++ (entry.psbtx.tx.getD ⟨[], [], 0⟩).vout }
    refine ⟨?_, ?_⟩
    · rw [h1]
      simp only [pushInputs_prevout, List.map_cons, List.flatten_cons, List.append_assoc]
    · rw [h2]
      simp only [List.map_cons, List.flatten_cons, List.append_assoc]

theorem cons_set_perm {α : Type} (x y : α) : ∀ (xs : List α) (j : Nat), xs.get? j = some y →
    List.Perm (y :: xs.set j x) (x :: xs)
  | [], _, h => by simp at h
  | z :: zs, 0, h => by
    simp only [List.get?_cons_zero, Option.some.injEq] at h
    subst h
    simp only [List.set_cons_zero]
    exact List.Perm.swap _ _ _
  | z :: zs, k + 1, h => by
    simp only [List.get?_cons_succ] at h
    simp only [List.set_cons_succ]
    exact ((List.Perm.swap z y _).trans (List.Perm.cons z (cons_set_perm x y zs k h))).trans
      (List.Perm.swap x z _)

theorem swapHead_perm {α : Type} (x : α) (xs : List α) (j : Nat) :
    List.Perm (swapHead x xs j) (x :: xs) := by
  cases j with
  | zero => exact List.Perm.refl _
  | succ k =>
    show List.Perm (match xs.get? k with
      | none => x :: xs
      | some y => y :: xs.set k x) (x :: xs)
    cases h : xs.get? k with
    | none => exact List.Perm.refl _
    | some y => exact cons_set_perm x y xs k h

theorem Shuffle_perm {α : Type} : ∀ (n : Nat) (rng : List Nat) (xs : List α),
    List.Perm (Shuffle n rng xs) xs
  | 0, _, xs => by
    cases xs <;> exact List.Perm.refl _
  | n + 1, _, [] => List.Perm.refl _
  | n + 1, rng, x :: xs => by
    rw [Shuffle]
    have hp := swapHead_perm x xs (rng.headD 0 % (xs.length + 1))
    cases hs : swapHead x xs (rng.headD 0 % (xs.length + 1)) with
    | nil =>
      rw [hs] at hp
      exact absurd hp.length_eq (by simp)
    | cons y ys =>
      rw [hs] at hp
      simp only
      exact (List.Perm.cons y (Shuffle_perm n rng.tail ys)).trans hp

/-- The final transaction has one input for each input of the entries, spending the
same previous outputs, and its outputs are a permutation of the outputs of the
entries. -/
theorem buildFinalPSBT_perm (env : Env) (vecEntries : List CCoinJoinEntry) :
    ∃ mtx, (buildFinalPSBT env vecEntries).tx = some mtx ∧
      List.Perm (mtx.vin.map (fun txin => txin.prevout))
        (vecEntries.map (fun e => (e.psbtx.tx.getD ⟨[], [], 0⟩).vin.map
          (fun txin => txin.prevout))).flatten ∧
      List.Perm mtx.vout
        (vecEntries.map (fun e => (e.psbtx.tx.getD ⟨[], [], 0⟩).vout)).flatten := by
  obtain ⟨h1, h2⟩ := collectEntries_spec vecEntries ⟨[], [], 0⟩
  refine ⟨_, rfl, ?_, ?_⟩
  · simp only [List.map_nil, List.nil_append] at h1
    rw [← h1]
    exact (Shuffle_perm _ _ _).map _
  · simp only [List.nil_append] at h2
    rw [← h2]
    exact Shuffle_perm _ _ _

/-- C26: three peers join and send the entries `exEntry 1`, `exEntry 2` and `exEntry 3`,
each with one input that carries the signature script `[n]`; `CheckPool` calls
`CreateFinalTransaction`, and in the final transaction the inputs of the second and of
the third entry still have their signature scripts: the loop strips `mtx.vin[i]` with
the index `i` of the input within its entry, which is `0` each time. -/
theorem final_inputs_keep_scriptSig :
    exSigning.nState = POOL_STATE_SIGNING ∧
    exSigning.vecEntries = [exEntry 1, exEntry 2, exEntry 3] ∧
    (exSigning.vecEntries.map (fun e => (e.psbtx.tx.getD ⟨[], [], 0⟩).vin.map
      (fun txin => txin.scriptSig))) = [[[1]], [[2]], [[3]]] ∧
    exSigning.finalPartiallySignedTransaction =
      buildFinalPSBT (exEnv 3 exOnline 0) exSigning.vecEntries ∧
    exSigning.finalPartiallySignedTransaction.tx.map
      (fun tx => tx.vin.map (fun txin => (txin.prevout, txin.scriptSig))) =
        some [(1, []), (2, [2]), (3, [3])] ∧
    collectEntries [exEntry 1, exEntry 2] ⟨[], [], 0⟩ =
      ⟨[⟨1, [], [], 0⟩, ⟨2, [2], [], 0⟩], [⟨100, [1]⟩, ⟨100, [2]⟩], 0⟩ := by
  decide

end CoinJoin

namespace Governance

open governance_exception_type_enum_t

/-! ## Properties of the governance manager -/

open CRateCheckBuffer

theorem WF_new : WF new := by simp [WF, new, RATE_BUFFER_SIZE]

theorem AddTimestamp_step (b : CRateCheckBuffer) (h : WF b) (t : Int) :
    WF (b.AddTimestamp t) ∧ retained (b.AddTimestamp t) = lastN RATE_BUFFER_SIZE (retained b ++ [t]) := by
  obtain ⟨v, s, e, f⟩ := b
  obtain ⟨h1, h2, h3, h4⟩ := h
  simp only [RATE_BUFFER_SIZE] at h1 h2 h3 h4
  match v, h1 with
  | [a0, a1, a2, a3, a4], _ =>
    interval_cases s <;> interval_cases e <;> cases f <;>
      first
      | (exfalso; simp at h4; done)
      | (refine ⟨by simp [WF, AddTimestamp, RATE_BUFFER_SIZE], ?_⟩
         simp [retained, AddTimestamp, GetCount, RATE_BUFFER_SIZE, lastN, List.range_succ])


theorem lastN_lastN_append (n : Nat) (l : List Int) (t : Int) (hn : 0 < n) :
    lastN n (lastN n l ++ [t]) = lastN n (l ++ [t]) := by
  unfold lastN
  simp only [List.length_append, List.length_drop, List.length_singleton]
  by_cases h : l.length ≤ n
  · have : l.length - n = 0 := by omega
    simp [this]
  · have e1 : l.length - (l.length - n) + 1 - n = 1 := by omega
    have e2 : l.length + 1 - n = (l.length - n) + 1 := by omega
    rw [e1, e2]
    rw [List.drop_append_of_le_length (by simp; omega)]
    rw [List.drop_append_of_le_length (by omega)]
    rw [List.drop_drop]

theorem build_spec (ts : List Int) :
    WF (build ts) ∧ retained (build ts) = lastN RATE_BUFFER_SIZE ts := by
  induction ts using List.reverseRecOn with
  | nil => exact ⟨WF_new, by decide⟩
  | append_singleton l t ih =>
    have hb : build (l ++ [t]) = (build l).AddTimestamp t := by
      simp [build, List.foldl_append]
    rw [hb]
    obtain ⟨h1, h2⟩ := AddTimestamp_step (build l) ih.1 t
    refine ⟨h1, ?_⟩
    rw [h2, ih.2]
    exact lastN_lastN_append _ _ _ (by decide)

theorem retained_length (b : CRateCheckBuffer) : ((retained b).length : Int) = max b.GetCount 0 := by
  simp [retained]

theorem GetCount_build (ts : List Int) :
    GetCount (build ts) = min ts.length RATE_BUFFER_SIZE := by
  have h := (build_spec ts).2
  have hl := congrArg List.length h
  have hc : 0 ≤ GetCount (build ts) := by
    unfold GetCount
    obtain ⟨_, h2, h3, _⟩ := (build_spec ts).1
    split_ifs <;> omega
  simp only [retained, lastN, List.length_map, List.length_range, List.length_drop] at hl
  omega

theorem GetMinTimestamp_eq (b : CRateCheckBuffer) (h : WF b) (hne : b.fBufferEmpty = false) :
    b.GetMinTimestamp = some (scanMin INT64_MAX (retained b)) := by
  obtain ⟨v, s, e, f⟩ := b
  obtain ⟨h1, h2, h3, h4⟩ := h
  simp only [RATE_BUFFER_SIZE] at h1 h2 h3 h4
  simp only at hne
  subst hne
  match v, h1 with
  | [a0, a1, a2, a3, a4], _ =>
    interval_cases s <;> interval_cases e <;>
      simp [retained, GetCount, RATE_BUFFER_SIZE, GetMinTimestamp, GetMinTimestamp_loop,
        scanMin, List.range_succ]

theorem GetMaxTimestamp_eq (b : CRateCheckBuffer) (h : WF b) (hne : b.fBufferEmpty = false) :
    b.GetMaxTimestamp = some (scanMax 0 (retained b)) := by
  obtain ⟨v, s, e, f⟩ := b
  obtain ⟨h1, h2, h3, h4⟩ := h
  simp only [RATE_BUFFER_SIZE] at h1 h2 h3 h4
  simp only at hne
  subst hne
  match v, h1 with
  | [a0, a1, a2, a3, a4], _ =>
    interval_cases s <;> interval_cases e <;>
      simp [retained, GetCount, RATE_BUFFER_SIZE, GetMaxTimestamp, GetMaxTimestamp_loop,
        scanMax, List.range_succ]

theorem scanMin_spec (l : List Int) : ∀ init : Int,
    scanMin init l ≤ init ∧ (∀ v ∈ l, scanMin init l ≤ v) ∧
      (scanMin init l = init ∨ scanMin init l ∈ l) := by
  induction l with
  | nil => intro init; simp [scanMin]
  | cons a l ih =>
    intro init
    have e : scanMin init (a :: l) = scanMin (if a < init then a else init) l := rfl
    by_cases hc : a < init
    · rw [if_pos hc] at e
      rw [e]
      obtain ⟨h1, h2, h3⟩ := ih a
      refine ⟨by omega, ?_, ?_⟩
      · intro v hv
        rcases List.mem_cons.1 hv with rfl | hv
        · exact h1
        · exact h2 v hv
      · rcases h3 with h3 | h3
        · exact Or.inr (by rw [h3]; exact List.mem_cons_self _ _)
        · exact Or.inr (List.mem_cons_of_mem _ h3)
    · rw [if_neg hc] at e
      rw [e]
      obtain ⟨h1, h2, h3⟩ := ih init
      refine ⟨h1, ?_, ?_⟩
      · intro v hv
        rcases List.mem_cons.1 hv with rfl | hv
        · omega
        · exact h2 v hv
      · rcases h3 with h3 | h3
        · exact Or.inl h3
        · exact Or.inr (List.mem_cons_of_mem _ h3)

theorem scanMax_spec (l : List Int) : ∀ init : Int,
    init ≤ scanMax init l ∧ (∀ v ∈ l, v ≤ scanMax init l) ∧
      (scanMax init l = init ∨ scanMax init l ∈ l) := by
  induction l with
  | nil => intro init; simp [scanMax]
  | cons a l ih =>
    intro init
    have e : scanMax init (a :: l) = scanMax (if a > init then a else init) l := rfl
    by_cases hc : a > init
    · rw [if_pos hc] at e
      rw [e]
      obtain ⟨h1, h2, h3⟩ := ih a
      refine ⟨by omega, ?_, ?_⟩
      · intro v hv
        rcases List.mem_cons.1 hv with rfl | hv
        · exact h1
        · exact h2 v hv
      · rcases h3 with h3 | h3
        · exact Or.inr (by rw [h3]; exact List.mem_cons_self _ _)
        · exact Or.inr (List.mem_cons_of_mem _ h3)
    · rw [if_neg hc] at e
      rw [e]
      obtain ⟨h1, h2, h3⟩ := ih init
      refine ⟨h1, ?_, ?_⟩
      · intro v hv
        rcases List.mem_cons.1 hv with rfl | hv
        · omega
        · exact h2 v hv
      · rcases h3 with h3 | h3
        · exact Or.inl h3
        · exact Or.inr (List.mem_cons_of_mem _ h3)

theorem GetRate_of_full (b : CRateCheckBuffer) (h : WF b)
    (hfull : b.GetCount = RATE_BUFFER_SIZE) :
    b.GetRate = some (if scanMin INT64_MAX (retained b) = scanMax 0 (retained b)
      then INFINITE_RATE
      else (5 : ℚ) / (int64 (scanMax 0 (retained b) - scanMin INT64_MAX (retained b)) : ℚ)) := by
  have hne : b.fBufferEmpty = false := by
    cases hb : b.fBufferEmpty
    · rfl
    · simp [GetCount, hb, RATE_BUFFER_SIZE] at hfull
  unfold GetRate
  rw [GetMinTimestamp_eq b h hne, GetMaxTimestamp_eq b h hne, hfull]
  simp only [RATE_BUFFER_SIZE, lt_self_iff_false, if_false, Nat.cast_ofNat]
  split_ifs <;> rfl

theorem GetRate_of_not_full (b : CRateCheckBuffer) (h : b.GetCount < RATE_BUFFER_SIZE) :
    b.GetRate = some 0 := by
  unfold GetRate
  rw [if_pos h]

theorem int64_of_range (x : Int) (h1 : -9223372036854775808 ≤ x) (h2 : x ≤ INT64_MAX) :
    int64 x = x := by
  unfold int64
  unfold INT64_MAX at h2
  omega

/-- For timestamps between `0` and the largest `int64_t`, `GetRate` of a buffer that holds
`RATE_BUFFER_SIZE` of them is the count over the span between the least and the
greatest retained timestamp, and `INFINITE_RATE` when the two coincide. -/
theorem GetRate_of_nonneg (b : CRateCheckBuffer) (h : WF b)
    (hfull : b.GetCount = RATE_BUFFER_SIZE)
    (hrange : ∀ t ∈ retained b, 0 ≤ t ∧ t ≤ INT64_MAX) :
    ∃ nMin nMax : Int, nMin ∈ retained b ∧ nMax ∈ retained b ∧
      (∀ t ∈ retained b, nMin ≤ t ∧ t ≤ nMax) ∧
      b.GetRate = some (if nMin = nMax then INFINITE_RATE else (5 : ℚ) / ((nMax - nMin : Int) : ℚ)) := by
  have hlen : (retained b).length = 5 := by
    have := retained_length b
    rw [hfull] at this
    simp [RATE_BUFFER_SIZE] at this
    exact_mod_cast this
  obtain ⟨t0, ht0⟩ : ∃ t, t ∈ retained b := by
    cases hl : retained b with
    | nil => simp [hl] at hlen
    | cons a l => exact ⟨a, List.mem_cons_self _ _⟩
  obtain ⟨m1, m2, m3⟩ := scanMin_spec (retained b) INT64_MAX
  obtain ⟨x1, x2, x3⟩ := scanMax_spec (retained b) 0
  have hmin : scanMin INT64_MAX (retained b) ∈ retained b := by
    rcases m3 with m3 | m3
    · have h1 := m2 t0 ht0
      have h2 := (hrange t0 ht0).2
      have : t0 = scanMin INT64_MAX (retained b) := by omega
      rw [← this]; exact ht0
    · exact m3
  have hmax : scanMax 0 (retained b) ∈ retained b := by
    rcases x3 with x3 | x3
    · have h1 := x2 t0 ht0
      have h2 := (hrange t0 ht0).1
      have : t0 = scanMax 0 (retained b) := by omega
      rw [← this]; exact ht0
    · exact x3
  refine ⟨_, _, hmin, hmax, fun t ht => ⟨m2 t ht, x2 t ht⟩, ?_⟩
  rw [GetRate_of_full b h hfull]
  rw [int64_of_range]
  · have := (hrange _ hmin).1
    have := (hrange _ hmax).2
    unfold INT64_MAX at *
    omega
  · have := (hrange _ hmin).1
    have := (hrange _ hmax).2
    omega

theorem Map.find_modify {K V : Type} [LinearOrder K] (m : Map K V) (k : K) (f : V → V) :
    (Map.modify m k f).find k = (m.find k).map f := by
  induction m with
  | nil => rfl
  | cons p rest ih =>
    obtain ⟨k', v⟩ := p
    have e : Map.modify ((k', v) :: rest) k f =
        (if k' = k then (k', f v) else (k', v)) :: Map.modify rest k f := rfl
    rw [e]
    by_cases h : k' = k
    · rw [if_pos h]
      simp [Map.find, h]
    · rw [if_neg h]
      simp [Map.find, h, ih]

theorem GetCount_AddTimestamp_of_full (b : CRateCheckBuffer) (h : WF b)
    (hfull : b.GetCount = RATE_BUFFER_SIZE) (t : Int) :
    (b.AddTimestamp t).GetCount = RATE_BUFFER_SIZE := by
  obtain ⟨h1, h2⟩ := AddTimestamp_step b h t
  have hl := congrArg List.length h2
  have hlen : (retained b).length = 5 := by
    have := retained_length b
    rw [hfull] at this
    simp [RATE_BUFFER_SIZE] at this
    exact_mod_cast this
  have hc : 0 ≤ (b.AddTimestamp t).GetCount ∧ (b.AddTimestamp t).GetCount ≤ 5 := by
    unfold GetCount
    obtain ⟨_, h3, h4, _⟩ := h1
    simp only [RATE_BUFFER_SIZE] at h3 h4 ⊢
    split_ifs <;> omega
  simp only [lastN, List.length_drop, List.length_append, hlen, List.length_singleton,
    RATE_BUFFER_SIZE] at hl
  simp only [retained, List.length_map, List.length_range] at hl
  simp only [RATE_BUFFER_SIZE]
  omega

/-- With the node synced and rate checks enabled, a trigger whose creation time is
inside the accepted window and not negative, from a masternode with `RATE_BUFFER_SIZE`
recorded timestamps, fails the forced rate check when the `RATE_BUFFER_SIZE` most
recent timestamps with the new one span less than a superblock cycle; the status of the
masternode is then set to false when `fUpdateFailStatus` is set. -/
theorem MasternodeRateCheck_rejects (P : Params) (env : Env) (govobj : CGovernanceObject)
    (fUpdateFailStatus : Bool) (s : CGovernanceManager) (it : last_object_rec)
    (hsync : env.IsSynced = true) (hen : s.fRateChecksEnabled = true)
    (htype : govobj.nObjectType = P.GOVERNANCE_OBJECT_TRIGGER)
    (hold : env.GetAdjustedTime - 2 * nSuperblockCycleSeconds P ≤ govobj.nTime)
    (hnew : govobj.nTime ≤ env.GetAdjustedTime + MAX_TIME_FUTURE_DEVIATION)
    (hit : s.mapLastMasternodeObject.find govobj.masternodeOutpoint = some it)
    (hwf : it.triggerBuffer.WF) (hfull : it.triggerBuffer.GetCount = RATE_BUFFER_SIZE)
    (hrange : ∀ t ∈ lastN RATE_BUFFER_SIZE (retained it.triggerBuffer ++ [govobj.nTime]),
      0 ≤ t ∧ t ≤ INT64_MAX)
    (hspan : ∀ t ∈ lastN RATE_BUFFER_SIZE (retained it.triggerBuffer ++ [govobj.nTime]),
      ∀ u ∈ lastN RATE_BUFFER_SIZE (retained it.triggerBuffer ++ [govobj.nTime]),
        t - u < nSuperblockCycleSeconds P) :
    ∃ s1 : CGovernanceManager,
      MasternodeRateCheck P env govobj fUpdateFailStatus true s = some (false, false, s1) ∧
      (fUpdateFailStatus = true →
        s1.mapLastMasternodeObject.find govobj.masternodeOutpoint =
          some { it with fStatusOK := false }) ∧
      (fUpdateFailStatus = false → s1 = s) := by
  obtain ⟨hwf1, hret⟩ := AddTimestamp_step it.triggerBuffer hwf govobj.nTime
  have hfull1 := GetCount_AddTimestamp_of_full it.triggerBuffer hwf hfull govobj.nTime
  rw [← hret] at hrange hspan
  obtain ⟨nMin, nMax, hmin, hmax, hall, hrate⟩ :=
    GetRate_of_nonneg _ hwf1 hfull1 hrange
  have hc : (0 : Int) < nSuperblockCycleSeconds P := by
    have := hspan nMin hmin nMin hmin
    omega
  have hd : nMax - nMin < nSuperblockCycleSeconds P := hspan nMax hmax nMin hmin
  have hd0 : 0 ≤ nMax - nMin := by have := (hall nMax hmax).1; omega
  have hcq : (0 : ℚ) < (nSuperblockCycleSeconds P : ℚ) := by exact_mod_cast hc
  have hc1 : (1 : ℚ) ≤ (nSuperblockCycleSeconds P : ℚ) := by exact_mod_cast hc
  have hnot : ¬ (if nMin = nMax then INFINITE_RATE else (5 : ℚ) / ((nMax - nMin : Int) : ℚ)) <
      2 * (11 / 10) / (nSuperblockCycleSeconds P : ℚ) := by
    rw [not_lt]
    split_ifs with he
    · unfold INFINITE_RATE
      rw [div_le_iff₀ hcq]
      nlinarith
    · have hdpos : (0 : Int) < nMax - nMin := by omega
      have hdq : (0 : ℚ) < ((nMax - nMin : Int) : ℚ) := by exact_mod_cast hdpos
      have hdc : ((nMax - nMin : Int) : ℚ) < (nSuperblockCycleSeconds P : ℚ) := by
        exact_mod_cast hd
      rw [div_le_div_iff₀ hcq hdq]
      nlinarith
  have hold1 : ¬ govobj.nTime < env.GetAdjustedTime - 2 * nSuperblockCycleSeconds P := by omega
  have hnew1 : ¬ govobj.nTime > env.GetAdjustedTime + MAX_TIME_FUTURE_DEVIATION := by omega
  unfold MasternodeRateCheck
  simp only [hsync, hen, htype, hit, hrate, hnot, hold1, hnew1, Bool.not_true,
    Bool.false_eq_true, if_false, ne_eq, not_true_eq_false, Bool.and_false, Bool.not_false]
  cases fUpdateFailStatus
  · exact ⟨s, rfl, fun h => absurd h (by decide), fun _ => rfl⟩
  · refine ⟨_, rfl, fun _ => ?_, fun h => absurd h (by decide)⟩
    simp only [Map.find_modify, hit, Option.map_some']

theorem int64_le_max (x : Int) : int64 x ≤ INT64_MAX := by
  unfold int64 INT64_MAX
  omega

theorem mem_lastN_append_self (l : List Int) (x : Int) :
    x ∈ lastN RATE_BUFFER_SIZE (l ++ [x]) := by
  unfold lastN
  rw [List.drop_append_of_le_length (by simp [RATE_BUFFER_SIZE])]
  simp

/-- When one retained timestamp is not negative, none exceeds the largest `int64_t` and
no two are further apart than that, `GetRate` of a buffer that holds `RATE_BUFFER_SIZE`
of them is the count over the span between the least and the greatest retained
timestamp, and `INFINITE_RATE` when the two coincide. -/
theorem GetRate_of_recent (b : CRateCheckBuffer) (h : WF b)
    (hfull : b.GetCount = RATE_BUFFER_SIZE)
    (hpos : ∃ t ∈ retained b, 0 ≤ t)
    (hup : ∀ t ∈ retained b, t ≤ INT64_MAX)
    (hsp : ∀ t ∈ retained b, ∀ u ∈ retained b, t - u ≤ INT64_MAX) :
    ∃ nMin nMax : Int, nMin ∈ retained b ∧ nMax ∈ retained b ∧
      (∀ t ∈ retained b, nMin ≤ t ∧ t ≤ nMax) ∧
      b.GetRate = some (if nMin = nMax then INFINITE_RATE else (5 : ℚ) / ((nMax - nMin : Int) : ℚ)) := by
  obtain ⟨t0, ht0, hnn⟩ := hpos
  obtain ⟨m1, m2, m3⟩ := scanMin_spec (retained b) INT64_MAX
  obtain ⟨x1, x2, x3⟩ := scanMax_spec (retained b) 0
  have hmin : scanMin INT64_MAX (retained b) ∈ retained b := by
    rcases m3 with m3 | m3
    · have h1 := m2 t0 ht0
      have h2 := hup t0 ht0
      have : t0 = scanMin INT64_MAX (retained b) := by omega
      rw [← this]; exact ht0
    · exact m3
  have hmax : scanMax 0 (retained b) ∈ retained b := by
    rcases x3 with x3 | x3
    · have h1 := x2 t0 ht0
      have : t0 = scanMax 0 (retained b) := by omega
      rw [← this]; exact ht0
    · exact x3
  refine ⟨_, _, hmin, hmax, fun t ht => ⟨m2 t ht, x2 t ht⟩, ?_⟩
  rw [GetRate_of_full b h hfull]
  rw [int64_of_range]
  · have := m2 _ hmax
    omega
  · exact hsp _ hmax _ hmin

/-- The statement of `MasternodeRateCheck_rejects` with older timestamps of either sign:
it is enough that the creation time of the new trigger is not negative. -/
theorem MasternodeRateCheck_rejects_recent (P : Params) (env : Env) (govobj : CGovernanceObject)
    (fUpdateFailStatus : Bool) (s : CGovernanceManager) (it : last_object_rec)
    (hsync : env.IsSynced = true) (hen : s.fRateChecksEnabled = true)
    (htype : govobj.nObjectType = P.GOVERNANCE_OBJECT_TRIGGER)
    (hold : env.GetAdjustedTime - 2 * nSuperblockCycleSeconds P ≤ govobj.nTime)
    (hnew : govobj.nTime ≤ env.GetAdjustedTime + MAX_TIME_FUTURE_DEVIATION)
    (hit : s.mapLastMasternodeObject.find govobj.masternodeOutpoint = some it)
    (hwf : it.triggerBuffer.WF) (hfull : it.triggerBuffer.GetCount = RATE_BUFFER_SIZE)
    (hnn : 0 ≤ govobj.nTime)
    (hup : ∀ t ∈ lastN RATE_BUFFER_SIZE (retained it.triggerBuffer ++ [govobj.nTime]),
      t ≤ INT64_MAX)
    (hspan : ∀ t ∈ lastN RATE_BUFFER_SIZE (retained it.triggerBuffer ++ [govobj.nTime]),
      ∀ u ∈ lastN RATE_BUFFER_SIZE (retained it.triggerBuffer ++ [govobj.nTime]),
        t - u < nSuperblockCycleSeconds P) :
    ∃ s1 : CGovernanceManager,
      MasternodeRateCheck P env govobj fUpdateFailStatus true s = some (false, false, s1) ∧
      (fUpdateFailStatus = true →
        s1.mapLastMasternodeObject.find govobj.masternodeOutpoint =
          some { it with fStatusOK := false }) ∧
      (fUpdateFailStatus = false → s1 = s) := by
  obtain ⟨hwf1, hret⟩ := AddTimestamp_step it.triggerBuffer hwf govobj.nTime
  have hfull1 := GetCount_AddTimestamp_of_full it.triggerBuffer hwf hfull govobj.nTime
  have hself := mem_lastN_append_self (retained it.triggerBuffer) govobj.nTime
  rw [← hret] at hup hspan hself
  have hcmax : nSuperblockCycleSeconds P ≤ INT64_MAX := int64_le_max _
  obtain ⟨nMin, nMax, hmin, hmax, hall, hrate⟩ :=
    GetRate_of_recent _ hwf1 hfull1 ⟨_, hself, hnn⟩ hup
      (fun t ht u hu => by have := hspan t ht u hu; omega)
  have hc : (0 : Int) < nSuperblockCycleSeconds P := by
    have := hspan nMin hmin nMin hmin
    omega
  have hd : nMax - nMin < nSuperblockCycleSeconds P := hspan nMax hmax nMin hmin
  have hd0 : 0 ≤ nMax - nMin := by have := (hall nMax hmax).1; omega
  have hcq : (0 : ℚ) < (nSuperblockCycleSeconds P : ℚ) := by exact_mod_cast hc
  have hc1 : (1 : ℚ) ≤ (nSuperblockCycleSeconds P : ℚ) := by exact_mod_cast hc
  have hnot : ¬ (if nMin = nMax then INFINITE_RATE else (5 : ℚ) / ((nMax - nMin : Int) : ℚ)) <
      2 * (11 / 10) / (nSuperblockCycleSeconds P : ℚ) := by
    rw [not_lt]
    split_ifs with he
    · unfold INFINITE_RATE
      rw [div_le_iff₀ hcq]
      nlinarith
    · have hdpos : (0 : Int) < nMax - nMin := by omega
      have hdq : (0 : ℚ) < ((nMax - nMin : Int) : ℚ) := by exact_mod_cast hdpos
      have hdc : ((nMax - nMin : Int) : ℚ) < (nSuperblockCycleSeconds P : ℚ) := by
        exact_mod_cast hd
      rw [div_le_div_iff₀ hcq hdq]
      nlinarith
  have hold1 : ¬ govobj.nTime < env.GetAdjustedTime - 2 * nSuperblockCycleSeconds P := by omega
  have hnew1 : ¬ govobj.nTime > env.GetAdjustedTime + MAX_TIME_FUTURE_DEVIATION := by omega
  unfold MasternodeRateCheck
  simp only [hsync, hen, htype, hit, hrate, hnot, hold1, hnew1, Bool.not_true,
    Bool.false_eq_true, if_false, ne_eq, not_true_eq_false, Bool.and_false, Bool.not_false]
  cases fUpdateFailStatus
  · exact ⟨s, rfl, fun h => absurd h (by decide), fun _ => rfl⟩
  · refine ⟨_, rfl, fun _ => ?_, fun h => absurd h (by decide)⟩
    simp only [Map.find_modify, hit, Option.map_some']

/-! ### The claims on the rate limiter -/

/-- C14: after `AddTimestamp` of `t1 .. tn` to a fresh buffer, the buffer retains, read in
order from `nDataStart`, all of them when `n ≤ RATE_BUFFER_SIZE` and the
`RATE_BUFFER_SIZE` most recent ones when `n > RATE_BUFFER_SIZE`; `GetCount` returns
`min n RATE_BUFFER_SIZE`. -/
theorem AddTimestamp_retains_most_recent (ts : List Int) :
    (ts.length ≤ RATE_BUFFER_SIZE → retained (build ts) = ts) ∧
    (ts.length > RATE_BUFFER_SIZE →
      retained (build ts) = ts.drop (ts.length - RATE_BUFFER_SIZE)) ∧
    (build ts).GetCount = min (ts.length : Int) RATE_BUFFER_SIZE := by
  refine ⟨fun h => ?_, fun _ => (build_spec ts).2, ?_⟩
  · rw [(build_spec ts).2, lastN]
    have : ts.length - RATE_BUFFER_SIZE = 0 := by omega
    rw [this, List.drop_zero]
  · rw [GetCount_build]
    simp

/-- C15, at the failing input: for the five timestamps `-10 .. -6`, all of them
retained, `GetMaxTimestamp` returns `0`, which is none of them, where their maximum is
`-6`; `GetRate` returns `5 / (0 - (-10)) = 1/2`, not `5 / ((-6) - (-10)) = 5/4`. -/
theorem GetRate_negative_timestamps :
    retained (build [-10, -9, -8, -7, -6]) = [-10, -9, -8, -7, -6] ∧
    (build [-10, -9, -8, -7, -6]).GetCount = RATE_BUFFER_SIZE ∧
    (build [-10, -9, -8, -7, -6]).GetMinTimestamp = some (-10) ∧
    (build [-10, -9, -8, -7, -6]).GetMaxTimestamp = some 0 ∧
    (build [-10, -9, -8, -7, -6]).GetRate = some (1 / 2) ∧
    (build [-10, -9, -8, -7, -6]).GetRate ≠ some (5 / ((-6) - (-10))) := by
  have hr : (build [-10, -9, -8, -7, -6]).GetRate = some (1 / 2) := by
    have h1 : (build [-10, -9, -8, -7, -6]).GetCount = 5 := by decide
    have h2 : (build [-10, -9, -8, -7, -6]).GetMinTimestamp = some (-10) := by decide
    have h3 : (build [-10, -9, -8, -7, -6]).GetMaxTimestamp = some 0 := by decide
    have h4 : int64 (0 - (-10)) = 10 := by decide
    unfold GetRate
    rw [h1, h2, h3]
    simp only [RATE_BUFFER_SIZE, h4]
    norm_num
  refine ⟨by decide, by decide, by decide, by decide, hr, ?_⟩
  rw [hr]
  norm_num

/-- C16: with the node synced, rate checks enabled and a clock that has passed two
superblock cycles, a trigger whose creation time is inside the accepted window, from a
masternode with `RATE_BUFFER_SIZE` recorded timestamps, fails the forced rate check
when the `RATE_BUFFER_SIZE` most recent timestamps with the new one span less than a
superblock cycle: the check returns false, unbypassed, and when `fUpdateFailStatus` is
set the status of the masternode is set to false. The recorded timestamps may have
either sign; they are `int64_t` values in a buffer that `AddTimestamp` has filled. -/
theorem MasternodeRateCheck_rejects_burst (P : Params) (env : Env) (govobj : CGovernanceObject)
    (fUpdateFailStatus : Bool) (s : CGovernanceManager) (it : last_object_rec)
    (hsync : env.IsSynced = true) (hen : s.fRateChecksEnabled = true)
    (htype : govobj.nObjectType = P.GOVERNANCE_OBJECT_TRIGGER)
    (hclock : 2 * nSuperblockCycleSeconds P ≤ env.GetAdjustedTime)
    (hold : env.GetAdjustedTime - 2 * nSuperblockCycleSeconds P ≤ govobj.nTime)
    (hnew : govobj.nTime ≤ env.GetAdjustedTime + MAX_TIME_FUTURE_DEVIATION)
    (hit : s.mapLastMasternodeObject.find govobj.masternodeOutpoint = some it)
    (hwf : it.triggerBuffer.WF) (hfull : it.triggerBuffer.GetCount = RATE_BUFFER_SIZE)
    (hup : ∀ t ∈ lastN RATE_BUFFER_SIZE (retained it.triggerBuffer ++ [govobj.nTime]),
      t ≤ INT64_MAX)
    (hspan : ∀ t ∈ lastN RATE_BUFFER_SIZE (retained it.triggerBuffer ++ [govobj.nTime]),
      ∀ u ∈ lastN RATE_BUFFER_SIZE (retained it.triggerBuffer ++ [govobj.nTime]),
        t - u < nSuperblockCycleSeconds P) :
    ∃ s1 : CGovernanceManager,
      MasternodeRateCheck P env govobj fUpdateFailStatus true s = some (false, false, s1) ∧
      (fUpdateFailStatus = true →
        s1.mapLastMasternodeObject.find govobj.masternodeOutpoint =
          some { it with fStatusOK := false }) ∧
      (fUpdateFailStatus = false → s1 = s) :=
  MasternodeRateCheck_rejects_recent P env govobj fUpdateFailStatus s it hsync hen htype hold hnew hit
    hwf hfull (by omega) hup hspan

/-- Before two cycles have passed since the epoch the window admits negative creation
times, and there the start value `0` of `GetMaxTimestamp` shows: the cycle has `100`
seconds and the time is `0`; masternode `7` has five recorded timestamps and sends a
trigger created at `-200`, inside the window from `-200` to `3600`; the five most recent
timestamps with the new one, `-299 .. -296` and `-200`, span `99` seconds; the forced
rate check returns true. -/
theorem MasternodeRateCheck_accepts_negative_times :
    (exEnv 0).IsSynced = true ∧ exRateState.fRateChecksEnabled = true ∧
    (exTrigger 7 (-200)).nObjectType = exParams.GOVERNANCE_OBJECT_TRIGGER ∧
    nSuperblockCycleSeconds exParams = 100 ∧
    (exEnv 0).GetAdjustedTime - 2 * nSuperblockCycleSeconds exParams ≤ (exTrigger 7 (-200)).nTime ∧
    (exTrigger 7 (-200)).nTime ≤ (exEnv 0).GetAdjustedTime + MAX_TIME_FUTURE_DEVIATION ∧
    (exRateState.mapLastMasternodeObject.find 7).map (fun r => r.triggerBuffer.GetCount) =
      some (RATE_BUFFER_SIZE : Int) ∧
    lastN RATE_BUFFER_SIZE ([-300, -299, -298, -297, -296] ++ [-200]) =
      [-299, -298, -297, -296, -200] ∧
    (MasternodeRateCheck exParams (exEnv 0) (exTrigger 7 (-200)) true true exRateState).map
      (fun r => r.1) = some true := by
  refine ⟨rfl, rfl, rfl, by decide, by decide, by decide, by decide, by decide, ?_⟩
  have hb : ((build [-300, -299, -298, -297, -296]).AddTimestamp (-200)).GetRate =
      some (5 / 299) := by
    have h1 : ((build [-300, -299, -298, -297, -296]).AddTimestamp (-200)).GetCount = 5 := by
      decide
    have h2 : ((build [-300, -299, -298, -297, -296]).AddTimestamp (-200)).GetMinTimestamp =
        some (-299) := by decide
    have h3 : ((build [-300, -299, -298, -297, -296]).AddTimestamp (-200)).GetMaxTimestamp =
        some 0 := by decide
    have h4 : int64 (0 - (-299)) = 299 := by decide
    unfold GetRate
    rw [h1, h2, h3]
    simp only [RATE_BUFFER_SIZE, h4]
    norm_num
  have hc : nSuperblockCycleSeconds exParams = 100 := by decide
  have hf : exRateState.mapLastMasternodeObject.find (exTrigger 7 (-200)).masternodeOutpoint =
      some ⟨build [-300, -299, -298, -297, -296], true⟩ := by decide
  have ht : (exTrigger 7 (-200)).nTime = -200 := rfl
  unfold MasternodeRateCheck
  simp only [hf, hc, ht, hb]
  norm_num [exEnv, exRateState, CGovernanceManager.new, exTrigger, exParams,
    MAX_TIME_FUTURE_DEVIATION]

/-! ### The claims on requests -/

/-- What `ConfirmInventoryRequest` does, in terms of its own test: with the winners list
synced, for an inventory item of a governance object or a governance vote, it returns
true iff the test `alreadyHave` fails; when it returns true the matching requested set
is the old one with the hash added, so the hash is in it, and the other requested set
is unchanged; when it returns false both requested sets are unchanged. -/
theorem ConfirmInventoryRequest_spec (env : Env) (inv : CInv) (s : CGovernanceManager)
    (hsync : env.IsWinnersListSynced = true) (htype : inv.type ≠ InvType.OTHER) :
    ((ConfirmInventoryRequest env inv s).1 = true ↔ alreadyHave s inv = false) ∧
    ((ConfirmInventoryRequest env inv s).1 = true →
      requestedSet (ConfirmInventoryRequest env inv s).2 inv.type =
        insert inv.hash (requestedSet s inv.type) ∧
      inv.hash ∈ requestedSet (ConfirmInventoryRequest env inv s).2 inv.type ∧
      otherRequestedSet (ConfirmInventoryRequest env inv s).2 inv.type =
        otherRequestedSet s inv.type) ∧
    ((ConfirmInventoryRequest env inv s).1 = false →
      (ConfirmInventoryRequest env inv s).2.setRequestedObjects = s.setRequestedObjects ∧
      (ConfirmInventoryRequest env inv s).2.setRequestedVotes = s.setRequestedVotes) := by
  obtain ⟨type, hash⟩ := inv
  cases type
  · simp only [ConfirmInventoryRequest, hsync, alreadyHave, requestedSet, otherRequestedSet]
    cases hk : (s.mapObjects.contains hash || s.mapPostponedObjects.contains hash)
    · by_cases hm : hash ∈ s.setRequestedObjects <;> simp [hm]
    · simp
  · simp only [ConfirmInventoryRequest, hsync, alreadyHave, requestedSet, otherRequestedSet]
    cases hk : s.cmapVoteToObject.HasKey hash
    · by_cases hm : hash ∈ s.setRequestedVotes <;> simp [hm]
    · simp
  · exact absurd rfl htype

/-- A synced node that has stored nothing is told of the object `5`. -/
theorem ConfirmInventoryRequest_spec_witness :
    ((ConfirmInventoryRequest (exEnv 0) ⟨InvType.MSG_GOVERNANCE_OBJECT, 5⟩
        CGovernanceManager.new).1 = true ↔
      alreadyHave CGovernanceManager.new ⟨InvType.MSG_GOVERNANCE_OBJECT, 5⟩ = false) ∧
    ((ConfirmInventoryRequest (exEnv 0) ⟨InvType.MSG_GOVERNANCE_OBJECT, 5⟩
        CGovernanceManager.new).1 = true →
      requestedSet (ConfirmInventoryRequest (exEnv 0) ⟨InvType.MSG_GOVERNANCE_OBJECT, 5⟩
          CGovernanceManager.new).2 InvType.MSG_GOVERNANCE_OBJECT =
        insert 5 (requestedSet CGovernanceManager.new InvType.MSG_GOVERNANCE_OBJECT) ∧
      5 ∈ requestedSet (ConfirmInventoryRequest (exEnv 0) ⟨InvType.MSG_GOVERNANCE_OBJECT, 5⟩
          CGovernanceManager.new).2 InvType.MSG_GOVERNANCE_OBJECT ∧
      otherRequestedSet (ConfirmInventoryRequest (exEnv 0) ⟨InvType.MSG_GOVERNANCE_OBJECT, 5⟩
          CGovernanceManager.new).2 InvType.MSG_GOVERNANCE_OBJECT =
        otherRequestedSet CGovernanceManager.new InvType.MSG_GOVERNANCE_OBJECT) ∧
    ((ConfirmInventoryRequest (exEnv 0) ⟨InvType.MSG_GOVERNANCE_OBJECT, 5⟩
        CGovernanceManager.new).1 = false →
      (ConfirmInventoryRequest (exEnv 0) ⟨InvType.MSG_GOVERNANCE_OBJECT, 5⟩
        CGovernanceManager.new).2.setRequestedObjects =
          CGovernanceManager.new.setRequestedObjects ∧
      (ConfirmInventoryRequest (exEnv 0) ⟨InvType.MSG_GOVERNANCE_OBJECT, 5⟩
        CGovernanceManager.new).2.setRequestedVotes =
          CGovernanceManager.new.setRequestedVotes) :=
  ConfirmInventoryRequest_spec (exEnv 0) ⟨InvType.MSG_GOVERNANCE_OBJECT, 5⟩
    CGovernanceManager.new (by decide) (by decide)

/-- C17, at the failing inputs. The trigger `exTrigger 7 50`, hash `1007051`, is held as an
orphan after `exOrphanRun` and as a tombstone after `exEvictedRun`; in both states the
item exists in a store and is no longer requested, yet `ConfirmInventoryRequest`
returns true for it and adds its hash to `setRequestedObjects`. When the trigger then
arrives, the handler, which looks in all four stores, drops it as already seen: it is
not added to `mapObjects`. -/
theorem known_item_requested_again :
    ((exTrigger 7 50).GetHash exParams = 1007051 ∧
    (runD exParams exOrphanRun CGovernanceManager.new).mapMasternodeOrphanObjects.contains
      1007051 = true ∧
    alreadyKnown (runD exParams exOrphanRun CGovernanceManager.new)
      ⟨InvType.MSG_GOVERNANCE_OBJECT, 1007051⟩ = true ∧
    1007051 ∉ (runD exParams exOrphanRun CGovernanceManager.new).setRequestedObjects ∧
    (ConfirmInventoryRequest (exEnv 101) ⟨InvType.MSG_GOVERNANCE_OBJECT, 1007051⟩
      (runD exParams exOrphanRun CGovernanceManager.new)).1 = true ∧
    1007051 ∈ (ConfirmInventoryRequest (exEnv 101) ⟨InvType.MSG_GOVERNANCE_OBJECT, 1007051⟩
      (runD exParams exOrphanRun CGovernanceManager.new)).2.setRequestedObjects ∧
    (runD exParams (exOrphanRun ++ exAnnounced 101) CGovernanceManager.new).mapObjects.contains
      1007051 = false) ∧
    ((runD exParams exEvictedRun CGovernanceManager.new).mapErasedGovernanceObjects.contains
      1007051 = true ∧
    alreadyKnown (runD exParams exEvictedRun CGovernanceManager.new)
      ⟨InvType.MSG_GOVERNANCE_OBJECT, 1007051⟩ = true ∧
    1007051 ∉ (runD exParams exEvictedRun CGovernanceManager.new).setRequestedObjects ∧
    (ConfirmInventoryRequest (exEnv 760) ⟨InvType.MSG_GOVERNANCE_OBJECT, 1007051⟩
      (runD exParams exEvictedRun CGovernanceManager.new)).1 = true ∧
    1007051 ∈ (ConfirmInventoryRequest (exEnv 760) ⟨InvType.MSG_GOVERNANCE_OBJECT, 1007051⟩
      (runD exParams exEvictedRun CGovernanceManager.new)).2.setRequestedObjects ∧
    (runD exParams (exEvictedRun ++ exAnnounced 760) CGovernanceManager.new).mapObjects.contains
      1007051 = false ∧
    (run exParams (exEvictedRun ++ exAnnounced 760) CGovernanceManager.new).isSome = true ∧
    (run exParams (exOrphanRun ++ exAnnounced 101) CGovernanceManager.new).isSome = true) := by
  decide

/-- C18: `AcceptMessage(h, S)` returns true iff `h` is in `S`, and leaves `S` without `h`
and otherwise as it was; a second `AcceptMessage` for the same hash on the set so left
returns false. -/
theorem AcceptMessage_once (nHash : uint256) (setHash : Finset uint256) :
    ((AcceptMessage nHash setHash).1 = true ↔ nHash ∈ setHash) ∧
    (AcceptMessage nHash setHash).2 = setHash.erase nHash ∧
    (AcceptMessage nHash (AcceptMessage nHash setHash).2).1 = false := by
  unfold AcceptMessage
  by_cases h : nHash ∈ setHash
  · simp [h]
  · simp [h, Finset.erase_eq_of_not_mem]

/-! ### Maps -/

/-! ### Maps -/

theorem Map.contains_place {K V : Type} [LinearOrder K] (m : Map K V) (k x : K) (v : V) :
    (Map.place m k v).contains x = (decide (x = k) || m.contains x) := by
  induction m with
  | nil =>
    by_cases h : k = x
    · simp [Map.place, Map.contains, Map.find, h]
    · have h2 : ¬ x = k := fun e => h e.symm
      simp [Map.place, Map.contains, Map.find, h, h2]
  | cons p rest ih =>
    obtain ⟨k1, v1⟩ := p
    simp only [Map.place]
    by_cases hlt : k < k1
    · rw [if_pos hlt]
      by_cases h : k = x
      · simp [Map.contains, Map.find, h]
      · have h2 : ¬ x = k := fun e => h e.symm
        simp [Map.contains, Map.find, h, h2]
    · rw [if_neg hlt]
      by_cases h1 : k1 = x
      · simp [Map.contains, Map.find, h1]
      · simp only [Map.contains, Map.find, h1, if_false] at ih ⊢
        exact ih

theorem Map.find_place_ne {K V : Type} [LinearOrder K] (m : Map K V) (k x : K) (v : V)
    (h : x ≠ k) : (Map.place m k v).find x = m.find x := by
  have h2 : ¬ k = x := fun e => h e.symm
  induction m with
  | nil => simp [Map.place, Map.find, h2]
  | cons p rest ih =>
    obtain ⟨k1, v1⟩ := p
    simp only [Map.place]
    by_cases hlt : k < k1
    · rw [if_pos hlt]
      simp [Map.find, h2]
    · rw [if_neg hlt]
      by_cases h1 : k1 = x
      · simp [Map.find, h1]
      · simp only [Map.find, h1, if_false]
        exact ih

theorem Map.find_erase {K V : Type} [LinearOrder K] (m : Map K V) (k x : K) :
    (Map.erase m k).find x = if x = k then none else m.find x := by
  induction m with
  | nil => simp [Map.erase, Map.find]
  | cons p rest ih =>
    obtain ⟨k1, v1⟩ := p
    simp only [Map.erase] at ih ⊢
    by_cases h1 : k1 = k
    · rw [List.filter_cons_of_neg (by simp [h1])]
      rw [ih]
      by_cases hx : x = k
      · simp [hx]
      · have : ¬ k1 = x := fun e => hx (e.symm.trans h1)
        simp [hx, Map.find, this]
    · rw [List.filter_cons_of_pos (by simp [h1])]
      by_cases h2 : k1 = x
      · have : ¬ x = k := fun e => h1 (h2.trans e)
        simp [Map.find, h2, this]
      · simp only [Map.find, h2, if_false]
        exact ih

theorem Map.contains_erase {K V : Type} [LinearOrder K] (m : Map K V) (k x : K) :
    (Map.erase m k).contains x = (!decide (x = k) && m.contains x) := by
  unfold Map.contains
  rw [Map.find_erase]
  by_cases h : x = k <;> simp [h]

theorem Map.find_modify_ne {K V : Type} [LinearOrder K] (m : Map K V) (k x : K) (f : V → V)
    (h : x ≠ k) : (Map.modify m k f).find x = m.find x := by
  induction m with
  | nil => rfl
  | cons p rest ih =>
    obtain ⟨k1, v⟩ := p
    have e : Map.modify ((k1, v) :: rest) k f =
        (if k1 = k then (k1, f v) else (k1, v)) :: Map.modify rest k f := rfl
    rw [e]
    by_cases h1 : k1 = k
    · rw [if_pos h1]
      have : ¬ k1 = x := fun e => h (e.symm.trans h1)
      simp [Map.find, this, ih]
    · rw [if_neg h1]
      by_cases h2 : k1 = x
      · simp [Map.find, h2]
      · simp [Map.find, h2, ih]

theorem Map.contains_modify {K V : Type} [LinearOrder K] (m : Map K V) (k x : K) (f : V → V) :
    (Map.modify m k f).contains x = m.contains x := by
  unfold Map.contains
  by_cases h : x = k
  · rw [h, Map.find_modify]
    cases m.find k <;> rfl
  · rw [Map.find_modify_ne m k x f h]

theorem Map.contains_insert {K V : Type} [LinearOrder K] (m : Map K V) (k x : K) (v : V) :
    (m.insert k v).1.contains x = (decide (x = k) || m.contains x) := by
  unfold Map.insert
  by_cases h : m.contains k = true
  · rw [if_pos h]
    by_cases hx : x = k
    · simp [hx, h]
    · simp [hx]
  · rw [if_neg h]
    exact Map.contains_place m k x v

theorem Map.contains_of_filter {K V : Type} [LinearOrder K] (m : Map K V) (p : K × V → Bool)
    (x : K) (h : Map.contains (m.filter p) x = true) : m.contains x = true := by
  induction m with
  | nil => simpa using h
  | cons q rest ih =>
    obtain ⟨k1, v1⟩ := q
    by_cases h1 : k1 = x
    · simp [Map.contains, Map.find, h1]
    · by_cases hp : p (k1, v1) = true
      · rw [List.filter_cons_of_pos hp] at h
        simp only [Map.contains, Map.find, h1, if_false] at h ⊢
        exact ih h
      · rw [List.filter_cons_of_neg hp] at h
        simp only [Map.contains, Map.find, h1, if_false] at ih ⊢
        exact ih h

/-! ### What the operations leave as it is -/

theorem SameStore.same_refl (s : CGovernanceManager) : SameStore s s := ⟨rfl, rfl, rfl, rfl, rfl⟩

theorem SameStore.same_trans {s t u : CGovernanceManager} (h1 : SameStore s t) (h2 : SameStore t u) :
    SameStore s u :=
  ⟨h2.1.trans h1.1, h2.2.1.trans h1.2.1, h2.2.2.1.trans h1.2.2.1,
    h2.2.2.2.1.trans h1.2.2.2.1, h2.2.2.2.2.trans h1.2.2.2.2⟩

theorem holders_of_sameStore {s t : CGovernanceManager} (h : SameStore s t) (x : uint256) :
    holders t x = holders s x := by
  unfold holders
  rw [h.1, h.2.1, h.2.2.1, h.2.2.2.1]

theorem Relay_sameStore (P : Params) (env : Env) (g : CGovernanceObject)
    (s : CGovernanceManager) : SameStore s (Relay P env g s) := by
  unfold Relay
  split_ifs <;> exact ⟨rfl, rfl, rfl, rfl, rfl⟩

theorem RelayVote_sameStore (P : Params) (env : Env) (v : CGovernanceVote)
    (s : CGovernanceManager) : SameStore s (RelayVote P env v s) := by
  unfold RelayVote
  split_ifs <;> exact ⟨rfl, rfl, rfl, rfl, rfl⟩

theorem MasternodeRateUpdate_sameStore (P : Params) (env : Env) (g : CGovernanceObject)
    (s : CGovernanceManager) : SameStore s (MasternodeRateUpdate P env g s) := by
  unfold MasternodeRateUpdate
  split_ifs <;> exact ⟨rfl, rfl, rfl, rfl, rfl⟩

theorem applyVoteEffects_sameStore (P : Params) (pfrom : Option CNode) (v : CGovernanceVote)
    (r : ObjectVoteResult) (s : CGovernanceManager) :
    SameStore s (applyVoteEffects P pfrom v r s) := by
  unfold applyVoteEffects AddInvalidVote
  cases pfrom <;> simp only <;> split_ifs <;> exact ⟨rfl, rfl, rfl, rfl, rfl⟩

theorem RequestGovernanceObject_sameStore (pfrom : Option CNode) (h : uint256)
    (s : CGovernanceManager) : SameStore s (RequestGovernanceObject pfrom h s) := by
  unfold RequestGovernanceObject
  cases pfrom <;> exact ⟨rfl, rfl, rfl, rfl, rfl⟩

theorem CheckOrphanVotes_step_sameStore (P : Params) (env : Env) (h : uint256)
    (st : CGovernanceObject × CGovernanceManager) (pairVote : CGovernanceVote × Int) :
    SameStore st.2 (CheckOrphanVotes_step P env h st pairVote).2 := by
  unfold CheckOrphanVotes_step
  simp only
  split_ifs
  · exact ⟨rfl, rfl, rfl, rfl, rfl⟩
  · exact SameStore.same_trans (applyVoteEffects_sameStore P none pairVote.1 _ st.2)
      (SameStore.same_trans (RelayVote_sameStore P env pairVote.1 _) ⟨rfl, rfl, rfl, rfl, rfl⟩)
  · exact applyVoteEffects_sameStore P none pairVote.1 _ st.2

theorem CheckOrphanVotes_sameStore (P : Params) (env : Env) (g : CGovernanceObject)
    (s : CGovernanceManager) : SameStore s (CheckOrphanVotes P env g s).2 := by
  unfold CheckOrphanVotes
  simp only
  have key : ∀ (l : List (CGovernanceVote × Int)) (st : CGovernanceObject × CGovernanceManager),
      SameStore st.2 (l.foldl (CheckOrphanVotes_step P env (g.GetHash P)) st).2 := by
    intro l
    induction l with
    | nil => intro st; exact SameStore.same_refl _
    | cons a l ih =>
      intro st
      exact SameStore.same_trans (CheckOrphanVotes_step_sameStore P env _ st a) (ih _)
  have h := key (s.cmmapOrphanVotes.GetAll (g.GetHash P)) (g, { s with fRateChecksEnabled := false })
  exact ⟨h.1, h.2.1, h.2.2.1, h.2.2.2.1, h.2.2.2.2⟩

theorem MasternodeRateCheck_sameStore (P : Params) (env : Env) (g : CGovernanceObject)
    (fUpdate fForce : Bool) (s : CGovernanceManager) (r : Bool × Bool × CGovernanceManager)
    (h : MasternodeRateCheck P env g fUpdate fForce s = some r) : SameStore s r.2.2 := by
  unfold MasternodeRateCheck at h
  simp only at h
  split_ifs at h
  all_goals first
    | (cases h; exact ⟨rfl, rfl, rfl, rfl, rfl⟩)
    | (split at h
       · cases h; exact ⟨rfl, rfl, rfl, rfl, rfl⟩
       · split_ifs at h
         · cases h; exact ⟨rfl, rfl, rfl, rfl, rfl⟩
         · split at h
           · cases h
           · split_ifs at h <;> (cases h; exact ⟨rfl, rfl, rfl, rfl, rfl⟩))

theorem MasternodeRateCheck2_sameStore (P : Params) (env : Env) (g : CGovernanceObject)
    (fUpdate : Bool) (s : CGovernanceManager) (r : Bool × CGovernanceManager)
    (h : MasternodeRateCheck2 P env g fUpdate s = some r) : SameStore s r.2 := by
  unfold MasternodeRateCheck2 at h
  cases hm : MasternodeRateCheck P env g fUpdate true s with
  | none => simp [hm] at h
  | some q =>
    simp only [hm, Option.map_some', Option.some.injEq] at h
    rw [← h]
    exact MasternodeRateCheck_sameStore P env g fUpdate true s q hm

theorem AcceptObjectMessage_sameStore (h : uint256) (s : CGovernanceManager) :
    SameStore s (AcceptObjectMessage h s).2 := ⟨rfl, rfl, rfl, rfl, rfl⟩

theorem AcceptVoteMessage_sameStore (h : uint256) (s : CGovernanceManager) :
    SameStore s (AcceptVoteMessage h s).2 := ⟨rfl, rfl, rfl, rfl, rfl⟩

theorem ConfirmInventoryRequest_sameStore (env : Env) (inv : CInv) (s : CGovernanceManager) :
    SameStore s (ConfirmInventoryRequest env inv s).2 := by
  obtain ⟨type, hash⟩ := inv
  unfold ConfirmInventoryRequest
  cases type <;> simp only <;> split_ifs <;> exact ⟨rfl, rfl, rfl, rfl, rfl⟩

/-! ### Objects keep their hash and their votes -/

theorem SameContent.content_refl (o : CGovernanceObject) : SameContent o o :=
  ⟨rfl, rfl, rfl, rfl, rfl, rfl, rfl, rfl, rfl⟩

theorem SameContent.content_trans {a b c : CGovernanceObject} (h1 : SameContent a b)
    (h2 : SameContent b c) : SameContent a c :=
  ⟨h2.1.trans h1.1, h2.2.1.trans h1.2.1, h2.2.2.1.trans h1.2.2.1,
    h2.2.2.2.1.trans h1.2.2.2.1, h2.2.2.2.2.1.trans h1.2.2.2.2.1,
    h2.2.2.2.2.2.1.trans h1.2.2.2.2.2.1, h2.2.2.2.2.2.2.1.trans h1.2.2.2.2.2.2.1,
    h2.2.2.2.2.2.2.2.1.trans h1.2.2.2.2.2.2.2.1, h2.2.2.2.2.2.2.2.2.trans h1.2.2.2.2.2.2.2.2⟩

theorem SameContent.ite {o a b : CGovernanceObject} (c : Prop) [Decidable c]
    (h1 : SameContent o a) (h2 : SameContent o b) : SameContent o (if c then a else b) := by
  split_ifs
  · exact h1
  · exact h2

theorem SameContent.getHash (P : Params) {o a : CGovernanceObject} (h : SameContent o a) :
    a.GetHash P = o.GetHash P := by
  obtain ⟨h1, h2, h3, h4, h5, h6, _⟩ := h
  unfold CGovernanceObject.GetHash
  rw [h1, h2, h3, h4, h5, h6]

theorem SameContent.hasVote (P : Params) {o a : CGovernanceObject} (h : SameContent o a)
    (x : uint256) : a.HasVote P x = o.HasVote P x := by
  unfold CGovernanceObject.HasVote
  rw [h.2.2.2.2.2.2.2.1]

theorem UpdateSentinelVariables_sameContent (P : Params) (env : Env) (o : CGovernanceObject) :
    SameContent o (o.UpdateSentinelVariables P env) := by
  unfold CGovernanceObject.UpdateSentinelVariables
  lift_lets
  intro nMnCount nAbsVoteReq nAbsDeleteReq o1 o2 o3 o4 o5
  refine SameContent.ite _ (SameContent.content_refl o) ?_
  have h1 : SameContent o o1 := ⟨rfl, rfl, rfl, rfl, rfl, rfl, rfl, rfl, rfl⟩
  have h2 : SameContent o o2 :=
    SameContent.ite _ (h1.content_trans ⟨rfl, rfl, rfl, rfl, rfl, rfl, rfl, rfl, rfl⟩)
      (SameContent.ite _ (h1.content_trans ⟨rfl, rfl, rfl, rfl, rfl, rfl, rfl, rfl, rfl⟩) h1)
  have h3 : SameContent o o3 :=
    SameContent.ite _ (h2.content_trans ⟨rfl, rfl, rfl, rfl, rfl, rfl, rfl, rfl, rfl⟩) h2
  have h4 : SameContent o o4 :=
    SameContent.ite _ (h3.content_trans ⟨rfl, rfl, rfl, rfl, rfl, rfl, rfl, rfl, rfl⟩)
      (SameContent.ite _ (h3.content_trans ⟨rfl, rfl, rfl, rfl, rfl, rfl, rfl, rfl, rfl⟩) h3)
  have h5 : SameContent o o5 :=
    SameContent.ite _ (h4.content_trans ⟨rfl, rfl, rfl, rfl, rfl, rfl, rfl, rfl, rfl⟩) h4
  exact h5.content_trans ⟨rfl, rfl, rfl, rfl, rfl, rfl, rfl, rfl, rfl⟩

theorem UpdateLocalValidity_sameContent (P : Params) (env : Env) (o : CGovernanceObject) :
    SameContent o (o.UpdateLocalValidity P env) := ⟨rfl, rfl, rfl, rfl, rfl, rfl, rfl, rfl, rfl⟩

theorem Map.modify_of_not_contains {K V : Type} [LinearOrder K] (m : Map K V) (k : K)
    (f : V → V) (h : m.contains k = false) : Map.modify m k f = m := by
  induction m with
  | nil => rfl
  | cons q rest ih =>
    obtain ⟨k2, v2⟩ := q
    have hne : ¬ k2 = k := by
      intro e
      simp [Map.contains, Map.find, e] at h
    have hrest : Map.contains rest k = false := by
      simpa [Map.contains, Map.find, hne] using h
    have e1 : Map.modify ((k2, v2) :: rest) k f =
        (if k2 = k then (k2, f v2) else (k2, v2)) :: Map.modify rest k f := rfl
    rw [e1, if_neg hne, ih hrest]

theorem Map.modify_place {K V : Type} [LinearOrder K] (m : Map K V) (k : K) (v : V) (f : V → V)
    (h : m.contains k = false) : Map.modify (Map.place m k v) k f = Map.place m k (f v) := by
  induction m with
  | nil => simp [Map.place, Map.modify]
  | cons p rest ih =>
    obtain ⟨k1, v1⟩ := p
    have hne : ¬ k1 = k := by
      intro e
      simp [Map.contains, Map.find, e] at h
    have hrest : Map.contains rest k = false := by
      simpa [Map.contains, Map.find, hne] using h
    simp only [Map.place]
    by_cases hlt : k < k1
    · rw [if_pos hlt, if_pos hlt]
      have e0 : Map.modify ((k, v) :: (k1, v1) :: rest) k f =
          (if k = k then (k, f v) else (k, v)) ::
            (if k1 = k then (k1, f v1) else (k1, v1)) :: Map.modify rest k f := rfl
      rw [e0, if_pos rfl, if_neg hne, Map.modify_of_not_contains rest k f hrest]
    · rw [if_neg hlt, if_neg hlt]
      have e0 : Map.modify ((k1, v1) :: Map.place rest k v) k f =
          (if k1 = k then (k1, f v1) else (k1, v1)) :: Map.modify (Map.place rest k v) k f := rfl
      rw [e0, if_neg hne, ih hrest]

theorem Map.insert_snd {K V : Type} [LinearOrder K] (m : Map K V) (k : K) (v : V) :
    ((m.insert k v).2 = true → m.contains k = false ∧ (m.insert k v).1 = Map.place m k v) ∧
    ((m.insert k v).2 = false → (m.insert k v).1 = m) := by
  unfold Map.insert
  cases h : m.contains k <;> simp

/-! ### What `AddGovernanceObject` does to the stores -/

theorem AddGovernanceObject_effect (P : Params) (env : Env) (g : CGovernanceObject)
    (s : CGovernanceManager) :
    (AddGovernanceObject P env g s).mapPostponedObjects = s.mapPostponedObjects ∧
    (AddGovernanceObject P env g s).mapMasternodeOrphanObjects = s.mapMasternodeOrphanObjects ∧
    (AddGovernanceObject P env g s).mapErasedGovernanceObjects = s.mapErasedGovernanceObjects ∧
    (AddGovernanceObject P env g s).cmapVoteToObject = s.cmapVoteToObject ∧
    ((AddGovernanceObject P env g s).mapObjects = s.mapObjects ∨
      (s.mapObjects.contains (g.GetHash P) = false ∧
        ∃ o, (AddGovernanceObject P env g s).mapObjects = Map.place s.mapObjects (g.GetHash P) o)) := by
  have hh : (g.UpdateSentinelVariables P env).GetHash P = g.GetHash P :=
    (UpdateSentinelVariables_sameContent P env g).getHash P
  unfold AddGovernanceObject
  simp only [hh]
  split_ifs with h1 h2 h3
  · exact ⟨rfl, rfl, rfl, rfl, Or.inl rfl⟩
  · exact ⟨rfl, rfl, rfl, rfl, Or.inl rfl⟩
  · have hi := (Map.insert_snd s.mapObjects (g.GetHash P) (g.UpdateSentinelVariables P env)).1
      (by simpa using h2)
    refine ⟨rfl, rfl, rfl, rfl, Or.inr ⟨hi.1, ?_⟩⟩
    simp only [hi.2]
    exact ⟨_, Map.modify_place _ _ _ _ hi.1⟩
  · have hi := (Map.insert_snd s.mapObjects (g.GetHash P) (g.UpdateSentinelVariables P env)).1
      (by simpa using h2)
    let gu := g.UpdateSentinelVariables P env
    let s1 : CGovernanceManager :=
      { s with mapObjects := (s.mapObjects.insert (g.GetHash P) gu).1 }
    have hs : SameStore s1
        (CheckOrphanVotes P env gu (MasternodeRateUpdate P env gu (Relay P env gu s1))).2 :=
      SameStore.same_trans (Relay_sameStore P env gu s1)
        (SameStore.same_trans (MasternodeRateUpdate_sameStore P env gu _)
          (CheckOrphanVotes_sameStore P env gu _))
    exact ⟨hs.2.1, hs.2.2.1, hs.2.2.2.1, hs.2.2.2.2, Or.inr ⟨hi.1, _, hs.1.trans hi.2⟩⟩

theorem AddPostponedObject_effect (P : Params) (g : CGovernanceObject) (s : CGovernanceManager) :
    (AddPostponedObject P g s).mapObjects = s.mapObjects ∧
    (AddPostponedObject P g s).mapMasternodeOrphanObjects = s.mapMasternodeOrphanObjects ∧
    (AddPostponedObject P g s).mapErasedGovernanceObjects = s.mapErasedGovernanceObjects ∧
    (AddPostponedObject P g s).cmapVoteToObject = s.cmapVoteToObject ∧
    (AddPostponedObject P g s).mapPostponedObjects =
      (s.mapPostponedObjects.insert (g.GetHash P) g).1 := ⟨rfl, rfl, rfl, rfl, rfl⟩

/-! ### Each hash in at most one store -/

theorem bit_le_one (b : Bool) : bit b ≤ 1 := by cases b <;> decide

theorem holders_AddGovernanceObject (P : Params) (env : Env) (g : CGovernanceObject)
    (s : CGovernanceManager) (x : uint256) :
    holders (AddGovernanceObject P env g s) x = holders s x ∨
    (s.mapObjects.contains (g.GetHash P) = false ∧
      holders (AddGovernanceObject P env g s) x =
        holders s x + bit (decide (x = g.GetHash P))) := by
  obtain ⟨h1, h2, h3, _, h5⟩ := AddGovernanceObject_effect P env g s
  unfold holders
  rw [h1, h2, h3]
  rcases h5 with h5 | ⟨h5, o, h6⟩
  · rw [h5]
    exact Or.inl rfl
  · refine Or.inr ⟨h5, ?_⟩
    rw [h6, Map.contains_place]
    by_cases hx : x = g.GetHash P
    · subst hx
      simp [h5, bit]
      omega
    · simp [hx, bit]

theorem AtMostOneStore.add_object (P : Params) (env : Env) (g : CGovernanceObject)
    (s : CGovernanceManager) (h : AtMostOneStore s)
    (hfree : holders s (g.GetHash P) ≤ bit (s.mapObjects.contains (g.GetHash P))) :
    AtMostOneStore (AddGovernanceObject P env g s) := by
  intro x
  rcases holders_AddGovernanceObject P env g s x with e | ⟨hc, e⟩
  · rw [e]; exact h x
  · rw [e]
    by_cases hx : x = g.GetHash P
    · subst hx
      rw [hc] at hfree
      simp [bit] at hfree ⊢
      omega
    · have := h x
      simp [hx, bit]
      exact this

theorem AtMostOneStore.add_postponed (P : Params) (g : CGovernanceObject)
    (s : CGovernanceManager) (h : AtMostOneStore s)
    (hfree : holders s (g.GetHash P) ≤ bit (s.mapPostponedObjects.contains (g.GetHash P))) :
    AtMostOneStore (AddPostponedObject P g s) := by
  intro x
  have e : holders (AddPostponedObject P g s) x =
      bit (s.mapObjects.contains x) +
        bit (decide (x = g.GetHash P) || s.mapPostponedObjects.contains x) +
        bit (s.mapMasternodeOrphanObjects.contains x) +
        bit (s.mapErasedGovernanceObjects.contains x) := by
    unfold holders AddPostponedObject
    simp only [Map.contains_insert]
  rw [e]
  have hx := h x
  unfold holders at hx hfree
  by_cases hxe : x = g.GetHash P
  · subst hxe
    cases h1 : s.mapObjects.contains (g.GetHash P) <;>
    cases h2 : s.mapPostponedObjects.contains (g.GetHash P) <;>
    cases h3 : s.mapMasternodeOrphanObjects.contains (g.GetHash P) <;>
    cases h4 : s.mapErasedGovernanceObjects.contains (g.GetHash P) <;>
    simp [bit, h1, h2, h3, h4] at hx hfree ⊢
  · simp only [hxe, decide_False, Bool.false_or]
    exact hx

theorem Map.find_place_self {K V : Type} [LinearOrder K] (m : Map K V) (k : K) (v : V)
    (h : m.contains k = false) : (Map.place m k v).find k = some v := by
  induction m with
  | nil => simp [Map.place, Map.find]
  | cons p rest ih =>
    obtain ⟨k1, v1⟩ := p
    have hne : ¬ k1 = k := by
      intro e
      simp [Map.contains, Map.find, e] at h
    have hrest : Map.contains rest k = false := by
      simpa [Map.contains, Map.find, hne] using h
    simp only [Map.place]
    by_cases hlt : k < k1
    · rw [if_pos hlt]
      simp [Map.find]
    · rw [if_neg hlt]
      simp only [Map.find, hne, if_false]
      exact ih hrest

theorem Map.find_insert {K V : Type} [LinearOrder K] (m : Map K V) (k x : K) (v : V) (w : V)
    (h : (m.insert k v).1.find x = some w) : m.find x = some w ∨ (x = k ∧ w = v) := by
  unfold Map.insert at h
  by_cases hc : m.contains k = true
  · rw [if_pos hc] at h
    exact Or.inl h
  · rw [if_neg hc] at h
    by_cases hx : x = k
    · subst hx
      rw [Map.find_place_self m x v (by simpa using hc)] at h
      exact Or.inr ⟨rfl, (Option.some.inj h).symm⟩
    · rw [Map.find_place_ne m k x v hx] at h
      exact Or.inl h

theorem Map.contains_of_find {K V : Type} [LinearOrder K] (m : Map K V) (k : K) (v : V)
    (h : m.find k = some v) : m.contains k = true := by
  simp [Map.contains, h]

theorem foldl_inv {α β : Type} (I : α → Prop) (f : α → β → α)
    (hf : ∀ s b, I s → I (f s b)) : ∀ (l : List β) (s : α), I s → I (l.foldl f s)
  | [], _, h => h
  | b :: l, s, h => foldl_inv I f hf l (f s b) (hf s b h)

theorem foldl_option_inv {α β : Type} (I : α → Prop) (f : Option α → β → Option α)
    (hnone : ∀ b, f none b = none)
    (hf : ∀ s b t, I s → f (some s) b = some t → I t) :
    ∀ (l : List β) (s t : α), I s → l.foldl f (some s) = some t → I t
  | [], s, t, h, e => by
    simp only [List.foldl_nil, Option.some.injEq] at e
    exact e ▸ h
  | b :: l, s, t, h, e => by
    simp only [List.foldl_cons] at e
    cases hb : f (some s) b with
    | none =>
      rw [hb] at e
      have hn : ∀ l : List β, l.foldl f none = none := by
        intro l
        induction l with
        | nil => rfl
        | cons c l ih => simp only [List.foldl_cons, hnone, ih]
      rw [hn] at e
      cases e
    | some u =>
      rw [hb] at e
      exact foldl_option_inv I f hnone hf l u t (hf s b u h hb) e

/-! ### The invariant of the stores -/

theorem StoreInv.of_objects (P : Params) {s t : CGovernanceManager} (h : StoreInv P s)
    (h1 : ∀ x, t.mapObjects.contains x = s.mapObjects.contains x)
    (h2 : t.mapPostponedObjects = s.mapPostponedObjects)
    (h3 : t.mapMasternodeOrphanObjects = s.mapMasternodeOrphanObjects)
    (h4 : t.mapErasedGovernanceObjects = s.mapErasedGovernanceObjects) : StoreInv P t := by
  refine ⟨fun x => ?_, ?_, ?_⟩
  · have := h.1 x
    unfold holders at this ⊢
    rw [h1, h2, h3, h4]
    exact this
  · rw [h2]; exact h.2.1
  · rw [h3]; exact h.2.2

theorem StoreInv.of_sameStore (P : Params) {s t : CGovernanceManager} (h : StoreInv P s)
    (hs : SameStore s t) : StoreInv P t :=
  h.of_objects P (fun x => by rw [hs.1]) hs.2.1 hs.2.2.1 hs.2.2.2.1

theorem StoreInv.addGovernanceObject (P : Params) (env : Env) (g : CGovernanceObject)
    (s : CGovernanceManager) (h : StoreInv P s)
    (hfree : holders s (g.GetHash P) ≤ bit (s.mapObjects.contains (g.GetHash P))) :
    StoreInv P (AddGovernanceObject P env g s) := by
  obtain ⟨e1, e2, _, _, _⟩ := AddGovernanceObject_effect P env g s
  refine ⟨AtMostOneStore.add_object P env g s h.1 hfree, ?_, ?_⟩
  · rw [e1]; exact h.2.1
  · rw [e2]; exact h.2.2

theorem StoreInv.addPostponedObject (P : Params) (g : CGovernanceObject)
    (s : CGovernanceManager) (h : StoreInv P s)
    (hfree : holders s (g.GetHash P) ≤ bit (s.mapPostponedObjects.contains (g.GetHash P))) :
    StoreInv P (AddPostponedObject P g s) := by
  refine ⟨AtMostOneStore.add_postponed P g s h.1 hfree, ?_, h.2.2⟩
  intro k o hk
  rcases Map.find_insert _ _ _ _ _ hk with hk | ⟨rfl, rfl⟩
  · exact h.2.1 k o hk
  · rfl

theorem StoreInv.insertOrphan (P : Params) (g : CGovernanceObject) (info : ExpirationInfo)
    (s t : CGovernanceManager) (h : StoreInv P s) (hfree : holders s (g.GetHash P) = 0)
    (h1 : t.mapObjects = s.mapObjects) (h2 : t.mapPostponedObjects = s.mapPostponedObjects)
    (h3 : t.mapMasternodeOrphanObjects =
      (s.mapMasternodeOrphanObjects.insert (g.GetHash P) (g, info)).1)
    (h4 : t.mapErasedGovernanceObjects = s.mapErasedGovernanceObjects) : StoreInv P t := by
  refine ⟨fun x => ?_, ?_, ?_⟩
  · have hx := h.1 x
    unfold holders at hx hfree ⊢
    rw [h1, h2, h3, h4, Map.contains_insert]
    by_cases hxe : x = g.GetHash P
    · subst hxe
      cases c1 : s.mapObjects.contains (g.GetHash P) <;>
      cases c2 : s.mapPostponedObjects.contains (g.GetHash P) <;>
      cases c3 : s.mapMasternodeOrphanObjects.contains (g.GetHash P) <;>
      cases c4 : s.mapErasedGovernanceObjects.contains (g.GetHash P) <;>
      simp [bit, c1, c2, c3, c4] at hx hfree ⊢
    · simp only [hxe, decide_False, Bool.false_or]
      exact hx
  · rw [h2]; exact h.2.1
  · rw [h3]
    intro k p hk
    rcases Map.find_insert _ _ _ _ _ hk with hk | ⟨rfl, rfl⟩
    · exact h.2.2 k p hk
    · rfl

theorem holders_eq_zero (s : CGovernanceManager) (x : uint256)
    (h : (s.mapObjects.contains x || s.mapPostponedObjects.contains x ||
      s.mapErasedGovernanceObjects.contains x || s.mapMasternodeOrphanObjects.contains x) = false) :
    holders s x = 0 := by
  unfold holders
  cases c1 : s.mapObjects.contains x <;>
  cases c2 : s.mapPostponedObjects.contains x <;>
  cases c3 : s.mapMasternodeOrphanObjects.contains x <;>
  cases c4 : s.mapErasedGovernanceObjects.contains x <;>
  simp [bit, c1, c2, c3, c4] at h ⊢

theorem StoreInv.processMNGOVERNANCEOBJECT (P : Params) (env : Env) (pfrom : CNode)
    (g : CGovernanceObject) (s t : CGovernanceManager) (h : StoreInv P s)
    (ht : ProcessMNGOVERNANCEOBJECT P env pfrom g s = some t) : StoreInv P t := by
  unfold ProcessMNGOVERNANCEOBJECT at ht
  simp only at ht
  by_cases c1 : pfrom.nSendVersion < P.MIN_GOVERNANCE_PEER_PROTO_VERSION
  · rw [if_pos c1] at ht
    cases ht; exact h.of_sameStore P ⟨rfl, rfl, rfl, rfl, rfl⟩
  rw [if_neg c1] at ht
  by_cases c2 : (!env.IsMasternodeListSynced) = true
  · rw [if_pos c2] at ht
    cases ht; exact h
  rw [if_neg c2] at ht
  by_cases c3 : (!(AcceptObjectMessage (g.GetHash P) s).1) = true
  · rw [if_pos c3] at ht
    cases ht; exact h.of_sameStore P (AcceptObjectMessage_sameStore _ s)
  rw [if_neg c3] at ht
  by_cases c4 : ((AcceptObjectMessage (g.GetHash P) s).2.mapObjects.contains (g.GetHash P) ||
      (AcceptObjectMessage (g.GetHash P) s).2.mapPostponedObjects.contains (g.GetHash P) ||
      (AcceptObjectMessage (g.GetHash P) s).2.mapErasedGovernanceObjects.contains (g.GetHash P) ||
      (AcceptObjectMessage (g.GetHash P) s).2.mapMasternodeOrphanObjects.contains (g.GetHash P)) =
        true
  · rw [if_pos c4] at ht
    cases ht; exact h.of_sameStore P (AcceptObjectMessage_sameStore _ s)
  rw [if_neg c4] at ht
  have hs1 := AcceptObjectMessage_sameStore (g.GetHash P) s
  have h1 := h.of_sameStore P hs1
  have hfree : holders (AcceptObjectMessage (g.GetHash P) s).2 (g.GetHash P) = 0 :=
    holders_eq_zero _ _ (by simpa using c4)
  cases hm : MasternodeRateCheck P env g true false (AcceptObjectMessage (g.GetHash P) s).2 with
  | none => simp [hm] at ht
  | some r =>
    obtain ⟨fRate, byp, s2⟩ := r
    have hs2 : SameStore (AcceptObjectMessage (g.GetHash P) s).2 s2 :=
      MasternodeRateCheck_sameStore P env g true false _ _ hm
    have h2 := h1.of_sameStore P hs2
    have hfree2 : holders s2 (g.GetHash P) = 0 := by
      rw [holders_of_sameStore hs2]; exact hfree
    simp only [hm] at ht
    by_cases c5 : (!fRate) = true
    · rw [if_pos c5] at ht
      cases ht
      exact h2
    · rw [if_neg c5] at ht
      generalize hr : (if (byp && ((g.IsValidLocally P env true).1 ||
          (g.IsValidLocally P env true).2.1)) = true
        then MasternodeRateCheck2 P env g true s2 else some (true, s2)) = recheck at ht
      cases recheck with
      | none => cases ht
      | some q =>
        obtain ⟨fRate2, s3⟩ := q
        have hs3 : SameStore s2 s3 := by
          split_ifs at hr
          · exact MasternodeRateCheck2_sameStore P env g true s2 _ hr
          · cases hr
            exact SameStore.same_refl _
        have h3 := h2.of_sameStore P hs3
        have hfree3 : holders s3 (g.GetHash P) = 0 := by
          rw [holders_of_sameStore hs3]; exact hfree2
        simp only at ht
        split_ifs at ht
        · cases ht; exact h3
        · cases ht
          exact StoreInv.insertOrphan P g _ s3 _ h3 hfree3 rfl rfl rfl rfl
        · cases ht
          exact StoreInv.addPostponedObject P g s3 h3 (by rw [hfree3]; exact Nat.zero_le _)
        · cases ht
          exact h3.of_sameStore P ⟨rfl, rfl, rfl, rfl, rfl⟩
        · cases ht
          exact StoreInv.addGovernanceObject P env g s3 h3 (by rw [hfree3]; exact Nat.zero_le _)

theorem bit_contains_filter_le {V : Type} (m : Map uint256 V) (p : uint256 × V → Bool)
    (x : uint256) : bit (Map.contains (m.filter p) x) ≤ bit (m.contains x) := by
  cases h : Map.contains (m.filter p) x
  · simp [bit]
  · rw [Map.contains_of_filter m p x h]

theorem StoreInv.addThenErasePostponed (P : Params) (env : Env) (g : CGovernanceObject)
    (s : CGovernanceManager) (fAdd : Bool) (h : StoreInv P s)
    (hg : s.mapPostponedObjects.find (g.GetHash P) = some g) :
    StoreInv P
      { (if fAdd then AddGovernanceObject P env g s else s) with
        mapPostponedObjects :=
          Map.erase (if fAdd then AddGovernanceObject P env g s else s).mapPostponedObjects
            (g.GetHash P) } := by
  have hc := Map.contains_of_find _ _ _ hg
  obtain ⟨e1, e2, e3, _, e5⟩ := AddGovernanceObject_effect P env g s
  have e1' : (if fAdd then AddGovernanceObject P env g s else s).mapPostponedObjects =
      s.mapPostponedObjects := by cases fAdd <;> simp [e1]
  have e2' : (if fAdd then AddGovernanceObject P env g s else s).mapMasternodeOrphanObjects =
      s.mapMasternodeOrphanObjects := by cases fAdd <;> simp [e2]
  have e3' : (if fAdd then AddGovernanceObject P env g s else s).mapErasedGovernanceObjects =
      s.mapErasedGovernanceObjects := by cases fAdd <;> simp [e3]
  have e5' : ∀ x, (if fAdd then AddGovernanceObject P env g s else s).mapObjects.contains x =
      s.mapObjects.contains x ∨ x = g.GetHash P := by
    intro x
    cases fAdd
    · exact Or.inl rfl
    · simp only [if_true]
      rcases e5 with e5 | ⟨_, o, e5⟩
      · rw [e5]; exact Or.inl rfl
      · rw [e5, Map.contains_place]
        by_cases hx : x = g.GetHash P
        · exact Or.inr hx
        · simp [hx]
  refine ⟨fun x => ?_, ?_, ?_⟩
  · have hx := h.1 x
    unfold holders at hx ⊢
    simp only [e1', e2', e3', Map.contains_erase]
    rcases e5' x with e | e
    · rw [e]
      cases c1 : s.mapObjects.contains x <;>
      cases c2 : s.mapPostponedObjects.contains x <;>
      cases c3 : s.mapMasternodeOrphanObjects.contains x <;>
      cases c4 : s.mapErasedGovernanceObjects.contains x <;>
      cases c5 : decide (x = g.GetHash P) <;>
      simp [bit, c1, c2, c3, c4] at hx ⊢
    · subst e
      rw [hc] at hx
      cases c1 : s.mapObjects.contains (g.GetHash P) <;>
      cases c3 : s.mapMasternodeOrphanObjects.contains (g.GetHash P) <;>
      cases c4 : s.mapErasedGovernanceObjects.contains (g.GetHash P) <;>
      cases c6 : (if fAdd then AddGovernanceObject P env g s else s).mapObjects.contains
        (g.GetHash P) <;>
      simp [bit, c1, c3, c4] at hx ⊢
  · intro k o hk
    simp only [e1', Map.find_erase] at hk
    split_ifs at hk
    exact h.2.1 k o hk
  · simp only [e2']
    exact h.2.2

theorem StoreInv.addThenEraseOrphan (P : Params) (env : Env) (g : CGovernanceObject)
    (info : ExpirationInfo) (s s1 : CGovernanceManager) (counter : Map COutPoint Int)
    (h : StoreInv P s)
    (hg : s.mapMasternodeOrphanObjects.find (g.GetHash P) = some (g, info))
    (hs1 : s1 = AddGovernanceObject P env g s ∨ SameStore s s1) :
    StoreInv P
      { s1 with
        mapMasternodeOrphanCounter := counter
        mapMasternodeOrphanObjects := Map.erase s1.mapMasternodeOrphanObjects (g.GetHash P) } := by
  have hc := Map.contains_of_find _ _ _ hg
  obtain ⟨e1, e2, e3, _, e5⟩ := AddGovernanceObject_effect P env g s
  have e1' : s1.mapPostponedObjects = s.mapPostponedObjects := by
    rcases hs1 with rfl | hs1
    · exact e1
    · exact hs1.2.1
  have e2' : s1.mapMasternodeOrphanObjects = s.mapMasternodeOrphanObjects := by
    rcases hs1 with rfl | hs1
    · exact e2
    · exact hs1.2.2.1
  have e3' : s1.mapErasedGovernanceObjects = s.mapErasedGovernanceObjects := by
    rcases hs1 with rfl | hs1
    · exact e3
    · exact hs1.2.2.2.1
  have e5' : ∀ x, s1.mapObjects.contains x = s.mapObjects.contains x ∨ x = g.GetHash P := by
    intro x
    rcases hs1 with rfl | hs1
    · rcases e5 with e5 | ⟨_, o, e5⟩
      · rw [e5]; exact Or.inl rfl
      · rw [e5, Map.contains_place]
        by_cases hx : x = g.GetHash P
        · exact Or.inr hx
        · simp [hx]
    · rw [hs1.1]; exact Or.inl rfl
  refine ⟨fun x => ?_, ?_, ?_⟩
  · have hx := h.1 x
    unfold holders at hx ⊢
    simp only [e1', e2', e3', Map.contains_erase]
    rcases e5' x with e | e
    · rw [e]
      cases c1 : s.mapObjects.contains x <;>
      cases c2 : s.mapPostponedObjects.contains x <;>
      cases c3 : s.mapMasternodeOrphanObjects.contains x <;>
      cases c4 : s.mapErasedGovernanceObjects.contains x <;>
      cases c5 : decide (x = g.GetHash P) <;>
      simp [bit, c1, c2, c3, c4] at hx ⊢
    · subst e
      rw [hc] at hx
      cases c1 : s.mapObjects.contains (g.GetHash P) <;>
      cases c2 : s.mapPostponedObjects.contains (g.GetHash P) <;>
      cases c4 : s.mapErasedGovernanceObjects.contains (g.GetHash P) <;>
      cases c6 : s1.mapObjects.contains (g.GetHash P) <;>
      simp [bit, c1, c2, c4] at hx ⊢
  · simp only [e1']
    exact h.2.1
  · intro k p hk
    simp only [e2', Map.find_erase] at hk
    split_ifs at hk
    exact h.2.2 k p hk

theorem StoreInv.checkPostponedObjects_step (P : Params) (env : Env) (s t : CGovernanceManager)
    (nHash : uint256) (h : StoreInv P s)
    (ht : CheckPostponedObjects_step P env (some s) nHash = some t) : StoreInv P t := by
  unfold CheckPostponedObjects_step at ht
  simp only at ht
  cases hf : s.mapPostponedObjects.find nHash with
  | none =>
    simp only [hf, Option.some.injEq] at ht
    exact ht ▸ h
  | some g =>
    have hk : g.GetHash P = nHash := h.2.1 nHash g hf
    subst hk
    simp only [hf] at ht
    by_cases c1 : g.nObjectType = P.GOVERNANCE_OBJECT_TRIGGER
    · rw [if_pos c1] at ht
      cases ht
    rw [if_neg c1] at ht
    by_cases c2 : (g.IsCollateralValid P env).1 = true
    · rw [if_pos c2] at ht
      cases ht
      exact StoreInv.addThenErasePostponed P env g s _ h hf
    rw [if_neg c2] at ht
    by_cases c3 : (g.IsCollateralValid P env).2 = true
    · rw [if_pos c3] at ht
      cases ht
      exact h
    rw [if_neg c3] at ht
    cases ht
    have := StoreInv.addThenErasePostponed P env g s false h hf
    simpa using this

theorem CheckPostponedObjects_relay_sameStore (P : Params) (env : Env)
    (s : CGovernanceManager) (nHash : uint256) :
    SameStore s (CheckPostponedObjects_relay P env s nHash) := by
  unfold CheckPostponedObjects_relay
  simp only
  split
  · split_ifs
    · have := Relay_sameStore P env ‹CGovernanceObject› s
      exact ⟨this.1, this.2.1, this.2.2.1, this.2.2.2.1, this.2.2.2.2⟩
    · exact SameStore.same_refl _
    · exact ⟨rfl, rfl, rfl, rfl, rfl⟩
  · exact ⟨rfl, rfl, rfl, rfl, rfl⟩

theorem StoreInv.checkPostponedObjects (P : Params) (env : Env) (s t : CGovernanceManager)
    (h : StoreInv P s) (ht : CheckPostponedObjects P env s = some t) : StoreInv P t := by
  unfold CheckPostponedObjects at ht
  split_ifs at ht
  · cases ht; exact h
  · cases hfold : (Map.keys s.mapPostponedObjects).foldl (CheckPostponedObjects_step P env)
        (some s) with
    | none => simp [hfold] at ht
    | some s1 =>
      simp only [hfold, Option.map_some', Option.some.injEq] at ht
      have h1 : StoreInv P s1 :=
        foldl_option_inv (StoreInv P) (CheckPostponedObjects_step P env) (fun _ => rfl)
          (fun a b c ha hc => StoreInv.checkPostponedObjects_step P env a c b ha hc) _ s s1 h hfold
      rw [← ht]
      exact foldl_inv (StoreInv P) (CheckPostponedObjects_relay P env)
        (fun a b ha => ha.of_sameStore P (CheckPostponedObjects_relay_sameStore P env a b)) _ s1 h1

theorem StoreInv.checkMasternodeOrphanObjects_step (P : Params) (env : Env)
    (s t : CGovernanceManager) (nHash : uint256) (h : StoreInv P s)
    (ht : CheckMasternodeOrphanObjects_step P env (some s) nHash = some t) : StoreInv P t := by
  unfold CheckMasternodeOrphanObjects_step at ht
  simp only at ht
  cases hf : s.mapMasternodeOrphanObjects.find nHash with
  | none =>
    simp only [hf, Option.some.injEq] at ht
    exact ht ▸ h
  | some pair =>
    obtain ⟨g, info⟩ := pair
    have hk : g.GetHash P = nHash := h.2.2 nHash (g, info) hf
    subst hk
    simp only [hf] at ht
    split_ifs at ht with c1 c2 c3
    · cases ht; exact h
    · split at ht
      · cases ht
        exact (StoreInv.addThenEraseOrphan P env g info s (AddGovernanceObject P env g s)
          (AddGovernanceObject P env g s).mapMasternodeOrphanCounter h hf
          (Or.inl rfl)).of_sameStore P ⟨rfl, rfl, rfl, rfl, rfl⟩
      · cases ht
        exact StoreInv.addThenEraseOrphan P env g info s _ _ h hf (Or.inl rfl)
    · split at ht
      · cases ht
        exact (StoreInv.addThenEraseOrphan P env g info s s s.mapMasternodeOrphanCounter h hf
          (Or.inr (SameStore.same_refl _))).of_sameStore P ⟨rfl, rfl, rfl, rfl, rfl⟩
      · cases ht
        exact StoreInv.addThenEraseOrphan P env g info s _ _ h hf (Or.inr (SameStore.same_refl _))
    · split at ht
      · cases ht
        exact (StoreInv.addThenEraseOrphan P env g info s s s.mapMasternodeOrphanCounter h hf
          (Or.inr (SameStore.same_refl _))).of_sameStore P ⟨rfl, rfl, rfl, rfl, rfl⟩
      · cases ht
        exact StoreInv.addThenEraseOrphan P env g info s _ _ h hf
          (Or.inr ⟨rfl, rfl, rfl, rfl, rfl⟩)

theorem StoreInv.checkMasternodeOrphanObjects (P : Params) (env : Env)
    (s t : CGovernanceManager) (h : StoreInv P s)
    (ht : CheckMasternodeOrphanObjects P env s = some t) : StoreInv P t := by
  unfold CheckMasternodeOrphanObjects at ht
  cases hfold : (Map.keys s.mapMasternodeOrphanObjects).foldl
      (CheckMasternodeOrphanObjects_step P env) (some { s with fRateChecksEnabled := false }) with
  | none => simp [hfold] at ht
  | some s1 =>
    simp only [hfold, Option.map_some', Option.some.injEq] at ht
    have h0 : StoreInv P { s with fRateChecksEnabled := false } :=
      h.of_sameStore P ⟨rfl, rfl, rfl, rfl, rfl⟩
    have h1 : StoreInv P s1 :=
      foldl_option_inv (StoreInv P) (CheckMasternodeOrphanObjects_step P env) (fun _ => rfl)
        (fun a b c ha hc => StoreInv.checkMasternodeOrphanObjects_step P env a c b ha hc)
        _ _ s1 h0 hfold
    rw [← ht]
    exact h1.of_sameStore P ⟨rfl, rfl, rfl, rfl, rfl⟩

theorem UpdateCachesAndClean_dirty_effect (env : Env) (s : CGovernanceManager)
    (nHash : uint256) :
    (UpdateCachesAndClean_dirty env s nHash).mapObjects = Map.modify s.mapObjects nHash
      (fun o => { o.ClearMasternodeVotes env with fDirtyCache := true }) ∧
    (UpdateCachesAndClean_dirty env s nHash).mapPostponedObjects = s.mapPostponedObjects ∧
    (UpdateCachesAndClean_dirty env s nHash).mapMasternodeOrphanObjects =
      s.mapMasternodeOrphanObjects ∧
    (UpdateCachesAndClean_dirty env s nHash).mapErasedGovernanceObjects =
      s.mapErasedGovernanceObjects ∧
    (UpdateCachesAndClean_dirty env s nHash).cmapVoteToObject = s.cmapVoteToObject :=
  ⟨rfl, rfl, rfl, rfl, rfl⟩

theorem UpdateCachesAndClean_step_effect (P : Params) (env : Env) (s : CGovernanceManager)
    (nHash : uint256) :
    UpdateCachesAndClean_step P env s nHash = s ∨
    (∃ o o1, s.mapObjects.find nHash = some o ∧ SameContent o o1 ∧
      (UpdateCachesAndClean_step P env s nHash).mapObjects =
        Map.modify s.mapObjects nHash (fun _ => o1) ∧
      SameStore { s with mapObjects := (UpdateCachesAndClean_step P env s nHash).mapObjects }
        (UpdateCachesAndClean_step P env s nHash)) ∨
    (s.mapObjects.contains nHash = true ∧
      (UpdateCachesAndClean_step P env s nHash).mapObjects = Map.erase s.mapObjects nHash ∧
      (∃ nTimeExpired, (UpdateCachesAndClean_step P env s nHash).mapErasedGovernanceObjects =
        (s.mapErasedGovernanceObjects.insert nHash nTimeExpired).1) ∧
      (UpdateCachesAndClean_step P env s nHash).cmapVoteToObject.listItems =
        s.cmapVoteToObject.listItems.filter (fun lit => decide (lit.2 ≠ nHash)) ∧
      (UpdateCachesAndClean_step P env s nHash).mapPostponedObjects = s.mapPostponedObjects ∧
      (UpdateCachesAndClean_step P env s nHash).mapMasternodeOrphanObjects =
        s.mapMasternodeOrphanObjects) := by
  unfold UpdateCachesAndClean_step
  cases hf : s.mapObjects.find nHash with
  | none => exact Or.inl rfl
  | some pObj0 =>
    have hc := Map.contains_of_find _ _ _ hf
    simp only
    have hp : SameContent pObj0 (if pObj0.fDirtyCache = true
        then (pObj0.UpdateLocalValidity P env).UpdateSentinelVariables P env else pObj0) :=
      SameContent.ite _ ((UpdateLocalValidity_sameContent P env pObj0).content_trans
        (UpdateSentinelVariables_sameContent P env _)) (SameContent.content_refl _)
    generalize (if pObj0.fDirtyCache = true
        then (pObj0.UpdateLocalValidity P env).UpdateSentinelVariables P env else pObj0) = pObj
      at hp ⊢
    by_cases c1 : (pObj.fCachedDelete || pObj.fExpired) = true ∧
        int64 (env.GetAdjustedTime - pObj.nDeletionTime) ≥ P.GOVERNANCE_DELETION_DELAY
    · rw [if_pos c1]
      exact Or.inr (Or.inr ⟨hc, rfl, ⟨_, rfl⟩, rfl, rfl, rfl⟩)
    · rw [if_neg c1]
      refine Or.inr (Or.inl ⟨pObj0, _, rfl, ?_, rfl, ⟨rfl, rfl, rfl, rfl, rfl⟩⟩)
      exact SameContent.ite _ (hp.content_trans ⟨rfl, rfl, rfl, rfl, rfl, rfl, rfl, rfl, rfl⟩) hp

theorem StoreInv.updateCachesAndClean_dirty (P : Params) (env : Env) (s : CGovernanceManager)
    (nHash : uint256) (h : StoreInv P s) : StoreInv P (UpdateCachesAndClean_dirty env s nHash) := by
  obtain ⟨e1, e2, e3, e4, _⟩ := UpdateCachesAndClean_dirty_effect env s nHash
  exact h.of_objects P (fun x => by rw [e1]; exact Map.contains_modify _ _ _ _) e2 e3 e4

theorem StoreInv.updateCachesAndClean_step (P : Params) (env : Env) (s : CGovernanceManager)
    (nHash : uint256) (h : StoreInv P s) : StoreInv P (UpdateCachesAndClean_step P env s nHash) := by
  rcases UpdateCachesAndClean_step_effect P env s nHash with e | ⟨o, o1, _, _, e1, e2⟩ |
    ⟨hc, e1, ⟨n, e2⟩, _, e4, e5⟩
  · rw [e]; exact h
  · exact h.of_objects P (fun x => by rw [e1]; exact Map.contains_modify _ _ _ _)
      e2.2.1 e2.2.2.1 e2.2.2.2.1
  · refine ⟨fun x => ?_, ?_, ?_⟩
    · have hx := h.1 x
      unfold holders at hx ⊢
      rw [e1, e2, e4, e5]
      simp only [Map.contains_erase, Map.contains_insert]
      by_cases hxe : x = nHash
      · subst hxe
        rw [hc] at hx
        cases c2 : s.mapPostponedObjects.contains x <;>
        cases c3 : s.mapMasternodeOrphanObjects.contains x <;>
        cases c4 : s.mapErasedGovernanceObjects.contains x <;>
        simp [bit, c2, c3, c4] at hx ⊢
      · simp only [hxe, decide_False, Bool.not_false, Bool.true_and, Bool.false_or]
        exact hx
    · rw [e4]; exact h.2.1
    · rw [e5]; exact h.2.2

theorem StoreInv.updateCachesAndClean (P : Params) (env : Env) (s : CGovernanceManager)
    (h : StoreInv P s) : StoreInv P (UpdateCachesAndClean P env s) := by
  unfold UpdateCachesAndClean
  simp only
  have h1 := foldl_inv (StoreInv P) (UpdateCachesAndClean_dirty env)
    (fun a b ha => StoreInv.updateCachesAndClean_dirty P env a b ha)
    env.GetAndClearDirtyGovernanceObjectHashes s h
  have h2 := foldl_inv (StoreInv P) (UpdateCachesAndClean_step P env)
    (fun a b ha => StoreInv.updateCachesAndClean_step P env a b ha)
    (Map.keys (env.GetAndClearDirtyGovernanceObjectHashes.foldl
      (UpdateCachesAndClean_dirty env) s).mapObjects) _ h1
  refine ⟨fun x => ?_, h2.2.1, h2.2.2⟩
  have hx := h2.1 x
  unfold holders at hx ⊢
  have := bit_contains_filter_le
    ((Map.keys (env.GetAndClearDirtyGovernanceObjectHashes.foldl
      (UpdateCachesAndClean_dirty env) s).mapObjects).foldl (UpdateCachesAndClean_step P env)
      (env.GetAndClearDirtyGovernanceObjectHashes.foldl
        (UpdateCachesAndClean_dirty env) s)).mapErasedGovernanceObjects
    (fun s_it => decide (¬ s_it.2 < env.GetAdjustedTime)) x
  simp only at this ⊢
  omega

theorem ProcessVote_effect (P : Params) (env : Env) (pfrom : Option CNode)
    (vote : CGovernanceVote) (ex : CGovernanceException) (s : CGovernanceManager) :
    (ProcessVote P env pfrom vote ex s).2.2.mapPostponedObjects = s.mapPostponedObjects ∧
    (ProcessVote P env pfrom vote ex s).2.2.mapMasternodeOrphanObjects =
      s.mapMasternodeOrphanObjects ∧
    (ProcessVote P env pfrom vote ex s).2.2.mapErasedGovernanceObjects =
      s.mapErasedGovernanceObjects ∧
    (((ProcessVote P env pfrom vote ex s).2.2.mapObjects = s.mapObjects ∧
        (ProcessVote P env pfrom vote ex s).2.2.cmapVoteToObject = s.cmapVoteToObject) ∨
      ∃ o, s.mapObjects.find vote.nParentHash = some o ∧
        (ProcessVote P env pfrom vote ex s).2.2.mapObjects =
          Map.modify s.mapObjects vote.nParentHash
            (fun _ => (o.ProcessVote P env s.fRateChecksEnabled pfrom.isSome vote ex).govobj) ∧
        (((o.ProcessVote P env s.fRateChecksEnabled pfrom.isSome vote ex).fOk = false ∧
            (ProcessVote P env pfrom vote ex s).2.2.cmapVoteToObject = s.cmapVoteToObject) ∨
          ((o.ProcessVote P env s.fRateChecksEnabled pfrom.isSome vote ex).fOk = true ∧
            (ProcessVote P env pfrom vote ex s).2.2.cmapVoteToObject =
              (s.cmapVoteToObject.Insert (P.HashVote vote) vote.nParentHash).2))) := by
  unfold ProcessVote
  simp only
  by_cases c1 : s.cmapVoteToObject.HasKey (P.HashVote vote) = true
  · rw [if_pos c1]
    exact ⟨rfl, rfl, rfl, Or.inl ⟨rfl, rfl⟩⟩
  rw [if_neg c1]
  by_cases c2 : s.cmapInvalidVotes.HasKey (P.HashVote vote) = true
  · rw [if_pos c2]
    exact ⟨rfl, rfl, rfl, Or.inl ⟨rfl, rfl⟩⟩
  rw [if_neg c2]
  cases hf : s.mapObjects.find vote.nParentHash with
  | none =>
    simp only
    split_ifs
    · have hs := RequestGovernanceObject_sameStore pfrom vote.nParentHash
        { s with cmmapOrphanVotes := (s.cmmapOrphanVotes.Insert vote.nParentHash
            (vote, int64 (env.GetAdjustedTime + P.GOVERNANCE_ORPHAN_EXPIRATION_TIME))).2 }
      exact ⟨hs.2.1, hs.2.2.1, hs.2.2.2.1, Or.inl ⟨hs.1, hs.2.2.2.2⟩⟩
    · exact ⟨rfl, rfl, rfl, Or.inl ⟨rfl, rfl⟩⟩
  | some govobj =>
    simp only
    by_cases c3 : (govobj.fCachedDelete || govobj.fExpired) = true
    · rw [if_pos c3]
      exact ⟨rfl, rfl, rfl, Or.inl ⟨rfl, rfl⟩⟩
    rw [if_neg c3]
    have hs := applyVoteEffects_sameStore P pfrom vote
      (govobj.ProcessVote P env s.fRateChecksEnabled pfrom.isSome vote ex)
      { s with mapObjects := Map.modify s.mapObjects vote.nParentHash (fun _ =>
          (govobj.ProcessVote P env s.fRateChecksEnabled pfrom.isSome vote ex).govobj) }
    by_cases c4 : (govobj.ProcessVote P env s.fRateChecksEnabled pfrom.isSome vote ex).fOk = true
    · rw [if_pos c4]
      refine ⟨hs.2.1, hs.2.2.1, hs.2.2.2.1, Or.inr ⟨govobj, rfl, hs.1, Or.inr ⟨c4, ?_⟩⟩⟩
      simp only [hs.2.2.2.2]
    · rw [if_neg c4]
      exact ⟨hs.2.1, hs.2.2.1, hs.2.2.2.1,
        Or.inr ⟨govobj, rfl, hs.1, Or.inl ⟨by simpa using c4, hs.2.2.2.2⟩⟩⟩

theorem ProcessVote_stores (P : Params) (env : Env) (pfrom : Option CNode)
    (vote : CGovernanceVote) (ex : CGovernanceException) (s : CGovernanceManager) :
    (∀ x, (ProcessVote P env pfrom vote ex s).2.2.mapObjects.contains x =
      s.mapObjects.contains x) ∧
    (ProcessVote P env pfrom vote ex s).2.2.mapPostponedObjects = s.mapPostponedObjects ∧
    (ProcessVote P env pfrom vote ex s).2.2.mapMasternodeOrphanObjects =
      s.mapMasternodeOrphanObjects ∧
    (ProcessVote P env pfrom vote ex s).2.2.mapErasedGovernanceObjects =
      s.mapErasedGovernanceObjects := by
  obtain ⟨e1, e2, e3, e4⟩ := ProcessVote_effect P env pfrom vote ex s
  refine ⟨fun x => ?_, e1, e2, e3⟩
  rcases e4 with ⟨e4, _⟩ | ⟨o, _, e4, _⟩
  · rw [e4]
  · rw [e4]
    exact Map.contains_modify _ _ _ _

theorem StoreInv.processVote (P : Params) (env : Env) (pfrom : Option CNode)
    (vote : CGovernanceVote) (ex : CGovernanceException) (s : CGovernanceManager)
    (h : StoreInv P s) : StoreInv P (ProcessVote P env pfrom vote ex s).2.2 := by
  obtain ⟨h1, h2, h3, h4⟩ := ProcessVote_stores P env pfrom vote ex s
  exact h.of_objects P h1 h2 h3 h4

theorem StoreInv.processMNGOVERNANCEOBJECTVOTE (P : Params) (env : Env) (pfrom : CNode)
    (vote : CGovernanceVote) (s : CGovernanceManager) (h : StoreInv P s) :
    StoreInv P (ProcessMNGOVERNANCEOBJECTVOTE P env pfrom vote s) := by
  unfold ProcessMNGOVERNANCEOBJECTVOTE
  simp only
  have h0 : StoreInv P (if pfrom.nSendVersion < P.MIN_GOVERNANCE_PEER_PROTO_VERSION
      then { s with events := s.events ++ [Event.REJECT_OBSOLETE pfrom.id] } else s) := by
    split_ifs
    · exact h.of_sameStore P ⟨rfl, rfl, rfl, rfl, rfl⟩
    · exact h
  generalize (if pfrom.nSendVersion < P.MIN_GOVERNANCE_PEER_PROTO_VERSION
      then { s with events := s.events ++ [Event.REJECT_OBSOLETE pfrom.id] } else s) = s0 at h0 ⊢
  have h1 := h0.of_sameStore P (AcceptVoteMessage_sameStore (P.HashVote vote) s0)
  have h2 := StoreInv.processVote P env (some pfrom) vote CGovernanceException.none _ h1
  split_ifs
  · exact h0
  · exact h1
  · exact h2.of_sameStore P (RelayVote_sameStore P env vote _)
  · exact h2.of_sameStore P ⟨rfl, rfl, rfl, rfl, rfl⟩
  · exact h2

theorem StoreInv.apply (P : Params) (env : Env) (op : Op) (s t : CGovernanceManager)
    (h : StoreInv P s) (hg : guardedOps P env op s) (ht : op.apply P env s = some t) :
    StoreInv P t := by
  cases op with
  | message pfrom msg =>
    simp only [Op.apply, ProcessModuleMessage] at ht
    split_ifs at ht
    · cases ht; exact h
    · cases ht; exact h
    · cases msg with
      | MNGOVERNANCEOBJECT g => exact StoreInv.processMNGOVERNANCEOBJECT P env pfrom g s t h ht
      | MNGOVERNANCEOBJECTVOTE v =>
        simp only [Option.some.injEq] at ht
        rw [← ht]
        exact StoreInv.processMNGOVERNANCEOBJECTVOTE P env pfrom v s h
      | OTHER => cases ht; exact h
  | confirmInventoryRequest inv =>
    simp only [Op.apply, Option.some.injEq] at ht
    rw [← ht]
    exact h.of_sameStore P (ConfirmInventoryRequest_sameStore env inv s)
  | addGovernanceObject g =>
    simp only [Op.apply, Option.some.injEq] at ht
    rw [← ht]
    have hg0 : holders s (g.GetHash P) = 0 := hg
    exact StoreInv.addGovernanceObject P env g s h (by rw [hg0]; exact Nat.zero_le _)
  | addPostponedObject g =>
    simp only [Op.apply, Option.some.injEq] at ht
    rw [← ht]
    have hg0 : holders s (g.GetHash P) = 0 := hg
    exact StoreInv.addPostponedObject P g s h (by rw [hg0]; exact Nat.zero_le _)
  | checkPostponedObjects => exact StoreInv.checkPostponedObjects P env s t h ht
  | checkMasternodeOrphanObjects => exact StoreInv.checkMasternodeOrphanObjects P env s t h ht
  | updateCachesAndClean =>
    simp only [Op.apply, Option.some.injEq] at ht
    rw [← ht]
    exact StoreInv.updateCachesAndClean P env s h
  | processVote pfrom vote =>
    simp only [Op.apply, Option.some.injEq] at ht
    rw [← ht]
    exact StoreInv.processVote P env pfrom vote _ s h

theorem StoreInv.new (P : Params) : StoreInv P CGovernanceManager.new := by
  refine ⟨fun x => ?_, ⟨fun k o h => ?_, fun k p h => ?_⟩⟩
  · simp [holders, CGovernanceManager.new, Map.contains, Map.find, bit]
  · simp [CGovernanceManager.new, Map.find] at h
  · simp [CGovernanceManager.new, Map.find] at h

theorem Reachable.storeInv (P : Params) (s : CGovernanceManager)
    (h : Reachable P (guardedOps P) s) : StoreInv P s := by
  induction h with
  | init => exact StoreInv.new P
  | step env op _ hg ht ih => exact StoreInv.apply P env op _ _ ih hg ht

theorem Reachable.of_run (P : Params) (allowed : Env → Op → CGovernanceManager → Prop) :
    ∀ (trace : List (Env × Op)) (s : CGovernanceManager), Reachable P allowed s →
      runOk P allowed trace s → ∃ u, run P trace s = some u ∧ Reachable P allowed u := by
  intro trace
  induction trace with
  | nil => intro s h _; exact ⟨s, rfl, h⟩
  | cons x rest ih =>
    intro s h hok
    obtain ⟨env, op⟩ := x
    obtain ⟨ha, hrest⟩ := hok
    cases hap : op.apply P env s with
    | none => simp [hap] at hrest
    | some t =>
      simp only [hap] at hrest
      obtain ⟨u, hu, hr⟩ := ih t (Reachable.step env op h ha hap) hrest
      exact ⟨u, by simp only [run, hap, hu], hr⟩

theorem Reachable.runD (P : Params) (allowed : Env → Op → CGovernanceManager → Prop)
    (trace : List (Env × Op)) (s : CGovernanceManager) (h : Reachable P allowed s)
    (hok : runOk P allowed trace s) : Reachable P allowed (runD P trace s) := by
  obtain ⟨u, hu, hr⟩ := Reachable.of_run P allowed trace s h hok
  unfold Governance.runD
  rw [hu]
  exact hr

/-! ### The vote index -/

theorem CacheMap.mem_Insert {K V : Type} [DecidableEq K] (c : CacheMap K V) (k : K) (v : V)
    (e : K × V) (h : e ∈ (c.Insert k v).2.listItems) : e = (k, v) ∨ e ∈ c.listItems := by
  unfold CacheMap.Insert at h
  split_ifs at h with h1 h2
  · exact Or.inr h
  · simp only [List.mem_cons] at h
    rcases h with h | h
    · exact Or.inl h
    · exact Or.inr (List.mem_of_mem_dropLast h)
  · simp only [List.mem_cons] at h
    rcases h with h | h
    · exact Or.inl h
    · exact Or.inr h

theorem IndexInv.of_same (Q : CGovernanceObject → uint256 → Prop) {s t : CGovernanceManager}
    (h : IndexInv Q s) (h1 : t.mapObjects = s.mapObjects)
    (h2 : t.cmapVoteToObject = s.cmapVoteToObject) : IndexInv Q t := by
  intro e he
  rw [h2] at he
  rw [h1]
  exact h e he

theorem IndexInv.of_modify (Q : CGovernanceObject → uint256 → Prop) {s t : CGovernanceManager}
    (k : uint256) (f : CGovernanceObject → CGovernanceObject) (h : IndexInv Q s)
    (h1 : t.mapObjects = Map.modify s.mapObjects k f)
    (h2 : t.cmapVoteToObject = s.cmapVoteToObject)
    (hf : ∀ o x, s.mapObjects.find k = some o → Q o x → Q (f o) x) : IndexInv Q t := by
  intro e he
  rw [h2] at he
  obtain ⟨o, ho, hq⟩ := h e he
  rw [h1]
  by_cases hk : e.2 = k
  · rw [hk, Map.find_modify]
    rw [hk] at ho
    exact ⟨f o, by rw [ho]; rfl, hf o e.1 ho hq⟩
  · rw [Map.find_modify_ne _ _ _ _ hk]
    exact ⟨o, ho, hq⟩

theorem IndexInv.of_insert (Q : CGovernanceObject → uint256 → Prop) {s t : CGovernanceManager}
    (k x : uint256) (h : IndexInv Q s) (h1 : t.mapObjects = s.mapObjects)
    (h2 : t.cmapVoteToObject = (s.cmapVoteToObject.Insert x k).2)
    (hq : ∃ o, s.mapObjects.find k = some o ∧ Q o x) : IndexInv Q t := by
  intro e he
  rw [h2] at he
  rw [h1]
  rcases CacheMap.mem_Insert _ _ _ _ he with rfl | he
  · exact hq
  · exact h e he

theorem IndexInv.of_place (Q : CGovernanceObject → uint256 → Prop) {s t : CGovernanceManager}
    (k : uint256) (o1 : CGovernanceObject) (h : IndexInv Q s)
    (hc : s.mapObjects.contains k = false)
    (h1 : t.mapObjects = Map.place s.mapObjects k o1)
    (h2 : t.cmapVoteToObject = s.cmapVoteToObject) : IndexInv Q t := by
  intro e he
  rw [h2] at he
  obtain ⟨o, ho, hq⟩ := h e he
  have hk : e.2 ≠ k := by
    intro hk
    rw [hk] at ho
    rw [Map.contains_of_find _ _ _ ho] at hc
    exact Bool.noConfusion hc
  rw [h1, Map.find_place_ne _ _ _ _ hk]
  exact ⟨o, ho, hq⟩

theorem IndexInv.of_evict (Q : CGovernanceObject → uint256 → Prop) {s t : CGovernanceManager}
    (k : uint256) (h : IndexInv Q s) (h1 : t.mapObjects = Map.erase s.mapObjects k)
    (h2 : t.cmapVoteToObject.listItems =
      s.cmapVoteToObject.listItems.filter (fun lit => decide (lit.2 ≠ k))) : IndexInv Q t := by
  intro e he
  rw [h2, List.mem_filter] at he
  obtain ⟨o, ho, hq⟩ := h e he.1
  have hk : e.2 ≠ k := by simpa using he.2
  rw [h1, Map.find_erase, if_neg hk]
  exact ⟨o, ho, hq⟩

theorem ObjectProcessVote_fileVotes (P : Params) (env : Env) (fRate fFrom : Bool)
    (vote : CGovernanceVote) (ex : CGovernanceException) (o : CGovernanceObject) :
    ((o.ProcessVote P env fRate fFrom vote ex).fOk = false ∧
      (o.ProcessVote P env fRate fFrom vote ex).govobj.fileVotes = o.fileVotes) ∨
    ((o.ProcessVote P env fRate fFrom vote ex).fOk = true ∧
      (o.ProcessVote P env fRate fFrom vote ex).govobj.fileVotes = vote :: o.fileVotes) := by
  unfold CGovernanceObject.ProcessVote
  simp only
  split_ifs <;> first | exact Or.inl ⟨rfl, rfl⟩ | exact Or.inr ⟨rfl, rfl⟩

theorem ObjectProcessVote_hasVote (P : Params) (env : Env) (fRate fFrom : Bool)
    (vote : CGovernanceVote) (ex : CGovernanceException) (o : CGovernanceObject) :
    (∀ x, o.HasVote P x = true →
      (o.ProcessVote P env fRate fFrom vote ex).govobj.HasVote P x = true) ∧
    ((o.ProcessVote P env fRate fFrom vote ex).fOk = true →
      (o.ProcessVote P env fRate fFrom vote ex).govobj.HasVote P (P.HashVote vote) = true) := by
  rcases ObjectProcessVote_fileVotes P env fRate fFrom vote ex o with ⟨h1, h2⟩ | ⟨h1, h2⟩
  · refine ⟨fun x hx => ?_, fun h => ?_⟩
    · unfold CGovernanceObject.HasVote at hx ⊢
      rw [h2]; exact hx
    · rw [h1] at h; exact Bool.noConfusion h
  · refine ⟨fun x hx => ?_, fun _ => ?_⟩
    · unfold CGovernanceObject.HasVote at hx ⊢
      rw [h2, List.any_cons, hx, Bool.or_true]
    · unfold CGovernanceObject.HasVote
      rw [h2, List.any_cons]
      simp

theorem IndexInv.index_processVote (P : Params) (Q : CGovernanceObject → uint256 → Prop)
    (env : Env) (pfrom : Option CNode) (vote : CGovernanceVote) (ex : CGovernanceException)
    (s : CGovernanceManager) (h : IndexInv Q s)
    (hQ1 : ∀ (o : CGovernanceObject) (fRate fFrom : Bool) (x : uint256), Q o x →
      Q (o.ProcessVote P env fRate fFrom vote ex).govobj x)
    (hQ2 : ∀ (o : CGovernanceObject) (fRate fFrom : Bool),
      (o.ProcessVote P env fRate fFrom vote ex).fOk = true →
      Q (o.ProcessVote P env fRate fFrom vote ex).govobj (P.HashVote vote)) :
    IndexInv Q (ProcessVote P env pfrom vote ex s).2.2 := by
  obtain ⟨_, _, _, e4⟩ := ProcessVote_effect P env pfrom vote ex s
  rcases e4 with ⟨e4, e5⟩ | ⟨o, ho, e4, e5⟩
  · exact h.of_same Q e4 e5
  · let m := Map.modify s.mapObjects vote.nParentHash
      (fun _ => (o.ProcessVote P env s.fRateChecksEnabled pfrom.isSome vote ex).govobj)
    have hm : IndexInv Q { s with mapObjects := m } :=
      h.of_modify Q vote.nParentHash
        (fun _ => (o.ProcessVote P env s.fRateChecksEnabled pfrom.isSome vote ex).govobj)
        rfl rfl (fun o1 x ho1 hq => by
        rw [ho] at ho1
        cases ho1
        exact hQ1 o _ _ x hq)
    rcases e5 with ⟨_, e5⟩ | ⟨hok, e5⟩
    · exact hm.of_same Q e4 e5
    · refine hm.of_insert Q vote.nParentHash (P.HashVote vote) e4 e5 ?_
      refine ⟨_, ?_, hQ2 o _ _ hok⟩
      have hfm : m.find vote.nParentHash = some
          (o.ProcessVote P env s.fRateChecksEnabled pfrom.isSome vote ex).govobj := by
        show (Map.modify s.mapObjects vote.nParentHash _).find vote.nParentHash = _
        rw [Map.find_modify, ho]
        rfl
      exact hfm

theorem IndexInv.index_addGovernanceObject (P : Params) (Q : CGovernanceObject → uint256 → Prop)
    (env : Env) (g : CGovernanceObject) (s : CGovernanceManager) (h : IndexInv Q s) :
    IndexInv Q (AddGovernanceObject P env g s) := by
  obtain ⟨_, _, _, e4, e5⟩ := AddGovernanceObject_effect P env g s
  rcases e5 with e5 | ⟨hc, o, e5⟩
  · exact h.of_same Q e5 e4
  · exact h.of_place Q _ o hc e5 e4

theorem IndexInv.index_updateCachesAndClean_step (P : Params)
    (Q : CGovernanceObject → uint256 → Prop) (env : Env) (s : CGovernanceManager)
    (nHash : uint256) (h : IndexInv Q s)
    (hQ : ∀ o o1 x, SameContent o o1 → Q o x → Q o1 x) :
    IndexInv Q (UpdateCachesAndClean_step P env s nHash) := by
  rcases UpdateCachesAndClean_step_effect P env s nHash with e | ⟨o, o1, ho, hsc, e1, e2⟩ |
    ⟨_, e1, _, e3, _, _⟩
  · rw [e]; exact h
  · let m := (UpdateCachesAndClean_step P env s nHash).mapObjects
    have hm : IndexInv Q { s with mapObjects := m } :=
      h.of_modify Q nHash (fun _ => o1) e1 rfl (fun o2 x ho2 hq => by
        rw [ho] at ho2
        cases ho2
        exact hQ o o1 x hsc hq)
    exact hm.of_same Q e2.1 e2.2.2.2.2
  · exact h.of_evict Q nHash e1 e3

theorem foldl_inv_mem {α β : Type} (I : α → Prop) (f : α → β → α) :
    ∀ (l : List β) (s : α), (∀ s b, b ∈ l → I s → I (f s b)) → I s → I (l.foldl f s)
  | [], _, _, h => h
  | b :: l, s, hf, h =>
    foldl_inv_mem I f l (f s b) (fun s1 b1 hb1 => hf s1 b1 (List.mem_cons_of_mem _ hb1))
      (hf s b (List.mem_cons_self _ _) h)

theorem ClearMasternodeVotes_of_known (env : Env) (o : CGovernanceObject)
    (h : o.mapCurrentMNVotes.all (fun it => env.Has it.1) = true) :
    o.ClearMasternodeVotes env = o := by
  unfold CGovernanceObject.ClearMasternodeVotes
  have key : ∀ (l : List (COutPoint × vote_rec_t)) (o1 : CGovernanceObject),
      (∀ it ∈ l, env.Has it.1 = true) →
      l.foldl (fun o1 it => if (!env.Has it.1) = true then
        { o1.RemoveVotesFromMasternode it.1 with
          mapCurrentMNVotes := Map.erase o1.mapCurrentMNVotes it.1 }
        else o1) o1 = o1 := by
    intro l
    induction l with
    | nil => intro o1 _; rfl
    | cons it rest ih =>
      intro o1 hl
      rw [List.foldl_cons, if_neg (by rw [hl it (List.mem_cons_self _ _)]; decide)]
      exact ih o1 (fun it1 h1 => hl it1 (List.mem_cons_of_mem _ h1))
  exact key _ o (fun it hit => by
    rw [List.all_eq_true] at h
    exact h it hit)

theorem IndexInv.updateCachesAndClean_rest (P : Params)
    (Q : CGovernanceObject → uint256 → Prop) (env : Env) (s s1 : CGovernanceManager)
    (hQ : ∀ o o1 x, SameContent o o1 → Q o x → Q o1 x)
    (h1 : s1 = env.GetAndClearDirtyGovernanceObjectHashes.foldl
      (UpdateCachesAndClean_dirty env) s)
    (h : IndexInv Q s1) : IndexInv Q (UpdateCachesAndClean P env s) := by
  unfold UpdateCachesAndClean
  simp only
  rw [← h1]
  have h2 := foldl_inv (IndexInv Q) (UpdateCachesAndClean_step P env)
    (fun a b ha => IndexInv.index_updateCachesAndClean_step P Q env a b ha hQ)
    (Map.keys s1.mapObjects) s1 h
  exact h2.of_same Q rfl rfl

/-- The vote index keeps pointing into `mapObjects` under each operation. -/
theorem IndexInv.apply_valid (P : Params) (env : Env) (op : Op) (s t : CGovernanceManager)
    (h : IndexInv (fun _ _ => True) s) (hop : voteOps env op s)
    (ht : op.apply P env s = some t) : IndexInv (fun _ _ => True) t := by
  cases op with
  | message pfrom msg => exact absurd hop (by simp [voteOps, voteOp])
  | confirmInventoryRequest inv => exact absurd hop (by simp [voteOps, voteOp])
  | addPostponedObject g => exact absurd hop (by simp [voteOps, voteOp])
  | checkPostponedObjects => exact absurd hop (by simp [voteOps, voteOp])
  | checkMasternodeOrphanObjects => exact absurd hop (by simp [voteOps, voteOp])
  | addGovernanceObject g =>
    simp only [Op.apply, Option.some.injEq] at ht
    rw [← ht]
    exact h.index_addGovernanceObject P _ env g s
  | updateCachesAndClean =>
    simp only [Op.apply, Option.some.injEq] at ht
    rw [← ht]
    refine IndexInv.updateCachesAndClean_rest P _ env s _ (fun _ _ _ _ _ => trivial) rfl ?_
    exact foldl_inv (IndexInv (fun _ _ => True)) (UpdateCachesAndClean_dirty env)
      (fun a b ha => ha.of_modify _ b _ (UpdateCachesAndClean_dirty_effect env a b).1
        (UpdateCachesAndClean_dirty_effect env a b).2.2.2.2 (fun _ _ _ _ => trivial))
      env.GetAndClearDirtyGovernanceObjectHashes s h
  | processVote pfrom vote =>
    simp only [Op.apply, Option.some.injEq] at ht
    rw [← ht]
    exact h.index_processVote P _ env pfrom vote _ s (fun _ _ _ _ _ => trivial)
      (fun _ _ _ _ => trivial)

/-- The dirty pass of `UpdateCachesAndClean` keeps the votes of the objects when every
voter of a dirty object is still known. -/
theorem IndexInv.dirty_quiet (P : Params) (env : Env) (s : CGovernanceManager)
    (h : IndexInv (fun o x => o.HasVote P x = true) s) (hq : clearsNothing env s = true) :
    IndexInv (fun o x => o.HasVote P x = true)
      (env.GetAndClearDirtyGovernanceObjectHashes.foldl (UpdateCachesAndClean_dirty env) s) := by
  have hq1 : ∀ k ∈ env.GetAndClearDirtyGovernanceObjectHashes, ∀ o,
      s.mapObjects.find k = some o →
      o.mapCurrentMNVotes.all (fun it => env.Has it.1) = true := by
    intro k hk o ho
    unfold clearsNothing at hq
    rw [List.all_eq_true] at hq
    have := hq k hk
    rw [ho] at this
    exact this
  have hJ := foldl_inv_mem
    (fun a : CGovernanceManager => IndexInv (fun o x => o.HasVote P x = true) a ∧
      ∀ k ∈ env.GetAndClearDirtyGovernanceObjectHashes, ∀ o, a.mapObjects.find k = some o →
        o.mapCurrentMNVotes.all (fun it => env.Has it.1) = true)
    (UpdateCachesAndClean_dirty env) env.GetAndClearDirtyGovernanceObjectHashes s
    (fun a b hb ha => by
      obtain ⟨ha1, ha2⟩ := ha
      have e := (UpdateCachesAndClean_dirty_effect env a b)
      refine ⟨ha1.of_modify _ b _ e.1 e.2.2.2.2 (fun o x ho hx => ?_), fun k hk o ho => ?_⟩
      · rw [ClearMasternodeVotes_of_known env o (ha2 b hb o ho)]
        exact hx
      · rw [e.1] at ho
        by_cases hkb : k = b
        · rw [hkb, Map.find_modify] at ho
          cases hfb : a.mapObjects.find b with
          | none => rw [hfb] at ho; exact Option.noConfusion ho
          | some o0 =>
            rw [hfb] at ho
            simp only [Option.map_some', Option.some.injEq] at ho
            rw [ClearMasternodeVotes_of_known env o0 (ha2 b hb o0 hfb)] at ho
            rw [← ho]
            exact ha2 b hb o0 hfb
        · rw [Map.find_modify_ne _ _ _ _ hkb] at ho
          exact ha2 k hk o ho)
    ⟨h, hq1⟩
  exact hJ.1

/-- The vote index keeps the votes it lists in the vote files under each operation that
clears no vote. -/
theorem IndexInv.apply_sound (P : Params) (env : Env) (op : Op) (s t : CGovernanceManager)
    (h : IndexInv (fun o x => o.HasVote P x = true) s) (hop : quietVoteOps env op s)
    (ht : op.apply P env s = some t) : IndexInv (fun o x => o.HasVote P x = true) t := by
  cases op with
  | message pfrom msg => exact absurd hop.1 (by simp [voteOp])
  | confirmInventoryRequest inv => exact absurd hop.1 (by simp [voteOp])
  | addPostponedObject g => exact absurd hop.1 (by simp [voteOp])
  | checkPostponedObjects => exact absurd hop.1 (by simp [voteOp])
  | checkMasternodeOrphanObjects => exact absurd hop.1 (by simp [voteOp])
  | addGovernanceObject g =>
    simp only [Op.apply, Option.some.injEq] at ht
    rw [← ht]
    exact h.index_addGovernanceObject P _ env g s
  | updateCachesAndClean =>
    simp only [Op.apply, Option.some.injEq] at ht
    rw [← ht]
    refine IndexInv.updateCachesAndClean_rest P _ env s _
      (fun o o1 x hsc hx => by rw [hsc.hasVote P x]; exact hx) rfl ?_
    exact IndexInv.dirty_quiet P env s h hop.2
  | processVote pfrom vote =>
    simp only [Op.apply, Option.some.injEq] at ht
    rw [← ht]
    exact h.index_processVote P _ env pfrom vote _ s
      (fun o fRate fFrom x hx =>
        (ObjectProcessVote_hasVote P env fRate fFrom vote _ o).1 x hx)
      (fun o fRate fFrom hok =>
        (ObjectProcessVote_hasVote P env fRate fFrom vote _ o).2 hok)

theorem IndexInv.index_new (Q : CGovernanceObject → uint256 → Prop) :
    IndexInv Q CGovernanceManager.new := by
  intro e he
  simp [CGovernanceManager.new, CacheMap.new] at he

theorem Reachable.indexValid (P : Params) (s : CGovernanceManager)
    (h : Reachable P voteOps s) : IndexInv (fun _ _ => True) s := by
  induction h with
  | init => exact IndexInv.index_new _
  | step env op _ hop ht ih => exact IndexInv.apply_valid P env op _ _ ih hop ht

theorem Reachable.indexSound (P : Params) (s : CGovernanceManager)
    (h : Reachable P quietVoteOps s) : IndexInv (fun o x => o.HasVote P x = true) s := by
  induction h with
  | init => exact IndexInv.index_new _
  | step env op _ hop ht ih => exact IndexInv.apply_sound P env op _ _ ih hop ht

/-! ### The primary stores and the vote index in the reachable states -/

/-- C19 (amended): in every state of the governance store reached from the empty store by
the object handler, `CheckPostponedObjects`, `CheckMasternodeOrphanObjects`,
`UpdateCachesAndClean` and the other operations of the manager, with
`AddGovernanceObject` and `AddPostponedObject` called, as by the handler, only for an
object whose hash no primary store has, each hash is a key of at most one of `mapObjects`,
`mapPostponedObjects`, `mapMasternodeOrphanObjects` and `mapErasedGovernanceObjects`. -/
theorem primary_stores_disjoint (P : Params) (s : CGovernanceManager)
    (h : Reachable P (guardedOps P) s) : AtMostOneStore s :=
  (Reachable.storeInv P s h).1

/-- The state after `exObjectRun` is reached by guarded operations and holds each hash in
at most one primary store; so are the states after `exOrphanDroppedRun`, in which
`CheckMasternodeOrphanObjects` has dropped an orphan, and after `exOrphanPromotedRun`, in
which it has moved an orphan to the objects. -/
theorem primary_stores_disjoint_witness :
    (Reachable exParams (guardedOps exParams)
      (runD exParams exObjectRun CGovernanceManager.new) ∧
    AtMostOneStore (runD exParams exObjectRun CGovernanceManager.new)) ∧
    (Reachable exParams (guardedOps exParams)
      (runD exParams exOrphanDroppedRun CGovernanceManager.new) ∧
    (runD exParams exOrphanRun CGovernanceManager.new).mapMasternodeOrphanObjects.contains
      ((exTrigger 7 50).GetHash exParams) = true ∧
    (runD exParams exOrphanDroppedRun CGovernanceManager.new).mapMasternodeOrphanObjects.contains
      ((exTrigger 7 50).GetHash exParams) = false ∧
    AtMostOneStore (runD exParams exOrphanDroppedRun CGovernanceManager.new)) ∧
    (Reachable exParams (guardedOps exParams)
      (runD exParams exOrphanPromotedRun CGovernanceManager.new) ∧
    (runD exParams exOrphanPromotedRun CGovernanceManager.new).mapMasternodeOrphanObjects.contains
      ((exTrigger 7 50).GetHash exParams) = false ∧
    (runD exParams exOrphanPromotedRun CGovernanceManager.new).mapObjects.contains
      ((exTrigger 7 50).GetHash exParams) = true ∧
    AtMostOneStore (runD exParams exOrphanPromotedRun CGovernanceManager.new)) :=
  ⟨⟨Reachable.runD exParams (guardedOps exParams) exObjectRun CGovernanceManager.new
      Reachable.init (by decide),
    primary_stores_disjoint exParams (runD exParams exObjectRun CGovernanceManager.new)
      (Reachable.runD exParams (guardedOps exParams) exObjectRun CGovernanceManager.new
        Reachable.init (by decide))⟩,
   ⟨Reachable.runD exParams (guardedOps exParams) exOrphanDroppedRun CGovernanceManager.new
      Reachable.init (by decide),
    by decide, by decide,
    primary_stores_disjoint exParams (runD exParams exOrphanDroppedRun CGovernanceManager.new)
      (Reachable.runD exParams (guardedOps exParams) exOrphanDroppedRun CGovernanceManager.new
        Reachable.init (by decide))⟩,
   ⟨Reachable.runD exParams (guardedOps exParams) exOrphanPromotedRun CGovernanceManager.new
      Reachable.init (by decide),
    by decide, by decide,
    primary_stores_disjoint exParams (runD exParams exOrphanPromotedRun CGovernanceManager.new)
      (Reachable.runD exParams (guardedOps exParams) exOrphanPromotedRun CGovernanceManager.new
        Reachable.init (by decide))⟩⟩

/-- C19 (counterexample): `AddPostponedObject` and then `AddGovernanceObject` for the same
proposal leave its hash a key of both `mapPostponedObjects` and `mapObjects`:
`AddGovernanceObject` looks for the hash in `mapObjects` only. -/
theorem postponed_object_added_again :
    Reachable exParams storeOps (runD exParams exPostponedThenAdded CGovernanceManager.new) ∧
    (runD exParams exPostponedThenAdded CGovernanceManager.new).mapObjects.contains
      ((exProposal 50).GetHash exParams) = true ∧
    (runD exParams exPostponedThenAdded CGovernanceManager.new).mapPostponedObjects.contains
      ((exProposal 50).GetHash exParams) = true ∧
    ¬ AtMostOneStore (runD exParams exPostponedThenAdded CGovernanceManager.new) :=
  ⟨Reachable.runD exParams storeOps exPostponedThenAdded CGovernanceManager.new
      Reachable.init (by decide),
   by decide, by decide,
   fun h => absurd (h ((exProposal 50).GetHash exParams)) (by decide)⟩

/-- C20 (amended): in every state of the governance store reached from the empty store by
`ProcessVote`, `AddGovernanceObject` and `UpdateCachesAndClean`, every entry of
`cmapVoteToObject` points to an element of `mapObjects`; and when each
`UpdateCachesAndClean` of the run found every masternode with a vote on a dirty object
still known, so that it cleared no vote, the vote file of that object contains the vote
with the hash of the entry. -/
theorem vote_index_entries (P : Params) (s : CGovernanceManager)
    (h : Reachable P voteOps s) :
    VoteIndexValid s ∧ (Reachable P quietVoteOps s → VoteIndexSound P s) := by
  refine ⟨fun e he => ?_, fun hq => Reachable.indexSound P s hq⟩
  obtain ⟨o, ho, _⟩ := Reachable.indexValid P s h e he
  exact Map.contains_of_find _ _ _ ho

/-- The state after `exVoteKept` is reached by the operations on votes without a vote
cleared; its one index entry points to an object that has the vote. -/
theorem vote_index_entries_witness :
    Reachable exParams voteOps (runD exParams exVoteKept CGovernanceManager.new) ∧
    Reachable exParams quietVoteOps (runD exParams exVoteKept CGovernanceManager.new) ∧
    (runD exParams exVoteKept CGovernanceManager.new).cmapVoteToObject.listItems.length = 1 ∧
    VoteIndexValid (runD exParams exVoteKept CGovernanceManager.new) ∧
    VoteIndexSound exParams (runD exParams exVoteKept CGovernanceManager.new) :=
  ⟨Reachable.runD exParams voteOps exVoteKept CGovernanceManager.new Reachable.init
      (by decide),
   Reachable.runD exParams quietVoteOps exVoteKept CGovernanceManager.new Reachable.init
      (by decide),
   by decide,
   (vote_index_entries exParams (runD exParams exVoteKept CGovernanceManager.new)
      (Reachable.runD exParams voteOps exVoteKept CGovernanceManager.new Reachable.init
        (by decide))).1,
   (vote_index_entries exParams (runD exParams exVoteKept CGovernanceManager.new)
      (Reachable.runD exParams voteOps exVoteKept CGovernanceManager.new Reachable.init
        (by decide))).2
      (Reachable.runD exParams quietVoteOps exVoteKept CGovernanceManager.new Reachable.init
        (by decide))⟩

/-- C20 (counterexample): after a vote of masternode `7` for a proposal has been
processed and the masternode has been removed, `UpdateCachesAndClean` clears the vote
from the vote file of the proposal and leaves the entry of `cmapVoteToObject` for it. -/
theorem cleared_vote_stays_indexed :
    Reachable exParams voteOps (runD exParams exVoteCleared CGovernanceManager.new) ∧
    (runD exParams exVoteCleared CGovernanceManager.new).cmapVoteToObject.Get
      (exParams.HashVote (exVote 7 1000051 4000)) = some 1000051 ∧
    ((runD exParams exVoteCleared CGovernanceManager.new).mapObjects.find 1000051).map
      (fun o => o.HasVote exParams (exParams.HashVote (exVote 7 1000051 4000))) =
      some false ∧
    ¬ VoteIndexSound exParams (runD exParams exVoteCleared CGovernanceManager.new) := by
  refine ⟨Reachable.runD exParams voteOps exVoteCleared CGovernanceManager.new
      Reachable.init (by decide), by decide, by decide, fun h => ?_⟩
  obtain ⟨o, ho, hv⟩ := h (exParams.HashVote (exVote 7 1000051 4000), 1000051) (by decide)
  have h3 : ((runD exParams exVoteCleared CGovernanceManager.new).mapObjects.find 1000051).map
      (fun o => o.HasVote exParams (exParams.HashVote (exVote 7 1000051 4000))) =
      some false := by decide
  rw [ho] at h3
  simp only [Option.map_some', Option.some.injEq] at h3
  rw [hv] at h3
  exact Bool.noConfusion h3

/-! ### The object handler on orphans and young collateral, votes in quick succession -/

/-- C21: peer `3` sends at adjusted time `100` a trigger whose masternode is missing, with
an orphan lifetime of `600`; the record filed in `mapMasternodeOrphanObjects` has the
expiration time `3`, the id of the peer, and the peer id `700`, the time at which the
record should expire: the handler passes the two arguments of `ExpirationInfo` in the
wrong order. -/
theorem orphan_record_swapped :
    exParams.GOVERNANCE_ORPHAN_EXPIRATION_TIME = 600 ∧
    (exTrigger 7 50).IsValidLocally exParams (exEnvNoMasternode 100) true =
      (false, true, false) ∧
    ((runD exParams exOrphanRun CGovernanceManager.new).mapMasternodeOrphanObjects.find
      ((exTrigger 7 50).GetHash exParams)).map (fun p => p.2) = some ⟨3, 700⟩ := by
  decide

/-- C22: a proposal whose collateral burns the fee and has one confirmation, with six
confirmations required and one enough for relay: `IsCollateralValid` reports the
collateral valid with `fMissingConfirmations = false`, and the handler files the
proposal in `mapObjects` and not in `mapPostponedObjects`. -/
theorem young_collateral_not_postponed :
    exParams.GOVERNANCE_FEE_CONFIRMATIONS = 6 ∧
    exParams.GOVERNANCE_MIN_RELAY_FEE_CONFIRMATIONS = 1 ∧
    (exEnvYoung 100).ChainHeight - 100 + 1 = 1 ∧
    (exProposal 50).IsCollateralValid exParams (exEnvYoung 100) = (true, false) ∧
    (runD exParams exYoungRun CGovernanceManager.new).mapObjects.contains
      ((exProposal 50).GetHash exParams) = true ∧
    (runD exParams exYoungRun CGovernanceManager.new).mapPostponedObjects.contains
      ((exProposal 50).GetHash exParams) = false := by
  decide

/-- C23: with the rate checks enabled and an update interval of `3600` seconds, a vote of
masternode `7` for the funding signal is accepted at time `5000` and a second vote of
masternode `7` for the same signal on the same object is accepted at time `5001` and
added to the vote file: the time recorded for the first vote is `0`, not `5000`. -/
theorem second_vote_in_interval_accepted :
    exParams.GOVERNANCE_UPDATE_MIN = 3600 ∧
    exVotedOnce.fOk = true ∧
    (((exVotedOnce.govobj.mapCurrentMNVotes.find 7).getD ⟨[]⟩).mapInstances.find 1).map
      (fun i => i.nTime) = some 0 ∧
    exVotedTwice.fOk = true ∧
    exVotedTwice.govobj.fileVotes = [exVote 7 1000051 4001, exVote 7 1000051 4000] := by
  decide

/-- C29: after peer `3` has sent a trigger whose masternode is missing, the trigger is in
`mapMasternodeOrphanObjects` and `mapMasternodeOrphanCounter` has no entry for its
masternode; `CheckMasternodeOrphanObjects` then looks the counter up, finds nothing and
decrements through the end iterator, which is undefined; the last thing the call
records is that decrement, and it erases the orphan. -/
theorem orphan_without_counter :
    (runD exParams exOrphanRun CGovernanceManager.new).mapMasternodeOrphanObjects.contains
      ((exTrigger 7 50).GetHash exParams) = true ∧
    (runD exParams exOrphanRun CGovernanceManager.new).mapMasternodeOrphanCounter.find 7 = none ∧
    (CheckMasternodeOrphanObjects exParams (exEnvNoMasternode 101)
      (runD exParams exOrphanRun CGovernanceManager.new)).map
        (fun t => (t.events.getLast?,
          t.mapMasternodeOrphanObjects.contains ((exTrigger 7 50).GetHash exParams))) =
      some (some (Event.OrphanCounterEndDeref 7), false) := by
  decide

/-! ### The sentinel flags -/

theorem Map.keys_modify {K V : Type} [LinearOrder K] (m : Map K V) (k : K) (f : V → V) :
    Map.keys (Map.modify m k f) = Map.keys m := by
  induction m with
  | nil => rfl
  | cons p rest ih =>
    have e : Map.keys (Map.modify (p :: rest) k f) =
        (if p.1 = k then (p.1, f p.2) else p).1 :: Map.keys (Map.modify rest k f) := rfl
    rw [e, ih]
    by_cases h : p.1 = k
    · rw [if_pos h]; rfl
    · rw [if_neg h]; rfl

theorem RateCheckFrame_same (govobj : CGovernanceObject) (fUpdateFailStatus fResult : Bool)
    (s : CGovernanceManager) : RateCheckFrame govobj fUpdateFailStatus fResult s s :=
  ⟨rfl, rfl, fun _ => rfl, fun _ h => absurd rfl h⟩

theorem MasternodeRateCheck_keeps_buffers (P : Params) (env : Env) (govobj : CGovernanceObject)
    (fUpdateFailStatus fForce : Bool) (s : CGovernanceManager)
    (r : Bool × Bool × CGovernanceManager)
    (h : MasternodeRateCheck P env govobj fUpdateFailStatus fForce s = some r) :
    RateCheckFrame govobj fUpdateFailStatus r.1 s r.2.2 := by
  unfold MasternodeRateCheck at h
  simp only at h
  by_cases c1 : (!env.IsSynced) = true
  · rw [if_pos c1] at h; cases h; exact RateCheckFrame_same _ _ _ _
  rw [if_neg c1] at h
  by_cases c2 : (!s.fRateChecksEnabled) = true
  · rw [if_pos c2] at h; cases h; exact RateCheckFrame_same _ _ _ _
  rw [if_neg c2] at h
  by_cases c3 : govobj.nObjectType ≠ P.GOVERNANCE_OBJECT_TRIGGER
  · rw [if_pos c3] at h; cases h; exact RateCheckFrame_same _ _ _ _
  rw [if_neg c3] at h
  by_cases c4 : govobj.nTime < env.GetAdjustedTime - 2 * nSuperblockCycleSeconds P
  · rw [if_pos c4] at h; cases h; exact RateCheckFrame_same _ _ _ _
  rw [if_neg c4] at h
  by_cases c5 : govobj.nTime > env.GetAdjustedTime + MAX_TIME_FUTURE_DEVIATION
  · rw [if_pos c5] at h; cases h; exact RateCheckFrame_same _ _ _ _
  rw [if_neg c5] at h
  cases hf : s.mapLastMasternodeObject.find govobj.masternodeOutpoint with
  | none =>
    rw [hf] at h
    cases h
    exact RateCheckFrame_same _ _ _ _
  | some it =>
    rw [hf] at h
    simp only at h
    by_cases c6 : (it.fStatusOK && !fForce) = true
    · rw [if_pos c6] at h; cases h; exact RateCheckFrame_same _ _ _ _
    rw [if_neg c6] at h
    cases hg : (it.triggerBuffer.AddTimestamp govobj.nTime).GetRate with
    | none => rw [hg] at h; exact Option.noConfusion h
    | some dRate =>
      rw [hg] at h
      simp only at h
      by_cases c7 : dRate < 2 * (11 / 10) / (nSuperblockCycleSeconds P : ℚ)
      · rw [if_pos c7] at h; cases h; exact RateCheckFrame_same _ _ _ _
      rw [if_neg c7] at h
      by_cases c8 : fUpdateFailStatus = true
      · rw [if_pos c8] at h
        cases h
        unfold RateCheckFrame
        dsimp only
        refine ⟨rfl, ?_, fun mn => ?_, fun mn hne => ?_⟩
        · exact Map.keys_modify s.mapLastMasternodeObject _ _
        · show (Map.find (Map.modify _ _ _) mn).map _ = _
          by_cases hk : mn = govobj.masternodeOutpoint
          · rw [hk, Map.find_modify, Option.map_map]
            rfl
          · rw [Map.find_modify_ne _ _ _ _ hk]
        · have hk : mn = govobj.masternodeOutpoint := by
            by_contra hk
            apply hne
            show (Map.find (Map.modify _ _ _) mn).map _ = _
            rw [Map.find_modify_ne _ _ _ _ hk]
          have hne2 : (Map.find (Map.modify s.mapLastMasternodeObject
              govobj.masternodeOutpoint (fun r => { r with fStatusOK := false })) mn).map
              (fun r => r.fStatusOK) ≠
              (s.mapLastMasternodeObject.find mn).map (fun r => r.fStatusOK) := hne
          rw [hk, Map.find_modify, hf] at hne2
          have hst : it.fStatusOK = true := by
            cases hs : it.fStatusOK
            · exact absurd (by simp [hs]) hne2
            · rfl
          refine ⟨hk, ?_, ?_, c8, rfl⟩
          · rw [hk, hf]; simp [hst]
          · show (Map.find (Map.modify _ _ _) mn).map _ = _
            rw [hk, Map.find_modify, hf]
            rfl
      · rw [if_neg c8] at h; cases h; exact RateCheckFrame_same _ _ _ _

/-- C28: when either overload of `MasternodeRateCheck` returns, nothing of the manager
but `mapLastMasternodeObject` has changed, the map has the keys it had, the
`triggerBuffer` of every masternode is as before the call, and a `fStatusOK` that has
changed is that of the masternode of the object, was `true` and is `false`, with
`fUpdateFailStatus` set and the result `false`. -/
theorem MasternodeRateCheck_frame (P : Params) (env : Env) (govobj : CGovernanceObject)
    (fUpdateFailStatus fForce : Bool) (s : CGovernanceManager) :
    (∀ r, MasternodeRateCheck P env govobj fUpdateFailStatus fForce s = some r →
      RateCheckFrame govobj fUpdateFailStatus r.1 s r.2.2) ∧
    (∀ r, MasternodeRateCheck2 P env govobj fUpdateFailStatus s = some r →
      RateCheckFrame govobj fUpdateFailStatus r.1 s r.2) := by
  refine ⟨fun r h => MasternodeRateCheck_keeps_buffers P env govobj _ _ s r h, fun r h => ?_⟩
  unfold MasternodeRateCheck2 at h
  cases h4 : MasternodeRateCheck P env govobj fUpdateFailStatus true s with
  | none => rw [h4] at h; exact Option.noConfusion h
  | some r4 =>
    rw [h4] at h
    simp only [Option.map_some', Option.some.injEq] at h
    rw [← h]
    exact MasternodeRateCheck_keeps_buffers P env govobj _ _ s r4 h4

/-- C25: two governance objects with the same parent hash, revision, creation time, data,
masternode outpoint and signature have the same hash, whatever their type, cached
flags, deletion time, collateral hash and votes. -/
theorem GetHash_of_six_fields (P : Params) (o a : CGovernanceObject)
    (h1 : o.nHashParent = a.nHashParent) (h2 : o.nRevision = a.nRevision)
    (h3 : o.nTime = a.nTime) (h4 : o.vchData = a.vchData)
    (h5 : o.masternodeOutpoint = a.masternodeOutpoint) (h6 : o.vchSig = a.vchSig) :
    o.GetHash P = a.GetHash P := by
  unfold CGovernanceObject.GetHash
  rw [h1, h2, h3, h4, h5, h6]

/-! ### Tombstones -/

theorem Map.find_filter_of_find {K V : Type} [LinearOrder K] (m : Map K V)
    (p : K × V → Bool) (k : K) (v : V) (h : m.find k = some v) (hp : p (k, v) = true) :
    Map.find (m.filter p) k = some v := by
  induction m with
  | nil => exact Option.noConfusion h
  | cons q rest ih =>
    obtain ⟨k1, v1⟩ := q
    have e : Map.find ((k1, v1) :: rest) k = if k1 = k then some v1 else Map.find rest k := rfl
    rw [e] at h
    by_cases hk : k1 = k
    · rw [if_pos hk] at h
      injection h with hv
      subst hv
      subst hk
      rw [List.filter_cons_of_pos hp]
      show (if k1 = k1 then some v1 else _) = _
      rw [if_pos rfl]
    · rw [if_neg hk] at h
      by_cases hq : p (k1, v1) = true
      · rw [List.filter_cons_of_pos hq]
        show (if k1 = k then some v1 else _) = _
        rw [if_neg hk]
        exact ih h
      · rw [List.filter_cons_of_neg hq]
        exact ih h

theorem Map.find_filter_some {K V : Type} [LinearOrder K] (m : Map K V)
    (p : K × V → Bool) (k : K) (v : V) (h : Map.find (m.filter p) k = some v) :
    p (k, v) = true := by
  induction m with
  | nil => exact Option.noConfusion h
  | cons q rest ih =>
    obtain ⟨k1, v1⟩ := q
    by_cases hq : p (k1, v1) = true
    · rw [List.filter_cons_of_pos hq] at h
      have e : Map.find ((k1, v1) :: rest.filter p) k =
          if k1 = k then some v1 else Map.find (rest.filter p) k := rfl
      rw [e] at h
      by_cases hk : k1 = k
      · rw [if_pos hk] at h
        injection h with hv
        subst hv
        subst hk
        exact hq
      · rw [if_neg hk] at h
        exact ih h
    · rw [List.filter_cons_of_neg hq] at h
      exact ih h

theorem Map.find_insert_ne {K V : Type} [LinearOrder K] (m : Map K V) (k x : K) (v : V)
    (h : x ≠ k) : (m.insert k v).1.find x = m.find x := by
  unfold Map.insert
  by_cases hc : m.contains k = true
  · rw [if_pos hc]
  · rw [if_neg hc]
    exact Map.find_place_ne m k x v h

theorem Map.find_insert_self {K V : Type} [LinearOrder K] (m : Map K V) (k : K) (v : V)
    (h : m.contains k = false) : (m.insert k v).1.find k = some v := by
  unfold Map.insert
  rw [if_neg (by rw [h]; exact Bool.false_ne_true)]
  exact Map.find_place_self m k v h

theorem Map.find_insert_of_find {K V : Type} [LinearOrder K] (m : Map K V) (k x : K)
    (v w : V) (h : m.find x = some w) : (m.insert k v).1.find x = some w := by
  by_cases hk : x = k
  · subst hk
    unfold Map.insert
    rw [if_pos (Map.contains_of_find m x w h)]
    exact h
  · rw [Map.find_insert_ne m k x v hk]
    exact h

theorem ClearMasternodeVotes_fields (env : Env) (o : CGovernanceObject) :
    (o.ClearMasternodeVotes env).nObjectType = o.nObjectType ∧
    (o.ClearMasternodeVotes env).nTime = o.nTime := by
  unfold CGovernanceObject.ClearMasternodeVotes
  exact foldl_inv
    (fun a : CGovernanceObject => a.nObjectType = o.nObjectType ∧ a.nTime = o.nTime) _
    (fun a it ha => by
      by_cases c : (!env.Has it.1) = true
      · rw [if_pos c]; exact ha
      · rw [if_neg c]; exact ha)
    o.mapCurrentMNVotes o ⟨rfl, rfl⟩

theorem UpdateCachesAndClean_step_expiry (P : Params) (env : Env) (s : CGovernanceManager)
    (nHash : uint256) :
    UpdateCachesAndClean_step P env s nHash = s ∨
    (∃ o o1, s.mapObjects.find nHash = some o ∧ SameContent o o1 ∧
      (UpdateCachesAndClean_step P env s nHash).mapObjects =
        Map.modify s.mapObjects nHash (fun _ => o1) ∧
      (UpdateCachesAndClean_step P env s nHash).mapErasedGovernanceObjects =
        s.mapErasedGovernanceObjects) ∨
    (∃ o, s.mapObjects.find nHash = some o ∧
      (UpdateCachesAndClean_step P env s nHash).mapObjects = Map.erase s.mapObjects nHash ∧
      (UpdateCachesAndClean_step P env s nHash).mapErasedGovernanceObjects =
        (s.mapErasedGovernanceObjects.insert nHash
          (tombstoneExpiry P o.nObjectType o.nTime)).1) := by
  unfold UpdateCachesAndClean_step
  cases hf : s.mapObjects.find nHash with
  | none => exact Or.inl rfl
  | some pObj0 =>
    simp only
    have hp : SameContent pObj0 (if pObj0.fDirtyCache = true
        then (pObj0.UpdateLocalValidity P env).UpdateSentinelVariables P env else pObj0) :=
      SameContent.ite _ ((UpdateLocalValidity_sameContent P env pObj0).content_trans
        (UpdateSentinelVariables_sameContent P env _)) (SameContent.content_refl _)
    generalize (if pObj0.fDirtyCache = true
        then (pObj0.UpdateLocalValidity P env).UpdateSentinelVariables P env else pObj0) = pObj
      at hp ⊢
    by_cases c1 : (pObj.fCachedDelete || pObj.fExpired) = true ∧
        int64 (env.GetAdjustedTime - pObj.nDeletionTime) ≥ P.GOVERNANCE_DELETION_DELAY
    · rw [if_pos c1]
      refine Or.inr (Or.inr ⟨pObj0, rfl, rfl, ?_⟩)
      unfold tombstoneExpiry
      rw [← hp.2.2.2.2.2.2.1, ← hp.2.2.1]
    · rw [if_neg c1]
      refine Or.inr (Or.inl ⟨pObj0, _, rfl, ?_, rfl, rfl⟩)
      exact SameContent.ite _ (hp.content_trans ⟨rfl, rfl, rfl, rfl, rfl, rfl, rfl, rfl, rfl⟩) hp

theorem Tracked.dirty (P : Params) (env : Env) (nHash : uint256) (ty tm : Int)
    (s : CGovernanceManager) (k : uint256)
    (h : Tracked nHash ty tm (tombstoneExpiry P ty tm) s) :
    Tracked nHash ty tm (tombstoneExpiry P ty tm) (UpdateCachesAndClean_dirty env s k) := by
  obtain ⟨e1, _, _, e4, _⟩ := UpdateCachesAndClean_dirty_effect env s k
  rcases h with ⟨o, ho, hty, htm, hc⟩ | ⟨hc, he⟩
  · left
    by_cases hk : nHash = k
    · let o1 : CGovernanceObject := { o.ClearMasternodeVotes env with fDirtyCache := true }
      refine ⟨o1, ?_, ?_, ?_, by rw [e4]; exact hc⟩
      · rw [e1, hk, Map.find_modify, ← hk, ho]
        rfl
      · show (o.ClearMasternodeVotes env).nObjectType = ty
        rw [(ClearMasternodeVotes_fields env o).1]; exact hty
      · show (o.ClearMasternodeVotes env).nTime = tm
        rw [(ClearMasternodeVotes_fields env o).2]; exact htm
    · exact ⟨o, by rw [e1, Map.find_modify_ne _ _ _ _ hk]; exact ho, hty, htm,
        by rw [e4]; exact hc⟩
  · right
    exact ⟨by rw [e1, Map.contains_modify]; exact hc, by rw [e4]; exact he⟩

theorem Tracked.clean_step (P : Params) (env : Env) (nHash : uint256) (ty tm : Int)
    (s : CGovernanceManager) (k : uint256)
    (h : Tracked nHash ty tm (tombstoneExpiry P ty tm) s) :
    Tracked nHash ty tm (tombstoneExpiry P ty tm) (UpdateCachesAndClean_step P env s k) := by
  rcases UpdateCachesAndClean_step_expiry P env s k with e | ⟨o, o1, ho, hsc, e1, e2⟩ |
    ⟨o, ho, e1, e2⟩
  · rw [e]; exact h
  · rcases h with ⟨a, ha, hty, htm, hc⟩ | ⟨hc, he⟩
    · left
      by_cases hk : nHash = k
      · subst hk
        rw [ha] at ho
        cases ho
        refine ⟨o1, ?_, ?_, ?_, by rw [e2]; exact hc⟩
        · rw [e1, Map.find_modify, ha]; rfl
        · rw [hsc.2.2.2.2.2.2.1]; exact hty
        · rw [hsc.2.2.1]; exact htm
      · exact ⟨a, by rw [e1, Map.find_modify_ne _ _ _ _ hk]; exact ha, hty, htm,
          by rw [e2]; exact hc⟩
    · right
      exact ⟨by rw [e1, Map.contains_modify]; exact hc, by rw [e2]; exact he⟩
  · rcases h with ⟨a, ha, hty, htm, hc⟩ | ⟨hc, he⟩
    · by_cases hk : nHash = k
      · subst hk
        rw [ha] at ho
        cases ho
        right
        refine ⟨?_, ?_⟩
        · rw [e1, Map.contains_erase]
          simp
        · rw [e2, hty, htm]
          exact Map.find_insert_self _ _ _ hc
      · left
        refine ⟨a, ?_, hty, htm, ?_⟩
        · rw [e1, Map.find_erase, if_neg hk]; exact ha
        · rw [e2, Map.contains_insert, hc]
          simp [hk]
    · right
      refine ⟨?_, ?_⟩
      · rw [e1, Map.contains_erase, hc]
        simp
      · rw [e2]
        exact Map.find_insert_of_find _ _ _ _ _ he

theorem Tracked.clean (P : Params) (env : Env) (nHash : uint256) (ty tm : Int)
    (s : CGovernanceManager) (h : Tracked nHash ty tm (tombstoneExpiry P ty tm) s) :
    Tracked nHash ty tm (tombstoneExpiry P ty tm)
      ((Map.keys (env.GetAndClearDirtyGovernanceObjectHashes.foldl
          (UpdateCachesAndClean_dirty env) s).mapObjects).foldl
        (UpdateCachesAndClean_step P env)
        (env.GetAndClearDirtyGovernanceObjectHashes.foldl (UpdateCachesAndClean_dirty env) s)) :=
  foldl_inv (Tracked nHash ty tm (tombstoneExpiry P ty tm)) (UpdateCachesAndClean_step P env)
    (fun a b ha => Tracked.clean_step P env nHash ty tm a b ha) _ _
    (foldl_inv (Tracked nHash ty tm (tombstoneExpiry P ty tm)) (UpdateCachesAndClean_dirty env)
      (fun a b ha => Tracked.dirty P env nHash ty tm a b ha) _ s h)

theorem UpdateCachesAndClean_keeps_tombstone (P : Params) (env : Env)
    (s : CGovernanceManager) (nHash : uint256) (e : Int)
    (h : s.mapErasedGovernanceObjects.find nHash = some e) (he : ¬ e < env.GetAdjustedTime) :
    (UpdateCachesAndClean P env s).mapErasedGovernanceObjects.find nHash = some e := by
  unfold UpdateCachesAndClean
  simp only
  apply Map.find_filter_of_find _ _ _ _ _ (by simpa using he)
  refine foldl_inv (fun a : CGovernanceManager =>
      a.mapErasedGovernanceObjects.find nHash = some e) (UpdateCachesAndClean_step P env)
    (fun a b ha => ?_) _ _
    (foldl_inv (fun a : CGovernanceManager =>
      a.mapErasedGovernanceObjects.find nHash = some e) (UpdateCachesAndClean_dirty env)
      (fun a b ha => ha) _ s h)
  rcases UpdateCachesAndClean_step_expiry P env a b with e0 | ⟨_, _, _, _, _, e2⟩ |
    ⟨_, _, _, e2⟩
  · rw [e0]; exact ha
  · show Map.find _ nHash = some e
    rw [e2]; exact ha
  · show Map.find _ nHash = some e
    rw [e2]
    exact Map.find_insert_of_find _ _ _ _ _ ha

/-- C27 (amended): an object that `UpdateCachesAndClean` evicts from `mapObjects`, and
whose hash had no tombstone before the call, is recorded in `mapErasedGovernanceObjects`
by the loop over the objects, with the expiry `INT64_MAX` when it is a proposal and
`nTime + 2 * nSuperblockCycleSeconds + GOVERNANCE_DELETION_DELAY`, in 64-bit arithmetic,
when it is not; the call ends with the sweep of the tombstones whose expiry is before the
adjusted time, so that the record is there after the call when its expiry is not before
that time, and no tombstone with an expiry before it remains; a tombstone with the
expiry `INT64_MAX` is kept by every later call. -/
theorem UpdateCachesAndClean_tombstones (P : Params) (env : Env) (s : CGovernanceManager)
    (nHash : uint256) (o : CGovernanceObject)
    (ho : s.mapObjects.find nHash = some o)
    (hfresh : s.mapErasedGovernanceObjects.contains nHash = false)
    (hev : (UpdateCachesAndClean P env s).mapObjects.contains nHash = false) :
    (o.nObjectType = P.GOVERNANCE_OBJECT_PROPOSAL →
      tombstoneExpiry P o.nObjectType o.nTime = INT64_MAX) ∧
    (o.nObjectType ≠ P.GOVERNANCE_OBJECT_PROPOSAL →
      tombstoneExpiry P o.nObjectType o.nTime =
        int64 (o.nTime + 2 * nSuperblockCycleSeconds P + P.GOVERNANCE_DELETION_DELAY)) ∧
    (UpdateCachesAndClean_loops P env s).mapErasedGovernanceObjects.find nHash =
      some (tombstoneExpiry P o.nObjectType o.nTime) ∧
    (UpdateCachesAndClean P env s).mapErasedGovernanceObjects =
      (UpdateCachesAndClean_loops P env s).mapErasedGovernanceObjects.filter
        (fun s_it => decide (¬ s_it.2 < env.GetAdjustedTime)) ∧
    (¬ tombstoneExpiry P o.nObjectType o.nTime < env.GetAdjustedTime →
      (UpdateCachesAndClean P env s).mapErasedGovernanceObjects.find nHash =
        some (tombstoneExpiry P o.nObjectType o.nTime)) ∧
    (∀ p ∈ (UpdateCachesAndClean P env s).mapErasedGovernanceObjects,
      ¬ p.2 < env.GetAdjustedTime) ∧
    (∀ (env2 : Env) (u : CGovernanceManager), env2.GetAdjustedTime ≤ INT64_MAX →
      u.mapErasedGovernanceObjects.find nHash = some INT64_MAX →
      (UpdateCachesAndClean P env2 u).mapErasedGovernanceObjects.find nHash =
        some INT64_MAX) := by
  have hmid : (UpdateCachesAndClean_loops P env s).mapErasedGovernanceObjects.find nHash =
      some (tombstoneExpiry P o.nObjectType o.nTime) := by
    have ht := Tracked.clean P env nHash o.nObjectType o.nTime s
      (Or.inl ⟨o, ho, rfl, rfl, hfresh⟩)
    have hev2 : (UpdateCachesAndClean_loops P env s).mapObjects.contains nHash = false := hev
    rcases ht with ⟨a, ha, _⟩ | ⟨_, he⟩
    · have ha2 : (UpdateCachesAndClean_loops P env s).mapObjects.find nHash = some a := ha
      rw [Map.contains_of_find _ _ _ ha2] at hev2
      exact Bool.noConfusion hev2
    · exact he
  refine ⟨fun h => ?_, fun h => ?_, hmid, rfl, fun hE => ?_, fun p hp => ?_,
    fun env2 u h2 hu => ?_⟩
  · unfold tombstoneExpiry
    rw [if_pos h]
  · unfold tombstoneExpiry
    rw [if_neg h]
  · show Map.find (List.filter _ _) nHash = _
    exact Map.find_filter_of_find _ _ _ _ hmid (by simpa using hE)
  · have hp2 : p ∈ (UpdateCachesAndClean_loops P env s).mapErasedGovernanceObjects.filter
        (fun s_it => decide (¬ s_it.2 < env.GetAdjustedTime)) := hp
    have := (List.mem_filter.1 hp2).2
    simpa using this
  · exact UpdateCachesAndClean_keeps_tombstone P env2 u nHash INT64_MAX hu (by omega)

/-- The trigger `exTrigger 7 50`, flagged for deletion at `100`, is evicted at `750` and
has the tombstone with the expiry `50 + 2 * 100 + 600 = 850` after the call; evicted at
`900` instead, it is recorded with that expiry by the loop and swept. -/
theorem UpdateCachesAndClean_tombstones_witness :
    exRefusedTrigger.mapObjects.contains 1007051 = true ∧
    exRefusedTrigger.mapErasedGovernanceObjects.contains 1007051 = false ∧
    (UpdateCachesAndClean exParams (exEnv 750) exRefusedTrigger).mapObjects.contains 1007051 =
      false ∧
    (UpdateCachesAndClean exParams (exEnv 750)
      exRefusedTrigger).mapErasedGovernanceObjects.find 1007051 = some 850 ∧
    (UpdateCachesAndClean_loops exParams (exEnv 900)
      exRefusedTrigger).mapErasedGovernanceObjects.find 1007051 = some 850 ∧
    (UpdateCachesAndClean exParams (exEnv 900)
      exRefusedTrigger).mapErasedGovernanceObjects.contains 1007051 = false := by
  cases ho : exRefusedTrigger.mapObjects.find 1007051 with
  | none =>
    have hs : (exRefusedTrigger.mapObjects.find 1007051).isSome = true := by decide
    rw [ho] at hs
    exact Bool.noConfusion hs
  | some o =>
    have hty : o.nObjectType = 2 := by
      have : (exRefusedTrigger.mapObjects.find 1007051).map (fun a => a.nObjectType) =
          some 2 := by decide
      rw [ho] at this
      simpa using this
    have htm : o.nTime = 50 := by
      have : (exRefusedTrigger.mapObjects.find 1007051).map (fun a => a.nTime) =
          some 50 := by decide
      rw [ho] at this
      simpa using this
    have hE : tombstoneExpiry exParams o.nObjectType o.nTime = 850 := by
      rw [hty, htm]; decide
    have key := (UpdateCachesAndClean_tombstones exParams (exEnv 750) exRefusedTrigger
      1007051 o ho (by decide) (by decide)).2.2.2.2.1
    rw [hE] at key
    exact ⟨by decide, by decide, by decide, key (by decide), by decide, by decide⟩

/-- C27 (counterexample): the proposal `exTwin` is in `mapObjects` under a hash that has
the tombstone of a trigger, with the expiry `850`; `UpdateCachesAndClean` evicts the
proposal at `1400`, the tombstone keeps the expiry `850` in place of `INT64_MAX`, and the
sweep of the same call removes it. -/
theorem evicted_proposal_without_tombstone :
    ((runD exParams exTwinRun CGovernanceManager.new).mapObjects.find 1007051).map
      (fun a => a.nObjectType) = some exParams.GOVERNANCE_OBJECT_PROPOSAL ∧
    (runD exParams exTwinRun CGovernanceManager.new).mapErasedGovernanceObjects.find 1007051 =
      some 850 ∧
    (UpdateCachesAndClean exParams (exEnv 1400)
      (runD exParams exTwinRun CGovernanceManager.new)).mapObjects.contains 1007051 = false ∧
    (UpdateCachesAndClean_loops exParams (exEnv 1400)
      (runD exParams exTwinRun CGovernanceManager.new)).mapErasedGovernanceObjects.find
        1007051 = some 850 ∧
    (UpdateCachesAndClean exParams (exEnv 1400)
      (runD exParams exTwinRun CGovernanceManager.new)).mapErasedGovernanceObjects.contains
        1007051 = false := by
  decide

/-! ### Instances of the properties -/

/-- The proposal `exTouched` differs from `exProposal 50` in its flags, deletion time,
collateral hash and votes, and has its hash. -/
theorem GetHash_of_six_fields_witness :
    exTouched.fCachedFunding ≠ (exProposal 50).fCachedFunding ∧
    exTouched.nDeletionTime ≠ (exProposal 50).nDeletionTime ∧
    exTouched.nCollateralHash ≠ (exProposal 50).nCollateralHash ∧
    exTouched.fileVotes ≠ (exProposal 50).fileVotes ∧
    exTouched.GetHash exParams = (exProposal 50).GetHash exParams :=
  ⟨by decide, by decide, by decide, by decide,
    GetHash_of_six_fields exParams exTouched (exProposal 50) (by decide) (by decide)
      (by decide) (by decide) (by decide) (by decide)⟩

/-- At time `200`, two cycles of `100` seconds after the epoch, masternode `7` has five
triggers on record, created at `10` to `14`, and sends one created at `15`: the forced
rate check returns false and sets the status of the masternode to false. -/
theorem MasternodeRateCheck_rejects_burst_witness :
    (exEnv 200).IsSynced = true ∧ exBusyState.fRateChecksEnabled = true ∧
    2 * nSuperblockCycleSeconds exParams ≤ (exEnv 200).GetAdjustedTime ∧
    lastN RATE_BUFFER_SIZE ([10, 11, 12, 13, 14] ++ [15]) = [11, 12, 13, 14, 15] ∧
    ∃ s1 : CGovernanceManager,
      MasternodeRateCheck exParams (exEnv 200) (exTrigger 7 15) true true exBusyState =
        some (false, false, s1) ∧
      (s1.mapLastMasternodeObject.find 7).map (fun r => r.fStatusOK) = some false := by
  obtain ⟨s1, h1, h2, _⟩ := MasternodeRateCheck_rejects_burst exParams (exEnv 200)
    (exTrigger 7 15) true exBusyState ⟨CRateCheckBuffer.build [10, 11, 12, 13, 14], true⟩ rfl rfl rfl
    (by decide) (by decide) (by decide) rfl
    (by simp [CRateCheckBuffer.WF, CRateCheckBuffer.build, CRateCheckBuffer.AddTimestamp,
      CRateCheckBuffer.new, RATE_BUFFER_SIZE])
    (by decide) (by decide) (by decide)
  refine ⟨rfl, rfl, by decide, by decide, s1, h1, ?_⟩
  have := h2 rfl
  show (s1.mapLastMasternodeObject.find (exTrigger 7 15).masternodeOutpoint).map _ = _
  rw [this]
  rfl

/-- Masternode `7` has five triggers on record, created at `10` to `14`, and sends one
created at `15`: the forced rate check returns false and sets the status of the
masternode to false, and changes nothing else. -/
theorem MasternodeRateCheck_frame_witness :
    ∃ s1 : CGovernanceManager,
      MasternodeRateCheck exParams (exEnv 100) (exTrigger 7 15) true true exBusyState =
        some (false, false, s1) ∧
      (s1.mapLastMasternodeObject.find 7).map (fun r => r.fStatusOK) = some false ∧
      RateCheckFrame (exTrigger 7 15) true false exBusyState s1 := by
  obtain ⟨s1, h1, h2, _⟩ := MasternodeRateCheck_rejects exParams (exEnv 100) (exTrigger 7 15)
    true exBusyState ⟨CRateCheckBuffer.build [10, 11, 12, 13, 14], true⟩ (by decide)
    (by decide) (by decide) (by decide) (by decide) (by decide)
    (by simp [CRateCheckBuffer.WF, CRateCheckBuffer.build, CRateCheckBuffer.AddTimestamp,
      CRateCheckBuffer.new, RATE_BUFFER_SIZE])
    (by decide) (by decide) (by decide)
  refine ⟨s1, h1, ?_, (MasternodeRateCheck_frame exParams (exEnv 100) (exTrigger 7 15) true
    true exBusyState).1 _ h1⟩
  have := h2 rfl
  have e : (exTrigger 7 15).masternodeOutpoint = 7 := rfl
  rw [e] at this
  rw [this]
  rfl

end Governance
